import Mathlib

/-!
# Event pipeline of go-postgres-api-template

A shallow embedding of the event consumer (`internal/infrastructure/events/consumer`),
the publisher (`internal/infrastructure/events/publisher`), the JSON codecs, the user
events, the user service with the transaction manager (`internal/domain/user`,
`internal/infrastructure/db/postgres`) and the helpers of the HTTP layer
(`internal/presentation`), followed by theorems about them.

Collaborators that live behind an interface (the SQS client, the deserializer, the
handlers, the serializer, the SNS client) are oracles over an arbitrary state `σ`:
every call takes the current state and returns its result together with the next
state, so any deterministic behaviour of a collaborator, stateful or not, is covered.
Every operation returns the list of effects it performed, in the order performed.
-/

/-! ## Go errors -/

/-- A package-level error variable, such as `domain.ErrNotFound`: its qualified name
and the text it was made with by `errors.New`. The variable holds one value for the
whole run, so the name tells it apart from every other error value. -/
structure Sentinel where
  name : String
  text : String
deriving DecidableEq, Repr

/-- A Go `error`: its message and, when it was built with the `%w` verb, the error
it wraps. `msg` is always the complete text that `Error()` returns. An error is the
value of a package-level variable (`sentinel`) or a value made where it arises (`mk`,
`wrap`); a value made where it arises is never the value of such a variable, whatever
its text. -/
inductive GoError where
  | mk (msg : String)
  | wrap (msg : String) (cause : GoError)
  | sentinel (var : Sentinel)
deriving DecidableEq, Repr

namespace GoError

/-- The method `Error()` -/
def Error : GoError → String
  | mk msg => msg
  | wrap msg _ => msg
  | sentinel var => var.text

/-- The function `errors.Unwrap` -/
def Unwrap : GoError → Option GoError
  | mk _ => none
  | wrap _ cause => some cause
  | sentinel _ => none

/-- The result of `fmt.Errorf(pre + ": %w", err)` -/
def errorf (pre : String) (err : GoError) : GoError :=
  wrap (pre ++ ": " ++ err.Error) err

end GoError

deriving instance DecidableEq for Except

/-- How a call ends: it returns a value, or the goroutine running it panics -/
inductive Outcome (α : Type) where
  | returned (value : α)
  | panicked (reason : String)
deriving DecidableEq, Repr

/-- The text of the run-time panic for reading through a nil pointer -/
def nilDereference : String :=
  "runtime error: invalid memory address or nil pointer dereference"

/-! ## SQS request and response shapes (aws-sdk-go) -/

/-- An `sqs.Message` whose pointers are all non-nil, with the two fields the consumer
reads. `RawMessage` below is the message with the pointers of the SDK. -/
structure Message where
  Body : String
  ReceiptHandle : String
deriving DecidableEq, Repr

/-- The input `sqs.ReceiveMessageInput` -/
structure ReceiveMessageInput where
  QueueUrl : String
  MaxNumberOfMessages : Int
  VisibilityTimeout : Int
  WaitTimeSeconds : Int
deriving DecidableEq, Repr

/-- The input `sqs.DeleteMessageInput` -/
structure DeleteMessageInput where
  QueueUrl : String
  ReceiptHandle : String
deriving DecidableEq, Repr

/-- An entry `sqs.DeleteMessageBatchRequestEntry` -/
structure DeleteMessageBatchRequestEntry where
  Id : String
  ReceiptHandle : String
deriving DecidableEq, Repr

/-- The input `sqs.DeleteMessageBatchInput` -/
structure DeleteMessageBatchInput where
  QueueUrl : String
  Entries : List DeleteMessageBatchRequestEntry
deriving DecidableEq, Repr

/-! ## Effects of a consumer cycle -/

/-- One observable step of the consumer: a call on a collaborator together with what
it returned, a sleep, or a log line. -/
inductive Effect (T : Type) where
  | ReceiveMessage (input : ReceiveMessageInput) (out : Except GoError (List Message))
  | DeleteMessage (input : DeleteMessageInput) (err : Option GoError)
  | DeleteMessageBatch (input : DeleteMessageBatchInput) (err : Option GoError)
  | Deserialize (data : String) (out : Except GoError T)
  | Handle (event : T) (err : Option GoError)
  | HandleBatch (events : List T) (err : Option GoError)
  | Sleep (nanoseconds : Nat)
  | LogError (msg : String) (err : GoError)
  | LogInfo (msg : String)
deriving DecidableEq

/-- The collaborators of a consumer: `mockaws.SQSClientInterface`,
`deserializer.Deserializer[T]`, `events.Handler[T]` and `events.BatchHandler[T]`,
as oracles over the state `σ`. The `context.Context` the consumer hands through to
the handlers unchanged is part of that state. -/
structure ConsumerEnv (σ T : Type) where
  ReceiveMessage : ReceiveMessageInput → σ → Except GoError (List Message) × σ
  DeleteMessage : DeleteMessageInput → σ → Option GoError × σ
  DeleteMessageBatch : DeleteMessageBatchInput → σ → Option GoError × σ
  Deserialize : String → σ → Except GoError T × σ
  Handle : T → σ → Option GoError × σ
  HandleBatch : List T → σ → Option GoError × σ

/-! ## `consumer/sqs.go` -/

/-- The constant `errorBackoff = 1 * time.Second`, in nanoseconds -/
def errorBackoff : Nat := 1 * 1000000000

/-- The constant `defaultMaxNumberOfMessages` -/
def defaultMaxNumberOfMessages : Int := 10

/-- The constant `defaultVisibilityTimeout` -/
def defaultVisibilityTimeout : Int := 30

/-- The constant `defaultWaitTimeSeconds` -/
def defaultWaitTimeSeconds : Int := 20

/-- The options `SQSConsumerOptions` -/
structure SQSConsumerOptions where
  QueueURL : String
  MaxNumberOfMessages : Option Int
  VisibilityTimeout : Option Int
  WaitTimeSeconds : Option Int
deriving DecidableEq, Repr

/-- The configuration held by an `SQSConsumer[T]` (client and logger are in the
environment and the effect list). -/
structure SQSConsumer where
  queueURL : String
  maxNumberOfMessages : Int
  visibilityTimeout : Int
  waitTimeSeconds : Int
deriving DecidableEq, Repr

/-- The constructor `NewSQSConsumer` -/
def NewSQSConsumer (options : SQSConsumerOptions) : SQSConsumer :=
  { queueURL := options.QueueURL
    maxNumberOfMessages := options.MaxNumberOfMessages.getD defaultMaxNumberOfMessages
    visibilityTimeout := options.VisibilityTimeout.getD defaultVisibilityTimeout
    waitTimeSeconds := options.WaitTimeSeconds.getD defaultWaitTimeSeconds }

namespace SQSConsumer

variable {σ T : Type}

/-- The poll request both cycle functions build -/
def receiveInput (c : SQSConsumer) : ReceiveMessageInput :=
  { QueueUrl := c.queueURL
    MaxNumberOfMessages := c.maxNumberOfMessages
    VisibilityTimeout := c.visibilityTimeout
    WaitTimeSeconds := c.waitTimeSeconds }

/-- The method `Ack`: one `DeleteMessage` call, its error wrapped -/
def Ack (c : SQSConsumer) (env : ConsumerEnv σ T) (messageID : String) (s : σ) :
    Option GoError × List (Effect T) × σ :=
  let input : DeleteMessageInput := { QueueUrl := c.queueURL, ReceiptHandle := messageID }
  let r := env.DeleteMessage input s
  match r.1 with
  | some err =>
    (some (GoError.errorf "failed to delete sqs message" err),
      [Effect.DeleteMessage input (some err)], r.2)
  | none => (none, [Effect.DeleteMessage input none], r.2)

/-- The method `BatchAck`: one `DeleteMessageBatch` call with an entry per id -/
def BatchAck (c : SQSConsumer) (env : ConsumerEnv σ T) (messageIDs : List String) (s : σ) :
    Option GoError × List (Effect T) × σ :=
  let entries := messageIDs.map fun messageID =>
    ({ Id := messageID, ReceiptHandle := messageID } : DeleteMessageBatchRequestEntry)
  let input : DeleteMessageBatchInput := { QueueUrl := c.queueURL, Entries := entries }
  let r := env.DeleteMessageBatch input s
  match r.1 with
  | some err =>
    (some (GoError.errorf "failed to delete sqs messages" err),
      [Effect.DeleteMessageBatch input (some err)], r.2)
  | none => (none, [Effect.DeleteMessageBatch input none], r.2)

/-- The `for _, message := range message.Messages` loop of
`processBatchOfSingleMessages`: deserialize, handle, ack, and leave the loop at the
first error of any of the three. -/
def singleLoop (c : SQSConsumer) (env : ConsumerEnv σ T) :
    List Message → σ → List (Effect T) × σ
  | [], s => ([], s)
  | message :: rest, s =>
    let d := env.Deserialize message.Body s
    match d.1 with
    | .error err =>
      ([Effect.Deserialize message.Body (.error err),
        Effect.LogError "failed to deserialize event" err], d.2)
    | .ok event =>
      let h := env.Handle event d.2
      match h.1 with
      | some err =>
        ([Effect.Deserialize message.Body (.ok event), Effect.Handle event (some err),
          Effect.LogError "failed to handle event" err], h.2)
      | none =>
        let a := c.Ack env message.ReceiptHandle h.2
        match a.1 with
        | some err =>
          (Effect.Deserialize message.Body (.ok event) :: Effect.Handle event none ::
            (a.2.1 ++ [Effect.LogError "failed to ack sqs message" err]), a.2.2)
        | none =>
          let r := singleLoop c env rest a.2.2
          (Effect.Deserialize message.Body (.ok event) :: Effect.Handle event none ::
            (a.2.1 ++ r.1), r.2)

/-- The method `processBatchOfSingleMessages`: one cycle of single-item mode -/
def processBatchOfSingleMessages (c : SQSConsumer) (env : ConsumerEnv σ T) (s : σ) :
    List (Effect T) × σ :=
  let p := env.ReceiveMessage c.receiveInput s
  match p.1 with
  | .error err =>
    ([Effect.ReceiveMessage c.receiveInput (.error err),
      Effect.LogError "failed to receive sqs messages" err,
      Effect.Sleep errorBackoff], p.2)
  | .ok messages =>
    if messages.length = 0 then
      ([Effect.ReceiveMessage c.receiveInput (.ok messages)], p.2)
    else
      let r := singleLoop c env messages p.2
      (Effect.ReceiveMessage c.receiveInput (.ok messages) :: r.1, r.2)

/-- The first loop of `processBatchOfMessages`: deserialize every message, appending
to `events`, and stop at the first failure. The result is the typed list when all
succeeded, the error otherwise. -/
def deserializeLoop (env : ConsumerEnv σ T) :
    List Message → List T → σ → Except GoError (List T) × List (Effect T) × σ
  | [], events, s => (.ok events, [], s)
  | message :: rest, events, s =>
    let d := env.Deserialize message.Body s
    match d.1 with
    | .error err =>
      (.error err, [Effect.Deserialize message.Body (.error err),
        Effect.LogError "failed to deserialize event" err], d.2)
    | .ok event =>
      let r := deserializeLoop env rest (events ++ [event]) d.2
      (r.1, Effect.Deserialize message.Body (.ok event) :: r.2.1, r.2.2)

/-- The second loop of `processBatchOfMessages`: ack message after message and leave
the loop at the first ack error. -/
def ackLoop (c : SQSConsumer) (env : ConsumerEnv σ T) :
    List Message → σ → List (Effect T) × σ
  | [], s => ([], s)
  | message :: rest, s =>
    let a := c.Ack env message.ReceiptHandle s
    match a.1 with
    | some err => (a.2.1 ++ [Effect.LogError "failed to ack sqs message" err], a.2.2)
    | none =>
      let r := ackLoop c env rest a.2.2
      (a.2.1 ++ r.1, r.2)

/-- The method `processBatchOfMessages`: one cycle of batch mode -/
def processBatchOfMessages (c : SQSConsumer) (env : ConsumerEnv σ T) (s : σ) :
    List (Effect T) × σ :=
  let p := env.ReceiveMessage c.receiveInput s
  match p.1 with
  | .error err =>
    ([Effect.ReceiveMessage c.receiveInput (.error err),
      Effect.LogError "failed to receive sqs messages" err,
      Effect.Sleep errorBackoff], p.2)
  | .ok messages =>
    if messages.length = 0 then
      ([Effect.ReceiveMessage c.receiveInput (.ok messages)], p.2)
    else
      let d := deserializeLoop env messages [] p.2
      match d.1 with
      | .error _ => (Effect.ReceiveMessage c.receiveInput (.ok messages) :: d.2.1, d.2.2)
      | .ok events =>
        let h := env.HandleBatch events d.2.2
        match h.1 with
        | some err =>
          (Effect.ReceiveMessage c.receiveInput (.ok messages) ::
            (d.2.1 ++ [Effect.HandleBatch events (some err),
              Effect.LogError "failed to handle events" err]), h.2)
        | none =>
          let r := ackLoop c env messages h.2
          (Effect.ReceiveMessage c.receiveInput (.ok messages) ::
            (d.2.1 ++ Effect.HandleBatch events none :: r.1), r.2)

end SQSConsumer

/-! ## `events/base.go` and `domain/user/events` -/

/-- A `time.Time` as `Equal` and its RFC 3339 text see it: the instant, in nanoseconds
since the Unix epoch, and the zone offset in seconds east of UTC. The monotonic clock
reading that `time.Now` attaches is not part of it. -/
structure Time where
  unixNano : Int
  offset : Int
deriving DecidableEq, Repr

/-- The zero `time.Time`: January 1, year 1, 00:00:00 UTC -/
def Time.zero : Time :=
  { unixNano := -62135596800 * 1000000000, offset := 0 }

/-- The interface `events.Event` -/
class Event (E : Type) where
  Type' : E → String
  EventID : E → String
  AggregateID : E → String

/-- The struct `events.EventMetadata` -/
structure EventMetadata where
  EventID : String
  EventType : String
  Timestamp : Time
deriving DecidableEq, Repr

/-- The constructor `NewBaseEvent`; `id` is the text of `uuid.New()` and `now` the
reading of `time.Now()`. -/
def NewBaseEvent (eventType : String) (id : String) (now : Time) : EventMetadata :=
  { EventID := id, EventType := eventType, Timestamp := now }

/-- The constant `EventTypeUserCreated` -/
def EventTypeUserCreated : String := "user.created"

/-- The constant `EventTypeUserUpdated` -/
def EventTypeUserUpdated : String := "user.updated"

/-- The constant `EventTypeUserDeleted` -/
def EventTypeUserDeleted : String := "user.deleted"

/-- A `float64`, by its IEEE 754 bits -/
structure Float64 where
  bits : Nat
deriving DecidableEq, Repr

/-- A value held in an `any`, as far as `encoding/json` tells values apart: the nil
interface, a `bool`, a `string` that is valid UTF-8, a `string` that is not (by its
bytes), an `int`, a `float64`, a non-nil `[]any`, the nil `[]any`, a non-nil
`map[string]any`, the nil `map[string]any`, and a value of a kind JSON has no
encoding for (a channel, a function). A map is the list of its entries with the keys
in increasing order, the order `Marshal` writes them in. A `String` stands for a Go
string that is valid UTF-8, here and in the fields of the events. -/
inductive GoValue where
  | nil
  | bool (b : Bool)
  | string (s : String)
  | invalidUTF8 (bytes : List Nat)
  | int (n : Int)
  | float64 (x : Float64)
  | slice (elems : List GoValue)
  | nilSlice
  | map (entries : List (String × GoValue))
  | nilMap
  | unsupported (kind : String)

/-- The struct `UserCreatedEvent` -/
structure UserCreatedEvent extends EventMetadata where
  UserID : String
  Email : String
deriving DecidableEq, Repr

/-- The struct `UserUpdatedEvent`; `Changes` is `none` for the nil map -/
structure UserUpdatedEvent extends EventMetadata where
  UserID : String
  Changes : Option (List (String × GoValue))

/-- The struct `UserDeletedEvent` -/
structure UserDeletedEvent extends EventMetadata where
  UserID : String
deriving DecidableEq, Repr

instance : Event UserCreatedEvent where
  Type' e := e.EventType
  EventID e := e.toEventMetadata.EventID
  AggregateID e := e.UserID

instance : Event UserUpdatedEvent where
  Type' e := e.EventType
  EventID e := e.toEventMetadata.EventID
  AggregateID e := e.UserID

instance : Event UserDeletedEvent where
  Type' e := e.EventType
  EventID e := e.toEventMetadata.EventID
  AggregateID e := e.UserID

/-- The constructor `NewUserCreatedEvent` -/
def NewUserCreatedEvent (userID email : String) (id : String) (now : Time) : UserCreatedEvent :=
  { toEventMetadata := NewBaseEvent EventTypeUserCreated id now, UserID := userID, Email := email }

/-- The constructor `NewUserUpdatedEvent` -/
def NewUserUpdatedEvent (userID : String) (changes : Option (List (String × GoValue)))
    (id : String) (now : Time) : UserUpdatedEvent :=
  { toEventMetadata := NewBaseEvent EventTypeUserUpdated id now, UserID := userID,
    Changes := changes }

/-- The constructor `NewUserDeletedEvent` -/
def NewUserDeletedEvent (userID : String) (id : String) (now : Time) : UserDeletedEvent :=
  { toEventMetadata := NewBaseEvent EventTypeUserDeleted id now, UserID := userID }

/-! ## `encoding/json`, as the codecs use it

`serializer/json.go` and `deserializer/json.go` are one call each into Go's
`encoding/json`. The part of that package the three event shapes exercise is written
out here. Two layers are not: the text of a number or of a time (`strconv`, `time`),
which is a parameter, and the JSON grammar itself, for which a payload stands for the
document its bytes spell. -/

/-- A JSON document. A number keeps its literal. -/
inductive Json where
  | null
  | bool (b : Bool)
  | number (literal : String)
  | str (s : String)
  | arr (elems : List Json)
  | obj (members : List (String × Json))

/-- A `[]byte` payload: bytes that are not well-formed JSON, or the document that
well-formed bytes spell, with the members of an object in the order written. The
strings of a document are Unicode text: `Marshal` writes a Go string that is not valid
UTF-8 with U+FFFD for each byte that begins no rune (`jsonText` below). -/
inductive Payload where
  | malformed (raw : String)
  | json (doc : Json)

/-- The text layer of the standard library: `Time.MarshalJSON` and
`Time.UnmarshalJSON` on the content of a JSON string, and `strconv` on `float64`. -/
structure Stdlib where
  formatTime : Time → Except GoError String
  parseTime : String → Except GoError Time
  formatFloat : Float64 → Except GoError String
  parseFloat : String → Except GoError Float64

namespace Json

/-- The word `UnmarshalTypeError.Value` uses for the document -/
def kind : Json → String
  | null => "null"
  | bool _ => "bool"
  | number literal => "number " ++ literal
  | str _ => "string"
  | arr _ => "array"
  | obj _ => "object"

end Json

/-- The error `json.UnmarshalTypeError`, by the JSON value and the Go type it names
(the struct and field the message of the real one names as well are left out) -/
def unmarshalTypeError (value goType : String) : GoError :=
  GoError.mk ("json: cannot unmarshal " ++ value ++ " into Go value of type " ++ goType)

/-- The error `json.SyntaxError` -/
def syntaxError (raw : String) : GoError :=
  GoError.mk ("json: syntax error in " ++ raw)

/-- The error `json.UnsupportedTypeError` -/
def unsupportedTypeError (kind : String) : GoError :=
  GoError.mk ("json: unsupported type: " ++ kind)

/-- The error `json.MarshalerError` around the error of a `MarshalJSON` method -/
def marshalerError (goType : String) (err : GoError) : GoError :=
  GoError.wrap ("json: error calling MarshalJSON for type " ++ goType ++ ": " ++ err.Error) err

/-- Setting `m[key] = value` on a map kept with increasing keys -/
def mapInsert {α : Type} (key : String) (value : α) : List (String × α) → List (String × α)
  | [] => [(key, value)]
  | (k, v) :: rest =>
    if key < k then (key, value) :: (k, v) :: rest
    else if key = k then (key, value) :: rest
    else (k, v) :: mapInsert key value rest

/-- What `unicode/utf8` knows of the first byte of a sequence: the length of the
sequence and the bounds on its second byte; `none` for a byte that starts no sequence
of more than one byte. -/
def utf8Lead (b : Nat) : Option (Nat × Nat × Nat) :=
  if 0xC2 ≤ b ∧ b ≤ 0xDF then some (2, 0x80, 0xBF)
  else if b = 0xE0 then some (3, 0xA0, 0xBF)
  else if (0xE1 ≤ b ∧ b ≤ 0xEC) ∨ b = 0xEE ∨ b = 0xEF then some (3, 0x80, 0xBF)
  else if b = 0xED then some (3, 0x80, 0x9F)
  else if b = 0xF0 then some (4, 0x90, 0xBF)
  else if 0xF1 ≤ b ∧ b ≤ 0xF3 then some (4, 0x80, 0xBF)
  else if b = 0xF4 then some (4, 0x80, 0x8F)
  else none

/-- Whether the byte is a continuation byte of UTF-8 -/
def utf8Continuation (b : Nat) : Bool :=
  decide (0x80 ≤ b ∧ b ≤ 0xBF)

/-- The function `utf8.DecodeRune`: the rune the bytes begin with and the bytes after
it, or `none` where it answers `RuneError` with width 1. -/
def decodeRune : List Nat → Option (Char × List Nat)
  | [] => none
  | b0 :: rest =>
    if b0 < 0x80 then some (Char.ofNat b0, rest)
    else
      match utf8Lead b0, rest with
      | some (2, lo, hi), b1 :: rest1 =>
        if lo ≤ b1 ∧ b1 ≤ hi then some (Char.ofNat (b0 % 32 * 64 + b1 % 64), rest1)
        else none
      | some (3, lo, hi), b1 :: b2 :: rest2 =>
        if lo ≤ b1 ∧ b1 ≤ hi ∧ utf8Continuation b2 = true then
          some (Char.ofNat (b0 % 16 * 4096 + b1 % 64 * 64 + b2 % 64), rest2)
        else none
      | some (4, lo, hi), b1 :: b2 :: b3 :: rest3 =>
        if lo ≤ b1 ∧ b1 ≤ hi ∧ utf8Continuation b2 = true ∧ utf8Continuation b3 = true then
          some (Char.ofNat (b0 % 8 * 262144 + b1 % 64 * 4096 + b2 % 64 * 64 + b3 % 64), rest3)
        else none
      | _, _ => none

/-- The runes `Marshal` writes for the bytes of a string: each byte that begins no
rune is written as U+FFFD and skipped. `fuel` bounds the number of runes. -/
def toValidUTF8 : Nat → List Nat → List Char
  | 0, _ => []
  | fuel + 1, bytes =>
    match bytes with
    | [] => []
    | _ :: rest =>
      match decodeRune bytes with
      | some (c, after) => c :: toValidUTF8 fuel after
      | none => Char.ofNat 0xFFFD :: toValidUTF8 fuel rest

/-- The string a JSON document holds for a Go string given by its bytes -/
def jsonText (bytes : List Nat) : String :=
  String.mk (toValidUTF8 bytes.length bytes)

/-- The first error wins: `decodeState.saveError` -/
def saveError (saved new : Option GoError) : Option GoError :=
  match saved with
  | some err => some err
  | none => new

mutual

/-- Marshalling the value of an `any` -/
def marshalAny (lib : Stdlib) : GoValue → Except GoError Json
  | .nil => .ok .null
  | .bool b => .ok (.bool b)
  | .string s => .ok (.str s)
  | .invalidUTF8 bytes => .ok (.str (jsonText bytes))
  | .int n => .ok (.number (toString n))
  | .float64 x =>
    match lib.formatFloat x with
    | .ok literal => .ok (.number literal)
    | .error err => .error err
  | .slice elems =>
    match marshalElems lib elems with
    | .ok js => .ok (.arr js)
    | .error err => .error err
  | .nilSlice => .ok .null
  | .map entries =>
    match marshalEntries lib entries with
    | .ok members => .ok (.obj members)
    | .error err => .error err
  | .nilMap => .ok .null
  | .unsupported kind => .error (unsupportedTypeError kind)

/-- Marshalling the elements of a `[]any` -/
def marshalElems (lib : Stdlib) : List GoValue → Except GoError (List Json)
  | [] => .ok []
  | x :: xs =>
    match marshalAny lib x with
    | .error err => .error err
    | .ok j =>
      match marshalElems lib xs with
      | .error err => .error err
      | .ok js => .ok (j :: js)

/-- Marshalling the entries of a `map[string]any`, in key order -/
def marshalEntries (lib : Stdlib) : List (String × GoValue) → Except GoError (List (String × Json))
  | [] => .ok []
  | (k, x) :: xs =>
    match marshalAny lib x with
    | .error err => .error err
    | .ok j =>
      match marshalEntries lib xs with
      | .error err => .error err
      | .ok js => .ok ((k, j) :: js)

end

mutual

/-- Unmarshalling a document into an empty `any`: the value and the error saved on
the way, if any (a number `strconv` cannot parse leaves nil). -/
def unmarshalAny (lib : Stdlib) : Json → GoValue × Option GoError
  | .null => (.nil, none)
  | .bool b => (.bool b, none)
  | .number literal =>
    match lib.parseFloat literal with
    | .ok x => (.float64 x, none)
    | .error _ => (.nil, some (unmarshalTypeError ("number " ++ literal) "float64"))
  | .str s => (.string s, none)
  | .arr elems =>
    let r := unmarshalElems lib elems
    (.slice r.1, r.2)
  | .obj members =>
    let r := unmarshalMembers lib members []
    (.map r.1, r.2)

/-- Unmarshalling the elements of an array into a `[]any` -/
def unmarshalElems (lib : Stdlib) : List Json → List GoValue × Option GoError
  | [] => ([], none)
  | j :: js =>
    let r := unmarshalAny lib j
    let rs := unmarshalElems lib js
    (r.1 :: rs.1, saveError r.2 rs.2)

/-- Unmarshalling the members of an object into a `map[string]any` that holds `acc`:
member after member, a later one overwriting an earlier one of the same key. -/
def unmarshalMembers (lib : Stdlib) :
    List (String × Json) → List (String × GoValue) → List (String × GoValue) × Option GoError
  | [], acc => (acc, none)
  | (k, j) :: rest, acc =>
    let r := unmarshalAny lib j
    let rs := unmarshalMembers lib rest (mapInsert k r.1 acc)
    (rs.1, saveError r.2 rs.2)

end

/-- One rune of `foldName`: ASCII letters go to upper case, and the two runes outside
ASCII whose case folding lands on an ASCII letter (U+017F on `S`, U+212A on `K`) go
there. Any other rune folds within the runes outside ASCII and is left as it is, which
changes nothing for a comparison with an ASCII field name. -/
def foldRune (c : Char) : Char :=
  if 'a' ≤ c ∧ c ≤ 'z' then Char.ofNat (c.toNat - 32)
  else if c = Char.ofNat 0x17F then 'S'
  else if c = Char.ofNat 0x212A then 'K'
  else c

/-- The function `foldName` of `encoding/json` -/
def foldName (s : String) : String :=
  String.mk (s.data.map foldRune)

/-- The field a key of an object selects: the field of exactly that name, else the
first field equal to the key under case folding. -/
def findField (names : List String) (key : String) : Option String :=
  match names.find? (fun name => name = key) with
  | some name => some name
  | none => names.find? (fun name => foldName name = foldName key)

/-- Storing a document into a `string` field: the new content of the field and the
error saved, if any. -/
def storeString (v : Json) (old : String) : String × Option GoError :=
  match v with
  | .str s => (s, none)
  | .null => (old, none)
  | other => (old, some (unmarshalTypeError other.kind "string"))

/-- Storing a document into a `time.Time` field, which goes through
`Time.UnmarshalJSON`. An error of that method ends the whole decoding, and a text that
does not parse leaves the zero time in the field. -/
def storeTime (lib : Stdlib) (v : Json) (old : Time) : Except (Time × GoError) Time :=
  match v with
  | .null => .ok old
  | .str s =>
    match lib.parseTime s with
    | .ok t => .ok t
    | .error err => .error (Time.zero, err)
  | _ => .error (old, GoError.mk "Time.UnmarshalJSON: input is not a JSON string")

/-- Storing a document into a `map[string]any` field: `null` makes the map nil, an
object is unmarshalled into the map that is there (a fresh one when it is nil). -/
def storeMap (lib : Stdlib) (v : Json) (old : Option (List (String × GoValue))) :
    Option (List (String × GoValue)) × Option GoError :=
  match v with
  | .null => (none, none)
  | .obj members =>
    let r := unmarshalMembers lib members (old.getD [])
    (some r.1, r.2)
  | other => (old, some (unmarshalTypeError other.kind "map[string]interface {}"))

/-- Marshalling a `time.Time` field, through `Time.MarshalJSON` -/
def marshalTime (lib : Stdlib) (t : Time) : Except GoError Json :=
  match lib.formatTime t with
  | .ok text => .ok (.str text)
  | .error err => .error (marshalerError "time.Time" err)

/-- Unmarshalling the members of an object into a struct, member after member.
`setField` stores one member; its error case is the error of an `Unmarshaler`, which
ends the decoding at once, while a type mismatch is saved and the decoding goes on. -/
def decodeMembers {E : Type}
    (setField : String → Json → E → Except (E × GoError) (E × Option GoError)) :
    List (String × Json) → E → Option GoError → E × Option GoError
  | [], e, saved => (e, saved)
  | (key, v) :: rest, e, saved =>
    match setField key v e with
    | .error (e1, err) => (e1, some err)
    | .ok (e1, err) => decodeMembers setField rest e1 (saveError saved err)

/-- Unmarshalling a document into a struct: `null` leaves it untouched, an object is
decoded member by member, anything else is a type mismatch. -/
def decodeStruct {E : Type} (goType : String)
    (setField : String → Json → E → Except (E × GoError) (E × Option GoError))
    (doc : Json) (e : E) : E × Option GoError :=
  match doc with
  | .null => (e, none)
  | .obj members => decodeMembers setField members e none
  | other => (e, some (unmarshalTypeError other.kind goType))

namespace EventMetadata

/-- Storing the member of an object into the embedded `EventMetadata`, whose fields
are promoted into the event. -/
def setField (lib : Stdlib) (name : String) (v : Json) (m : EventMetadata) :
    Except (EventMetadata × GoError) (EventMetadata × Option GoError) :=
  if name = "event_id" then
    let r := storeString v m.EventID
    .ok ({ m with EventID := r.1 }, r.2)
  else if name = "event_type" then
    let r := storeString v m.EventType
    .ok ({ m with EventType := r.1 }, r.2)
  else if name = "timestamp" then
    match storeTime lib v m.Timestamp with
    | .ok t => .ok ({ m with Timestamp := t }, none)
    | .error (t, err) => .error ({ m with Timestamp := t }, err)
  else .ok (m, none)

end EventMetadata

namespace UserCreatedEvent

/-- The JSON names of the fields, in the order `Marshal` writes them -/
def fields : List String := ["event_id", "event_type", "timestamp", "user_id", "email"]

/-- The function `json.Marshal` on a `*UserCreatedEvent` -/
def marshal (lib : Stdlib) (e : UserCreatedEvent) : Except GoError Json :=
  match marshalTime lib e.Timestamp with
  | .error err => .error err
  | .ok ts =>
    .ok (.obj [("event_id", .str e.toEventMetadata.EventID), ("event_type", .str e.EventType),
      ("timestamp", ts), ("user_id", .str e.UserID), ("email", .str e.Email)])

/-- Storing one member of an object into the event -/
def setField (lib : Stdlib) (key : String) (v : Json) (e : UserCreatedEvent) :
    Except (UserCreatedEvent × GoError) (UserCreatedEvent × Option GoError) :=
  match findField fields key with
  | none => .ok (e, none)
  | some name =>
    if name = "user_id" then
      let r := storeString v e.UserID
      .ok ({ e with UserID := r.1 }, r.2)
    else if name = "email" then
      let r := storeString v e.Email
      .ok ({ e with Email := r.1 }, r.2)
    else
      match EventMetadata.setField lib name v e.toEventMetadata with
      | .ok (m, err) => .ok ({ e with toEventMetadata := m }, err)
      | .error (m, err) => .error ({ e with toEventMetadata := m }, err)

end UserCreatedEvent

namespace UserUpdatedEvent

/-- The JSON names of the fields, in the order `Marshal` writes them -/
def fields : List String := ["event_id", "event_type", "timestamp", "user_id", "changes"]

/-- The function `json.Marshal` on a `*UserUpdatedEvent` -/
def marshal (lib : Stdlib) (e : UserUpdatedEvent) : Except GoError Json :=
  match marshalTime lib e.Timestamp with
  | .error err => .error err
  | .ok ts =>
    match e.Changes with
    | none =>
      .ok (.obj [("event_id", .str e.toEventMetadata.EventID), ("event_type", .str e.EventType),
        ("timestamp", ts), ("user_id", .str e.UserID), ("changes", .null)])
    | some entries =>
      match marshalEntries lib entries with
      | .error err => .error err
      | .ok members =>
        .ok (.obj [("event_id", .str e.toEventMetadata.EventID),
          ("event_type", .str e.EventType), ("timestamp", ts), ("user_id", .str e.UserID),
          ("changes", .obj members)])

/-- Storing one member of an object into the event -/
def setField (lib : Stdlib) (key : String) (v : Json) (e : UserUpdatedEvent) :
    Except (UserUpdatedEvent × GoError) (UserUpdatedEvent × Option GoError) :=
  match findField fields key with
  | none => .ok (e, none)
  | some name =>
    if name = "user_id" then
      let r := storeString v e.UserID
      .ok ({ e with UserID := r.1 }, r.2)
    else if name = "changes" then
      let r := storeMap lib v e.Changes
      .ok ({ e with Changes := r.1 }, r.2)
    else
      match EventMetadata.setField lib name v e.toEventMetadata with
      | .ok (m, err) => .ok ({ e with toEventMetadata := m }, err)
      | .error (m, err) => .error ({ e with toEventMetadata := m }, err)

end UserUpdatedEvent

namespace UserDeletedEvent

/-- The JSON names of the fields, in the order `Marshal` writes them -/
def fields : List String := ["event_id", "event_type", "timestamp", "user_id"]

/-- The function `json.Marshal` on a `*UserDeletedEvent` -/
def marshal (lib : Stdlib) (e : UserDeletedEvent) : Except GoError Json :=
  match marshalTime lib e.Timestamp with
  | .error err => .error err
  | .ok ts =>
    .ok (.obj [("event_id", .str e.toEventMetadata.EventID), ("event_type", .str e.EventType),
      ("timestamp", ts), ("user_id", .str e.UserID)])

/-- Storing one member of an object into the event -/
def setField (lib : Stdlib) (key : String) (v : Json) (e : UserDeletedEvent) :
    Except (UserDeletedEvent × GoError) (UserDeletedEvent × Option GoError) :=
  match findField fields key with
  | none => .ok (e, none)
  | some name =>
    if name = "user_id" then
      let r := storeString v e.UserID
      .ok ({ e with UserID := r.1 }, r.2)
    else
      match EventMetadata.setField lib name v e.toEventMetadata with
      | .ok (m, err) => .ok ({ e with toEventMetadata := m }, err)
      | .error (m, err) => .error ({ e with toEventMetadata := m }, err)

end UserDeletedEvent

/-- What `encoding/json` finds out about an event type `T` by reflection: whether `T`
is a pointer type, the text `reflect.Type.String` gives for `T`, the fresh instance
`reflect.New` makes (for a pointer type, the struct a fresh pointer points to), and
how a value of the type is marshalled and a document stored into it. -/
class JSONShape (E : Type) where
  isPointer : Bool
  goType : String
  zero : E
  marshal : Stdlib → E → Except GoError Json
  decode : Stdlib → Json → E → E × Option GoError

/-- The zero `EventMetadata` -/
def EventMetadata.zero : EventMetadata :=
  { EventID := "", EventType := "", Timestamp := Time.zero }

instance : JSONShape UserCreatedEvent where
  isPointer := true
  goType := "*events.UserCreatedEvent"
  zero := { toEventMetadata := EventMetadata.zero, UserID := "", Email := "" }
  marshal := UserCreatedEvent.marshal
  decode lib := decodeStruct "events.UserCreatedEvent" (UserCreatedEvent.setField lib)

instance : JSONShape UserUpdatedEvent where
  isPointer := true
  goType := "*events.UserUpdatedEvent"
  zero := { toEventMetadata := EventMetadata.zero, UserID := "", Changes := none }
  marshal := UserUpdatedEvent.marshal
  decode lib := decodeStruct "events.UserUpdatedEvent" (UserUpdatedEvent.setField lib)

instance : JSONShape UserDeletedEvent where
  isPointer := true
  goType := "*events.UserDeletedEvent"
  zero := { toEventMetadata := EventMetadata.zero, UserID := "" }
  marshal := UserDeletedEvent.marshal
  decode lib := decodeStruct "events.UserDeletedEvent" (UserDeletedEvent.setField lib)

/-- The function `json.Marshal` -/
def jsonMarshal {E : Type} [JSONShape E] (lib : Stdlib) (v : E) : Except GoError Payload :=
  match JSONShape.marshal lib v with
  | .ok doc => .ok (.json doc)
  | .error err => .error err

/-- The function `json.Unmarshal(data, v)`: the bytes are checked first, then the
target, which has to be a pointer. The value returned is what `v` holds afterwards. -/
def jsonUnmarshal {E : Type} [JSONShape E] (lib : Stdlib) (data : Payload) (v : E) :
    E × Option GoError :=
  match data with
  | .malformed raw => (v, some (syntaxError raw))
  | .json doc =>
    if JSONShape.isPointer E then JSONShape.decode lib doc v
    else (v, some (GoError.mk ("json: Unmarshal(non-pointer " ++ JSONShape.goType E ++ ")")))

/-! ## `serializer/json.go` and `deserializer/json.go` -/

/-- The method `JSONSerializer.Serialize` -/
def JSONSerializer.Serialize {E : Type} [JSONShape E] (lib : Stdlib) (event : E) :
    Except GoError Payload :=
  jsonMarshal lib event

/-- The struct `JSONDeserializer[T]` -/
structure JSONDeserializer (E : Type) where
  new : Unit → E

/-- The constructor `NewJSONDeserializer[T]` -/
def NewJSONDeserializer (E : Type) [JSONShape E] : JSONDeserializer E :=
  { new := fun _ => JSONShape.zero }

/-- The method `JSONDeserializer[T].Deserialize`: the event and the error, both
returned whatever the error is. -/
def JSONDeserializer.Deserialize {E : Type} [JSONShape E] (d : JSONDeserializer E)
    (lib : Stdlib) (data : Payload) : E × Option GoError :=
  let evt := d.new ()
  jsonUnmarshal lib data evt

/-! ## Values that a JSON round trip hands back unchanged -/

mutual

/-- Whether `Unmarshal` into an `any` gives the value back from what `Marshal` wrote
for it: nil, booleans and strings that are valid UTF-8 do; a `float64` does when
`strconv` reads its own text back as the same number; an `int` does not (a number
comes back as `float64`), nor does a string that is not valid UTF-8 (it comes back
with U+FFFD in it), a nil slice or a nil map (written as `null`, they come back as
the nil interface), or a value JSON cannot encode; a non-nil `[]any` and a non-nil
`map[string]any` do when what they hold does. -/
def GoValue.survives (lib : Stdlib) : GoValue → Bool
  | .nil => true
  | .bool _ => true
  | .string _ => true
  | .invalidUTF8 _ => false
  | .int _ => false
  | .float64 x =>
    match lib.formatFloat x with
    | .ok literal => decide (lib.parseFloat literal = .ok x)
    | .error _ => false
  | .slice elems => survivesElems lib elems
  | .nilSlice => false
  | .map entries => survivesEntries lib entries
  | .nilMap => false
  | .unsupported _ => false

/-- Every element survives -/
def survivesElems (lib : Stdlib) : List GoValue → Bool
  | [] => true
  | x :: xs => GoValue.survives lib x && survivesElems lib xs

/-- Every entry survives, and the entries are a map: the keys increase -/
def survivesEntries (lib : Stdlib) : List (String × GoValue) → Bool
  | [] => true
  | (k, x) :: rest =>
    GoValue.survives lib x && rest.all (fun p => decide (k < p.1)) && survivesEntries lib rest

end

mutual

/-- How deep the arrays and objects of the document written for a value nest: 0 for
a value that is written as a scalar -/
def GoValue.nesting : GoValue → Nat
  | .slice elems => 1 + nestingElems elems
  | .map entries => 1 + nestingEntries entries
  | .nil => 0
  | .bool _ => 0
  | .string _ => 0
  | .invalidUTF8 _ => 0
  | .int _ => 0
  | .float64 _ => 0
  | .nilSlice => 0
  | .nilMap => 0
  | .unsupported _ => 0

/-- The deepest nesting among the elements -/
def nestingElems : List GoValue → Nat
  | [] => 0
  | x :: xs => max (GoValue.nesting x) (nestingElems xs)

/-- The deepest nesting among the entries -/
def nestingEntries : List (String × GoValue) → Nat
  | [] => 0
  | (_, x) :: rest => max (GoValue.nesting x) (nestingEntries rest)

end

/-- The constant `maxNestingDepth` of the scanner of `encoding/json`: `Unmarshal`
gives up on a document whose arrays and objects nest deeper. A payload stands for a
document here, so the limit is a condition on the events of a round trip. -/
def maxNestingDepth : Nat := 10000

/-- Whether the `Changes` of an update event survive: the nil map does, and a map
does when its entries do and the document of the event, in which the map is an object
inside the object of the event, nests no deeper than the scanner reads. -/
def changesSurvive (lib : Stdlib) : Option (List (String × GoValue)) → Bool
  | none => true
  | some entries =>
    survivesEntries lib entries && decide (2 + nestingEntries entries ≤ maxNestingDepth)

/-! ## Events and a text layer to run the codecs on -/

/-- The timestamp of the payloads in the tests, `2023-01-01T00:00:00Z` -/
def newYear2023 : Time :=
  { unixNano := 1672531200 * 1000000000, offset := 0 }

/-- A stand-in for the text layer that knows the one time the tests use and no
number -/
def testStdlib : Stdlib where
  formatTime := fun t =>
    if t = newYear2023 then .ok "2023-01-01T00:00:00Z"
    else .error (GoError.mk "Time.MarshalJSON: unknown time")
  parseTime := fun s =>
    if s = "2023-01-01T00:00:00Z" then .ok newYear2023
    else .error (GoError.mk "parsing time")
  formatFloat := fun _ => .error (GoError.mk "json: unsupported value")
  parseFloat := fun _ => .error (GoError.mk "strconv.ParseFloat: parsing")

/-- An update event as `PatchUser` builds it: the changes map of
`GenerateUserChanges`, with an old and a new value per changed field. -/
def emailChanged : UserUpdatedEvent :=
  NewUserUpdatedEvent "user-123"
    (some [("email", .map [("new", .string "updated@example.com"),
      ("old", .string "test@example.com")])])
    "test-id" newYear2023

/-- An update event whose changes hold a Go `int` -/
def ageChanged : UserUpdatedEvent :=
  NewUserUpdatedEvent "user-123" (some [("age", .int 30)]) "test-id" newYear2023

/-- An update event whose changes hold the nil slice `[]any(nil)` -/
def tagsCleared : UserUpdatedEvent :=
  NewUserUpdatedEvent "user-123" (some [("tags", .nilSlice)]) "test-id" newYear2023

/-- An update event whose changes hold the string `"\xff"`, one byte that is not
UTF-8 -/
def nameGarbled : UserUpdatedEvent :=
  NewUserUpdatedEvent "user-123" (some [("name", .invalidUTF8 [0xff])]) "test-id" newYear2023

/-! ## `publisher/sns.go` -/

/-- A value `sns.MessageAttributeValue` -/
structure MessageAttributeValue where
  DataType : String
  StringValue : String
deriving DecidableEq, Repr

/-- An entry `sns.PublishBatchRequestEntry`; `MessageAttributes` is the map, as the
list of its entries -/
structure PublishBatchRequestEntry where
  Id : String
  Message : String
  MessageGroupId : String
  MessageDeduplicationId : String
  MessageAttributes : List (String × MessageAttributeValue)
deriving DecidableEq, Repr

/-- The input `sns.PublishBatchInput` -/
structure PublishBatchInput where
  PublishBatchRequestEntries : List PublishBatchRequestEntry
  TopicArn : String
deriving DecidableEq, Repr

/-- An entry `sns.BatchResultErrorEntry`, with the two fields the publisher reads.
Both are pointers, `none` when nil; SNS need not fill in `Message`. -/
structure BatchResultErrorEntry where
  Id : Option String
  Message : Option String
deriving DecidableEq, Repr

/-- The output `sns.PublishBatchOutput`, with the list the publisher reads. `Failed`
is a `[]*BatchResultErrorEntry`: an element is `none` when the pointer is nil. -/
structure PublishBatchOutput where
  Failed : List (Option BatchResultErrorEntry)
deriving DecidableEq, Repr

/-- One observable step of the publisher. The log line before the backend call
carries the topic, the batch size and the distinct event types, which Go collects in a
map and lists in no particular order. -/
inductive PublishEffect (E : Type) where
  | Serialize (event : E) (out : Except GoError String)
  | LogPublishing (topicARN : String) (batchSize : Nat) (eventTypes : Finset String)
  | PublishBatch (input : PublishBatchInput)
      (out : Except GoError (Option PublishBatchOutput))
  | LogBatchError (err : GoError)
  | LogEntryError (message : String) (messageID : String)

/-- The collaborators of a publisher: `serializer.Serializer` and the SNS client, as
oracles over the state `σ`. The client returns an error or a pointer to an output,
`none` when that pointer is nil. -/
structure PublisherEnv (σ E : Type) where
  Serialize : E → σ → Except GoError String × σ
  PublishBatch : PublishBatchInput → σ → Except GoError (Option PublishBatchOutput) × σ

/-- The configuration held by an `SNSPublisher` -/
structure SNSPublisher where
  topicARN : String
deriving DecidableEq, Repr

/-- The constructor `NewSNSPublisher` -/
def NewSNSPublisher (topicARN : String) : SNSPublisher :=
  { topicARN := topicARN }

namespace SNSPublisher

variable {σ E : Type} [Event E]

/-- The error `PublishBatch` returns when an event fails to serialize -/
def serializeError (event : E) (err : GoError) : GoError :=
  GoError.errorf ("failed to serialize event (aggregate_id=" ++ Event.AggregateID event ++
    ", event_id=" ++ Event.EventID event ++ ", event_type=" ++ Event.Type' event ++ ")") err

/-- The entry `PublishBatch` builds for an event and its serialized form -/
def entry (event : E) (data : String) : PublishBatchRequestEntry :=
  { Id := Event.EventID event
    Message := data
    MessageGroupId := Event.AggregateID event
    MessageDeduplicationId := Event.EventID event
    MessageAttributes :=
      [("event_type", { DataType := "String", StringValue := Event.Type' event })] }

/-- The first loop of `PublishBatch`: serialize event after event into the batch and
return at the first failure. -/
def serializeLoop (env : PublisherEnv σ E) :
    List E → σ → Except GoError (List PublishBatchRequestEntry) × List (PublishEffect E) × σ
  | [], s => (.ok [], [], s)
  | event :: rest, s =>
    let d := env.Serialize event s
    match d.1 with
    | .error err =>
      (.error (serializeError event err), [PublishEffect.Serialize event (.error err)], d.2)
    | .ok data =>
      let r := serializeLoop env rest d.2
      match r.1 with
      | .error err => (.error err, PublishEffect.Serialize event (.ok data) :: r.2.1, r.2.2)
      | .ok batch =>
        (.ok (entry event data :: batch), PublishEffect.Serialize event (.ok data) :: r.2.1,
          r.2.2)

/-- The loop of `PublishBatch` over `response.Failed`: one log line per entry, and
the count of entries added to `failureCount`. The arguments of the log line are
`*result.Message` and `*result.Id`, read in this order: a nil one is a panic, and so
is a nil `result`. -/
def failedLoop :
    List (Option BatchResultErrorEntry) → Nat → Outcome Nat × List (PublishEffect E)
  | [], failureCount => (.returned failureCount, [])
  | none :: _, _ => (.panicked nilDereference, [])
  | some result :: rest, failureCount =>
    match result.Message with
    | none => (.panicked nilDereference, [])
    | some message =>
      match result.Id with
      | none => (.panicked nilDereference, [])
      | some messageID =>
        let r := failedLoop rest (failureCount + 1)
        (r.1, PublishEffect.LogEntryError message messageID :: r.2)

/-- The method `PublishBatch`: the error it returns, or the panic it ends in.
`response.Failed` is read through the pointer the client returned. -/
def PublishBatch (p : SNSPublisher) (env : PublisherEnv σ E) (events : List E) (s : σ) :
    Outcome (Option GoError) × List (PublishEffect E) × σ :=
  let b := serializeLoop env events s
  match b.1 with
  | .error err => (.returned (some err), b.2.1, b.2.2)
  | .ok batch =>
    let eventTypes := (events.map Event.Type').toFinset
    let input : PublishBatchInput :=
      { PublishBatchRequestEntries := batch, TopicArn := p.topicARN }
    let r := env.PublishBatch input b.2.2
    match r.1 with
    | .error err =>
      (.returned (some err),
        b.2.1 ++ [PublishEffect.LogPublishing p.topicARN batch.length eventTypes,
          PublishEffect.PublishBatch input (.error err), PublishEffect.LogBatchError err],
        r.2)
    | .ok none =>
      (.panicked nilDereference,
        b.2.1 ++ [PublishEffect.LogPublishing p.topicARN batch.length eventTypes,
          PublishEffect.PublishBatch input (.ok none)],
        r.2)
    | .ok (some response) =>
      let f := failedLoop (E := E) response.Failed 0
      (match f.1 with
        | .panicked reason => .panicked reason
        | .returned failureCount =>
          if failureCount > 0 then
            .returned (some (GoError.mk
              ("failed to publish " ++ toString failureCount ++ " events to SNS")))
          else .returned none,
        b.2.1 ++ [PublishEffect.LogPublishing p.topicARN batch.length eventTypes,
          PublishEffect.PublishBatch input (.ok (some response))] ++ f.2,
        r.2)

/-- The method `Publish`: `PublishBatch` with the one event -/
def Publish (p : SNSPublisher) (env : PublisherEnv σ E) (event : E) (s : σ) :
    Outcome (Option GoError) × List (PublishEffect E) × σ :=
  p.PublishBatch env [event] s

end SNSPublisher

/-- The requests made to the backend in a run of the publisher, in call order -/
def publishCalls {E : Type} (tr : List (PublishEffect E)) : List PublishBatchInput :=
  tr.filterMap fun
    | PublishEffect.PublishBatch input _ => some input
    | _ => none

/-- The `Serialize` calls of a run of the publisher with their results, in call order -/
def serializeCalls {E : Type} (tr : List (PublishEffect E)) : List (E × Except GoError String) :=
  tr.filterMap fun
    | PublishEffect.Serialize event out => some (event, out)
    | _ => none

/-- The effect of a `Serialize` call that returned the bytes `p.2` for the event `p.1` -/
def serializedOk {E : Type} (p : E × String) : PublishEffect E :=
  PublishEffect.Serialize p.1 (.ok p.2)

/-- A publisher environment for examples: the serializer fails on the events whose
type is `poison` and writes the event id otherwise; the backend accepts everything.
The state counts the backend calls. -/
def examplePublisherEnv (poison : String) : PublisherEnv Nat UserCreatedEvent where
  Serialize := fun event n =>
    (if event.EventType = poison then .error (GoError.mk "cannot serialize")
      else .ok event.toEventMetadata.EventID, n)
  PublishBatch := fun _ n => (.ok (some { Failed := [] }), n + 1)

/-- Two created events, the second of type `user.poison` -/
def exampleBatch : List UserCreatedEvent :=
  [NewUserCreatedEvent "user-1" "one@example.com" "id-1" newYear2023,
    { NewUserCreatedEvent "user-2" "two@example.com" "id-2" newYear2023 with
      EventType := "user.poison" }]

/-! ## The test doubles of `consumer/sqs_test.go` -/

/-- The call counters of the mocks (`mockSQSClient`, `mockHandler`, `mockBatchHandler`,
`mockDeserializer`) -/
structure MockCounts where
  receiveMessageCallCount : Nat
  deleteMessageCallCount : Nat
  deleteMessageBatchCallCount : Nat
  deserializeCallCount : Nat
  handlerCallCount : Nat
deriving DecidableEq, Repr

/-- A row of the test tables: what the mocks are told to answer -/
structure MockCase where
  sqsMessages : List Message
  sqsError : Option GoError
  deserializeError : Option GoError
  handlerError : Option GoError
  ackError : Option GoError
deriving DecidableEq, Repr

/-- The mocks wired as in the table tests. The event type is `String`: the mock
deserializer hands the payload itself on as the event. -/
def mockEnv (tt : MockCase) : ConsumerEnv MockCounts String where
  ReceiveMessage := fun _ n =>
    (match tt.sqsError with
      | some err => .error err
      | none => .ok tt.sqsMessages,
      { n with receiveMessageCallCount := n.receiveMessageCallCount + 1 })
  DeleteMessage := fun _ n =>
    (tt.ackError, { n with deleteMessageCallCount := n.deleteMessageCallCount + 1 })
  DeleteMessageBatch := fun _ n =>
    (none, { n with deleteMessageBatchCallCount := n.deleteMessageBatchCallCount + 1 })
  Deserialize := fun data n =>
    (match tt.deserializeError with
      | some err => .error err
      | none => .ok data,
      { n with deserializeCallCount := n.deserializeCallCount + 1 })
  Handle := fun _ n => (tt.handlerError, { n with handlerCallCount := n.handlerCallCount + 1 })
  HandleBatch := fun _ n =>
    (tt.handlerError, { n with handlerCallCount := n.handlerCallCount + 1 })

/-- The consumer the table tests build -/
def testConsumer : SQSConsumer :=
  { queueURL := "https://sqs.us-east-1.amazonaws.com/123456789/test-queue"
    maxNumberOfMessages := 1
    visibilityTimeout := 30
    waitTimeSeconds := 20 }

/-- Fresh mocks: no call made yet -/
def noCalls : MockCounts :=
  { receiveMessageCallCount := 0
    deleteMessageCallCount := 0
    deleteMessageBatchCallCount := 0
    deserializeCallCount := 0
    handlerCallCount := 0 }

/-- Two polled messages -/
def twoMessages : List Message :=
  [{ Body := "body-1", ReceiptHandle := "receipt-handle-1" },
    { Body := "body-2", ReceiptHandle := "receipt-handle-2" }]

/-- A test row in which everything succeeds -/
def allSucceed (messages : List Message) : MockCase :=
  { sqsMessages := messages
    sqsError := none
    deserializeError := none
    handlerError := none
    ackError := none }

/-- The test row in which every delete call fails, over two messages -/
def ackFails : MockCase :=
  { allSucceed twoMessages with ackError := some (GoError.mk "ack failed") }

/-- The test row "handles handler error", over two messages -/
def handlerFails : MockCase :=
  { allSucceed twoMessages with handlerError := some (GoError.mk "handler failed") }

/-- Three polled messages -/
def threeMessages : List Message :=
  [{ Body := "body-1", ReceiptHandle := "receipt-handle-1" },
    { Body := "body-2", ReceiptHandle := "receipt-handle-2" },
    { Body := "body-3", ReceiptHandle := "receipt-handle-3" }]

/-- Mocks over three messages whose handler fails on the event of the second one and
on no other -/
def secondHandlerFails : ConsumerEnv MockCounts String :=
  { mockEnv (allSucceed threeMessages) with
    Handle := fun event n =>
      (if event = "body-2" then some (GoError.mk "handler failed") else none,
        { n with handlerCallCount := n.handlerCallCount + 1 }) }

/-- Mocks over two messages whose poll fails every time -/
def receiveFailsTwice : ConsumerEnv MockCounts String :=
  mockEnv { allSucceed twoMessages with sqsError := some (GoError.mk "SQS receive failed") }

/-- Mocks over three messages whose deserializer fails on the payload of the second
one and on no other -/
def secondDeserializeFails : ConsumerEnv MockCounts String :=
  { mockEnv (allSucceed threeMessages) with
    Deserialize := fun data n =>
      (if data = "body-2" then .error (GoError.mk "deserialization failed") else .ok data,
        { n with deserializeCallCount := n.deserializeCallCount + 1 }) }

/-! ## Reading a list of effects -/

section Reading

variable {T : Type}

/-- The receipt handles of the `DeleteMessage` calls of a run, in call order -/
def deletedHandles (tr : List (Effect T)) : List String :=
  tr.filterMap fun
    | Effect.DeleteMessage input _ => some input.ReceiptHandle
    | _ => none

/-- Whether the effect is a call of a delete operation of the backend -/
def Effect.isDelete : Effect T → Bool
  | Effect.DeleteMessage _ _ => true
  | Effect.DeleteMessageBatch _ _ => true
  | _ => false

/-- Whether the effect is a call of `Deserialize` -/
def Effect.isDeserialize : Effect T → Bool
  | Effect.Deserialize _ _ => true
  | _ => false

/-- Whether the effect is a call of `Handle` or `HandleBatch` -/
def Effect.isHandler : Effect T → Bool
  | Effect.Handle _ _ => true
  | Effect.HandleBatch _ _ => true
  | _ => false

/-- Whether the effect is a sleep -/
def Effect.isSleep : Effect T → Bool
  | Effect.Sleep _ => true
  | _ => false

/-- The effect of a `Deserialize` call on the body of a message that yielded an event -/
def deserializedOk (p : Message × T) : Effect T :=
  Effect.Deserialize p.1.Body (.ok p.2)

/-- The effect of a `DeleteMessage` call for a message of the queue that returned
the result `err` -/
def deleteCall (queueURL : String) (message : Message) (err : Option GoError) : Effect T :=
  Effect.DeleteMessage { QueueUrl := queueURL, ReceiptHandle := message.ReceiptHandle } err

/-- The three effects single-item mode performs for a message it gets through:
deserialized to an event, handled with a nil error, deleted with a nil error. -/
def processedOk (queueURL : String) (p : Message × T) : List (Effect T) :=
  [Effect.Deserialize p.1.Body (.ok p.2), Effect.Handle p.2 none, deleteCall queueURL p.1 none]

/-- The effects single-item mode performs for the message whose `Deserialize` or
`Handle` call returns an error: the failing call is the last call of the cycle. -/
inductive FailsToProcess (message : Message) : List (Effect T) → Prop where
  | deserialize (err : GoError) :
    FailsToProcess message
      [Effect.Deserialize message.Body (.error err),
        Effect.LogError "failed to deserialize event" err]
  | handle (event : T) (err : GoError) :
    FailsToProcess message
      [Effect.Deserialize message.Body (.ok event), Effect.Handle event (some err),
        Effect.LogError "failed to handle event" err]

/-- The effects single-item mode performs for a message that is deserialized and
handled but whose `DeleteMessage` call returns an error. -/
inductive FailsToAck (queueURL : String) (message : Message) : List (Effect T) → Prop where
  | ack (event : T) (cause : GoError) :
    FailsToAck queueURL message
      [Effect.Deserialize message.Body (.ok event), Effect.Handle event none,
        deleteCall queueURL message (some cause),
        Effect.LogError "failed to ack sqs message"
          (GoError.errorf "failed to delete sqs message" cause)]

/-- The effect of the poll of a cycle -/
def pollCall (c : SQSConsumer) (out : Except GoError (List Message)) : Effect T :=
  Effect.ReceiveMessage c.receiveInput out

/-- The shapes the effects of one cycle of single-item mode can take -/
inductive SingleCycle (c : SQSConsumer) : List (Effect T) → Prop where
  | pollError (err : GoError) :
    SingleCycle c
      [pollCall c (.error err), Effect.LogError "failed to receive sqs messages" err,
        Effect.Sleep errorBackoff]
  | allProcessed (messages : List Message) (evs : List T)
      (hlen : evs.length = messages.length) :
    SingleCycle c
      (pollCall c (.ok messages) :: (messages.zip evs).flatMap (processedOk c.queueURL))
  | stopped (messages : List Message) (k : Nat) (message : Message) (evs : List T)
      (tail : List (Effect T)) (hk : messages[k]? = some message) (hlen : evs.length = k)
      (hstop : FailsToProcess message tail ∨ FailsToAck c.queueURL message tail) :
    SingleCycle c
      (pollCall c (.ok messages) ::
        (((messages.take k).zip evs).flatMap (processedOk c.queueURL) ++ tail))

/-- The shapes the effects of one cycle of batch mode can take -/
inductive BatchCycle (c : SQSConsumer) : List (Effect T) → Prop where
  | pollError (err : GoError) :
    BatchCycle c
      [pollCall c (.error err), Effect.LogError "failed to receive sqs messages" err,
        Effect.Sleep errorBackoff]
  | empty : BatchCycle c [pollCall c (.ok [])]
  | deserializeError (messages : List Message) (k : Nat) (message : Message) (evs : List T)
      (err : GoError) (hk : messages[k]? = some message) (hlen : evs.length = k) :
    BatchCycle c
      (pollCall c (.ok messages) :: (((messages.take k).zip evs).map deserializedOk ++
        [Effect.Deserialize message.Body (.error err),
          Effect.LogError "failed to deserialize event" err]))
  | handlerError (messages : List Message) (evs : List T) (err : GoError)
      (hne : messages ≠ []) (hlen : evs.length = messages.length) :
    BatchCycle c
      (pollCall c (.ok messages) :: ((messages.zip evs).map deserializedOk ++
        [Effect.HandleBatch evs (some err), Effect.LogError "failed to handle events" err]))
  | allAcked (messages : List Message) (evs : List T)
      (hne : messages ≠ []) (hlen : evs.length = messages.length) :
    BatchCycle c
      (pollCall c (.ok messages) :: ((messages.zip evs).map deserializedOk ++
        Effect.HandleBatch evs none :: messages.map (fun m => deleteCall c.queueURL m none)))
  | ackError (messages : List Message) (evs : List T) (k : Nat) (message : Message)
      (cause : GoError) (hlen : evs.length = messages.length)
      (hk : messages[k]? = some message) :
    BatchCycle c
      (pollCall c (.ok messages) :: ((messages.zip evs).map deserializedOk ++
        Effect.HandleBatch evs none ::
          ((messages.take k).map (fun m => deleteCall c.queueURL m none) ++
            [deleteCall c.queueURL message (some cause),
              Effect.LogError "failed to ack sqs message"
                (GoError.errorf "failed to delete sqs message" cause)])))

/-- The payloads of the `Deserialize` calls of a run, in call order -/
def deserializedBodies (tr : List (Effect T)) : List String :=
  tr.filterMap fun
    | Effect.Deserialize data _ => some data
    | _ => none

/-- The `DeleteMessage` calls of a run with their results, in call order -/
def deleteCalls (tr : List (Effect T)) : List (DeleteMessageInput × Option GoError) :=
  tr.filterMap fun
    | Effect.DeleteMessage input err => some (input, err)
    | _ => none

end Reading

/-- The log lines of a run of the publisher for rejected entries, each with the
message and the id it records, in order -/
def entryErrorLogs {E : Type} (tr : List (PublishEffect E)) : List (String × String) :=
  tr.filterMap fun
    | PublishEffect.LogEntryError message messageID => some (message, messageID)
    | _ => none

/-- A publisher environment for examples whose serializer writes the event id and
whose backend rejects the entries with the id `rejected`. The state counts the
backend calls. -/
def rejectingPublisherEnv (rejected : String) : PublisherEnv Nat UserCreatedEvent where
  Serialize := fun event n => (.ok event.toEventMetadata.EventID, n)
  PublishBatch := fun input n =>
    (.ok (some
      { Failed := ((input.PublishBatchRequestEntries.filter (fun e => e.Id = rejected)).map
        (fun e => some ({ Id := some e.Id, Message := some "entry rejected" } :
          BatchResultErrorEntry))) }),
      n + 1)

/-- A publisher environment for examples whose backend call fails -/
def failingPublisherEnv : PublisherEnv Nat UserCreatedEvent where
  Serialize := fun event n => (.ok event.toEventMetadata.EventID, n)
  PublishBatch := fun _ n => (.error (GoError.mk "sns unavailable"), n + 1)

/-- A batch of three created events -/
def batchOfThree : List UserCreatedEvent :=
  [NewUserCreatedEvent "user-1" "one@example.com" "id-1" newYear2023,
    NewUserCreatedEvent "user-2" "two@example.com" "id-2" newYear2023,
    NewUserCreatedEvent "user-3" "three@example.com" "id-3" newYear2023]

/-- The request `PublishBatch` makes for the batch of three to the topic `arn:topic`
when the serializer writes the event ids -/
def batchOfThreeInput : PublishBatchInput :=
  { PublishBatchRequestEntries :=
      List.zipWith SNSPublisher.entry batchOfThree ["id-1", "id-2", "id-3"]
    TopicArn := "arn:topic" }

/-- The response of the backend that rejects the second entry of the batch of three -/
def secondRejected : PublishBatchOutput :=
  { Failed := [some { Id := some "id-2", Message := some "entry rejected" }] }

/-! ## `domain/user/model`, `validators.go` and `diff.go` -/

/-- The struct `model.User` -/
structure User where
  ID : String
  Email : String
  FirstName : String
  LastName : String
  CreatedAt : Time
  UpdatedAt : Time
deriving DecidableEq, Repr

/-- The struct `model.UserCreate` -/
structure UserCreate where
  Email : String
  FirstName : String
  LastName : String
deriving DecidableEq, Repr

/-- The struct `model.UserUpdate`; a nil pointer is `none` -/
structure UserUpdate where
  Email : Option String
  FirstName : Option String
  LastName : Option String
deriving DecidableEq, Repr

/-- The sentinel errors of package `domain` that the service, the validators and the
HTTP layer refer to. The file declaring them is not among the sources: they are taken
to be three package-level variables made by `errors.New`, and their texts are a
parameter. -/
structure DomainErrors where
  notFoundText : String
  alreadyExistsText : String
  invalidInputText : String
deriving DecidableEq, Repr

namespace DomainErrors

/-- The variable `domain.ErrNotFound` -/
def notFound (dom : DomainErrors) : Sentinel :=
  { name := "domain.ErrNotFound", text := dom.notFoundText }

/-- The variable `domain.ErrAlreadyExists` -/
def alreadyExists (dom : DomainErrors) : Sentinel :=
  { name := "domain.ErrAlreadyExists", text := dom.alreadyExistsText }

/-- The variable `domain.ErrInvalidInput` -/
def invalidInput (dom : DomainErrors) : Sentinel :=
  { name := "domain.ErrInvalidInput", text := dom.invalidInputText }

/-- The value of `domain.ErrNotFound` -/
def ErrNotFound (dom : DomainErrors) : GoError :=
  GoError.sentinel dom.notFound

/-- The value of `domain.ErrAlreadyExists` -/
def ErrAlreadyExists (dom : DomainErrors) : GoError :=
  GoError.sentinel dom.alreadyExists

/-- The value of `domain.ErrInvalidInput` -/
def ErrInvalidInput (dom : DomainErrors) : GoError :=
  GoError.sentinel dom.invalidInput

end DomainErrors

/-- The result of `fmt.Errorf("%w: " + text, err)` -/
def GoError.prefixed (err : GoError) (text : String) : GoError :=
  GoError.wrap (err.Error ++ ": " ++ text) err

/-- The predicate `unicode.IsSpace` -/
def isSpace (c : Char) : Bool :=
  c = '\t' || c = '\n' || c = Char.ofNat 0x0B || c = Char.ofNat 0x0C || c = '\r' || c = ' ' ||
    c = Char.ofNat 0x85 || c = Char.ofNat 0xA0 || c = Char.ofNat 0x1680 ||
    (0x2000 ≤ c.toNat && c.toNat ≤ 0x200A) || c = Char.ofNat 0x2028 ||
    c = Char.ofNat 0x2029 || c = Char.ofNat 0x202F || c = Char.ofNat 0x205F ||
    c = Char.ofNat 0x3000

/-- The function `strings.TrimSpace` -/
def TrimSpace (s : String) : String :=
  String.mk ((s.data.dropWhile isSpace).reverse.dropWhile isSpace).reverse

/-- The function `strings.Split(s, sep)` for a separator of one character, on the
characters of `s` -/
def Split (sep : Char) : List Char → List (List Char)
  | [] => [[]]
  | c :: cs =>
    if c = sep then [] :: Split sep cs
    else
      match Split sep cs with
      | [] => [[c]]
      | part :: parts => (c :: part) :: parts

/-- The function `isValidEmail` -/
def isValidEmail (email : String) : Bool :=
  let email := TrimSpace email
  if email.utf8ByteSize < 3 then false
  else if !(email.data.contains '@') then false
  else
    match Split '@' email.data with
    | [local_, domain] => if local_.length = 0 || domain.length = 0 then false else true
    | _ => false

/-- The function `ValidateCreate` -/
def ValidateCreate (dom : DomainErrors) (u : UserCreate) : Option GoError :=
  if u.Email = "" then some (dom.ErrInvalidInput.prefixed "email is required")
  else if !isValidEmail u.Email then some (dom.ErrInvalidInput.prefixed "invalid email format")
  else if u.FirstName = "" then some (dom.ErrInvalidInput.prefixed "first_name is required")
  else if u.LastName = "" then some (dom.ErrInvalidInput.prefixed "last_name is required")
  else none

/-- The function `ValidateUpdate` -/
def ValidateUpdate (dom : DomainErrors) (u : UserUpdate) : Option GoError :=
  match u.Email with
  | some email =>
    if !isValidEmail email then some (dom.ErrInvalidInput.prefixed "invalid email format")
    else none
  | none => none

/-- The value `map[string]any{"old": old, "new": new}` that `GenerateUserChanges` stores
for a changed field -/
def fieldChange (old new : String) : GoValue :=
  .map (mapInsert "new" (.string new) (mapInsert "old" (.string old) []))

/-- The function `GenerateUserChanges`; the result is the map it returns, which is
never nil. -/
def GenerateUserChanges (update : UserUpdate) (existing : User) : List (String × GoValue) :=
  let changes : List (String × GoValue) := []
  let changes :=
    match update.Email with
    | some email =>
      if email ≠ existing.Email then mapInsert "email" (fieldChange existing.Email email) changes
      else changes
    | none => changes
  let changes :=
    match update.FirstName with
    | some firstName =>
      if firstName ≠ existing.FirstName then
        mapInsert "first_name" (fieldChange existing.FirstName firstName) changes
      else changes
    | none => changes
  let changes :=
    match update.LastName with
    | some lastName =>
      if lastName ≠ existing.LastName then
        mapInsert "last_name" (fieldChange existing.LastName lastName) changes
      else changes
    | none => changes
  changes

/-- Reading `m[key]` on a map -/
def mapLookup {α : Type} (key : String) : List (String × α) → Option α
  | [] => none
  | (k, v) :: rest => if k = key then some v else mapLookup key rest

/-! ## `db/postgres/transaction-manager.go` and `domain/user/service.go` -/

/-- A `context.Context`, as far as the service is concerned: whether it carries a
transaction under `txKey`. -/
structure Context where
  hasTx : Bool
deriving DecidableEq, Repr

/-- An event handed to the publisher -/
inductive UserEvent where
  | created (event : UserCreatedEvent)
  | updated (event : UserUpdatedEvent)
  | deleted (event : UserDeletedEvent)

/-- One observable step of the service and the transaction manager: a call on the
database, the repository or the publisher with what it returned, or a log line. -/
inductive ServiceEffect where
  | BeginTx (ctx : Context) (err : Option GoError)
  | Commit (err : Option GoError)
  | Rollback (err : Option GoError)
  | LogError (msg : String) (err : Option GoError)
  | Create (ctx : Context) (u : UserCreate) (out : Except GoError User)
  | GetByID (ctx : Context) (id : String) (out : Except GoError User)
  | GetByEmail (ctx : Context) (email : String) (out : Except GoError User)
  | Update (ctx : Context) (id : String) (u : UserUpdate) (out : Except GoError User)
  | Delete (ctx : Context) (id : String) (err : Option GoError)
  | Publish (ctx : Context) (event : UserEvent) (err : Option GoError)
  | List (ctx : Context) (limit offset : Int) (out : Except GoError (List User))
  | Count (ctx : Context) (out : Except GoError Int)

/-- The collaborators of the service and the transaction manager as oracles over the
state `σ`: the database (`BeginTx`, `Commit`, `Rollback`), `repo.Repository`,
`publisher.Publisher`, and the sources of event ids and timestamps (`uuid.New`,
`time.Now`). A repository call that returns a user and an error returns the user
exactly when the error is nil, as `repo/postgres.go` does. -/
structure ServiceEnv (σ : Type) where
  BeginTx : Context → σ → Option GoError × σ
  Commit : σ → Option GoError × σ
  Rollback : σ → Option GoError × σ
  Create : Context → UserCreate → σ → Except GoError User × σ
  GetByID : Context → String → σ → Except GoError User × σ
  GetByEmail : Context → String → σ → Except GoError User × σ
  Update : Context → String → UserUpdate → σ → Except GoError User × σ
  Delete : Context → String → σ → Option GoError × σ
  List : Context → Int → Int → σ → Except GoError (List User) × σ
  Count : Context → σ → Except GoError Int × σ
  Publish : Context → UserEvent → σ → Option GoError × σ
  NewUUID : σ → String × σ
  Now : σ → Time × σ

/-- The method `TransactionManager.WithTransaction` of package `postgres`. `fn` is a
closure: besides its error it yields the values the variables it captures hold when
it returns, which are `captured` when it is never run. -/
def TransactionManager.WithTransaction {σ α : Type} (env : ServiceEnv σ) (ctx : Context)
    (captured : α) (fn : Context → σ → (Option GoError × α) × List ServiceEffect × σ) (s : σ) :
    (Option GoError × α) × List ServiceEffect × σ :=
  let b := env.BeginTx ctx s
  match b.1 with
  | some err => ((some err, captured), [ServiceEffect.BeginTx ctx (some err)], b.2)
  | none =>
    let txCtx : Context := { ctx with hasTx := true }
    let r := fn txCtx b.2
    match r.1.1 with
    | some err =>
      let rb := env.Rollback r.2.2
      match rb.1 with
      | some rollbackErr =>
        ((some rollbackErr, r.1.2),
          ServiceEffect.BeginTx ctx none :: (r.2.1 ++
            [ServiceEffect.Rollback (some rollbackErr),
              ServiceEffect.LogError "failed to rollback transaction" (some rollbackErr)]),
          rb.2)
      | none =>
        ((some err, r.1.2),
          ServiceEffect.BeginTx ctx none :: (r.2.1 ++
            [ServiceEffect.Rollback none,
              ServiceEffect.LogError "rolled back transaction" none]),
          rb.2)
    | none =>
      let c := env.Commit r.2.2
      ((c.1, r.1.2), ServiceEffect.BeginTx ctx none :: (r.2.1 ++ [ServiceEffect.Commit c.1]), c.2)

namespace Service

variable {σ : Type}

/-- The method `validateCreateUserRequest` -/
def validateCreateUserRequest (dom : DomainErrors) (env : ServiceEnv σ) (ctx : Context)
    (email firstName lastName : String) (s : σ) : Option GoError × List ServiceEffect × σ :=
  match ValidateCreate dom { Email := email, FirstName := firstName, LastName := lastName } with
  | some err => (some err, [], s)
  | none =>
    let g := env.GetByEmail ctx email s
    match g.1 with
    | .error err =>
      if err ≠ dom.ErrNotFound then (some err, [ServiceEffect.GetByEmail ctx email g.1], g.2)
      else (none, [ServiceEffect.GetByEmail ctx email g.1], g.2)
    | .ok _ => (some dom.ErrAlreadyExists, [ServiceEffect.GetByEmail ctx email g.1], g.2)

/-- The method `validatePatchUserRequest` -/
def validatePatchUserRequest (dom : DomainErrors) (env : ServiceEnv σ) (ctx : Context)
    (userID : String) (update : UserUpdate) (s : σ) :
    Except GoError User × List ServiceEffect × σ :=
  match ValidateUpdate dom update with
  | some err => (.error err, [], s)
  | none =>
    let g := env.GetByID ctx userID s
    match g.1 with
    | .error err => (.error err, [ServiceEffect.GetByID ctx userID g.1], g.2)
    | .ok existing =>
      match update.Email with
      | none => (.ok existing, [ServiceEffect.GetByID ctx userID g.1], g.2)
      | some email =>
        if email ≠ existing.Email then
          let m := env.GetByEmail ctx email g.2
          match m.1 with
          | .error err =>
            if err ≠ dom.ErrNotFound then
              (.error err, [ServiceEffect.GetByID ctx userID g.1,
                ServiceEffect.GetByEmail ctx email m.1], m.2)
            else
              (.ok existing, [ServiceEffect.GetByID ctx userID g.1,
                ServiceEffect.GetByEmail ctx email m.1], m.2)
          | .ok emailUser =>
            if emailUser.ID ≠ userID then
              (.error dom.ErrAlreadyExists, [ServiceEffect.GetByID ctx userID g.1,
                ServiceEffect.GetByEmail ctx email m.1], m.2)
            else
              (.ok existing, [ServiceEffect.GetByID ctx userID g.1,
                ServiceEffect.GetByEmail ctx email m.1], m.2)
        else (.ok existing, [ServiceEffect.GetByID ctx userID g.1], g.2)

/-- The method `validateDeleteUserRequest` -/
def validateDeleteUserRequest (env : ServiceEnv σ) (ctx : Context) (userID : String) (s : σ) :
    Except GoError User × List ServiceEffect × σ :=
  let g := env.GetByID ctx userID s
  (g.1, [ServiceEffect.GetByID ctx userID g.1], g.2)

/-- The function literal `CreateUser` passes to `WithTransaction`; the variable it
captures is `createdUser`. -/
def createUserFn (dom : DomainErrors) (env : ServiceEnv σ) (ctx : Context)
    (email firstName lastName : String) (txCtx : Context) (s : σ) :
    (Option GoError × Option User) × List ServiceEffect × σ :=
  let v := validateCreateUserRequest dom env txCtx email firstName lastName s
  match v.1 with
  | some err => ((some err, none), v.2.1, v.2.2)
  | none =>
    let createUser : UserCreate := { Email := email, FirstName := firstName, LastName := lastName }
    let c := env.Create txCtx createUser v.2.2
    match c.1 with
    | .error err => ((some err, none), v.2.1 ++ [ServiceEffect.Create txCtx createUser c.1], c.2)
    | .ok user =>
      let id := env.NewUUID c.2
      let now := env.Now id.2
      let event := NewUserCreatedEvent user.ID user.Email id.1 now.1
      let p := env.Publish ctx (.created event) now.2
      ((p.1, some user),
        v.2.1 ++ [ServiceEffect.Create txCtx createUser c.1,
          ServiceEffect.Publish ctx (.created event) p.1],
        p.2)

/-- The method `CreateUser`: the created user, or the error -/
def CreateUser (dom : DomainErrors) (env : ServiceEnv σ) (ctx : Context)
    (email firstName lastName : String) (s : σ) :
    Except GoError (Option User) × List ServiceEffect × σ :=
  let r := TransactionManager.WithTransaction env ctx (none : Option User)
    (createUserFn dom env ctx email firstName lastName) s
  match r.1.1 with
  | some err => (.error err, r.2.1, r.2.2)
  | none => (.ok r.1.2, r.2.1, r.2.2)

/-- The function literal `PatchUser` passes to `WithTransaction`; the variable it
captures and `PatchUser` reads afterwards is `updatedUser`. -/
def patchUserFn (dom : DomainErrors) (env : ServiceEnv σ) (ctx : Context)
    (userID : String) (update : UserUpdate) (txCtx : Context) (s : σ) :
    (Option GoError × Option User) × List ServiceEffect × σ :=
  let v := validatePatchUserRequest dom env txCtx userID update s
  match v.1 with
  | .error err => ((some err, none), v.2.1, v.2.2)
  | .ok existing =>
    let changes := GenerateUserChanges update existing
    if changes.length = 0 then ((none, some existing), v.2.1, v.2.2)
    else
      let u := env.Update txCtx userID update v.2.2
      match u.1 with
      | .error err =>
        ((some err, none), v.2.1 ++ [ServiceEffect.Update txCtx userID update u.1], u.2)
      | .ok updated =>
        let id := env.NewUUID u.2
        let now := env.Now id.2
        let event := NewUserUpdatedEvent updated.ID (some changes) id.1 now.1
        let p := env.Publish ctx (.updated event) now.2
        ((p.1, some updated),
          v.2.1 ++ [ServiceEffect.Update txCtx userID update u.1,
            ServiceEffect.Publish ctx (.updated event) p.1],
          p.2)

/-- The method `PatchUser`: the user after the update, or the error -/
def PatchUser (dom : DomainErrors) (env : ServiceEnv σ) (ctx : Context)
    (userID : String) (update : UserUpdate) (s : σ) :
    Except GoError (Option User) × List ServiceEffect × σ :=
  let r := TransactionManager.WithTransaction env ctx (none : Option User)
    (patchUserFn dom env ctx userID update) s
  match r.1.1 with
  | some err => (.error err, r.2.1, r.2.2)
  | none => (.ok r.1.2, r.2.1, r.2.2)

/-- The function literal `DeleteUser` passes to `WithTransaction`; the variable it
captures is `deletedUserID`. -/
def deleteUserFn (env : ServiceEnv σ) (ctx : Context) (userID : String) (txCtx : Context)
    (s : σ) : (Option GoError × String) × List ServiceEffect × σ :=
  let v := validateDeleteUserRequest env txCtx userID s
  match v.1 with
  | .error err => ((some err, ""), v.2.1, v.2.2)
  | .ok user =>
    let deletedUserID := user.ID
    let id := env.NewUUID v.2.2
    let now := env.Now id.2
    let event := NewUserDeletedEvent deletedUserID id.1 now.1
    let p := env.Publish ctx (.deleted event) now.2
    match p.1 with
    | some err =>
      ((some err, deletedUserID), v.2.1 ++ [ServiceEffect.Publish ctx (.deleted event) p.1], p.2)
    | none =>
      let d := env.Delete txCtx userID p.2
      ((d.1, deletedUserID),
        v.2.1 ++ [ServiceEffect.Publish ctx (.deleted event) p.1,
          ServiceEffect.Delete txCtx userID d.1],
        d.2)

/-- The method `DeleteUser` -/
def DeleteUser (env : ServiceEnv σ) (ctx : Context) (userID : String) (s : σ) :
    Option GoError × List ServiceEffect × σ :=
  let r := TransactionManager.WithTransaction env ctx "" (deleteUserFn env ctx userID) s
  (r.1.1, r.2.1, r.2.2)

end Service

/-- The sentinel errors used in examples -/
def exampleDomain : DomainErrors :=
  { notFoundText := "not found"
    alreadyExistsText := "already exists"
    invalidInputText := "invalid input" }

/-- The user the example repository knows -/
def exampleUser : User :=
  { ID := "user-123"
    Email := "test@example.com"
    FirstName := "Test"
    LastName := "User"
    CreatedAt := newYear2023
    UpdatedAt := newYear2023 }

/-- What the example collaborators are told to answer where they can fail -/
structure ServiceCase where
  deleteError : Option GoError
  commitError : Option GoError
  rollbackError : Option GoError
deriving DecidableEq, Repr

/-- Collaborators for examples. The repository holds `exampleUser` under its id and no
user under any email asked for, lists and counts that one user, and creates and
updates users with the id `user-123`.
The publisher accepts every event, and the state counts the events it accepted. -/
def exampleServiceEnv (tt : ServiceCase) : ServiceEnv Nat where
  BeginTx := fun _ n => (none, n)
  Commit := fun n => (tt.commitError, n)
  Rollback := fun n => (tt.rollbackError, n)
  Create := fun _ u n =>
    (.ok { exampleUser with Email := u.Email, FirstName := u.FirstName, LastName := u.LastName },
      n)
  GetByID := fun _ id n =>
    (if id = exampleUser.ID then .ok exampleUser else .error exampleDomain.ErrNotFound, n)
  GetByEmail := fun _ _ n => (.error exampleDomain.ErrNotFound, n)
  Update := fun _ _ u n =>
    (.ok { exampleUser with
      Email := u.Email.getD exampleUser.Email
      FirstName := u.FirstName.getD exampleUser.FirstName
      LastName := u.LastName.getD exampleUser.LastName }, n)
  Delete := fun _ _ n => (tt.deleteError, n)
  List := fun _ limit offset n =>
    (.ok (if offset = 0 ∧ 1 ≤ limit then [exampleUser] else []), n)
  Count := fun _ n => (.ok 1, n)
  Publish := fun _ _ n => (none, n + 1)
  NewUUID := fun n => ("event-id", n)
  Now := fun n => (newYear2023, n)

/-- The example case in which nothing fails -/
def nothingFails : ServiceCase :=
  { deleteError := none, commitError := none, rollbackError := none }

/-- The context of a request: no transaction in it -/
def requestContext : Context :=
  { hasTx := false }

/-- The context `WithTransaction` hands to the function it runs -/
def transactionContext : Context :=
  { hasTx := true }

/-- An update that changes the first name to `Changed` -/
def firstNameChanged : UserUpdate :=
  { Email := none, FirstName := some "Changed", LastName := none }

/-- An update that asks for the values `exampleUser` already has -/
def nothingChanged : UserUpdate :=
  { Email := some "test@example.com", FirstName := some "Test", LastName := none }

/-- An update event whose changes hold a channel, which JSON has no encoding for -/
def channelChanged : UserUpdatedEvent :=
  NewUserUpdatedEvent "user-123" (some [("notify", .unsupported "chan int")]) "test-id"
    newYear2023

/-! ## The loops of `Start` and `StartBatch`, and more readings of effect lists -/

section Loops

variable {σ T : Type}

/-- Whether the goroutine of a consumer has returned when the cycles counted are
spent -/
inductive LoopStatus where
  | stopped
  | running
deriving DecidableEq, Repr

/-- The `for { select { case <-ctx.Done(): return; default: cycle } }` loop of the
goroutine that `Start` and `StartBatch` start, cut off after `fuel` rounds. `done`
reads from the state whether the context is cancelled. The status is `stopped` when
the loop has returned and `running` when it is still going after `fuel` rounds. -/
def SQSConsumer.loop (cycle : σ → List (Effect T) × σ) (done : σ → Bool) :
    Nat → σ → LoopStatus × List (Effect T) × σ
  | 0, s => (.running, [], s)
  | fuel + 1, s =>
    if done s then
      (.stopped, [Effect.LogInfo "sqs consumer context canceled, stopping"], s)
    else
      let r := cycle s
      let rest := SQSConsumer.loop cycle done fuel r.2
      (rest.1, r.1 ++ rest.2.1, rest.2.2)

/-- The goroutine of the method `Start` -/
def SQSConsumer.Start (c : SQSConsumer) (env : ConsumerEnv σ T) (done : σ → Bool)
    (fuel : Nat) (s : σ) : LoopStatus × List (Effect T) × σ :=
  let r := SQSConsumer.loop (c.processBatchOfSingleMessages env) done fuel s
  (r.1, Effect.LogInfo "starting sqs consumer" :: r.2.1, r.2.2)

/-- The goroutine of the method `StartBatch` -/
def SQSConsumer.StartBatch (c : SQSConsumer) (env : ConsumerEnv σ T) (done : σ → Bool)
    (fuel : Nat) (s : σ) : LoopStatus × List (Effect T) × σ :=
  let r := SQSConsumer.loop (c.processBatchOfMessages env) done fuel s
  (r.1, Effect.LogInfo "starting sqs consumer in batch mode" :: r.2.1, r.2.2)

/-- The events of the `Handle` calls of a run, in call order -/
def handledEvents (tr : List (Effect T)) : List T :=
  tr.filterMap fun
    | Effect.Handle event _ => some event
    | _ => none

/-- The event lists of the `HandleBatch` calls of a run, in call order -/
def handledBatches (tr : List (Effect T)) : List (List T) :=
  tr.filterMap fun
    | Effect.HandleBatch events _ => some events
    | _ => none

/-- The successful `Deserialize` calls of a run, each with its payload and the event
it returned, in call order -/
def deserializations (tr : List (Effect T)) : List (String × T) :=
  tr.filterMap fun
    | Effect.Deserialize data (.ok event) => some (data, event)
    | _ => none

/-- The number of `ReceiveMessage` calls of a run -/
def pollCount (tr : List (Effect T)) : Nat :=
  (tr.filter fun
    | Effect.ReceiveMessage _ _ => true
    | _ => false).length

end Loops

/-- A context that is cancelled once the mock client has been polled twice -/
def cancelledAfterTwoPolls (n : MockCounts) : Bool :=
  decide (2 ≤ n.receiveMessageCallCount)

/-! ## Readings of the backend calls of a run, and two more contexts -/

section BackendCalls

variable {T : Type}

/-- The inputs of the `ReceiveMessage` calls of a run, in call order -/
def pollInputs (tr : List (Effect T)) : List ReceiveMessageInput :=
  tr.filterMap fun
    | Effect.ReceiveMessage input _ => some input
    | _ => none

end BackendCalls

/-- A context that is cancelled from the start -/
def cancelledFromTheStart (_ : MockCounts) : Bool := true

/-- A context that is cancelled while the first poll is in flight: the loop finds it
cancelled at every check made after one poll. -/
def cancelledDuringFirstPoll (n : MockCounts) : Bool :=
  decide (1 ≤ n.receiveMessageCallCount)

/-! ## An event type that is not a pointer -/

/-- An event struct used by value: `PingEvent` embeds `EventMetadata` and declares
`Type`, `EventID` and `AggregateID` on the value, so `PingEvent` itself, and not only
`*PingEvent`, satisfies `events.Event`. The repository has no such type, its own event
types declare their methods on the pointer; this one stands for the event types that
are not pointers which `NewJSONDeserializer[T]` accepts. -/
structure PingEvent extends EventMetadata
deriving DecidableEq, Repr

instance : Event PingEvent where
  Type' e := e.EventType
  EventID e := e.toEventMetadata.EventID
  AggregateID e := e.toEventMetadata.EventID

namespace PingEvent

/-- The JSON names of the fields, in the order `Marshal` writes them -/
def fields : List String := ["event_id", "event_type", "timestamp"]

/-- The function `json.Marshal` on a `PingEvent` -/
def marshal (lib : Stdlib) (e : PingEvent) : Except GoError Json :=
  match marshalTime lib e.Timestamp with
  | .error err => .error err
  | .ok ts =>
    .ok (.obj [("event_id", .str e.toEventMetadata.EventID), ("event_type", .str e.EventType),
      ("timestamp", ts)])

/-- Storing one member of an object into the event, which `Unmarshal` does through a
pointer to it -/
def setField (lib : Stdlib) (key : String) (v : Json) (e : PingEvent) :
    Except (PingEvent × GoError) (PingEvent × Option GoError) :=
  match findField fields key with
  | none => .ok (e, none)
  | some name =>
    match EventMetadata.setField lib name v e.toEventMetadata with
    | .ok (m, err) => .ok ({ e with toEventMetadata := m }, err)
    | .error (m, err) => .error ({ e with toEventMetadata := m }, err)

end PingEvent

instance : JSONShape PingEvent where
  isPointer := false
  goType := "events.PingEvent"
  zero := { toEventMetadata := EventMetadata.zero }
  marshal := PingEvent.marshal
  decode lib := decodeStruct "events.PingEvent" (PingEvent.setField lib)

/-- A ping event and the payload `Serialize` writes for it -/
def examplePing : PingEvent :=
  { toEventMetadata := NewBaseEvent "ping" "test-id" newYear2023 }

/-- The payload of `examplePing`, as a document -/
def examplePingPayload : Payload :=
  .json (.obj [("event_id", .str "test-id"), ("event_type", .str "ping"),
    ("timestamp", .str "2023-01-01T00:00:00Z")])

/-! ## `presentation/http.go` and `presentation/errors.go` -/

/-- The error and the errors it wraps, outermost first: the chain `errors.Is` walks
with `Unwrap` -/
def GoError.chain : GoError → List GoError
  | .mk msg => [.mk msg]
  | .wrap msg cause => .wrap msg cause :: cause.chain
  | .sentinel var => [.sentinel var]

/-- Whether the error or an error it wraps is the value of the variable `target`: the
walk of `errors.Is` along `Unwrap`, comparing with `==` at every step. An error made
where it arises is not that value, even with the same text. -/
def GoError.Is : GoError → Sentinel → Bool
  | .mk _, _ => false
  | .wrap _ cause, target => cause.Is target
  | .sentinel var, target => decide (var = target)

/-- The function `errors.Is(err, target)` for a target that is a package-level
variable; a nil `err` is `none` and is no error at all. -/
def errors.Is (err : Option GoError) (target : Sentinel) : Bool :=
  match err with
  | none => false
  | some e => e.Is target

/-- Whether the error is built the way the Go library builds errors: by `errors.New`,
or by `fmt.Errorf` with a `%w` verb, whose text holds the text of the wrapped error
where the verb stands. -/
def GoError.formatted : GoError → Bool
  | .mk _ => true
  | .wrap msg cause => decide (cause.Error.data <:+: msg.data) && cause.formatted
  | .sentinel _ => true

/-- The function `GetHTTPStatus` -/
def GetHTTPStatus (dom : DomainErrors) (err : Option GoError) : Int :=
  if errors.Is err dom.notFound then 404
  else if errors.Is err dom.alreadyExists then 409
  else if errors.Is err dom.invalidInput then 400
  else 500

/-- A line of the logger of package `presentation`: the message and the value logged
under the key `error` -/
structure ErrorLog where
  msg : String
  err : Option GoError
deriving DecidableEq, Repr

/-- The function `SanitizeError`: the message for the client and the lines it logs.
`err.Error()` is evaluated only where `errors.Is` has found `err` to be non-nil. -/
def SanitizeError (dom : DomainErrors) (err : Option GoError) : String × List ErrorLog :=
  match err with
  | none =>
    ("An internal error occurred", [{ msg := "internal server error occurred", err := none }])
  | some e =>
    if errors.Is (some e) dom.notFound then (e.Error, [])
    else if errors.Is (some e) dom.alreadyExists then (e.Error, [])
    else if errors.Is (some e) dom.invalidInput then (e.Error, [])
    else
      ("An internal error occurred",
        [{ msg := "internal server error occurred", err := some e }])

/-- The error `huma.NewError(status, msg)` builds: its status and its detail -/
structure StatusError where
  Status : Int
  Detail : String
deriving DecidableEq, Repr

/-- The function `NewHumaError`, with the lines logged on the way -/
def NewHumaError (dom : DomainErrors) (err : Option GoError) : StatusError × List ErrorLog :=
  ({ Status := GetHTTPStatus dom err, Detail := (SanitizeError dom err).1 },
    (SanitizeError dom err).2)

/-- An error of the database driver, unknown to the domain -/
def connectionRefused : GoError :=
  GoError.mk "dial tcp 10.0.0.5:5432: connect: connection refused"

/-- Another internal error: a constraint violation with the name of the constraint -/
def constraintViolated : GoError :=
  GoError.errorf "failed to create user"
    (GoError.mk "pq: duplicate key value violates unique constraint users_email_key")

/-- An error made by `errors.New` with the text of `ErrNotFound` of `exampleDomain`:
it reads the same and is another value -/
def notFoundLookAlike : GoError :=
  GoError.mk "not found"

/-- A request to create a user that has no email -/
def emailMissing : UserCreate :=
  { Email := "", FirstName := "Test", LastName := "User" }

/-- An update whose email has no `@` -/
def emailMalformed : UserUpdate :=
  { Email := some "not-an-email", FirstName := none, LastName := none }

/-! ## `presentation/pagination.go`, `Service.ListUsers` and `Controller.ListUsers` -/

/-- The least Go `int` on a 64-bit platform -/
def minInt : Int := -(2 ^ 63)

/-- The greatest Go `int` on a 64-bit platform -/
def maxInt : Int := 2 ^ 63 - 1

/-- The Go `int` that an exact result of `int` arithmetic is stored as: its two's
complement reading in 64 bits -/
def wrapInt (x : Int) : Int :=
  (x + 2 ^ 63) % 2 ^ 64 - 2 ^ 63

/-- The constant `DefaultPage` -/
def DefaultPage : Int := 1

/-- The constant `DefaultLimit` -/
def DefaultLimit : Int := 10

/-- The constant `MaxLimit` -/
def MaxLimit : Int := 100

/-- The struct `PaginationResponse` -/
structure PaginationResponse where
  Page : Int
  Limit : Int
  Total : Int
  TotalPages : Int
deriving DecidableEq, Repr

/-- The function `NormalizePagination`: the offset and the normalized limit -/
def NormalizePagination (page limit : Int) : Int × Int :=
  let page := if page < 1 then DefaultPage else page
  let limit := if limit < 1 then DefaultLimit else limit
  let limit := if limit > MaxLimit then MaxLimit else limit
  let offset := wrapInt (wrapInt (page - 1) * limit)
  (offset, limit)

/-- The function `CalculateTotalPages`. `total / limit` rounds towards zero and
`total % limit` has the sign of `total`; `none` is the run-time panic of an integer
division by zero. -/
def CalculateTotalPages (total limit : Int) : Option Int :=
  if total = 0 then some 0
  else if limit = 0 then none
  else
    let pages := wrapInt (total.tdiv limit)
    let pages := if total.tmod limit > 0 then wrapInt (pages + 1) else pages
    some pages

namespace Service

variable {σ : Type}

/-- The function literal `ListUsers` passes to `WithTransaction`; the variables it
captures are `users` and `total`. -/
def listUsersFn (env : ServiceEnv σ) (limit offset : Int) (txCtx : Context) (s : σ) :
    (Option GoError × (List User × Int)) × List ServiceEffect × σ :=
  let u := env.List txCtx limit offset s
  match u.1 with
  | .error err =>
    ((some err, ([], 0)), [ServiceEffect.List txCtx limit offset (.error err)], u.2)
  | .ok users =>
    let c := env.Count txCtx u.2
    match c.1 with
    | .error err =>
      ((some err, (users, 0)),
        [ServiceEffect.List txCtx limit offset (.ok users),
          ServiceEffect.Count txCtx (.error err)], c.2)
    | .ok count =>
      ((none, (users, count)),
        [ServiceEffect.List txCtx limit offset (.ok users),
          ServiceEffect.Count txCtx (.ok count)], c.2)

/-- The method `ListUsers`: the users, the total and the error, all three returned
whatever the error is -/
def ListUsers (env : ServiceEnv σ) (ctx : Context) (limit offset : Int) (s : σ) :
    (List User × Int × Option GoError) × List ServiceEffect × σ :=
  let r := TransactionManager.WithTransaction env ctx (([] : List User), (0 : Int))
    (listUsersFn env limit offset) s
  ((r.1.2.1, r.1.2.2, r.1.1), r.2.1, r.2.2)

end Service

/-- The struct `Response` of package `api/v1/user` -/
structure Response where
  ID : String
  Email : String
  FirstName : String
  LastName : String
  CreatedAt : String
  UpdatedAt : String
deriving DecidableEq, Repr

/-- The struct `ListUsersResponse` -/
structure ListUsersResponse where
  Data : List Response
  Pagination : PaginationResponse
deriving DecidableEq, Repr

/-- The function `toUserResponse`; `layout` is `Time.Format` with the layout of the
mapper -/
def toUserResponse (layout : Time → String) (u : User) : Response :=
  { ID := u.ID
    Email := u.Email
    FirstName := u.FirstName
    LastName := u.LastName
    CreatedAt := layout u.CreatedAt
    UpdatedAt := layout u.UpdatedAt }

/-- The function `toUserResponseList` -/
def toUserResponseList (layout : Time → String) (users : List User) : List Response :=
  users.map (toUserResponse layout)

/-- The method `Controller.ListUsers` for the query parameters `page` and `limit`:
the body of the output or the error for the client, with the calls made and the
lines logged on the way. The outer `none` is a run-time panic of the handler. -/
def Controller.ListUsers {σ : Type} (dom : DomainErrors) (env : ServiceEnv σ)
    (layout : Time → String) (ctx : Context) (page limit : Int) (s : σ) :
    Option (Except StatusError ListUsersResponse) × List ServiceEffect × σ :=
  let n := NormalizePagination page limit
  let offset := n.1
  let normalizedLimit := n.2
  let r := Service.ListUsers env ctx normalizedLimit offset s
  match r.1.2.2 with
  | some err =>
    let e := NewHumaError dom (some err)
    (some (.error e.1), r.2.1 ++ e.2.map (fun l => ServiceEffect.LogError l.msg l.err), r.2.2)
  | none =>
    match CalculateTotalPages r.1.2.1 normalizedLimit with
    | none => (none, r.2.1, r.2.2)
    | some totalPages =>
      (some (.ok
        { Data := toUserResponseList layout r.1.1
          Pagination :=
            { Page := page
              Limit := normalizedLimit
              Total := r.1.2.1
              TotalPages := totalPages } }),
        r.2.1, r.2.2)

/-- The layout of the mapper on the one time the examples use -/
def exampleLayout (t : Time) : String :=
  if t = newYear2023 then "2023-01-01T00:00:00Z" else "0001-01-01T00:00:00Z"

/-! ## Runs of the serializer, and a backend that omits the message of a failure -/

/-- The serializer takes the events of a batch one after the other, from the state
`s`: its call on each returns bytes, `datas` lists them in order, and the last call
leaves the state `s1`. -/
inductive Serializes {σ E : Type} (env : PublisherEnv σ E) :
    List E → σ → List String → σ → Prop where
  | nil (s : σ) : Serializes env [] s [] s
  | cons (event : E) (rest : List E) (s s1 s2 : σ) (data : String) (datas : List String)
      (hcall : env.Serialize event s = (.ok data, s1))
      (hrest : Serializes env rest s1 datas s2) :
    Serializes env (event :: rest) s (data :: datas) s2

/-- The response that lists the given ids and messages as failed entries and holds no
nil -/
def failedResponse (filled : List (String × String)) : Option PublishBatchOutput :=
  some { Failed := filled.map fun q => some { Id := some q.1, Message := some q.2 } }

/-- The response of a backend that rejects the second entry of the batch of three and
gives no message for it -/
def secondRejectedWithoutMessage : PublishBatchOutput :=
  { Failed := [some { Id := some "id-2", Message := none }] }

/-- A publisher environment for examples whose serializer writes the event id and
whose backend answers with `secondRejectedWithoutMessage` -/
def omittingPublisherEnv : PublisherEnv Nat UserCreatedEvent where
  Serialize := fun event n => (.ok event.toEventMetadata.EventID, n)
  PublishBatch := fun _ n => (.ok (some secondRejectedWithoutMessage), n + 1)

/-! ## Runs of the collaborators over polled messages -/

/-- A run of the deserializer, the handler and the backend over a list of messages in
which nothing fails: from the state `s` on, the body of each message deserializes to
an event, `Handle` returns nil on that event and `DeleteMessage` for the receipt
handle of the message returns nil, each call made in the state the call before it
left. The run yields the events and ends in the state the last delete call left. -/
inductive Processes {σ T : Type} (env : ConsumerEnv σ T) (queueURL : String) :
    List Message → σ → List T → σ → Prop where
  | nil (s : σ) : Processes env queueURL [] s [] s
  | cons (message : Message) (rest : List Message) (s s1 s2 s3 s4 : σ) (event : T)
      (events : List T)
      (hdeserialize : env.Deserialize message.Body s = (.ok event, s1))
      (hhandle : env.Handle event s1 = (none, s2))
      (hdelete : env.DeleteMessage
        { QueueUrl := queueURL, ReceiptHandle := message.ReceiptHandle } s2 = (none, s3))
      (hrest : Processes env queueURL rest s3 events s4) :
    Processes env queueURL (message :: rest) s (event :: events) s4

/-- The counters of the mocks after `r` polls, `d` deserializations, `h` handler
calls and `a` delete calls -/
def afterCalls (r d h a : Nat) : MockCounts :=
  { receiveMessageCallCount := r
    deleteMessageCallCount := a
    deleteMessageBatchCallCount := 0
    deserializeCallCount := d
    handlerCallCount := h }

/-! ## The consumer over the response types of aws-sdk-go

The SDK declares `Body` and `ReceiptHandle` of an `sqs.Message` as `*string`, the
elements of `ReceiveMessageOutput.Messages` as `*sqs.Message`, and returns the output
itself as a pointer. `consumer/sqs.go` reads all of them without a nil check. The
functions of this section are the cycle functions and the loop over these types, a
nil dereference being a panic; the functions over `Message` above are the same
functions on responses that hold no nil. -/

/-- An `sqs.Message` as the SDK declares it: each field is `none` when the pointer
is nil -/
structure RawMessage where
  Body : Option String
  ReceiptHandle : Option String
deriving DecidableEq, Repr

/-- The output `sqs.ReceiveMessageOutput`, whose `Messages` are pointers -/
structure ReceiveMessageOutput where
  Messages : List (Option RawMessage)
deriving DecidableEq, Repr

/-- One observable step of the consumer over the SDK types: the poll with the result
the SDK returned, or a step as in `Effect` -/
inductive RawEffect (T : Type) where
  | ReceiveMessage (input : ReceiveMessageInput)
      (out : Except GoError (Option ReceiveMessageOutput))
  | step (effect : Effect T)
deriving DecidableEq

/-- The collaborators of a consumer, the client returning what the SDK returns: an
error, or a pointer to an output -/
structure RawConsumerEnv (σ T : Type) where
  ReceiveMessage : ReceiveMessageInput → σ → Except GoError (Option ReceiveMessageOutput) × σ
  DeleteMessage : DeleteMessageInput → σ → Option GoError × σ
  DeleteMessageBatch : DeleteMessageBatchInput → σ → Option GoError × σ
  Deserialize : String → σ → Except GoError T × σ
  Handle : T → σ → Option GoError × σ
  HandleBatch : List T → σ → Option GoError × σ

/-- A message without nil, as the SDK hands it over -/
def Message.raw (message : Message) : Option RawMessage :=
  some { Body := some message.Body, ReceiptHandle := some message.ReceiptHandle }

/-- A list of messages without nil, as the output the SDK hands over -/
def rawOutput (messages : List Message) : Option ReceiveMessageOutput :=
  some { Messages := messages.map Message.raw }

/-- The message behind a pointer of the SDK, if neither the pointer nor one of its
two fields is nil -/
def viewMessage : Option RawMessage → Option Message
  | some { Body := some body, ReceiptHandle := some handle } =>
    some { Body := body, ReceiptHandle := handle }
  | _ => none

/-- The messages of a list of pointers, if none of them and none of their fields is
nil -/
def viewMessages : List (Option RawMessage) → Option (List Message)
  | [] => some []
  | message :: rest =>
    match viewMessage message, viewMessages rest with
    | some m, some ms => some (m :: ms)
    | _, _ => none

/-- The messages of an output of the SDK, if the output, its messages and their
fields are all non-nil -/
def viewOutput : Option ReceiveMessageOutput → Option (List Message)
  | none => none
  | some out => viewMessages out.Messages

/-- Whether an output of the SDK holds no nil: the pointer to the output, the pointer
to each message, and the body and receipt handle of each message -/
def wellFormed (out : Option ReceiveMessageOutput) : Bool :=
  (viewOutput out).isSome

/-- The collaborators with the poll result read as a list of messages. An output that
holds a nil is read as the empty list; the theorems read outputs that hold none. -/
def RawConsumerEnv.view {σ T : Type} (renv : RawConsumerEnv σ T) : ConsumerEnv σ T where
  ReceiveMessage := fun input s =>
    (match (renv.ReceiveMessage input s).1 with
      | .error err => .error err
      | .ok out => .ok ((viewOutput out).getD []),
      (renv.ReceiveMessage input s).2)
  DeleteMessage := renv.DeleteMessage
  DeleteMessageBatch := renv.DeleteMessageBatch
  Deserialize := renv.Deserialize
  Handle := renv.Handle
  HandleBatch := renv.HandleBatch

/-- The collaborators with a client whose outputs hold no nil -/
def ConsumerEnv.raw {σ T : Type} (env : ConsumerEnv σ T) : RawConsumerEnv σ T where
  ReceiveMessage := fun input s =>
    (match (env.ReceiveMessage input s).1 with
      | .error err => .error err
      | .ok messages => .ok (rawOutput messages),
      (env.ReceiveMessage input s).2)
  DeleteMessage := env.DeleteMessage
  DeleteMessageBatch := env.DeleteMessageBatch
  Deserialize := env.Deserialize
  Handle := env.Handle
  HandleBatch := env.HandleBatch

/-- A step over messages without nil, as a step over the SDK types -/
def Effect.raw {T : Type} : Effect T → RawEffect T
  | Effect.ReceiveMessage input (.error err) => RawEffect.ReceiveMessage input (.error err)
  | Effect.ReceiveMessage input (.ok messages) =>
    RawEffect.ReceiveMessage input (.ok (rawOutput messages))
  | effect => RawEffect.step effect

/-- The number of `ReceiveMessage` calls of a run over the SDK types -/
def rawPollCount {T : Type} (tr : List (RawEffect T)) : Nat :=
  (tr.filter fun
    | RawEffect.ReceiveMessage _ _ => true
    | _ => false).length

namespace SQSConsumer

variable {σ T : Type}

/-- The `for _, message := range message.Messages` loop of
`processBatchOfSingleMessages` over the SDK types: `*message.Body` and
`*message.ReceiptHandle` panic on a nil pointer, and so does reading a field of a nil
message. -/
def rawSingleLoop (c : SQSConsumer) (renv : RawConsumerEnv σ T) :
    List (Option RawMessage) → σ → Outcome Unit × List (Effect T) × σ
  | [], s => (.returned (), [], s)
  | none :: _, s => (.panicked nilDereference, [], s)
  | some message :: rest, s =>
    match message.Body with
    | none => (.panicked nilDereference, [], s)
    | some body =>
      let d := renv.Deserialize body s
      match d.1 with
      | .error err =>
        (.returned (), [Effect.Deserialize body (.error err),
          Effect.LogError "failed to deserialize event" err], d.2)
      | .ok event =>
        let h := renv.Handle event d.2
        match h.1 with
        | some err =>
          (.returned (), [Effect.Deserialize body (.ok event), Effect.Handle event (some err),
            Effect.LogError "failed to handle event" err], h.2)
        | none =>
          match message.ReceiptHandle with
          | none =>
            (.panicked nilDereference,
              [Effect.Deserialize body (.ok event), Effect.Handle event none], h.2)
          | some handle =>
            let a := c.Ack renv.view handle h.2
            match a.1 with
            | some err =>
              (.returned (), Effect.Deserialize body (.ok event) :: Effect.Handle event none ::
                (a.2.1 ++ [Effect.LogError "failed to ack sqs message" err]), a.2.2)
            | none =>
              let r := rawSingleLoop c renv rest a.2.2
              (r.1, Effect.Deserialize body (.ok event) :: Effect.Handle event none ::
                (a.2.1 ++ r.2.1), r.2.2)

/-- The method `processBatchOfSingleMessages` over the SDK types: `message.Messages`
panics when the output is a nil pointer. -/
def rawProcessBatchOfSingleMessages (c : SQSConsumer) (renv : RawConsumerEnv σ T) (s : σ) :
    Outcome Unit × List (RawEffect T) × σ :=
  let p := renv.ReceiveMessage c.receiveInput s
  match p.1 with
  | .error err =>
    (.returned (), [RawEffect.ReceiveMessage c.receiveInput (.error err),
      RawEffect.step (Effect.LogError "failed to receive sqs messages" err),
      RawEffect.step (Effect.Sleep errorBackoff)], p.2)
  | .ok none =>
    (.panicked nilDereference, [RawEffect.ReceiveMessage c.receiveInput (.ok none)], p.2)
  | .ok (some out) =>
    if out.Messages.length = 0 then
      (.returned (), [RawEffect.ReceiveMessage c.receiveInput (.ok (some out))], p.2)
    else
      let r := rawSingleLoop c renv out.Messages p.2
      (r.1, RawEffect.ReceiveMessage c.receiveInput (.ok (some out)) ::
        r.2.1.map RawEffect.step, r.2.2)

/-- The first loop of `processBatchOfMessages` over the SDK types -/
def rawDeserializeLoop (renv : RawConsumerEnv σ T) :
    List (Option RawMessage) → List T → σ →
      Outcome (Except GoError (List T)) × List (Effect T) × σ
  | [], events, s => (.returned (.ok events), [], s)
  | none :: _, _, s => (.panicked nilDereference, [], s)
  | some message :: rest, events, s =>
    match message.Body with
    | none => (.panicked nilDereference, [], s)
    | some body =>
      let d := renv.Deserialize body s
      match d.1 with
      | .error err =>
        (.returned (.error err), [Effect.Deserialize body (.error err),
          Effect.LogError "failed to deserialize event" err], d.2)
      | .ok event =>
        let r := rawDeserializeLoop renv rest (events ++ [event]) d.2
        (r.1, Effect.Deserialize body (.ok event) :: r.2.1, r.2.2)

/-- The second loop of `processBatchOfMessages` over the SDK types -/
def rawAckLoop (c : SQSConsumer) (renv : RawConsumerEnv σ T) :
    List (Option RawMessage) → σ → Outcome Unit × List (Effect T) × σ
  | [], s => (.returned (), [], s)
  | none :: _, s => (.panicked nilDereference, [], s)
  | some message :: rest, s =>
    match message.ReceiptHandle with
    | none => (.panicked nilDereference, [], s)
    | some handle =>
      let a := c.Ack renv.view handle s
      match a.1 with
      | some err =>
        (.returned (), a.2.1 ++ [Effect.LogError "failed to ack sqs message" err], a.2.2)
      | none =>
        let r := rawAckLoop c renv rest a.2.2
        (r.1, a.2.1 ++ r.2.1, r.2.2)

/-- The method `processBatchOfMessages` over the SDK types -/
def rawProcessBatchOfMessages (c : SQSConsumer) (renv : RawConsumerEnv σ T) (s : σ) :
    Outcome Unit × List (RawEffect T) × σ :=
  let p := renv.ReceiveMessage c.receiveInput s
  match p.1 with
  | .error err =>
    (.returned (), [RawEffect.ReceiveMessage c.receiveInput (.error err),
      RawEffect.step (Effect.LogError "failed to receive sqs messages" err),
      RawEffect.step (Effect.Sleep errorBackoff)], p.2)
  | .ok none =>
    (.panicked nilDereference, [RawEffect.ReceiveMessage c.receiveInput (.ok none)], p.2)
  | .ok (some out) =>
    if out.Messages.length = 0 then
      (.returned (), [RawEffect.ReceiveMessage c.receiveInput (.ok (some out))], p.2)
    else
      let d := rawDeserializeLoop renv out.Messages [] p.2
      match d.1 with
      | .panicked reason =>
        (.panicked reason, RawEffect.ReceiveMessage c.receiveInput (.ok (some out)) ::
          d.2.1.map RawEffect.step, d.2.2)
      | .returned (.error _) =>
        (.returned (), RawEffect.ReceiveMessage c.receiveInput (.ok (some out)) ::
          d.2.1.map RawEffect.step, d.2.2)
      | .returned (.ok events) =>
        let h := renv.HandleBatch events d.2.2
        match h.1 with
        | some err =>
          (.returned (), RawEffect.ReceiveMessage c.receiveInput (.ok (some out)) ::
            (d.2.1 ++ [Effect.HandleBatch events (some err),
              Effect.LogError "failed to handle events" err]).map RawEffect.step, h.2)
        | none =>
          let r := rawAckLoop c renv out.Messages h.2
          (r.1, RawEffect.ReceiveMessage c.receiveInput (.ok (some out)) ::
            (d.2.1 ++ Effect.HandleBatch events none :: r.2.1).map RawEffect.step, r.2.2)

end SQSConsumer

/-- Whether the goroutine of a consumer has returned, has been ended by a panic, or
is still going when the cycles counted are spent -/
inductive RawLoopStatus where
  | stopped
  | running
  | panicked (reason : String)
deriving DecidableEq, Repr

/-- The status of a loop that does not panic -/
def LoopStatus.raw : LoopStatus → RawLoopStatus
  | .stopped => .stopped
  | .running => .running

section RawLoops

variable {σ T : Type}

/-- The loop of the goroutine that `Start` and `StartBatch` start, over cycles that
can panic: nothing recovers a panic, so it ends the goroutine. -/
def SQSConsumer.rawLoop (cycle : σ → Outcome Unit × List (RawEffect T) × σ)
    (done : σ → Bool) : Nat → σ → RawLoopStatus × List (RawEffect T) × σ
  | 0, s => (.running, [], s)
  | fuel + 1, s =>
    if done s then
      (.stopped,
        [RawEffect.step (Effect.LogInfo "sqs consumer context canceled, stopping")], s)
    else
      let r := cycle s
      match r.1 with
      | .panicked reason => (.panicked reason, r.2.1, r.2.2)
      | .returned _ =>
        let rest := SQSConsumer.rawLoop cycle done fuel r.2.2
        (rest.1, r.2.1 ++ rest.2.1, rest.2.2)

/-- The goroutine of the method `Start` over the SDK types -/
def SQSConsumer.rawStart (c : SQSConsumer) (renv : RawConsumerEnv σ T) (done : σ → Bool)
    (fuel : Nat) (s : σ) : RawLoopStatus × List (RawEffect T) × σ :=
  let r := SQSConsumer.rawLoop (c.rawProcessBatchOfSingleMessages renv) done fuel s
  (r.1, RawEffect.step (Effect.LogInfo "starting sqs consumer") :: r.2.1, r.2.2)

/-- The goroutine of the method `StartBatch` over the SDK types -/
def SQSConsumer.rawStartBatch (c : SQSConsumer) (renv : RawConsumerEnv σ T)
    (done : σ → Bool) (fuel : Nat) (s : σ) : RawLoopStatus × List (RawEffect T) × σ :=
  let r := SQSConsumer.rawLoop (c.rawProcessBatchOfMessages renv) done fuel s
  (r.1, RawEffect.step (Effect.LogInfo "starting sqs consumer in batch mode") :: r.2.1, r.2.2)

end RawLoops

/-- Mocks whose poll returns one message that has a receipt handle and no body -/
def messageWithoutBody : RawConsumerEnv MockCounts String :=
  { (mockEnv (allSucceed [])).raw with
    ReceiveMessage := fun _ n =>
      (.ok (some { Messages := [some { Body := none, ReceiptHandle := some "receipt-handle-1" }] }),
        { n with receiveMessageCallCount := n.receiveMessageCallCount + 1 }) }

/-! ## Theorems: the consumer -/

section ConsumerLemmas

variable {σ T : Type}

theorem cons_eq_append_cons {α : Type} {x d : α} {l pre post : List α}
    (h : x :: l = pre ++ d :: post) :
    (pre = [] ∧ x = d ∧ l = post) ∨ ∃ pre1, pre = x :: pre1 ∧ l = pre1 ++ d :: post := by
  cases pre with
  | nil =>
    simp only [List.nil_append, List.cons.injEq] at h
    exact Or.inl ⟨rfl, h.1, h.2⟩
  | cons y pre1 =>
    simp only [List.cons_append, List.cons.injEq] at h
    exact Or.inr ⟨pre1, by rw [h.1], h.2⟩

theorem SQSConsumer.Ack_trace (c : SQSConsumer) (env : ConsumerEnv σ T) (messageID : String)
    (s : σ) :
    (c.Ack env messageID s).2.1 =
      [Effect.DeleteMessage { QueueUrl := c.queueURL, ReceiptHandle := messageID }
        (env.DeleteMessage { QueueUrl := c.queueURL, ReceiptHandle := messageID } s).1] := by
  unfold SQSConsumer.Ack
  cases h : (env.DeleteMessage { QueueUrl := c.queueURL, ReceiptHandle := messageID } s).1 <;>
    simp [h]

theorem SQSConsumer.Ack_none_iff (c : SQSConsumer) (env : ConsumerEnv σ T) (messageID : String)
    (s : σ) :
    (c.Ack env messageID s).1 = none ↔
      (env.DeleteMessage { QueueUrl := c.queueURL, ReceiptHandle := messageID } s).1 = none := by
  unfold SQSConsumer.Ack
  cases h : (env.DeleteMessage { QueueUrl := c.queueURL, ReceiptHandle := messageID } s).1 <;>
    simp [h]

theorem SQSConsumer.Ack_some (c : SQSConsumer) (env : ConsumerEnv σ T) (messageID : String)
    (s : σ) (err : GoError) (h : (c.Ack env messageID s).1 = some err) :
    ∃ cause,
      (env.DeleteMessage { QueueUrl := c.queueURL, ReceiptHandle := messageID } s).1 = some cause ∧
      err = GoError.errorf "failed to delete sqs message" cause := by
  unfold SQSConsumer.Ack at h
  cases hd : (env.DeleteMessage { QueueUrl := c.queueURL, ReceiptHandle := messageID } s).1 with
  | none => simp [hd] at h
  | some cause =>
    simp only [hd, Option.some.injEq] at h
    exact ⟨cause, rfl, h.symm⟩

theorem SQSConsumer.singleLoop_delete (c : SQSConsumer) (env : ConsumerEnv σ T)
    (messages : List Message) :
    ∀ (s : σ) (pre post : List (Effect T)) (input : DeleteMessageInput) (err : Option GoError),
      (c.singleLoop env messages s).1 = pre ++ Effect.DeleteMessage input err :: post →
      ∃ message event a, message ∈ messages ∧ message.ReceiptHandle = input.ReceiptHandle ∧
        pre = a ++ [Effect.Deserialize message.Body (.ok event), Effect.Handle event none] := by
  induction messages with
  | nil =>
    intro s pre post input err h
    simp [SQSConsumer.singleLoop] at h
  | cons message rest ih =>
    intro s pre post input err h
    unfold SQSConsumer.singleLoop at h
    cases hd : (env.Deserialize message.Body s).1 with
    | error e =>
      simp only [hd] at h
      rcases cons_eq_append_cons h with ⟨_, h1, _⟩ | ⟨p1, _, h1⟩
      · cases h1
      · rcases cons_eq_append_cons h1 with ⟨_, h2, _⟩ | ⟨p2, _, h2⟩
        · cases h2
        · simp at h2
    | ok event =>
      simp only [hd] at h
      cases hh : (env.Handle event (env.Deserialize message.Body s).2).1 with
      | some e =>
        simp only [hh] at h
        rcases cons_eq_append_cons h with ⟨_, h1, _⟩ | ⟨p1, _, h1⟩
        · cases h1
        · rcases cons_eq_append_cons h1 with ⟨_, h2, _⟩ | ⟨p2, _, h2⟩
          · cases h2
          · rcases cons_eq_append_cons h2 with ⟨_, h3, _⟩ | ⟨p3, _, h3⟩
            · cases h3
            · simp at h3
      | none =>
        simp only [hh, SQSConsumer.Ack_trace] at h
        have key : ∀ tail : List (Effect T),
            (∀ pre3, tail = pre3 ++ Effect.DeleteMessage input err :: post →
              ∃ m ev a, m ∈ rest ∧ m.ReceiptHandle = input.ReceiptHandle ∧
                pre3 = a ++ [Effect.Deserialize m.Body (.ok ev), Effect.Handle ev none]) →
            Effect.Deserialize message.Body (.ok event) :: Effect.Handle event none ::
              ([Effect.DeleteMessage
                  { QueueUrl := c.queueURL, ReceiptHandle := message.ReceiptHandle }
                  (env.DeleteMessage
                    { QueueUrl := c.queueURL, ReceiptHandle := message.ReceiptHandle }
                    (env.Handle event (env.Deserialize message.Body s).2).2).1] ++ tail) =
              pre ++ Effect.DeleteMessage input err :: post →
            ∃ m ev a, m ∈ message :: rest ∧ m.ReceiptHandle = input.ReceiptHandle ∧
              pre = a ++ [Effect.Deserialize m.Body (.ok ev), Effect.Handle ev none] := by
          intro tail htail h
          rcases cons_eq_append_cons h with ⟨_, h1, _⟩ | ⟨p1, hp1, h1⟩
          · cases h1
          · rcases cons_eq_append_cons h1 with ⟨_, h2, _⟩ | ⟨p2, hp2, h2⟩
            · cases h2
            · rw [List.singleton_append] at h2
              rcases cons_eq_append_cons h2 with ⟨hp3, h3, _⟩ | ⟨p3, hp3, h3⟩
              · refine ⟨message, event, [], List.mem_cons_self _ _, ?_, ?_⟩
                · injection h3 with hi _
                  rw [← hi]
                · rw [hp1, hp2, hp3]
                  rfl
              · obtain ⟨m, ev, a, hm, hr, ha⟩ := htail p3 h3
                subst hp1 hp2 hp3 ha
                exact ⟨m, ev, _ :: _ :: _ :: a, List.mem_cons_of_mem _ hm, hr, rfl⟩
        cases ha : (c.Ack env message.ReceiptHandle
            (env.Handle event (env.Deserialize message.Body s).2).2).1 with
        | some e =>
          simp only [ha] at h
          apply key _ _ h
          intro pre3 h3
          rcases cons_eq_append_cons h3 with ⟨_, h4, _⟩ | ⟨p4, _, h4⟩
          · cases h4
          · simp at h4
        | none =>
          simp only [ha] at h
          exact key _ (fun pre3 h3 => ih _ pre3 post input err h3) h

theorem split_after {α : Type} {l1 l2 pre post : List α} {d : α} (hd : d ∉ l1)
    (h : l1 ++ l2 = pre ++ d :: post) : ∃ pre2, pre = l1 ++ pre2 ∧ l2 = pre2 ++ d :: post := by
  rcases List.append_eq_append_iff.mp h with ⟨a, ha, hb⟩ | ⟨b, ha, hb⟩
  · exact ⟨a, ha, hb⟩
  · cases b with
    | nil =>
      refine ⟨[], ?_, ?_⟩
      · simpa using ha.symm
      · simpa using hb.symm
    | cons x b1 =>
      exfalso
      simp only [List.cons_append, List.cons.injEq] at hb
      apply hd
      rw [ha, hb.1]
      simp

theorem SQSConsumer.deserializeLoop_ok (env : ConsumerEnv σ T) (messages : List Message) :
    ∀ (events : List T) (s : σ) (result : List T),
      (SQSConsumer.deserializeLoop env messages events s).1 = .ok result →
      ∃ evs, evs.length = messages.length ∧ result = events ++ evs ∧
        (SQSConsumer.deserializeLoop env messages events s).2.1 =
          (messages.zip evs).map deserializedOk := by
  induction messages with
  | nil =>
    intro events s result h
    simp only [SQSConsumer.deserializeLoop, Except.ok.injEq] at h
    exact ⟨[], rfl, by simp [h], by simp [SQSConsumer.deserializeLoop]⟩
  | cons message rest ih =>
    intro events s result h
    unfold SQSConsumer.deserializeLoop at h ⊢
    cases hd : (env.Deserialize message.Body s).1 with
    | error e => simp [hd] at h
    | ok event =>
      simp only [hd] at h ⊢
      obtain ⟨evs, hlen, hres, htr⟩ := ih _ _ _ h
      refine ⟨event :: evs, by simp [hlen], by simp [hres], ?_⟩
      rw [htr]
      rfl

theorem SQSConsumer.deserializeLoop_error (env : ConsumerEnv σ T) (messages : List Message) :
    ∀ (events : List T) (s : σ) (err : GoError),
      (SQSConsumer.deserializeLoop env messages events s).1 = .error err →
      ∃ k message evs, messages[k]? = some message ∧ evs.length = k ∧
        (SQSConsumer.deserializeLoop env messages events s).2.1 =
          ((messages.take k).zip evs).map deserializedOk ++
            [Effect.Deserialize message.Body (.error err),
              Effect.LogError "failed to deserialize event" err] := by
  induction messages with
  | nil =>
    intro events s err h
    simp [SQSConsumer.deserializeLoop] at h
  | cons message rest ih =>
    intro events s err h
    unfold SQSConsumer.deserializeLoop at h ⊢
    cases hd : (env.Deserialize message.Body s).1 with
    | error e =>
      simp only [hd, Except.error.injEq] at h ⊢
      subst h
      exact ⟨0, message, [], by simp, rfl, rfl⟩
    | ok event =>
      simp only [hd] at h ⊢
      obtain ⟨k, m, evs, hk, hlen, htr⟩ := ih _ _ _ h
      refine ⟨k + 1, m, event :: evs, by simpa using hk, by simp [hlen], ?_⟩
      rw [htr]
      rfl

theorem SQSConsumer.ackLoop_trace (c : SQSConsumer) (env : ConsumerEnv σ T)
    (messages : List Message) :
    ∀ s : σ,
      (c.ackLoop env messages s).1 = messages.map (fun m => deleteCall c.queueURL m none) ∨
      ∃ k message cause, messages[k]? = some message ∧
        (c.ackLoop env messages s).1 =
          (messages.take k).map (fun m => deleteCall c.queueURL m none) ++
            [deleteCall c.queueURL message (some cause),
              Effect.LogError "failed to ack sqs message"
                (GoError.errorf "failed to delete sqs message" cause)] := by
  induction messages with
  | nil =>
    intro s
    exact Or.inl rfl
  | cons message rest ih =>
    intro s
    unfold SQSConsumer.ackLoop
    cases ha : (c.Ack env message.ReceiptHandle s).1 with
    | some e =>
      obtain ⟨cause, hc, he⟩ := SQSConsumer.Ack_some c env _ _ _ ha
      refine Or.inr ⟨0, message, cause, by simp, ?_⟩
      simp only [ha, SQSConsumer.Ack_trace, hc, he]
      rfl
    | none =>
      have hn := (SQSConsumer.Ack_none_iff c env _ _).mp ha
      simp only [ha, SQSConsumer.Ack_trace, hn]
      rcases ih (c.Ack env message.ReceiptHandle s).2.2 with h | ⟨k, m, cause, hk, h⟩
      · left
        rw [h]
        rfl
      · right
        refine ⟨k + 1, m, cause, by simpa using hk, ?_⟩
        rw [h]
        rfl

theorem SQSConsumer.singleLoop_trace (c : SQSConsumer) (env : ConsumerEnv σ T)
    (messages : List Message) :
    ∀ s : σ, ∃ (k : Nat) (evs : List T) (tail : List (Effect T)),
      evs.length = k ∧ k ≤ messages.length ∧
      (c.singleLoop env messages s).1 =
        ((messages.take k).zip evs).flatMap (processedOk c.queueURL) ++ tail ∧
      ((k = messages.length ∧ tail = []) ∨
        ∃ message, messages[k]? = some message ∧
          (FailsToProcess message tail ∨ FailsToAck c.queueURL message tail)) := by
  induction messages with
  | nil =>
    intro s
    exact ⟨0, [], [], rfl, le_refl _, rfl, Or.inl ⟨rfl, rfl⟩⟩
  | cons message rest ih =>
    intro s
    unfold SQSConsumer.singleLoop
    cases hd : (env.Deserialize message.Body s).1 with
    | error e =>
      simp only [hd]
      exact ⟨0, [], _, rfl, Nat.zero_le _, rfl,
        Or.inr ⟨message, by simp, Or.inl (FailsToProcess.deserialize e)⟩⟩
    | ok event =>
      simp only [hd]
      cases hh : (env.Handle event (env.Deserialize message.Body s).2).1 with
      | some e =>
        simp only [hh]
        exact ⟨0, [], _, rfl, Nat.zero_le _, rfl,
          Or.inr ⟨message, by simp, Or.inl (FailsToProcess.handle event e)⟩⟩
      | none =>
        simp only [hh]
        cases ha : (c.Ack env message.ReceiptHandle
            (env.Handle event (env.Deserialize message.Body s).2).2).1 with
        | some e =>
          obtain ⟨cause, hc, he⟩ := SQSConsumer.Ack_some c env _ _ _ ha
          simp only [ha, SQSConsumer.Ack_trace, hc, he]
          exact ⟨0, [], _, rfl, Nat.zero_le _, rfl,
            Or.inr ⟨message, by simp, Or.inr (FailsToAck.ack event cause)⟩⟩
        | none =>
          have hn := (SQSConsumer.Ack_none_iff c env _ _).mp ha
          simp only [ha, SQSConsumer.Ack_trace, hn]
          obtain ⟨k, evs, tail, hlen, hk, htr, hstop⟩ := ih (c.Ack env message.ReceiptHandle
            (env.Handle event (env.Deserialize message.Body s).2).2).2.2
          refine ⟨k + 1, event :: evs, tail, by simp [hlen], by simpa using hk, ?_, ?_⟩
          · rw [htr]
            rfl
          · rcases hstop with ⟨h1, h2⟩ | ⟨m, hm, hf⟩
            · exact Or.inl ⟨by simp [h1], h2⟩
            · exact Or.inr ⟨m, by simpa using hm, hf⟩

end ConsumerLemmas

section ConsumerTheorems

variable {σ T : Type}

theorem mem_of_split {α : Type} {l pre post : List α} {d : α} (h : l = pre ++ d :: post) :
    d ∈ l := by
  rw [h]
  simp

theorem SQSConsumer.ackLoop_delete (c : SQSConsumer) (env : ConsumerEnv σ T)
    (messages : List Message) (s : σ) (input : DeleteMessageInput) (err : Option GoError)
    (h : Effect.DeleteMessage input err ∈ (c.ackLoop env messages s).1) :
    ∃ message, message ∈ messages ∧ message.ReceiptHandle = input.ReceiptHandle := by
  rcases SQSConsumer.ackLoop_trace c env messages s with htr | ⟨k, m, cause, hk, htr⟩
  · rw [htr] at h
    simp only [List.mem_map, deleteCall, Effect.DeleteMessage.injEq] at h
    obtain ⟨m, hm, hi, _⟩ := h
    exact ⟨m, hm, by rw [← hi]⟩
  · rw [htr] at h
    simp only [List.mem_append, List.mem_map, deleteCall, Effect.DeleteMessage.injEq,
      List.mem_cons, List.mem_singleton, reduceCtorEq, or_false, List.not_mem_nil] at h
    rcases h with ⟨m1, hm1, hi, _⟩ | ⟨hi, _⟩
    · exact ⟨m1, List.mem_of_mem_take hm1, by rw [← hi]⟩
    · exact ⟨m, List.getElem?_mem hk, by rw [hi]⟩

/-- C1: in both dispatch modes, whatever the poll returns and whatever the
deserializer, the handler and the backend answer, every `DeleteMessage` call of a
cycle carries the receipt handle of a polled message whose body was deserialized with
a nil error earlier in the cycle and whose event was then, still before the delete,
passed to a handler call that returned nil: `Handle` on that event in single-item
mode, `HandleBatch` on a list containing that event in batch mode. -/
theorem ack_only_after_successful_handling (c : SQSConsumer) (env : ConsumerEnv σ T) (s : σ) :
    (∀ (pre post : List (Effect T)) (input : DeleteMessageInput) (err : Option GoError),
      (c.processBatchOfSingleMessages env s).1 = pre ++ Effect.DeleteMessage input err :: post →
      ∃ messages message event a b d,
        (env.ReceiveMessage c.receiveInput s).1 = .ok messages ∧
        message ∈ messages ∧ message.ReceiptHandle = input.ReceiptHandle ∧
        pre = a ++ Effect.Deserialize message.Body (.ok event) ::
          (b ++ Effect.Handle event none :: d)) ∧
    (∀ (pre post : List (Effect T)) (input : DeleteMessageInput) (err : Option GoError),
      (c.processBatchOfMessages env s).1 = pre ++ Effect.DeleteMessage input err :: post →
      ∃ messages message event events a b d,
        (env.ReceiveMessage c.receiveInput s).1 = .ok messages ∧
        message ∈ messages ∧ message.ReceiptHandle = input.ReceiptHandle ∧
        event ∈ events ∧
        pre = a ++ Effect.Deserialize message.Body (.ok event) ::
          (b ++ Effect.HandleBatch events none :: d)) := by
  constructor
  · intro pre post input err h
    unfold SQSConsumer.processBatchOfSingleMessages at h
    cases hp : (env.ReceiveMessage c.receiveInput s).1 with
    | error e =>
      simp only [hp] at h
      have hm := mem_of_split h
      simp at hm
    | ok messages =>
      simp only [hp] at h
      by_cases hlen : messages.length = 0
      · simp only [hlen, if_true] at h
        have hm := mem_of_split h
        simp at hm
      · simp only [hlen, if_false] at h
        rcases cons_eq_append_cons h with ⟨_, h1, _⟩ | ⟨p1, hp1, h1⟩
        · cases h1
        · obtain ⟨m, ev, a, hmem, hr, ha⟩ := SQSConsumer.singleLoop_delete c env _ _ _ _ _ _ h1
          refine ⟨messages, m, ev, Effect.ReceiveMessage c.receiveInput (.ok messages) :: a,
            [], [], rfl, hmem, hr, ?_⟩
          rw [hp1, ha]
          rfl
  · intro pre post input err h
    unfold SQSConsumer.processBatchOfMessages at h
    cases hp : (env.ReceiveMessage c.receiveInput s).1 with
    | error e =>
      simp only [hp] at h
      have hm := mem_of_split h
      simp at hm
    | ok messages =>
      simp only [hp] at h
      by_cases hlen : messages.length = 0
      · simp only [hlen, if_true] at h
        have hm := mem_of_split h
        simp at hm
      · simp only [hlen, if_false] at h
        cases hd : (SQSConsumer.deserializeLoop env messages []
            (env.ReceiveMessage c.receiveInput s).2).1 with
        | error e =>
          simp only [hd] at h
          obtain ⟨k, m, evs, _, _, htr⟩ := SQSConsumer.deserializeLoop_error env _ _ _ _ hd
          rw [htr] at h
          have hm := mem_of_split h
          simp [deserializedOk] at hm
        | ok events =>
          simp only [hd] at h
          obtain ⟨evs, hlen2, hres, htr⟩ := SQSConsumer.deserializeLoop_ok env _ _ _ _ hd
          rw [htr] at h
          cases hh : (env.HandleBatch events (SQSConsumer.deserializeLoop env messages []
              (env.ReceiveMessage c.receiveInput s).2).2.2).1 with
          | some e =>
            simp only [hh] at h
            have hm := mem_of_split h
            simp [deserializedOk] at hm
          | none =>
            simp only [hh] at h
            have hsplit : (Effect.ReceiveMessage c.receiveInput (.ok messages) ::
                ((messages.zip evs).map deserializedOk ++ [Effect.HandleBatch events none])) ++
                (c.ackLoop env messages (env.HandleBatch events
                  (SQSConsumer.deserializeLoop env messages []
                    (env.ReceiveMessage c.receiveInput s).2).2.2).2).1 =
                pre ++ Effect.DeleteMessage input err :: post := by
              rw [← h]
              simp
            obtain ⟨pre2, hpre, hack⟩ := split_after (by simp [deserializedOk]) hsplit
            obtain ⟨m, hmem, hr⟩ := SQSConsumer.ackLoop_delete c env _ _ _ _ (mem_of_split hack)
            obtain ⟨i, hi, hmi⟩ := List.getElem_of_mem hmem
            have hi2 : i < evs.length := by rw [hlen2]; exact hi
            have hz : (m, evs[i]) ∈ messages.zip evs := by
              have : (messages.zip evs)[i]? = some (m, evs[i]) := by
                simp [List.getElem?_zip_eq_some, hmi, hi, hi2]
              exact List.getElem?_mem this
            obtain ⟨a, b, hab⟩ := List.mem_iff_append.mp
              (List.mem_map_of_mem (deserializedOk (T := T)) hz)
            refine ⟨messages, m, evs[i], events, Effect.ReceiveMessage c.receiveInput
              (.ok messages) :: a, b, pre2, rfl, hmem, hr, ?_, ?_⟩
            · rw [hres]
              simp
            · rw [hpre, hab]
              simp [deserializedOk]

end ConsumerTheorems

section CycleShapes

variable {σ T : Type}

theorem SQSConsumer.processBatchOfSingleMessages_shape (c : SQSConsumer)
    (env : ConsumerEnv σ T) (s : σ) :
    SingleCycle c (c.processBatchOfSingleMessages env s).1 := by
  unfold SQSConsumer.processBatchOfSingleMessages
  cases hp : (env.ReceiveMessage c.receiveInput s).1 with
  | error e =>
    simp only [hp]
    exact SingleCycle.pollError e
  | ok messages =>
    simp only [hp]
    by_cases hlen : messages.length = 0
    · simp only [hlen, if_true]
      have hnil : messages = [] := List.length_eq_zero.mp hlen
      subst hnil
      exact SingleCycle.allProcessed [] [] rfl
    · simp only [hlen, if_false]
      obtain ⟨k, evs, tail, hl, hk, htr, hstop⟩ :=
        SQSConsumer.singleLoop_trace c env messages (env.ReceiveMessage c.receiveInput s).2
      rw [htr]
      rcases hstop with ⟨h1, h2⟩ | ⟨m, hm, hf⟩
      · subst h2
        rw [h1, List.take_length, List.append_nil]
        exact SingleCycle.allProcessed messages evs (by rw [hl, h1])
      · exact SingleCycle.stopped messages k m evs tail hm hl hf

theorem SQSConsumer.processBatchOfMessages_shape (c : SQSConsumer)
    (env : ConsumerEnv σ T) (s : σ) :
    BatchCycle c (c.processBatchOfMessages env s).1 := by
  unfold SQSConsumer.processBatchOfMessages
  cases hp : (env.ReceiveMessage c.receiveInput s).1 with
  | error e =>
    simp only [hp]
    exact BatchCycle.pollError e
  | ok messages =>
    simp only [hp]
    by_cases hlen : messages.length = 0
    · simp only [hlen, if_true]
      have hnil : messages = [] := List.length_eq_zero.mp hlen
      subst hnil
      exact BatchCycle.empty
    · simp only [hlen, if_false]
      have hne : messages ≠ [] := fun h => hlen (by rw [h]; rfl)
      cases hd : (SQSConsumer.deserializeLoop env messages []
          (env.ReceiveMessage c.receiveInput s).2).1 with
      | error e =>
        simp only [hd]
        obtain ⟨k, m, evs, hk, hl, htr⟩ := SQSConsumer.deserializeLoop_error env _ _ _ _ hd
        rw [htr]
        exact BatchCycle.deserializeError messages k m evs e hk hl
      | ok events =>
        simp only [hd]
        obtain ⟨evs, hl, hres, htr⟩ := SQSConsumer.deserializeLoop_ok env _ _ _ _ hd
        rw [List.nil_append] at hres
        subst hres
        rw [htr]
        cases hh : (env.HandleBatch events (SQSConsumer.deserializeLoop env messages []
            (env.ReceiveMessage c.receiveInput s).2).2.2).1 with
        | some e =>
          simp only [hh]
          exact BatchCycle.handlerError messages events e hne hl
        | none =>
          simp only [hh]
          rcases SQSConsumer.ackLoop_trace c env messages (env.HandleBatch events
            (SQSConsumer.deserializeLoop env messages []
              (env.ReceiveMessage c.receiveInput s).2).2.2).2 with ha | ⟨k, m, cause, hk, ha⟩
          · rw [ha]
            exact BatchCycle.allAcked messages events hne hl
          · rw [ha]
            exact BatchCycle.ackError messages events k m cause hl hk

end CycleShapes

section ConsumerClaims

variable {σ T : Type}

theorem deletedHandles_append (l1 l2 : List (Effect T)) :
    deletedHandles (l1 ++ l2) = deletedHandles l1 ++ deletedHandles l2 := by
  unfold deletedHandles
  exact List.filterMap_append _ _ _

theorem deletedHandles_processedOk (queueURL : String) (l : List (Message × T)) :
    deletedHandles (l.flatMap (processedOk queueURL)) = l.map (fun p => p.1.ReceiptHandle) := by
  induction l with
  | nil => rfl
  | cons p l ih =>
    rw [List.flatMap_cons, deletedHandles_append, ih]
    rfl

theorem deletedHandles_deserializedOk (l : List (Message × T)) :
    deletedHandles (l.map deserializedOk) = [] := by
  induction l with
  | nil => rfl
  | cons p l ih =>
    rw [List.map_cons]
    exact ih

theorem deletedHandles_deleteCalls (queueURL : String) (l : List Message) :
    deletedHandles (l.map (fun m => (deleteCall queueURL m none : Effect T))) =
      l.map (fun m => m.ReceiptHandle) := by
  induction l with
  | nil => rfl
  | cons p l ih =>
    rw [List.map_cons, List.map_cons, ← ih]
    rfl

theorem deletedHandles_pollCall_cons (c : SQSConsumer) (out : Except GoError (List Message))
    (l : List (Effect T)) : deletedHandles (pollCall c out :: l) = deletedHandles l := rfl

theorem map_handle_zip (ms : List Message) (evs : List T) (h : evs.length = ms.length) :
    (ms.zip evs).map (fun p => p.1.ReceiptHandle) = ms.map (fun m => m.ReceiptHandle) := by
  have : (ms.zip evs).map (fun p => p.1.ReceiptHandle) =
      ((ms.zip evs).map Prod.fst).map (fun m => m.ReceiptHandle) := by
    rw [List.map_map]
    rfl
  rw [this, List.map_fst_zip]
  omega

theorem length_take_of_getElem? (ms : List Message) (k : Nat) (m : Message)
    (h : ms[k]? = some m) : (ms.take k).length = k ∧ k < ms.length := by
  obtain ⟨hk, _⟩ := List.getElem?_eq_some.mp h
  exact ⟨by simp; omega, hk⟩

theorem SQSConsumer.single_poll_head (c : SQSConsumer) (env : ConsumerEnv σ T) (s : σ) :
    (c.processBatchOfSingleMessages env s).1.head? =
      some (pollCall c (env.ReceiveMessage c.receiveInput s).1) := by
  unfold SQSConsumer.processBatchOfSingleMessages
  cases hp : (env.ReceiveMessage c.receiveInput s).1 with
  | error e => simp [hp, pollCall]
  | ok messages =>
    by_cases hlen : messages.length = 0 <;> simp [hp, hlen, pollCall]

theorem SQSConsumer.batch_poll_head (c : SQSConsumer) (env : ConsumerEnv σ T) (s : σ) :
    (c.processBatchOfMessages env s).1.head? =
      some (pollCall c (env.ReceiveMessage c.receiveInput s).1) := by
  unfold SQSConsumer.processBatchOfMessages
  cases hp : (env.ReceiveMessage c.receiveInput s).1 with
  | error e => simp [hp, pollCall]
  | ok messages =>
    by_cases hlen : messages.length = 0
    · simp [hp, hlen, pollCall]
    · simp only [hp, hlen, if_false]
      cases hd : (SQSConsumer.deserializeLoop env messages []
          (env.ReceiveMessage c.receiveInput s).2).1 with
      | error e => simp [hd, pollCall]
      | ok events =>
        simp only [hd]
        cases hh : (env.HandleBatch events (SQSConsumer.deserializeLoop env messages []
            (env.ReceiveMessage c.receiveInput s).2).2.2).1 <;> simp [hh, pollCall]

end ConsumerClaims

section BatchClaims

variable {σ T : Type}

theorem isDelete_deserializedOk (l : List (Message × T)) :
    ∀ e ∈ l.map deserializedOk, Effect.isDelete e = false := by
  intro e he
  obtain ⟨p, _, rfl⟩ := List.mem_map.mp he
  rfl

theorem isHandler_deserializedOk (l : List (Message × T)) :
    ∀ e ∈ l.map deserializedOk, Effect.isHandler e = false := by
  intro e he
  obtain ⟨p, _, rfl⟩ := List.mem_map.mp he
  rfl

theorem not_handleBatch_deleteCalls (queueURL : String) (l : List Message)
    (events : List T) (err : Option GoError) :
    Effect.HandleBatch events err ∉ l.map (fun m => (deleteCall queueURL m none : Effect T)) := by
  intro h
  obtain ⟨m, _, hm⟩ := List.mem_map.mp h
  cases hm

/-- C3: batch mode. If the `HandleBatch` call of a cycle returns an error, the cycle
issues no `DeleteMessage` and no `DeleteMessageBatch` call at all. -/
theorem batch_handler_error_acks_nothing (c : SQSConsumer) (env : ConsumerEnv σ T) (s : σ)
    (events : List T) (err : GoError)
    (h : Effect.HandleBatch events (some err) ∈ (c.processBatchOfMessages env s).1) :
    ∀ e ∈ (c.processBatchOfMessages env s).1, Effect.isDelete e = false := by
  have sh := c.processBatchOfMessages_shape env s
  revert h
  generalize (c.processBatchOfMessages env s).1 = tr at sh ⊢
  intro h
  cases sh with
  | pollError e => simp [pollCall] at h
  | empty => simp [pollCall] at h
  | deserializeError ms k m evs e hk hlen => simp [pollCall, deserializedOk] at h
  | handlerError ms evs e hne hlen =>
    intro x hx
    simp only [List.mem_cons, List.mem_append, List.mem_singleton, List.not_mem_nil,
      or_false] at hx
    rcases hx with rfl | hx | rfl | rfl
    · rfl
    · exact isDelete_deserializedOk _ x hx
    · rfl
    · rfl
  | allAcked ms evs hne hlen =>
    exfalso
    simp only [List.mem_cons, List.mem_append, pollCall, reduceCtorEq, false_or,
      Effect.HandleBatch.injEq, and_false] at h
    rcases h with h | h
    · obtain ⟨p, _, hp⟩ := List.mem_map.mp h
      cases hp
    · exact not_handleBatch_deleteCalls _ _ _ _ h
  | ackError ms evs k m cause hlen hk =>
    exfalso
    simp only [List.mem_cons, List.mem_append, pollCall, reduceCtorEq, false_or,
      Effect.HandleBatch.injEq, and_false, List.mem_singleton, deleteCall, or_false,
      List.not_mem_nil] at h
    rcases h with h | h
    · obtain ⟨p, _, hp⟩ := List.mem_map.mp h
      cases hp
    · exact not_handleBatch_deleteCalls _ _ _ _ h

/-- Witness for C3: the handler-error row of the batch test table, over two messages -/
theorem batch_handler_error_acks_nothing_witness :
    Effect.HandleBatch ["body-1", "body-2"] (some (GoError.mk "handler failed")) ∈
        (testConsumer.processBatchOfMessages (mockEnv handlerFails) noCalls).1 ∧
      ∀ e ∈ (testConsumer.processBatchOfMessages (mockEnv handlerFails) noCalls).1,
        Effect.isDelete e = false :=
  ⟨by decide, batch_handler_error_acks_nothing testConsumer (mockEnv handlerFails) noCalls
    ["body-1", "body-2"] (GoError.mk "handler failed") (by decide)⟩

theorem deleteCalls_append (l1 l2 : List (Effect T)) :
    deleteCalls (l1 ++ l2) = deleteCalls l1 ++ deleteCalls l2 := by
  unfold deleteCalls
  exact List.filterMap_append _ _ _

theorem deleteCalls_deserializedOk (l : List (Message × T)) :
    deleteCalls (l.map deserializedOk) = [] := by
  induction l with
  | nil => rfl
  | cons p l ih =>
    rw [List.map_cons]
    exact ih

theorem deleteCalls_deleteCall (queueURL : String) (l : List Message) :
    deleteCalls (l.map (fun m => (deleteCall queueURL m none : Effect T))) =
      l.map (fun m => ({ QueueUrl := queueURL, ReceiptHandle := m.ReceiptHandle }, none)) := by
  induction l with
  | nil => rfl
  | cons p l ih =>
    rw [List.map_cons, List.map_cons, ← ih]
    rfl

theorem deleteCalls_pollCall_cons (c : SQSConsumer) (out : Except GoError (List Message))
    (l : List (Effect T)) : deleteCalls (pollCall c out :: l) = deleteCalls l := rfl

theorem deleteCalls_handleBatch_cons (events : List T) (err : Option GoError)
    (l : List (Effect T)) : deleteCalls (Effect.HandleBatch events err :: l) = deleteCalls l :=
  rfl

/-- C4, as the code has it: batch mode, every deserialization and the `HandleBatch`
call succeeding. The cycle issues `DeleteMessage` calls for the receipt handles in
polled order and stops at the first one that returns an error: either all `n` calls
are made and return nil, or the calls made are those for the messages up to and
including message `k`, whose delete call is the first to return an error, and no
call is made for a message after it. -/
theorem batch_acks_in_order_until_first_ack_error (c : SQSConsumer) (env : ConsumerEnv σ T)
    (s : σ) (messages : List Message) (events : List T)
    (hpoll : (env.ReceiveMessage c.receiveInput s).1 = .ok messages)
    (hh : Effect.HandleBatch events none ∈ (c.processBatchOfMessages env s).1) :
    deleteCalls (c.processBatchOfMessages env s).1 =
        messages.map (fun m => ({ QueueUrl := c.queueURL, ReceiptHandle := m.ReceiptHandle },
          none)) ∨
      ∃ k message cause, messages[k]? = some message ∧
        deleteCalls (c.processBatchOfMessages env s).1 =
          (messages.take k).map (fun m =>
            ({ QueueUrl := c.queueURL, ReceiptHandle := m.ReceiptHandle }, none)) ++
            [({ QueueUrl := c.queueURL, ReceiptHandle := message.ReceiptHandle },
              some cause)] := by
  have sh := c.processBatchOfMessages_shape env s
  have hd := c.batch_poll_head env s
  rw [hpoll] at hd
  revert hh hd
  generalize (c.processBatchOfMessages env s).1 = tr at sh ⊢
  intro hh hd
  cases sh with
  | pollError e => simp [pollCall] at hh
  | empty => simp [pollCall] at hh
  | deserializeError ms k m evs e hk hlen => simp [pollCall, deserializedOk] at hh
  | handlerError ms evs e hne hlen => simp [pollCall, deserializedOk] at hh
  | allAcked ms evs hne hlen =>
    simp only [List.head?_cons, Option.some.injEq, pollCall, Effect.ReceiveMessage.injEq,
      Except.ok.injEq, true_and] at hd
    subst hd
    left
    rw [deleteCalls_pollCall_cons, deleteCalls_append, deleteCalls_deserializedOk,
      deleteCalls_handleBatch_cons, deleteCalls_deleteCall]
    rfl
  | ackError ms evs k m cause hlen hk =>
    simp only [List.head?_cons, Option.some.injEq, pollCall, Effect.ReceiveMessage.injEq,
      Except.ok.injEq, true_and] at hd
    subst hd
    right
    refine ⟨k, m, cause, hk, ?_⟩
    rw [deleteCalls_pollCall_cons, deleteCalls_append, deleteCalls_deserializedOk,
      deleteCalls_handleBatch_cons, deleteCalls_append, deleteCalls_deleteCall]
    rfl

/-- Witness for the amended C4: the ack-error row of the batch test table -/
theorem batch_acks_in_order_until_first_ack_error_witness :
    ((mockEnv ackFails).ReceiveMessage testConsumer.receiveInput noCalls).1 = .ok twoMessages ∧
      Effect.HandleBatch ["body-1", "body-2"] none ∈
        (testConsumer.processBatchOfMessages (mockEnv ackFails) noCalls).1 ∧
      (deleteCalls (testConsumer.processBatchOfMessages (mockEnv ackFails) noCalls).1 =
          twoMessages.map (fun m =>
            ({ QueueUrl := testConsumer.queueURL, ReceiptHandle := m.ReceiptHandle }, none)) ∨
        ∃ k message cause, twoMessages[k]? = some message ∧
          deleteCalls (testConsumer.processBatchOfMessages (mockEnv ackFails) noCalls).1 =
            (twoMessages.take k).map (fun m =>
              ({ QueueUrl := testConsumer.queueURL, ReceiptHandle := m.ReceiptHandle },
                none)) ++
              [({ QueueUrl := testConsumer.queueURL, ReceiptHandle := message.ReceiptHandle },
                some cause)]) :=
  ⟨by decide, by decide,
    batch_acks_in_order_until_first_ack_error testConsumer (mockEnv ackFails) noCalls
      twoMessages ["body-1", "body-2"] (by decide) (by decide)⟩

/-- C4 as stated fails: two messages are polled, both deserialize, `HandleBatch`
returns nil, the delete call for the first message returns an error, and no
`DeleteMessage` call is issued for the second receipt handle. -/
theorem batch_ack_error_leaves_the_rest_unacked :
    ((mockEnv ackFails).ReceiveMessage testConsumer.receiveInput noCalls).1 = .ok twoMessages ∧
      (testConsumer.processBatchOfMessages (mockEnv ackFails) noCalls).1.filter
          Effect.isDeserialize =
        [Effect.Deserialize "body-1" (.ok "body-1"), Effect.Deserialize "body-2" (.ok "body-2")] ∧
      Effect.HandleBatch ["body-1", "body-2"] none ∈
        (testConsumer.processBatchOfMessages (mockEnv ackFails) noCalls).1 ∧
      deletedHandles (testConsumer.processBatchOfMessages (mockEnv ackFails) noCalls).1 =
        ["receipt-handle-1"] ∧
      ¬ (∀ m ∈ twoMessages, m.ReceiptHandle ∈
        deletedHandles (testConsumer.processBatchOfMessages (mockEnv ackFails) noCalls).1) := by
  refine ⟨by decide, by decide, by decide, by decide, by decide⟩

end BatchClaims

section MoreConsumerClaims

variable {σ T : Type}

/-- Witness for C1: the first delete call of a single-item cycle over two messages
that all succeed -/
theorem ack_only_after_successful_handling_witness :
    (testConsumer.processBatchOfSingleMessages (mockEnv (allSucceed twoMessages)) noCalls).1 =
        [pollCall testConsumer (.ok twoMessages), Effect.Deserialize "body-1" (.ok "body-1"),
          Effect.Handle "body-1" none] ++
        Effect.DeleteMessage
          { QueueUrl := testConsumer.queueURL, ReceiptHandle := "receipt-handle-1" } none ::
          [Effect.Deserialize "body-2" (.ok "body-2"), Effect.Handle "body-2" none,
            Effect.DeleteMessage
              { QueueUrl := testConsumer.queueURL, ReceiptHandle := "receipt-handle-2" } none] ∧
      ∃ messages message event a b d,
        ((mockEnv (allSucceed twoMessages)).ReceiveMessage testConsumer.receiveInput noCalls).1 =
          .ok messages ∧
        message ∈ messages ∧ message.ReceiptHandle = "receipt-handle-1" ∧
        [pollCall testConsumer (.ok twoMessages), Effect.Deserialize "body-1" (.ok "body-1"),
          Effect.Handle "body-1" none] =
          a ++ Effect.Deserialize message.Body (.ok event) ::
            (b ++ Effect.Handle event none :: d) :=
  ⟨by decide,
    (ack_only_after_successful_handling testConsumer (mockEnv (allSucceed twoMessages))
      noCalls).1
      [pollCall testConsumer (.ok twoMessages), Effect.Deserialize "body-1" (.ok "body-1"),
        Effect.Handle "body-1" none]
      [Effect.Deserialize "body-2" (.ok "body-2"), Effect.Handle "body-2" none,
        Effect.DeleteMessage
          { QueueUrl := testConsumer.queueURL, ReceiptHandle := "receipt-handle-2" } none]
      { QueueUrl := testConsumer.queueURL, ReceiptHandle := "receipt-handle-1" } none
      (by decide)⟩

theorem deserializedBodies_append (l1 l2 : List (Effect T)) :
    deserializedBodies (l1 ++ l2) = deserializedBodies l1 ++ deserializedBodies l2 := by
  unfold deserializedBodies
  exact List.filterMap_append _ _ _

theorem deserializedBodies_deserializedOk (l : List (Message × T)) :
    deserializedBodies (l.map deserializedOk) = l.map (fun p => p.1.Body) := by
  induction l with
  | nil => rfl
  | cons p l ih =>
    rw [List.map_cons, List.map_cons, ← ih]
    rfl

theorem map_body_zip (ms : List Message) (evs : List T) (h : evs.length = ms.length) :
    (ms.zip evs).map (fun p => p.1.Body) = ms.map (fun m => m.Body) := by
  have : (ms.zip evs).map (fun p => p.1.Body) =
      ((ms.zip evs).map Prod.fst).map (fun m => m.Body) := by
    rw [List.map_map]
    rfl
  rw [this, List.map_fst_zip]
  omega

theorem take_succ_map_body (ms : List Message) (k : Nat) (m : Message)
    (h : ms[k]? = some m) :
    (ms.take (k + 1)).map (fun m => m.Body) = (ms.take k).map (fun m => m.Body) ++ [m.Body] := by
  rw [List.take_succ, h]
  simp

/-- C5: batch mode. If a `Deserialize` call of a cycle returns an error, the cycle
consists of the poll, the successful `Deserialize` calls on the messages before the
failing one, the failing call and one log line: `Deserialize` is called on the
messages up to the first failing one and on none after it, no handler is invoked,
and no delete call is issued. -/
theorem batch_deserialize_error_stops_before_handler (c : SQSConsumer)
    (env : ConsumerEnv σ T) (s : σ) (messages : List Message) (data : String) (err : GoError)
    (hpoll : (env.ReceiveMessage c.receiveInput s).1 = .ok messages)
    (h : Effect.Deserialize data (.error err) ∈ (c.processBatchOfMessages env s).1) :
    ∃ (k : Nat) (message : Message) (evs : List T),
      messages[k]? = some message ∧ evs.length = k ∧ message.Body = data ∧
      (c.processBatchOfMessages env s).1 =
        pollCall c (.ok messages) :: (((messages.take k).zip evs).map deserializedOk ++
          [Effect.Deserialize data (.error err),
            Effect.LogError "failed to deserialize event" err]) ∧
      deserializedBodies (c.processBatchOfMessages env s).1 =
        (messages.take (k + 1)).map (fun m => m.Body) ∧
      (∀ e ∈ (c.processBatchOfMessages env s).1, Effect.isHandler e = false) ∧
      (∀ e ∈ (c.processBatchOfMessages env s).1, Effect.isDelete e = false) := by
  have sh := c.processBatchOfMessages_shape env s
  have hd := c.batch_poll_head env s
  rw [hpoll] at hd
  revert h hd
  generalize (c.processBatchOfMessages env s).1 = tr at sh ⊢
  intro h hd
  cases sh with
  | pollError e => simp [pollCall] at h
  | empty => simp [pollCall] at h
  | deserializeError ms k m evs e hk hlen =>
    simp only [List.head?_cons, Option.some.injEq, pollCall, Effect.ReceiveMessage.injEq,
      Except.ok.injEq, true_and] at hd
    subst hd
    have hde : m.Body = data ∧ e = err := by
      simp only [List.mem_cons, List.mem_append, pollCall, reduceCtorEq, false_or,
        List.mem_singleton, Effect.Deserialize.injEq, Except.error.injEq, or_false,
        List.not_mem_nil] at h
      rcases h with h | h
      · obtain ⟨p, _, hp⟩ := List.mem_map.mp h
        simp [deserializedOk] at hp
      · exact ⟨h.1.symm, h.2.symm⟩
    obtain ⟨hb, he⟩ := hde
    subst he
    obtain ⟨hl, _⟩ := length_take_of_getElem? ms k m hk
    refine ⟨k, m, evs, hk, hlen, hb, by rw [hb], ?_, ?_, ?_⟩
    · show deserializedBodies (pollCall c (.ok ms) :: _) = _
      rw [take_succ_map_body ms k m hk, ← map_body_zip (ms.take k) evs (by rw [hl, hlen]),
        ← deserializedBodies_deserializedOk]
      show deserializedBodies (_ ++ _) = _
      rw [deserializedBodies_append]
      rfl
    · intro x hx
      simp only [List.mem_cons, List.mem_append, List.mem_singleton, List.not_mem_nil,
        or_false] at hx
      rcases hx with rfl | hx | rfl | rfl
      · rfl
      · exact isHandler_deserializedOk _ x hx
      · rfl
      · rfl
    · intro x hx
      simp only [List.mem_cons, List.mem_append, List.mem_singleton, List.not_mem_nil,
        or_false] at hx
      rcases hx with rfl | hx | rfl | rfl
      · rfl
      · exact isDelete_deserializedOk _ x hx
      · rfl
      · rfl
  | handlerError ms evs e hne hlen => simp [pollCall, deserializedOk] at h
  | allAcked ms evs hne hlen => simp [pollCall, deserializedOk, deleteCall] at h
  | ackError ms evs k m cause hlen hk =>
    exfalso
    simp only [List.mem_cons, List.mem_append, pollCall, reduceCtorEq, false_or,
      List.mem_singleton, deleteCall, or_false, List.not_mem_nil] at h
    rcases h with h | h
    · obtain ⟨p, _, hp⟩ := List.mem_map.mp h
      simp [deserializedOk] at hp
    · obtain ⟨p, _, hp⟩ := List.mem_map.mp h
      cases hp

/-- Witness for C5: three polled messages, the second fails to deserialize -/
theorem batch_deserialize_error_stops_before_handler_witness :
    (secondDeserializeFails.ReceiveMessage testConsumer.receiveInput noCalls).1 =
        .ok threeMessages ∧
      Effect.Deserialize "body-2" (.error (GoError.mk "deserialization failed")) ∈
        (testConsumer.processBatchOfMessages secondDeserializeFails noCalls).1 ∧
      ∃ (k : Nat) (message : Message) (evs : List String),
        threeMessages[k]? = some message ∧ evs.length = k ∧ message.Body = "body-2" ∧
        (testConsumer.processBatchOfMessages secondDeserializeFails noCalls).1 =
          pollCall testConsumer (.ok threeMessages) ::
            (((threeMessages.take k).zip evs).map deserializedOk ++
              [Effect.Deserialize "body-2" (.error (GoError.mk "deserialization failed")),
                Effect.LogError "failed to deserialize event"
                  (GoError.mk "deserialization failed")]) ∧
        deserializedBodies (testConsumer.processBatchOfMessages secondDeserializeFails noCalls).1 =
          (threeMessages.take (k + 1)).map (fun m => m.Body) ∧
        (∀ e ∈ (testConsumer.processBatchOfMessages secondDeserializeFails noCalls).1,
          Effect.isHandler e = false) ∧
        (∀ e ∈ (testConsumer.processBatchOfMessages secondDeserializeFails noCalls).1,
          Effect.isDelete e = false) :=
  ⟨by decide, by decide,
    batch_deserialize_error_stops_before_handler testConsumer secondDeserializeFails noCalls
      threeMessages "body-2" (GoError.mk "deserialization failed") (by decide) (by decide)⟩

/-- C6: in both dispatch modes, if `ReceiveMessage` returns an error, the cycle is the
poll, one log line and one sleep of `errorBackoff`, which is exactly one second: no
`Deserialize`, no handler and no delete call is made, and the cycle returns with the
collaborators in the state the poll left them in. When the next poll fails too, the
sleep of the first cycle lies between the two polls. -/
theorem poll_error_backs_off_once (c : SQSConsumer) (env : ConsumerEnv σ T) (s : σ)
    (err : GoError) (hpoll : (env.ReceiveMessage c.receiveInput s).1 = .error err) :
    c.processBatchOfSingleMessages env s =
        ([pollCall c (.error err), Effect.LogError "failed to receive sqs messages" err,
          Effect.Sleep errorBackoff], (env.ReceiveMessage c.receiveInput s).2) ∧
      c.processBatchOfMessages env s =
        ([pollCall c (.error err), Effect.LogError "failed to receive sqs messages" err,
          Effect.Sleep errorBackoff], (env.ReceiveMessage c.receiveInput s).2) ∧
      errorBackoff = 1000000000 ∧
      ∀ err2, (env.ReceiveMessage c.receiveInput (env.ReceiveMessage c.receiveInput s).2).1 =
          .error err2 →
        (c.processBatchOfSingleMessages env s).1 ++
            (c.processBatchOfSingleMessages env (c.processBatchOfSingleMessages env s).2).1 =
          [pollCall c (.error err), Effect.LogError "failed to receive sqs messages" err,
            Effect.Sleep 1000000000,
            pollCall c (.error err2), Effect.LogError "failed to receive sqs messages" err2,
            Effect.Sleep 1000000000] ∧
        (c.processBatchOfMessages env s).1 ++
            (c.processBatchOfMessages env (c.processBatchOfMessages env s).2).1 =
          [pollCall c (.error err), Effect.LogError "failed to receive sqs messages" err,
            Effect.Sleep 1000000000,
            pollCall c (.error err2), Effect.LogError "failed to receive sqs messages" err2,
            Effect.Sleep 1000000000] := by
  have single : ∀ (s1 : σ) (e1 : GoError), (env.ReceiveMessage c.receiveInput s1).1 = .error e1 →
      c.processBatchOfSingleMessages env s1 =
        ([pollCall c (.error e1), Effect.LogError "failed to receive sqs messages" e1,
          Effect.Sleep errorBackoff], (env.ReceiveMessage c.receiveInput s1).2) := by
    intro s1 e1 h1
    unfold SQSConsumer.processBatchOfSingleMessages
    simp only [h1]
    rfl
  have batch : ∀ (s1 : σ) (e1 : GoError), (env.ReceiveMessage c.receiveInput s1).1 = .error e1 →
      c.processBatchOfMessages env s1 =
        ([pollCall c (.error e1), Effect.LogError "failed to receive sqs messages" e1,
          Effect.Sleep errorBackoff], (env.ReceiveMessage c.receiveInput s1).2) := by
    intro s1 e1 h1
    unfold SQSConsumer.processBatchOfMessages
    simp only [h1]
    rfl
  refine ⟨single s err hpoll, batch s err hpoll, rfl, ?_⟩
  intro err2 h2
  rw [single s err hpoll, batch s err hpoll]
  simp only []
  rw [single _ err2 h2, batch _ err2 h2]
  exact ⟨rfl, rfl⟩

/-- Witness for C6: the receive-error row of the test tables -/
theorem poll_error_backs_off_once_witness :
    (receiveFailsTwice.ReceiveMessage testConsumer.receiveInput noCalls).1 =
        .error (GoError.mk "SQS receive failed") ∧
      (testConsumer.processBatchOfSingleMessages receiveFailsTwice noCalls).1 =
        [pollCall testConsumer (.error (GoError.mk "SQS receive failed")),
          Effect.LogError "failed to receive sqs messages" (GoError.mk "SQS receive failed"),
          Effect.Sleep errorBackoff] :=
  ⟨by decide,
    congrArg Prod.fst (poll_error_backs_off_once testConsumer receiveFailsTwice noCalls
      (GoError.mk "SQS receive failed") (by decide)).1⟩

/-- C7: in both dispatch modes, if `ReceiveMessage` succeeds with zero messages, the
cycle consists of the poll alone: no `Deserialize`, no handler, no delete call, no
log line and no sleep, and it returns with the collaborators in the state the poll
left them in, from where the loop starts its next cycle. -/
theorem empty_poll_does_nothing (c : SQSConsumer) (env : ConsumerEnv σ T) (s : σ)
    (hpoll : (env.ReceiveMessage c.receiveInput s).1 = .ok []) :
    c.processBatchOfSingleMessages env s =
        ([pollCall c (.ok [])], (env.ReceiveMessage c.receiveInput s).2) ∧
      c.processBatchOfMessages env s =
        ([pollCall c (.ok [])], (env.ReceiveMessage c.receiveInput s).2) := by
  constructor
  · unfold SQSConsumer.processBatchOfSingleMessages
    simp only [hpoll]
    rfl
  · unfold SQSConsumer.processBatchOfMessages
    simp only [hpoll]
    rfl

/-- Witness for C7: the empty-batch row of the test tables -/
theorem empty_poll_does_nothing_witness :
    ((mockEnv (allSucceed [])).ReceiveMessage testConsumer.receiveInput noCalls).1 = .ok [] ∧
      testConsumer.processBatchOfSingleMessages (mockEnv (allSucceed [])) noCalls =
        ([pollCall testConsumer (.ok [])],
          ((mockEnv (allSucceed [])).ReceiveMessage testConsumer.receiveInput noCalls).2) ∧
      testConsumer.processBatchOfMessages (mockEnv (allSucceed [])) noCalls =
        ([pollCall testConsumer (.ok [])],
          ((mockEnv (allSucceed [])).ReceiveMessage testConsumer.receiveInput noCalls).2) :=
  ⟨by decide, empty_poll_does_nothing testConsumer (mockEnv (allSucceed [])) noCalls
    (by decide)⟩

end MoreConsumerClaims

/-! ## Theorems: the JSON codecs -/

section Codec

theorem mapInsert_last {α : Type} (key : String) (value : α) (acc : List (String × α))
    (h : ∀ p ∈ acc, p.1 < key) : mapInsert key value acc = acc ++ [(key, value)] := by
  induction acc with
  | nil => rfl
  | cons p rest ih =>
    obtain ⟨k, v⟩ := p
    have hk : k < key := h (k, v) (List.mem_cons_self _ _)
    have h1 : ¬ key < k := lt_asymm hk
    have h2 : ¬ key = k := ne_of_gt hk
    unfold mapInsert
    rw [if_neg h1, if_neg h2, ih (fun p hp => h p (List.mem_cons_of_mem _ hp))]
    rfl

mutual

theorem unmarshalAny_marshalAny (lib : Stdlib) :
    ∀ v : GoValue, GoValue.survives lib v = true →
      ∃ j, marshalAny lib v = .ok j ∧ unmarshalAny lib j = (v, none)
  | .nil, _ => ⟨.null, rfl, rfl⟩
  | .bool b, _ => ⟨.bool b, rfl, rfl⟩
  | .string s, _ => ⟨.str s, rfl, rfl⟩
  | .int _, h => by simp [GoValue.survives] at h
  | .invalidUTF8 _, h => by simp [GoValue.survives] at h
  | .nilSlice, h => by simp [GoValue.survives] at h
  | .nilMap, h => by simp [GoValue.survives] at h
  | .unsupported _, h => by simp [GoValue.survives] at h
  | .float64 x, h => by
    unfold GoValue.survives at h
    cases hf : lib.formatFloat x with
    | error e => simp [hf] at h
    | ok literal =>
      simp only [hf, decide_eq_true_eq] at h
      exact ⟨.number literal, by simp [marshalAny, hf], by simp [unmarshalAny, h]⟩
  | .slice elems, h => by
    unfold GoValue.survives at h
    obtain ⟨js, h1, h2⟩ := unmarshalElems_marshalElems lib elems h
    exact ⟨.arr js, by simp [marshalAny, h1], by simp [unmarshalAny, h2]⟩
  | .map entries, h => by
    unfold GoValue.survives at h
    obtain ⟨ms, h1, h2⟩ := unmarshalMembers_marshalEntries lib entries h
    refine ⟨.obj ms, by simp [marshalAny, h1], ?_⟩
    have h3 := h2 [] (by simp)
    simp [unmarshalAny, h3]

theorem unmarshalElems_marshalElems (lib : Stdlib) :
    ∀ elems : List GoValue, survivesElems lib elems = true →
      ∃ js, marshalElems lib elems = .ok js ∧ unmarshalElems lib js = (elems, none)
  | [], _ => ⟨[], rfl, rfl⟩
  | x :: xs, h => by
    unfold survivesElems at h
    rw [Bool.and_eq_true] at h
    obtain ⟨j, h1, h2⟩ := unmarshalAny_marshalAny lib x h.1
    obtain ⟨js, h3, h4⟩ := unmarshalElems_marshalElems lib xs h.2
    exact ⟨j :: js, by simp [marshalElems, h1, h3], by simp [unmarshalElems, h2, h4, saveError]⟩

theorem unmarshalMembers_marshalEntries (lib : Stdlib) :
    ∀ entries : List (String × GoValue), survivesEntries lib entries = true →
      ∃ ms, marshalEntries lib entries = .ok ms ∧
        ∀ acc : List (String × GoValue), (∀ p ∈ acc, ∀ q ∈ entries, p.1 < q.1) →
          unmarshalMembers lib ms acc = (acc ++ entries, none)
  | [], _ => ⟨[], rfl, fun acc _ => by simp [unmarshalMembers]⟩
  | (k, x) :: rest, h => by
    unfold survivesEntries at h
    rw [Bool.and_eq_true, Bool.and_eq_true] at h
    obtain ⟨⟨hx, hk⟩, hrest⟩ := h
    obtain ⟨j, h1, h2⟩ := unmarshalAny_marshalAny lib x hx
    obtain ⟨ms, h3, h4⟩ := unmarshalMembers_marshalEntries lib rest hrest
    refine ⟨(k, j) :: ms, by simp [marshalEntries, h1, h3], ?_⟩
    intro acc hacc
    have hlast : mapInsert k x acc = acc ++ [(k, x)] :=
      mapInsert_last k x acc (fun p hp => hacc p hp (k, x) (List.mem_cons_self _ _))
    have hnext : ∀ p ∈ acc ++ [(k, x)], ∀ q ∈ rest, p.1 < q.1 := by
      intro p hp q hq
      rcases List.mem_append.mp hp with hp | hp
      · exact hacc p hp q (List.mem_cons_of_mem _ hq)
      · rw [List.mem_singleton] at hp
        subst hp
        have := List.all_eq_true.mp hk q hq
        simpa using this
    simp [unmarshalMembers, h2, hlast, h4 _ hnext, saveError]

end

theorem EventMetadata.setField_event_id (lib : Stdlib) (s : String) (m : EventMetadata) :
    EventMetadata.setField lib "event_id" (.str s) m = .ok ({ m with EventID := s }, none) := by
  simp [EventMetadata.setField, storeString]

theorem EventMetadata.setField_event_type (lib : Stdlib) (s : String) (m : EventMetadata) :
    EventMetadata.setField lib "event_type" (.str s) m =
      .ok ({ m with EventType := s }, none) := by
  simp [EventMetadata.setField, storeString]

theorem EventMetadata.setField_timestamp (lib : Stdlib) (s : String) (t : Time)
    (m : EventMetadata) (h : lib.parseTime s = .ok t) :
    EventMetadata.setField lib "timestamp" (.str s) m =
      .ok ({ m with Timestamp := t }, none) := by
  simp [EventMetadata.setField, storeTime, h]

theorem created_event_round_trip (lib : Stdlib) (e : UserCreatedEvent) (text : String)
    (hformat : lib.formatTime e.Timestamp = .ok text)
    (hparse : lib.parseTime text = .ok e.Timestamp) :
    ∃ payload, JSONSerializer.Serialize lib e = .ok payload ∧
      (NewJSONDeserializer UserCreatedEvent).Deserialize lib payload = (e, none) := by
  refine ⟨.json (.obj [("event_id", .str e.toEventMetadata.EventID),
    ("event_type", .str e.EventType), ("timestamp", .str text), ("user_id", .str e.UserID),
    ("email", .str e.Email)]), ?_, ?_⟩
  · simp [JSONSerializer.Serialize, jsonMarshal, JSONShape.marshal, UserCreatedEvent.marshal,
      marshalTime, hformat]
  · have f1 : findField UserCreatedEvent.fields "event_id" = some "event_id" := rfl
    have f2 : findField UserCreatedEvent.fields "event_type" = some "event_type" := rfl
    have f3 : findField UserCreatedEvent.fields "timestamp" = some "timestamp" := rfl
    have f4 : findField UserCreatedEvent.fields "user_id" = some "user_id" := rfl
    have f5 : findField UserCreatedEvent.fields "email" = some "email" := rfl
    simp [JSONDeserializer.Deserialize, NewJSONDeserializer, jsonUnmarshal, JSONShape.isPointer,
      JSONShape.decode, JSONShape.zero, decodeStruct, decodeMembers, UserCreatedEvent.setField,
      f1, f2, f3, f4, f5, EventMetadata.setField_event_id, EventMetadata.setField_event_type,
      EventMetadata.setField_timestamp lib text e.Timestamp _ hparse, storeString, saveError,
      EventMetadata.zero]

theorem deleted_event_round_trip (lib : Stdlib) (e : UserDeletedEvent) (text : String)
    (hformat : lib.formatTime e.Timestamp = .ok text)
    (hparse : lib.parseTime text = .ok e.Timestamp) :
    ∃ payload, JSONSerializer.Serialize lib e = .ok payload ∧
      (NewJSONDeserializer UserDeletedEvent).Deserialize lib payload = (e, none) := by
  refine ⟨.json (.obj [("event_id", .str e.toEventMetadata.EventID),
    ("event_type", .str e.EventType), ("timestamp", .str text), ("user_id", .str e.UserID)]),
    ?_, ?_⟩
  · simp [JSONSerializer.Serialize, jsonMarshal, JSONShape.marshal, UserDeletedEvent.marshal,
      marshalTime, hformat]
  · have f1 : findField UserDeletedEvent.fields "event_id" = some "event_id" := rfl
    have f2 : findField UserDeletedEvent.fields "event_type" = some "event_type" := rfl
    have f3 : findField UserDeletedEvent.fields "timestamp" = some "timestamp" := rfl
    have f4 : findField UserDeletedEvent.fields "user_id" = some "user_id" := rfl
    simp [JSONDeserializer.Deserialize, NewJSONDeserializer, jsonUnmarshal, JSONShape.isPointer,
      JSONShape.decode, JSONShape.zero, decodeStruct, decodeMembers, UserDeletedEvent.setField,
      f1, f2, f3, f4, EventMetadata.setField_event_id, EventMetadata.setField_event_type,
      EventMetadata.setField_timestamp lib text e.Timestamp _ hparse, storeString, saveError,
      EventMetadata.zero]

theorem updated_event_round_trip (lib : Stdlib) (e : UserUpdatedEvent) (text : String)
    (hformat : lib.formatTime e.Timestamp = .ok text)
    (hparse : lib.parseTime text = .ok e.Timestamp)
    (hchanges : changesSurvive lib e.Changes = true) :
    ∃ payload, JSONSerializer.Serialize lib e = .ok payload ∧
      (NewJSONDeserializer UserUpdatedEvent).Deserialize lib payload = (e, none) := by
  have f1 : findField UserUpdatedEvent.fields "event_id" = some "event_id" := rfl
  have f2 : findField UserUpdatedEvent.fields "event_type" = some "event_type" := rfl
  have f3 : findField UserUpdatedEvent.fields "timestamp" = some "timestamp" := rfl
  have f4 : findField UserUpdatedEvent.fields "user_id" = some "user_id" := rfl
  have f5 : findField UserUpdatedEvent.fields "changes" = some "changes" := rfl
  obtain ⟨m, userID, changes⟩ := e
  simp only [] at hformat hparse hchanges
  cases changes with
  | none =>
    refine ⟨.json (.obj [("event_id", .str m.EventID),
      ("event_type", .str m.EventType), ("timestamp", .str text), ("user_id", .str userID),
      ("changes", .null)]), ?_, ?_⟩
    · simp [JSONSerializer.Serialize, jsonMarshal, JSONShape.marshal, UserUpdatedEvent.marshal,
        marshalTime, hformat]
    · simp [JSONDeserializer.Deserialize, NewJSONDeserializer, jsonUnmarshal,
        JSONShape.isPointer, JSONShape.decode, JSONShape.zero, decodeStruct, decodeMembers,
        UserUpdatedEvent.setField, f1, f2, f3, f4, f5, EventMetadata.setField_event_id,
        EventMetadata.setField_event_type,
        EventMetadata.setField_timestamp lib text m.Timestamp _ hparse, storeString, storeMap,
        saveError, EventMetadata.zero]
  | some entries =>
    simp only [changesSurvive, Bool.and_eq_true] at hchanges
    obtain ⟨ms, h1, h2⟩ := unmarshalMembers_marshalEntries lib entries hchanges.1
    have h3 := h2 [] (by simp)
    refine ⟨.json (.obj [("event_id", .str m.EventID),
      ("event_type", .str m.EventType), ("timestamp", .str text), ("user_id", .str userID),
      ("changes", .obj ms)]), ?_, ?_⟩
    · simp [JSONSerializer.Serialize, jsonMarshal, JSONShape.marshal, UserUpdatedEvent.marshal,
        marshalTime, hformat, h1]
    · simp [JSONDeserializer.Deserialize, NewJSONDeserializer, jsonUnmarshal,
        JSONShape.isPointer, JSONShape.decode, JSONShape.zero, decodeStruct, decodeMembers,
        UserUpdatedEvent.setField, f1, f2, f3, f4, f5, EventMetadata.setField_event_id,
        EventMetadata.setField_event_type,
        EventMetadata.setField_timestamp lib text m.Timestamp _ hparse, storeString, storeMap,
        saveError, EventMetadata.zero, h3]

/-- C8, as the code has it: for each of the event shapes `UserCreatedEvent`,
`UserUpdatedEvent` and `UserDeletedEvent`, and every event `e` of that shape, a
non-nil pointer to a struct whose strings are valid UTF-8 (which a `String` is),
whose timestamp survives its RFC 3339 text (`MarshalJSON` accepts it and
`UnmarshalJSON` reads the text back as the same instant and offset) and, for an update
event, whose `Changes` survive (the nil map, or a map that holds only nil, booleans,
strings that are valid UTF-8, `float64` that `strconv` reads back, and non-nil
`[]any` and `map[string]any` of such values, nested no deeper than the scanner reads;
no `int`, no nil slice or nil map, nothing JSON cannot encode),
`Deserialize(Serialize(e))` succeeds with a nil error and yields `e` itself: the same
envelope, hence the same `EventID()`, `Type()` and timestamp, and the same `UserID`,
`Email` and `Changes`, hence the same `AggregateID()`. -/
theorem deserialize_serialize_round_trip (lib : Stdlib) :
    (∀ (e : UserCreatedEvent) (text : String),
      lib.formatTime e.Timestamp = .ok text → lib.parseTime text = .ok e.Timestamp →
      ∃ payload, JSONSerializer.Serialize lib e = .ok payload ∧
        (NewJSONDeserializer UserCreatedEvent).Deserialize lib payload = (e, none)) ∧
    (∀ (e : UserUpdatedEvent) (text : String),
      lib.formatTime e.Timestamp = .ok text → lib.parseTime text = .ok e.Timestamp →
      changesSurvive lib e.Changes = true →
      ∃ payload, JSONSerializer.Serialize lib e = .ok payload ∧
        (NewJSONDeserializer UserUpdatedEvent).Deserialize lib payload = (e, none)) ∧
    (∀ (e : UserDeletedEvent) (text : String),
      lib.formatTime e.Timestamp = .ok text → lib.parseTime text = .ok e.Timestamp →
      ∃ payload, JSONSerializer.Serialize lib e = .ok payload ∧
        (NewJSONDeserializer UserDeletedEvent).Deserialize lib payload = (e, none)) :=
  ⟨fun e text hf hp => created_event_round_trip lib e text hf hp,
    fun e text hf hp hc => updated_event_round_trip lib e text hf hp hc,
    fun e text hf hp => deleted_event_round_trip lib e text hf hp⟩

theorem emailChanged_survives : changesSurvive testStdlib emailChanged.Changes = true := by
  have h1 : ['n', 'e', 'w'] < ['o', 'l', 'd'] := by decide
  have h2 : 2 + nestingEntries
      [("email", GoValue.map [("new", .string "updated@example.com"),
        ("old", .string "test@example.com")])] ≤ maxNestingDepth := by decide
  simp [changesSurvive, emailChanged, NewUserUpdatedEvent, survivesEntries, GoValue.survives, h1,
    h2]

/-- Witness for the amended C8: the update event `PatchUser` builds for a changed
email, with the changes map of `GenerateUserChanges` -/
theorem deserialize_serialize_round_trip_witness :
    testStdlib.formatTime emailChanged.Timestamp = .ok "2023-01-01T00:00:00Z" ∧
      testStdlib.parseTime "2023-01-01T00:00:00Z" = .ok emailChanged.Timestamp ∧
      changesSurvive testStdlib emailChanged.Changes = true ∧
      ∃ payload, JSONSerializer.Serialize testStdlib emailChanged = .ok payload ∧
        (NewJSONDeserializer UserUpdatedEvent).Deserialize testStdlib payload =
          (emailChanged, none) :=
  ⟨by decide, by decide, emailChanged_survives,
    (deserialize_serialize_round_trip testStdlib).2.1 emailChanged "2023-01-01T00:00:00Z"
      (by decide) (by decide) emailChanged_survives⟩

theorem updated_changes_round_trip_cases (lib : Stdlib) (e : UserUpdatedEvent)
    (entries : List (String × GoValue)) (ms : List (String × Json)) (payload : Payload)
    (hc : e.Changes = some entries) (hm : marshalEntries lib entries = .ok ms)
    (hs : JSONSerializer.Serialize lib e = .ok payload) :
    ((NewJSONDeserializer UserUpdatedEvent).Deserialize lib payload).1.Changes = none ∨
      ((NewJSONDeserializer UserUpdatedEvent).Deserialize lib payload).1.Changes =
        some (unmarshalMembers lib ms []).1 := by
  have f1 : findField UserUpdatedEvent.fields "event_id" = some "event_id" := rfl
  have f2 : findField UserUpdatedEvent.fields "event_type" = some "event_type" := rfl
  have f3 : findField UserUpdatedEvent.fields "timestamp" = some "timestamp" := rfl
  have f4 : findField UserUpdatedEvent.fields "user_id" = some "user_id" := rfl
  have f5 : findField UserUpdatedEvent.fields "changes" = some "changes" := rfl
  obtain ⟨m, userID, changes⟩ := e
  simp only [] at hc
  subst hc
  cases hf : lib.formatTime m.Timestamp with
  | error err =>
    simp [JSONSerializer.Serialize, jsonMarshal, JSONShape.marshal, UserUpdatedEvent.marshal,
      marshalTime, hf] at hs
  | ok text =>
    simp [JSONSerializer.Serialize, jsonMarshal, JSONShape.marshal, UserUpdatedEvent.marshal,
      marshalTime, hf, hm] at hs
    subst hs
    cases hp : lib.parseTime text with
    | error err =>
      left
      simp [JSONDeserializer.Deserialize, NewJSONDeserializer, jsonUnmarshal,
        JSONShape.isPointer, JSONShape.decode, JSONShape.zero, decodeStruct, decodeMembers,
        UserUpdatedEvent.setField, f1, f2, f3, f4, f5, EventMetadata.setField_event_id,
        EventMetadata.setField_event_type, EventMetadata.setField, storeTime, hp,
        storeString, saveError, EventMetadata.zero]
    | ok t =>
      right
      simp [JSONDeserializer.Deserialize, NewJSONDeserializer, jsonUnmarshal,
        JSONShape.isPointer, JSONShape.decode, JSONShape.zero, decodeStruct, decodeMembers,
        UserUpdatedEvent.setField, f1, f2, f3, f4, f5, EventMetadata.setField_event_id,
        EventMetadata.setField_event_type, EventMetadata.setField_timestamp lib text t _ hp,
        storeString, storeMap, saveError, EventMetadata.zero]

theorem jsonText_0xff : jsonText [0xff] = String.mk [Char.ofNat 0xFFFD] := by decide

/-- C8 as stated fails, for three kinds of `Changes`. An update event whose `Changes`
are `{"age": 30}` with a Go `int` serializes, whatever the text layer, to a payload
whose number comes back as a `float64` (or as nil when `strconv` rejects it). One
whose `Changes` hold the nil slice `[]any(nil)` is written with `null` for it, which
comes back as the nil interface. One whose `Changes` hold the string `"\xff"`, which
is not UTF-8, is written with U+FFFD for the byte, and that is the string that comes
back. In each case no text layer makes `Serialize` succeed and `Deserialize` hand
back the same `Changes`; with the text layer of the tests the last two come back with
a nil error and the changed value. -/
theorem changes_outside_json_do_not_round_trip :
    (¬ ∃ (lib : Stdlib) (payload : Payload),
      JSONSerializer.Serialize lib ageChanged = .ok payload ∧
        ((NewJSONDeserializer UserUpdatedEvent).Deserialize lib payload).1.Changes =
          ageChanged.Changes) ∧
    (¬ ∃ (lib : Stdlib) (payload : Payload),
      JSONSerializer.Serialize lib tagsCleared = .ok payload ∧
        ((NewJSONDeserializer UserUpdatedEvent).Deserialize lib payload).1.Changes =
          tagsCleared.Changes) ∧
    (¬ ∃ (lib : Stdlib) (payload : Payload),
      JSONSerializer.Serialize lib nameGarbled = .ok payload ∧
        ((NewJSONDeserializer UserUpdatedEvent).Deserialize lib payload).1.Changes =
          nameGarbled.Changes) ∧
    (∃ payload, JSONSerializer.Serialize testStdlib tagsCleared = .ok payload ∧
      (NewJSONDeserializer UserUpdatedEvent).Deserialize testStdlib payload =
        ({ tagsCleared with Changes := some [("tags", .nil)] }, none)) ∧
    (∃ payload, JSONSerializer.Serialize testStdlib nameGarbled = .ok payload ∧
      (NewJSONDeserializer UserUpdatedEvent).Deserialize testStdlib payload =
        ({ nameGarbled with
          Changes := some [("name", .string (String.mk [Char.ofNat 0xFFFD]))] }, none)) := by
  refine ⟨?_, ?_, ?_, ?_, ?_⟩
  · rintro ⟨lib, payload, hs, hd⟩
    rcases updated_changes_round_trip_cases lib ageChanged [("age", .int 30)]
      [("age", .number (toString (30 : Int)))] payload rfl rfl hs with h | h
    · rw [h] at hd
      simp [ageChanged, NewUserUpdatedEvent] at hd
    · rw [h] at hd
      cases hn : lib.parseFloat (toString (30 : Int)) <;>
        simp [ageChanged, NewUserUpdatedEvent, unmarshalMembers, unmarshalAny, hn,
          mapInsert] at hd
  · rintro ⟨lib, payload, hs, hd⟩
    rcases updated_changes_round_trip_cases lib tagsCleared [("tags", .nilSlice)]
      [("tags", .null)] payload rfl rfl hs with h | h
    · rw [h] at hd
      simp [tagsCleared, NewUserUpdatedEvent] at hd
    · rw [h] at hd
      simp [tagsCleared, NewUserUpdatedEvent, unmarshalMembers, unmarshalAny, mapInsert] at hd
  · rintro ⟨lib, payload, hs, hd⟩
    rcases updated_changes_round_trip_cases lib nameGarbled [("name", .invalidUTF8 [0xff])]
      [("name", .str (jsonText [0xff]))] payload rfl rfl hs with h | h
    · rw [h] at hd
      simp [nameGarbled, NewUserUpdatedEvent] at hd
    · rw [h] at hd
      simp [nameGarbled, NewUserUpdatedEvent, unmarshalMembers, unmarshalAny, mapInsert] at hd
  · exact ⟨_, rfl, rfl⟩
  · exact ⟨_, rfl, by rw [← jsonText_0xff]; rfl⟩

end Codec

/-! ## Theorems: the publisher -/

section PublisherEffects

variable {E : Type}

theorem publishCalls_append (l1 l2 : List (PublishEffect E)) :
    publishCalls (l1 ++ l2) = publishCalls l1 ++ publishCalls l2 := by
  unfold publishCalls
  exact List.filterMap_append _ _ _

theorem publishCalls_serializedOk (l : List (E × String)) :
    publishCalls (l.map serializedOk) = [] := by
  induction l with
  | nil => rfl
  | cons p l ih =>
    rw [List.map_cons]
    exact ih

theorem serializeCalls_append (l1 l2 : List (PublishEffect E)) :
    serializeCalls (l1 ++ l2) = serializeCalls l1 ++ serializeCalls l2 := by
  unfold serializeCalls
  exact List.filterMap_append _ _ _

theorem serializeCalls_serializedOk (l : List (E × String)) :
    serializeCalls (l.map serializedOk) = l.map (fun p => (p.1, .ok p.2)) := by
  induction l with
  | nil => rfl
  | cons p l ih =>
    rw [List.map_cons, List.map_cons, ← ih]
    rfl

theorem not_serialize_error_mem_serializedOk (l : List (E × String)) (event : E)
    (err : GoError) : PublishEffect.Serialize event (.error err) ∉ l.map serializedOk := by
  intro h
  obtain ⟨p, _, hp⟩ := List.mem_map.mp h
  simp [serializedOk] at hp

/-- Every effect of the loop over the failed entries is a log line for an entry. -/
theorem SNSPublisher.failedLoop_logs (failed : List (Option BatchResultErrorEntry)) :
    ∀ (n : Nat) (e : PublishEffect E), e ∈ (SNSPublisher.failedLoop (E := E) failed n).2 →
      ∃ message messageID, e = PublishEffect.LogEntryError message messageID := by
  induction failed with
  | nil =>
    intro n e h
    simp [SNSPublisher.failedLoop] at h
  | cons entry rest ih =>
    intro n e h
    cases entry with
    | none => simp [SNSPublisher.failedLoop] at h
    | some result =>
      unfold SNSPublisher.failedLoop at h
      cases hm : result.Message with
      | none => simp [hm] at h
      | some message =>
        cases hi : result.Id with
        | none => simp [hm, hi] at h
        | some messageID =>
          simp only [hm, hi, List.mem_cons] at h
          rcases h with h | h
          · exact ⟨message, messageID, h⟩
          · exact ih (n + 1) e h

theorem publishCalls_failedLoop (failed : List (Option BatchResultErrorEntry)) (n : Nat) :
    publishCalls (SNSPublisher.failedLoop (E := E) failed n).2 = [] := by
  unfold publishCalls
  rw [List.filterMap_eq_nil_iff]
  intro e he
  obtain ⟨message, messageID, rfl⟩ := SNSPublisher.failedLoop_logs failed n e he
  rfl

theorem serializeCalls_failedLoop (failed : List (Option BatchResultErrorEntry)) (n : Nat) :
    serializeCalls (SNSPublisher.failedLoop (E := E) failed n).2 = [] := by
  unfold serializeCalls
  rw [List.filterMap_eq_nil_iff]
  intro e he
  obtain ⟨message, messageID, rfl⟩ := SNSPublisher.failedLoop_logs failed n e he
  rfl

theorem not_serialize_mem_failedLoop (failed : List (Option BatchResultErrorEntry)) (event : E)
    (out : Except GoError String) (n : Nat) :
    PublishEffect.Serialize event out ∉ (SNSPublisher.failedLoop (E := E) failed n).2 := by
  intro h
  obtain ⟨message, messageID, he⟩ := SNSPublisher.failedLoop_logs failed n _ h
  cases he

theorem not_publishBatch_mem_failedLoop (failed : List (Option BatchResultErrorEntry))
    (input : PublishBatchInput) (out : Except GoError (Option PublishBatchOutput)) (n : Nat) :
    PublishEffect.PublishBatch input out ∉ (SNSPublisher.failedLoop (E := E) failed n).2 := by
  intro h
  obtain ⟨message, messageID, he⟩ := SNSPublisher.failedLoop_logs failed n _ h
  cases he

theorem not_publishBatch_mem_serializedOk (l : List (E × String))
    (input : PublishBatchInput) (out : Except GoError (Option PublishBatchOutput)) :
    PublishEffect.PublishBatch input out ∉ l.map serializedOk := by
  intro h
  obtain ⟨p, _, hp⟩ := List.mem_map.mp h
  simp [serializedOk] at hp

/-- The loop over failed entries that all carry an id and a message: it counts them
and logs each with its message and id, in order. -/
theorem SNSPublisher.failedLoop_of_filled (filled : List (String × String)) :
    ∀ n : Nat,
      SNSPublisher.failedLoop (E := E)
          (filled.map fun q => some { Id := some q.1, Message := some q.2 }) n =
        (.returned (n + filled.length),
          filled.map fun q => PublishEffect.LogEntryError q.2 q.1) := by
  induction filled with
  | nil =>
    intro n
    rfl
  | cons q rest ih =>
    intro n
    simp only [List.map_cons, SNSPublisher.failedLoop, ih (n + 1), List.length_cons]
    congr 2
    omega

/-- The loop over failed entries panics at the first entry that is nil or lacks its
message or its id. -/
theorem SNSPublisher.failedLoop_of_nil_field (failed : List (Option BatchResultErrorEntry))
    (h : none ∈ failed ∨ ∃ result, some result ∈ failed ∧
      (result.Message = none ∨ result.Id = none)) :
    ∀ n : Nat, (SNSPublisher.failedLoop (E := E) failed n).1 = .panicked nilDereference := by
  induction failed with
  | nil => simp at h
  | cons entry rest ih =>
    intro n
    cases entry with
    | none => rfl
    | some result =>
      unfold SNSPublisher.failedLoop
      cases hm : result.Message with
      | none => rfl
      | some message =>
        cases hi : result.Id with
        | none => rfl
        | some messageID =>
          simp only
          apply ih
          rcases h with h | ⟨r, hr, hnil⟩
          · rcases List.mem_cons.mp h with heq | hmem
            · cases heq
            · exact Or.inl hmem
          · rcases List.mem_cons.mp hr with heq | hmem
            · simp only [Option.some.injEq] at heq
              subst heq
              rcases hnil with h1 | h1
              · rw [hm] at h1
                cases h1
              · rw [hi] at h1
                cases h1
            · exact Or.inr ⟨r, hmem, hnil⟩

end PublisherEffects


section Publisher

variable {σ E : Type} [Event E]

theorem SNSPublisher.serializeLoop_ok (env : PublisherEnv σ E) (events : List E) :
    ∀ (s : σ) (batch : List PublishBatchRequestEntry),
      (SNSPublisher.serializeLoop env events s).1 = .ok batch →
      ∃ datas : List String, datas.length = events.length ∧
        batch = List.zipWith SNSPublisher.entry events datas ∧
        (SNSPublisher.serializeLoop env events s).2.1 = (events.zip datas).map serializedOk := by
  induction events with
  | nil =>
    intro s batch h
    simp only [SNSPublisher.serializeLoop, Except.ok.injEq] at h
    exact ⟨[], rfl, by simp [h], by simp [SNSPublisher.serializeLoop]⟩
  | cons event rest ih =>
    intro s batch h
    unfold SNSPublisher.serializeLoop at h ⊢
    cases hd : (env.Serialize event s).1 with
    | error e => simp [hd] at h
    | ok data =>
      simp only [hd] at h ⊢
      cases hr : (SNSPublisher.serializeLoop env rest (env.Serialize event s).2).1 with
      | error e => simp [hr] at h
      | ok batch1 =>
        simp only [hr, Except.ok.injEq] at h ⊢
        obtain ⟨datas, hlen, hb, htr⟩ := ih _ _ hr
        refine ⟨data :: datas, by simp [hlen], ?_, ?_⟩
        · rw [← h, hb]
          rfl
        · rw [htr]
          rfl

theorem SNSPublisher.serializeLoop_error (env : PublisherEnv σ E) (events : List E) :
    ∀ (s : σ) (err : GoError),
      (SNSPublisher.serializeLoop env events s).1 = .error err →
      ∃ (k : Nat) (event : E) (cause : GoError) (datas : List String),
        events[k]? = some event ∧ datas.length = k ∧
        err = SNSPublisher.serializeError event cause ∧
        (SNSPublisher.serializeLoop env events s).2.1 =
          ((events.take k).zip datas).map serializedOk ++
            [PublishEffect.Serialize event (.error cause)] := by
  induction events with
  | nil =>
    intro s err h
    simp [SNSPublisher.serializeLoop] at h
  | cons event rest ih =>
    intro s err h
    unfold SNSPublisher.serializeLoop at h ⊢
    cases hd : (env.Serialize event s).1 with
    | error e =>
      simp only [hd, Except.error.injEq] at h ⊢
      exact ⟨0, event, e, [], by simp, rfl, h.symm, rfl⟩
    | ok data =>
      simp only [hd] at h ⊢
      cases hr : (SNSPublisher.serializeLoop env rest (env.Serialize event s).2).1 with
      | ok batch1 => simp [hr] at h
      | error e =>
        simp only [hr, Except.error.injEq] at h ⊢
        obtain ⟨k, ev, cause, datas, hk, hlen, he, htr⟩ := ih _ _ hr
        refine ⟨k + 1, ev, cause, data :: datas, by simpa using hk, by simp [hlen], ?_, ?_⟩
        · rw [← h, he]
        · rw [htr]
          rfl

/-- C9: `PublishBatch` fails closed on serialization. If the serialization of an
event of the batch fails with `err`, `PublishBatch` returns the non-nil error built
with `%w` around `err` (so `errors.Unwrap` of it is `err`) naming that event, and no
request at all is made to the backend, however many events before it serialized. -/
theorem publish_batch_fails_closed_on_serialization (p : SNSPublisher)
    (env : PublisherEnv σ E) (events : List E) (s : σ) (event : E) (err : GoError)
    (h : PublishEffect.Serialize event (.error err) ∈ (p.PublishBatch env events s).2.1) :
    (p.PublishBatch env events s).1 =
        .returned (some (SNSPublisher.serializeError event err)) ∧
      (SNSPublisher.serializeError event err).Unwrap = some err ∧
      publishCalls (p.PublishBatch env events s).2.1 = [] ∧
      ∀ input out, PublishEffect.PublishBatch input out ∉ (p.PublishBatch env events s).2.1 := by
  unfold SNSPublisher.PublishBatch at h ⊢
  cases hb : (SNSPublisher.serializeLoop env events s).1 with
  | ok batch =>
    exfalso
    obtain ⟨datas, _, _, htr⟩ := SNSPublisher.serializeLoop_ok env events s batch hb
    simp only [hb] at h
    cases hr : (env.PublishBatch { PublishBatchRequestEntries := batch, TopicArn := p.topicARN }
        (SNSPublisher.serializeLoop env events s).2.2).1 with
    | error e =>
      simp only [hr, htr, List.mem_append, List.mem_cons, reduceCtorEq, false_or,
        List.not_mem_nil, or_false] at h
      exact not_serialize_error_mem_serializedOk _ _ _ h
    | ok response =>
      cases response with
      | none =>
        simp only [hr, htr, List.mem_append, List.mem_cons, reduceCtorEq, false_or,
          List.not_mem_nil, or_false] at h
        exact not_serialize_error_mem_serializedOk _ _ _ h
      | some response =>
        simp only [hr, htr, List.mem_append, List.mem_cons, reduceCtorEq, false_or,
          List.not_mem_nil, or_false] at h
        rcases h with h | h
        · exact not_serialize_error_mem_serializedOk _ _ _ h
        · exact not_serialize_mem_failedLoop _ _ _ _ h
  | error e =>
    obtain ⟨k, ev, cause, datas, hk, hlen, he, htr⟩ :=
      SNSPublisher.serializeLoop_error env events s e hb
    simp only [hb, htr] at h ⊢
    have hsame : ev = event ∧ cause = err := by
      simp only [List.mem_append, List.mem_singleton, PublishEffect.Serialize.injEq,
        Except.error.injEq] at h
      rcases h with h | h
      · exact absurd h (not_serialize_error_mem_serializedOk _ _ _)
      · exact ⟨h.1.symm, h.2.symm⟩
    obtain ⟨h1, h2⟩ := hsame
    subst h1 h2
    refine ⟨by rw [he], rfl, ?_, ?_⟩
    · rw [publishCalls_append, publishCalls_serializedOk]
      rfl
    · intro input out hmem
      simp only [List.mem_append, List.mem_singleton, reduceCtorEq, or_false] at hmem
      obtain ⟨q, _, hq⟩ := List.mem_map.mp hmem
      simp [serializedOk] at hq

/-- Witness for C9: a batch of two whose second event fails to serialize -/
theorem publish_batch_fails_closed_on_serialization_witness :
    PublishEffect.Serialize
        { NewUserCreatedEvent "user-2" "two@example.com" "id-2" newYear2023 with
          EventType := "user.poison" }
        (.error (GoError.mk "cannot serialize")) ∈
        ((NewSNSPublisher "arn:topic").PublishBatch (examplePublisherEnv "user.poison")
          exampleBatch 0).2.1 ∧
      ((NewSNSPublisher "arn:topic").PublishBatch (examplePublisherEnv "user.poison")
          exampleBatch 0).1 =
        .returned (some (SNSPublisher.serializeError
          { NewUserCreatedEvent "user-2" "two@example.com" "id-2" newYear2023 with
            EventType := "user.poison" }
          (GoError.mk "cannot serialize"))) ∧
      ((NewSNSPublisher "arn:topic").PublishBatch (examplePublisherEnv "user.poison")
          exampleBatch 0).2.2 = 0 :=
  ⟨by simp [SNSPublisher.PublishBatch, SNSPublisher.serializeLoop, examplePublisherEnv,
      exampleBatch, NewUserCreatedEvent, NewBaseEvent, EventTypeUserCreated],
    (publish_batch_fails_closed_on_serialization (NewSNSPublisher "arn:topic")
      (examplePublisherEnv "user.poison") exampleBatch 0 _ _
      (by simp [SNSPublisher.PublishBatch, SNSPublisher.serializeLoop, examplePublisherEnv,
        exampleBatch, NewUserCreatedEvent, NewBaseEvent, EventTypeUserCreated])).1,
    by simp [SNSPublisher.PublishBatch, SNSPublisher.serializeLoop, examplePublisherEnv,
      exampleBatch, NewUserCreatedEvent, NewBaseEvent, EventTypeUserCreated]⟩

omit [Event E] in
theorem Serializes.datas_length (env : PublisherEnv σ E) (events : List E) (s s1 : σ)
    (datas : List String) (h : Serializes env events s datas s1) :
    datas.length = events.length := by
  induction h with
  | nil s => rfl
  | cons event rest s s1 s2 data datas hcall hrest ih => simp [ih]

/-- The first loop of `PublishBatch` over a batch the serializer takes: the entries
are built from the events and the bytes of the calls, and the state is the one the last
call left. -/
theorem SNSPublisher.serializeLoop_of_serializes (env : PublisherEnv σ E) (events : List E)
    (s s1 : σ) (datas : List String) (h : Serializes env events s datas s1) :
    SNSPublisher.serializeLoop env events s =
      (.ok (List.zipWith SNSPublisher.entry events datas),
        (events.zip datas).map serializedOk, s1) := by
  induction h with
  | nil s => rfl
  | cons event rest s s1 s2 data datas hcall hrest ih =>
    unfold SNSPublisher.serializeLoop
    simp only [hcall, ih]
    rfl

/-- C10: if every event of a batch of `n` events serializes, `PublishBatch` makes
exactly one request to the backend, after the `n` calls of the serializer. It is
addressed to the configured topic and has `n` entries in input order; entry `i` has
as `Message` the bytes the `Serialize` call on event `i` returned, as
`MessageDeduplicationId` (and `Id`) the event's `EventID()`, as `MessageGroupId` its
`AggregateID()`, and exactly one attribute, `event_type`, of data type `String` and
value the event's `Type()`. What follows the request in the run are log lines only,
and the run ends in the state the backend call left. -/
theorem publish_batch_sends_one_request (p : SNSPublisher) (env : PublisherEnv σ E)
    (events : List E) (s s1 : σ) (datas : List String)
    (hser : Serializes env events s datas s1) :
    ∃ (input : PublishBatchInput) (tail : List (PublishEffect E)),
      input =
        { PublishBatchRequestEntries :=
            List.zipWith (fun event data =>
              { Id := Event.EventID event
                Message := data
                MessageGroupId := Event.AggregateID event
                MessageDeduplicationId := Event.EventID event
                MessageAttributes :=
                  [("event_type",
                    { DataType := "String", StringValue := Event.Type' event })] })
              events datas
          TopicArn := p.topicARN } ∧
      input.PublishBatchRequestEntries.length = events.length ∧
      (p.PublishBatch env events s).2.1 =
        (events.zip datas).map (fun q => PublishEffect.Serialize q.1 (.ok q.2)) ++
          PublishEffect.LogPublishing p.topicARN events.length
              (events.map Event.Type').toFinset ::
            PublishEffect.PublishBatch input (env.PublishBatch input s1).1 :: tail ∧
      (∀ e ∈ tail, (∃ err, e = PublishEffect.LogBatchError err) ∨
        ∃ message messageID, e = PublishEffect.LogEntryError message messageID) ∧
      publishCalls (p.PublishBatch env events s).2.1 = [input] ∧
      serializeCalls (p.PublishBatch env events s).2.1 =
        (events.zip datas).map (fun q => (q.1, .ok q.2)) ∧
      (p.PublishBatch env events s).2.2 = (env.PublishBatch input s1).2 := by
  have hloop := SNSPublisher.serializeLoop_of_serializes env events s s1 datas hser
  have hlen := Serializes.datas_length env events s s1 datas hser
  have hzl : (List.zipWith SNSPublisher.entry events datas).length = events.length := by
    simp [hlen]
  cases hr : (env.PublishBatch
      { PublishBatchRequestEntries := List.zipWith SNSPublisher.entry events datas
        TopicArn := p.topicARN } s1).1 with
  | error err =>
    refine ⟨{ PublishBatchRequestEntries := List.zipWith SNSPublisher.entry events datas
              TopicArn := p.topicARN }, [PublishEffect.LogBatchError err], rfl, hzl, ?_, ?_, ?_,
      ?_, ?_⟩
    · rw [hr]
      unfold SNSPublisher.PublishBatch
      simp only [hloop, hr, hzl]
      rfl
    · intro e he
      exact Or.inl ⟨err, List.mem_singleton.mp he⟩
    · unfold SNSPublisher.PublishBatch
      simp only [hloop, hr, hzl]
      rw [publishCalls_append, publishCalls_serializedOk]
      rfl
    · unfold SNSPublisher.PublishBatch
      simp only [hloop, hr, hzl]
      rw [serializeCalls_append, serializeCalls_serializedOk]
      exact List.append_nil _
    · unfold SNSPublisher.PublishBatch
      simp only [hloop, hr]
  | ok response =>
    cases response with
    | none =>
      refine ⟨{ PublishBatchRequestEntries := List.zipWith SNSPublisher.entry events datas
                TopicArn := p.topicARN }, [], rfl, hzl, ?_, ?_, ?_, ?_, ?_⟩
      · rw [hr]
        unfold SNSPublisher.PublishBatch
        simp only [hloop, hr, hzl]
        simp [serializedOk]
      · intro e he
        cases he
      · unfold SNSPublisher.PublishBatch
        simp only [hloop, hr, hzl]
        rw [publishCalls_append, publishCalls_serializedOk]
        rfl
      · unfold SNSPublisher.PublishBatch
        simp only [hloop, hr, hzl]
        rw [serializeCalls_append, serializeCalls_serializedOk]
        simp [serializeCalls]
      · unfold SNSPublisher.PublishBatch
        simp only [hloop, hr]
    | some response =>
      refine ⟨{ PublishBatchRequestEntries := List.zipWith SNSPublisher.entry events datas
                TopicArn := p.topicARN }, (SNSPublisher.failedLoop (E := E) response.Failed 0).2,
        rfl, hzl, ?_, ?_, ?_, ?_, ?_⟩
      · rw [hr]
        unfold SNSPublisher.PublishBatch
        simp only [hloop, hr, hzl]
        simp [serializedOk]
      · intro e he
        exact Or.inr (SNSPublisher.failedLoop_logs _ _ e he)
      · unfold SNSPublisher.PublishBatch
        simp only [hloop, hr, hzl]
        rw [publishCalls_append, publishCalls_append, publishCalls_serializedOk,
          publishCalls_failedLoop]
        rfl
      · unfold SNSPublisher.PublishBatch
        simp only [hloop, hr, hzl]
        rw [serializeCalls_append, serializeCalls_append, serializeCalls_serializedOk,
          serializeCalls_failedLoop]
        simp [serializeCalls]
      · unfold SNSPublisher.PublishBatch
        simp only [hloop, hr]

theorem exampleBatch_serializes :
    Serializes (examplePublisherEnv "user.none") exampleBatch 0 ["id-1", "id-2"] 0 :=
  Serializes.cons _ _ 0 0 0 "id-1" ["id-2"] (by decide)
    (Serializes.cons _ _ 0 0 0 "id-2" [] (by decide) (Serializes.nil 0))

/-- Witness for C10: a batch of two events that both serialize; the backend is called
once, which its call counter shows. -/
theorem publish_batch_sends_one_request_witness :
    Serializes (examplePublisherEnv "user.none") exampleBatch 0 ["id-1", "id-2"] 0 ∧
      ((NewSNSPublisher "arn:topic").PublishBatch (examplePublisherEnv "user.none")
        exampleBatch 0).2.2 = 1 ∧
      ∃ (input : PublishBatchInput) (tail : List (PublishEffect UserCreatedEvent)),
        input =
          { PublishBatchRequestEntries :=
              List.zipWith (fun event data =>
                { Id := Event.EventID event
                  Message := data
                  MessageGroupId := Event.AggregateID event
                  MessageDeduplicationId := Event.EventID event
                  MessageAttributes :=
                    [("event_type",
                      { DataType := "String", StringValue := Event.Type' event })] })
                exampleBatch ["id-1", "id-2"]
            TopicArn := (NewSNSPublisher "arn:topic").topicARN } ∧
        input.PublishBatchRequestEntries.length = exampleBatch.length ∧
        ((NewSNSPublisher "arn:topic").PublishBatch (examplePublisherEnv "user.none")
            exampleBatch 0).2.1 =
          (exampleBatch.zip ["id-1", "id-2"]).map
              (fun q => PublishEffect.Serialize q.1 (.ok q.2)) ++
            PublishEffect.LogPublishing (NewSNSPublisher "arn:topic").topicARN
                exampleBatch.length (exampleBatch.map Event.Type').toFinset ::
              PublishEffect.PublishBatch input
                ((examplePublisherEnv "user.none").PublishBatch input 0).1 :: tail ∧
        (∀ e ∈ tail, (∃ err, e = PublishEffect.LogBatchError err) ∨
          ∃ message messageID, e = PublishEffect.LogEntryError message messageID) ∧
        publishCalls ((NewSNSPublisher "arn:topic").PublishBatch
          (examplePublisherEnv "user.none") exampleBatch 0).2.1 = [input] ∧
        serializeCalls ((NewSNSPublisher "arn:topic").PublishBatch
            (examplePublisherEnv "user.none") exampleBatch 0).2.1 =
          (exampleBatch.zip ["id-1", "id-2"]).map (fun q => (q.1, .ok q.2)) ∧
        ((NewSNSPublisher "arn:topic").PublishBatch (examplePublisherEnv "user.none")
            exampleBatch 0).2.2 =
          ((examplePublisherEnv "user.none").PublishBatch input 0).2 :=
  ⟨exampleBatch_serializes, by rfl,
    publish_batch_sends_one_request (NewSNSPublisher "arn:topic")
      (examplePublisherEnv "user.none") exampleBatch 0 0 ["id-1", "id-2"]
      exampleBatch_serializes⟩

end Publisher


/-! ## Theorems: the result of `PublishBatch` -/

section PublishResult

variable {σ E : Type} [Event E]

theorem entryErrorLogs_append {E : Type} (l1 l2 : List (PublishEffect E)) :
    entryErrorLogs (l1 ++ l2) = entryErrorLogs l1 ++ entryErrorLogs l2 := by
  unfold entryErrorLogs
  exact List.filterMap_append _ _ _

theorem entryErrorLogs_serializedOk {E : Type} (l : List (E × String)) :
    entryErrorLogs (l.map serializedOk) = [] := by
  induction l with
  | nil => rfl
  | cons p l ih =>
    rw [List.map_cons]
    exact ih

theorem entryErrorLogs_of_logs {E : Type} (filled : List (String × String)) :
    entryErrorLogs (filled.map fun q => (PublishEffect.LogEntryError q.2 q.1 : PublishEffect E)) =
      filled.map (fun q => (q.2, q.1)) := by
  induction filled with
  | nil => rfl
  | cons q rest ih =>
    rw [List.map_cons, List.map_cons, ← ih]
    rfl

/-- C11, as the code has it: the result of `PublishBatch` once the batch is
serialized. When the backend call fails, `PublishBatch` logs and returns that error.
When it succeeds with a response that holds no nil (the response, each entry of
`Failed`, and the id and the message of each entry), `PublishBatch` logs one line
per failed entry and returns nil if there is none and otherwise the error
`failed to publish n events to SNS` with `n` the length of the `Failed` list, so the
error is non-nil exactly when `Failed` is not empty. A nil response, a nil entry, or
an entry without its message or its id makes `PublishBatch` panic. -/
theorem publish_batch_reports_failed_entries (p : SNSPublisher) (env : PublisherEnv σ E)
    (events : List E) (s s1 : σ) (datas : List String)
    (hser : Serializes env events s datas s1) :
    ∃ input : PublishBatchInput,
      input =
        { PublishBatchRequestEntries := List.zipWith SNSPublisher.entry events datas
          TopicArn := p.topicARN } ∧
      (∀ err, (env.PublishBatch input s1).1 = .error err →
        (p.PublishBatch env events s).1 = .returned (some err) ∧
        (p.PublishBatch env events s).2.1 =
          (events.zip datas).map serializedOk ++
            [PublishEffect.LogPublishing p.topicARN events.length
                (events.map Event.Type').toFinset,
              PublishEffect.PublishBatch input (.error err),
              PublishEffect.LogBatchError err]) ∧
      (∀ filled : List (String × String),
        (env.PublishBatch input s1).1 =
          .ok (failedResponse filled) →
        (p.PublishBatch env events s).1 =
            .returned (if filled.length > 0 then
              some (GoError.mk ("failed to publish " ++ toString filled.length ++
                " events to SNS"))
            else none) ∧
          ((p.PublishBatch env events s).1 ≠ .returned none ↔ filled ≠ []) ∧
          (p.PublishBatch env events s).2.1 =
            (events.zip datas).map serializedOk ++
              [PublishEffect.LogPublishing p.topicARN events.length
                  (events.map Event.Type').toFinset,
                PublishEffect.PublishBatch input
                  (.ok (failedResponse filled))] ++
              filled.map (fun q => PublishEffect.LogEntryError q.2 q.1)) ∧
      ((env.PublishBatch input s1).1 = .ok none →
        (p.PublishBatch env events s).1 = .panicked nilDereference) ∧
      (∀ response, (env.PublishBatch input s1).1 = .ok (some response) →
        (none ∈ response.Failed ∨ ∃ result, some result ∈ response.Failed ∧
          (result.Message = none ∨ result.Id = none)) →
        (p.PublishBatch env events s).1 = .panicked nilDereference) ∧
      (p.PublishBatch env events s).2.2 = (env.PublishBatch input s1).2 := by
  have hloop := SNSPublisher.serializeLoop_of_serializes env events s s1 datas hser
  have hlen := Serializes.datas_length env events s s1 datas hser
  have hzl : (List.zipWith SNSPublisher.entry events datas).length = events.length := by
    simp [hlen]
  refine ⟨_, rfl, ?_, ?_, ?_, ?_, ?_⟩
  · intro err hr
    unfold SNSPublisher.PublishBatch
    simp only [hloop, hr, hzl]
    exact ⟨trivial, trivial⟩
  · intro filled hr
    unfold failedResponse at hr
    unfold SNSPublisher.PublishBatch
    simp only [hloop, hr, hzl, SNSPublisher.failedLoop_of_filled, Nat.zero_add]
    refine ⟨?_, ?_, ?_⟩
    · first | trivial | rfl | (split_ifs <;> rfl)
    · by_cases hf : filled = []
      · simp [hf]
      · have : 0 < filled.length := List.length_pos.mpr hf
        simp [hf, this]
    · trivial
  · intro hr
    unfold SNSPublisher.PublishBatch
    simp only [hloop, hr]
  · intro response hr hnil
    unfold SNSPublisher.PublishBatch
    simp only [hloop, hr, SNSPublisher.failedLoop_of_nil_field response.Failed hnil 0]
  · unfold SNSPublisher.PublishBatch
    simp only [hloop]
    cases hr : (env.PublishBatch
        { PublishBatchRequestEntries := List.zipWith SNSPublisher.entry events datas
          TopicArn := p.topicARN } s1).1 with
    | error err => rfl
    | ok response => cases response <;> rfl

theorem batchOfThree_serializes (env : PublisherEnv Nat UserCreatedEvent)
    (h : ∀ event n, env.Serialize event n = (.ok event.toEventMetadata.EventID, n)) :
    Serializes env batchOfThree 0 ["id-1", "id-2", "id-3"] 0 :=
  Serializes.cons _ _ 0 0 0 "id-1" ["id-2", "id-3"] (h _ _)
    (Serializes.cons _ _ 0 0 0 "id-2" ["id-3"] (h _ _)
      (Serializes.cons _ _ 0 0 0 "id-3" [] (h _ _) (Serializes.nil 0)))

/-- Witness for the amended C11: a batch of three events of which the backend rejects
one, with its id and a message -/
theorem publish_batch_reports_failed_entries_witness :
    Serializes (rejectingPublisherEnv "id-2") batchOfThree 0 ["id-1", "id-2", "id-3"] 0 ∧
      ((rejectingPublisherEnv "id-2").PublishBatch batchOfThreeInput 0).1 =
        .ok (failedResponse [("id-2", "entry rejected")]) ∧
      ((NewSNSPublisher "arn:topic").PublishBatch (rejectingPublisherEnv "id-2")
          batchOfThree 0).1 =
        .returned (some (GoError.mk "failed to publish 1 events to SNS")) ∧
      entryErrorLogs ((NewSNSPublisher "arn:topic").PublishBatch (rejectingPublisherEnv "id-2")
          batchOfThree 0).2.1 = [("entry rejected", "id-2")] ∧
      ∃ input : PublishBatchInput,
        input =
          { PublishBatchRequestEntries :=
              List.zipWith SNSPublisher.entry batchOfThree ["id-1", "id-2", "id-3"]
            TopicArn := (NewSNSPublisher "arn:topic").topicARN } ∧
        (∀ err, ((rejectingPublisherEnv "id-2").PublishBatch input 0).1 = .error err →
          ((NewSNSPublisher "arn:topic").PublishBatch (rejectingPublisherEnv "id-2")
              batchOfThree 0).1 = .returned (some err) ∧
          ((NewSNSPublisher "arn:topic").PublishBatch (rejectingPublisherEnv "id-2")
              batchOfThree 0).2.1 =
            (batchOfThree.zip ["id-1", "id-2", "id-3"]).map serializedOk ++
              [PublishEffect.LogPublishing (NewSNSPublisher "arn:topic").topicARN
                  batchOfThree.length (batchOfThree.map Event.Type').toFinset,
                PublishEffect.PublishBatch input (.error err),
                PublishEffect.LogBatchError err]) ∧
        (∀ filled : List (String × String),
          ((rejectingPublisherEnv "id-2").PublishBatch input 0).1 =
            .ok (failedResponse filled) →
          ((NewSNSPublisher "arn:topic").PublishBatch (rejectingPublisherEnv "id-2")
                batchOfThree 0).1 =
              .returned (if filled.length > 0 then
                some (GoError.mk ("failed to publish " ++ toString filled.length ++
                  " events to SNS"))
              else none) ∧
            (((NewSNSPublisher "arn:topic").PublishBatch (rejectingPublisherEnv "id-2")
                batchOfThree 0).1 ≠ .returned none ↔ filled ≠ []) ∧
            ((NewSNSPublisher "arn:topic").PublishBatch (rejectingPublisherEnv "id-2")
                batchOfThree 0).2.1 =
              (batchOfThree.zip ["id-1", "id-2", "id-3"]).map serializedOk ++
                [PublishEffect.LogPublishing (NewSNSPublisher "arn:topic").topicARN
                    batchOfThree.length (batchOfThree.map Event.Type').toFinset,
                  PublishEffect.PublishBatch input
                    (.ok (failedResponse filled))] ++
                filled.map (fun q => PublishEffect.LogEntryError q.2 q.1)) ∧
        (((rejectingPublisherEnv "id-2").PublishBatch input 0).1 = .ok none →
          ((NewSNSPublisher "arn:topic").PublishBatch (rejectingPublisherEnv "id-2")
            batchOfThree 0).1 = .panicked nilDereference) ∧
        (∀ response,
          ((rejectingPublisherEnv "id-2").PublishBatch input 0).1 = .ok (some response) →
          (none ∈ response.Failed ∨ ∃ result, some result ∈ response.Failed ∧
            (result.Message = none ∨ result.Id = none)) →
          ((NewSNSPublisher "arn:topic").PublishBatch (rejectingPublisherEnv "id-2")
            batchOfThree 0).1 = .panicked nilDereference) ∧
        ((NewSNSPublisher "arn:topic").PublishBatch (rejectingPublisherEnv "id-2")
            batchOfThree 0).2.2 =
          ((rejectingPublisherEnv "id-2").PublishBatch input 0).2 :=
  ⟨batchOfThree_serializes _ (fun _ _ => rfl), by rfl, by rfl, by rfl,
    publish_batch_reports_failed_entries (NewSNSPublisher "arn:topic")
      (rejectingPublisherEnv "id-2") batchOfThree 0 0 ["id-1", "id-2", "id-3"]
      (batchOfThree_serializes _ (fun _ _ => rfl))⟩

/-- C11 as stated fails: the three events serialize, the backend call succeeds and
its response lists one failed entry, which has an id and no message. `PublishBatch`
panics at the log line for that entry and returns no error. -/
theorem publish_batch_panics_on_an_entry_without_a_message :
    Serializes omittingPublisherEnv batchOfThree 0 ["id-1", "id-2", "id-3"] 0 ∧
      (omittingPublisherEnv.PublishBatch batchOfThreeInput 0).1 =
        .ok (some secondRejectedWithoutMessage) ∧
      secondRejectedWithoutMessage.Failed.length = 1 ∧
      ((NewSNSPublisher "arn:topic").PublishBatch omittingPublisherEnv batchOfThree 0).1 =
        .panicked nilDereference ∧
      ¬ ∃ err, ((NewSNSPublisher "arn:topic").PublishBatch omittingPublisherEnv
        batchOfThree 0).1 = .returned err := by
  refine ⟨batchOfThree_serializes _ (fun _ _ => rfl), by rfl, by rfl, by rfl, ?_⟩
  rintro ⟨err, h⟩
  have hp : ((NewSNSPublisher "arn:topic").PublishBatch omittingPublisherEnv batchOfThree 0).1 =
      .panicked nilDereference := by rfl
  rw [hp] at h
  cases h

end PublishResult

/-! ## Theorems: the changes map -/

section Changes

theorem fieldChange_eq (old new : String) :
    fieldChange old new = .map [("new", .string new), ("old", .string old)] := by
  have h : ['n', 'e', 'w'] < ['o', 'l', 'd'] := by decide
  simp [fieldChange, mapInsert, h]

theorem mapInsert_first_name (v w : GoValue) :
    mapInsert "first_name" v [("email", w)] = [("email", w), ("first_name", v)] := by
  have h : ¬ ['f', 'i', 'r', 's', 't', '_', 'n', 'a', 'm', 'e'] < ['e', 'm', 'a', 'i', 'l'] := by
    decide
  simp [mapInsert, h]

theorem mapInsert_last_name_email (v w : GoValue) :
    mapInsert "last_name" v [("email", w)] = [("email", w), ("last_name", v)] := by
  have h : ¬ ['l', 'a', 's', 't', '_', 'n', 'a', 'm', 'e'] < ['e', 'm', 'a', 'i', 'l'] := by
    decide
  simp [mapInsert, h]

theorem mapInsert_last_name_first_name (v w : GoValue) :
    mapInsert "last_name" v [("first_name", w)] = [("first_name", w), ("last_name", v)] := by
  have h : ¬ ['l', 'a', 's', 't', '_', 'n', 'a', 'm', 'e'] <
      ['f', 'i', 'r', 's', 't', '_', 'n', 'a', 'm', 'e'] := by
    decide
  simp [mapInsert, h]

theorem mapInsert_last_name_both (v w x : GoValue) :
    mapInsert "last_name" v [("email", w), ("first_name", x)] =
      [("email", w), ("first_name", x), ("last_name", v)] := by
  have h1 : ¬ ['l', 'a', 's', 't', '_', 'n', 'a', 'm', 'e'] < ['e', 'm', 'a', 'i', 'l'] := by
    decide
  have h2 : ¬ ['l', 'a', 's', 't', '_', 'n', 'a', 'm', 'e'] <
      ['f', 'i', 'r', 's', 't', '_', 'n', 'a', 'm', 'e'] := by
    decide
  simp [mapInsert, h1, h2]

/-- The entry `GenerateUserChanges` writes for a field: none when the update leaves
the field out or asks for the value it has -/
theorem GenerateUserChanges_eq (update : UserUpdate) (existing : User) :
    GenerateUserChanges update existing =
      (match update.Email with
        | some v =>
          if v ≠ existing.Email then
            [("email", GoValue.map [("new", .string v), ("old", .string existing.Email)])]
          else []
        | none => []) ++
      (match update.FirstName with
        | some v =>
          if v ≠ existing.FirstName then
            [("first_name", GoValue.map [("new", .string v), ("old", .string existing.FirstName)])]
          else []
        | none => []) ++
      (match update.LastName with
        | some v =>
          if v ≠ existing.LastName then
            [("last_name", GoValue.map [("new", .string v), ("old", .string existing.LastName)])]
          else []
        | none => []) := by
  obtain ⟨email, firstName, lastName⟩ := update
  unfold GenerateUserChanges
  simp only [fieldChange_eq]
  cases email with
  | none =>
    cases firstName with
    | none => cases lastName <;> simp [mapInsert]
    | some f =>
      by_cases hf : f = existing.FirstName
      · cases lastName <;> simp [hf, mapInsert]
      · cases lastName with
        | none => simp [hf, mapInsert]
        | some l =>
          by_cases hl : l = existing.LastName
          · simp [hf, hl, mapInsert]
          · simp [hf, hl, mapInsert, mapInsert_last_name_first_name]
  | some e =>
    by_cases he : e = existing.Email
    · cases firstName with
      | none => cases lastName <;> simp [he, mapInsert]
      | some f =>
        by_cases hf : f = existing.FirstName
        · cases lastName <;> simp [he, hf, mapInsert]
        · cases lastName with
          | none => simp [he, hf, mapInsert]
          | some l =>
            by_cases hl : l = existing.LastName
            · simp [he, hf, hl, mapInsert]
            · simp [he, hf, hl, mapInsert, mapInsert_last_name_first_name]
    · cases firstName with
      | none =>
        cases lastName with
        | none => simp [he, mapInsert]
        | some l =>
          by_cases hl : l = existing.LastName
          · simp [he, hl, mapInsert]
          · simp [he, hl, mapInsert, mapInsert_last_name_email]
      | some f =>
        by_cases hf : f = existing.FirstName
        · cases lastName with
          | none => simp [he, hf, mapInsert]
          | some l =>
            by_cases hl : l = existing.LastName
            · simp [he, hf, hl, mapInsert]
            · simp [he, hf, hl, mapInsert, mapInsert_last_name_email]
        · cases lastName with
          | none => simp [he, hf, mapInsert, mapInsert_first_name]
          | some l =>
            by_cases hl : l = existing.LastName
            · simp [he, hf, hl, mapInsert, mapInsert_first_name]
            · simp [he, hf, hl, mapInsert, mapInsert_first_name, mapInsert_last_name_both]

/-- C15: the map `GenerateUserChanges(update, existing)` returns. For each field
`f` among `email`, `first_name` and `last_name`, the key `f` is in the map exactly
when `update.f` is non-nil and its value differs from `existing.f`, and it then maps
to the map `{"old": existing.f, "new": *update.f}`; no other key is in the map. -/
theorem generate_user_changes_entries (update : UserUpdate) (existing : User) :
    mapLookup "email" (GenerateUserChanges update existing) =
        (match update.Email with
          | some v =>
            if v ≠ existing.Email then
              some (GoValue.map [("new", .string v), ("old", .string existing.Email)])
            else none
          | none => none) ∧
      mapLookup "first_name" (GenerateUserChanges update existing) =
        (match update.FirstName with
          | some v =>
            if v ≠ existing.FirstName then
              some (GoValue.map [("new", .string v), ("old", .string existing.FirstName)])
            else none
          | none => none) ∧
      mapLookup "last_name" (GenerateUserChanges update existing) =
        (match update.LastName with
          | some v =>
            if v ≠ existing.LastName then
              some (GoValue.map [("new", .string v), ("old", .string existing.LastName)])
            else none
          | none => none) ∧
      ∀ key : String, key ≠ "email" → key ≠ "first_name" → key ≠ "last_name" →
        mapLookup key (GenerateUserChanges update existing) = none := by
  rw [GenerateUserChanges_eq]
  obtain ⟨email, firstName, lastName⟩ := update
  refine ⟨?_, ?_, ?_, ?_⟩
  · cases email <;> cases firstName <;> cases lastName <;> simp only [] <;>
      first
        | (split_ifs <;> simp [mapLookup])
        | simp [mapLookup]
  · cases email <;> cases firstName <;> cases lastName <;> simp only [] <;>
      first
        | (split_ifs <;> simp [mapLookup])
        | simp [mapLookup]
  · cases email <;> cases firstName <;> cases lastName <;> simp only [] <;>
      first
        | (split_ifs <;> simp [mapLookup])
        | simp [mapLookup]
  · intro key h1 h2 h3
    have g1 : ¬ "email" = key := fun h => h1 h.symm
    have g2 : ¬ "first_name" = key := fun h => h2 h.symm
    have g3 : ¬ "last_name" = key := fun h => h3 h.symm
    cases email <;> cases firstName <;> cases lastName <;> simp only [] <;>
      first
        | (split_ifs <;> simp [mapLookup, g1, g2, g3])
        | simp [mapLookup, g1, g2, g3]

end Changes

/-! ## Theorems: the transaction manager and the user service -/

section ServiceTheorems

variable {σ α : Type}

/-- C14, as the code has it: once `BeginTx` has succeeded, `WithTransaction` runs `fn`
once, on the transaction context and from the state `BeginTx` left. If `fn` returns
nil, the transaction is committed, not rolled back, and the result of `Commit` is
returned. If `fn` returns an error `e`, the transaction is rolled back, not
committed, and `WithTransaction` returns `e` when `Rollback` succeeds and the error
of `Rollback` when it fails. -/
theorem with_transaction_commits_or_rolls_back (env : ServiceEnv σ) (ctx : Context)
    (captured captured1 : α)
    (fn : Context → σ → (Option GoError × α) × List ServiceEffect × σ)
    (s s1 s2 : σ) (err : Option GoError) (tr : List ServiceEffect)
    (hbegin : env.BeginTx ctx s = (none, s1))
    (hfn : fn { ctx with hasTx := true } s1 = ((err, captured1), tr, s2)) :
    (err = none →
      TransactionManager.WithTransaction env ctx captured fn s =
        (((env.Commit s2).1, captured1),
          ServiceEffect.BeginTx ctx none :: (tr ++ [ServiceEffect.Commit (env.Commit s2).1]),
          (env.Commit s2).2)) ∧
    (∀ e, err = some e → (env.Rollback s2).1 = none →
      TransactionManager.WithTransaction env ctx captured fn s =
        ((some e, captured1),
          ServiceEffect.BeginTx ctx none :: (tr ++ [ServiceEffect.Rollback none,
            ServiceEffect.LogError "rolled back transaction" none]),
          (env.Rollback s2).2)) ∧
    (∀ e rollbackErr, err = some e → (env.Rollback s2).1 = some rollbackErr →
      TransactionManager.WithTransaction env ctx captured fn s =
        ((some rollbackErr, captured1),
          ServiceEffect.BeginTx ctx none :: (tr ++ [ServiceEffect.Rollback (some rollbackErr),
            ServiceEffect.LogError "failed to rollback transaction" (some rollbackErr)]),
          (env.Rollback s2).2)) := by
  refine ⟨?_, ?_, ?_⟩
  · intro h
    subst h
    simp [TransactionManager.WithTransaction, hbegin, hfn]
  · intro e h hrb
    subst h
    simp [TransactionManager.WithTransaction, hbegin, hfn, hrb]
  · intro e rollbackErr h hrb
    subst h
    simp [TransactionManager.WithTransaction, hbegin, hfn, hrb]

/-- Witness for the amended C14: a function that fails in a transaction whose rollback
succeeds -/
theorem with_transaction_commits_or_rolls_back_witness :
    (exampleServiceEnv nothingFails).BeginTx requestContext 0 = (none, 0) ∧
      TransactionManager.WithTransaction (exampleServiceEnv nothingFails) requestContext ()
          (fun _ n => ((some (GoError.mk "fn failed"), ()), [], n)) 0 =
        ((some (GoError.mk "fn failed"), ()),
          ServiceEffect.BeginTx requestContext none :: ([] ++ [ServiceEffect.Rollback none,
            ServiceEffect.LogError "rolled back transaction" none]),
          ((exampleServiceEnv nothingFails).Rollback 0).2) :=
  ⟨rfl,
    (with_transaction_commits_or_rolls_back (exampleServiceEnv nothingFails) requestContext
      () () (fun _ n => ((some (GoError.mk "fn failed"), ()), [], n)) 0 0 0
      (some (GoError.mk "fn failed")) [] rfl rfl).2.1 (GoError.mk "fn failed") rfl rfl⟩

/-- C14 as stated fails: `fn` returns the error `fn failed`, the rollback fails with
`rollback failed`, and `WithTransaction` returns the error of the rollback, not the
error of `fn`. -/
theorem with_transaction_returns_the_rollback_error :
    (TransactionManager.WithTransaction
        (exampleServiceEnv { nothingFails with rollbackError := some (GoError.mk "rollback failed") })
        requestContext ()
        (fun _ n => ((some (GoError.mk "fn failed"), ()), [], n)) 0).1.1 =
        some (GoError.mk "rollback failed") ∧
      (TransactionManager.WithTransaction
        (exampleServiceEnv { nothingFails with rollbackError := some (GoError.mk "rollback failed") })
        requestContext ()
        (fun _ n => ((some (GoError.mk "fn failed"), ()), [], n)) 0).1.1 ≠
        some (GoError.mk "fn failed") := by
  constructor
  · rfl
  · decide

end ServiceTheorems

section ServiceRuns

/-- C12, evaluated: with collaborators that never fail, each of `CreateUser`,
`PatchUser` and `DeleteUser` calls the publisher between `BeginTx` and `Commit`, that
is, inside the function `WithTransaction` runs and before `WithTransaction` has
returned. -/
theorem service_publishes_inside_the_transaction :
    (Service.CreateUser exampleDomain (exampleServiceEnv nothingFails) requestContext
        "new@example.com" "New" "User" 0).2.1 =
      [ServiceEffect.BeginTx requestContext none,
        ServiceEffect.GetByEmail transactionContext "new@example.com"
          (.error exampleDomain.ErrNotFound),
        ServiceEffect.Create transactionContext
          { Email := "new@example.com", FirstName := "New", LastName := "User" }
          (.ok { exampleUser with Email := "new@example.com", FirstName := "New" }),
        ServiceEffect.Publish requestContext
          (.created (NewUserCreatedEvent "user-123" "new@example.com" "event-id" newYear2023))
          none,
        ServiceEffect.Commit none] ∧
    (Service.PatchUser exampleDomain (exampleServiceEnv nothingFails) requestContext
        "user-123" firstNameChanged 0).2.1 =
      [ServiceEffect.BeginTx requestContext none,
        ServiceEffect.GetByID transactionContext "user-123" (.ok exampleUser),
        ServiceEffect.Update transactionContext "user-123" firstNameChanged
          (.ok { exampleUser with FirstName := "Changed" }),
        ServiceEffect.Publish requestContext
          (.updated (NewUserUpdatedEvent "user-123"
            (some [("first_name", .map [("new", .string "Changed"), ("old", .string "Test")])])
            "event-id" newYear2023))
          none,
        ServiceEffect.Commit none] ∧
    (Service.DeleteUser (exampleServiceEnv nothingFails) requestContext "user-123" 0).2.1 =
      [ServiceEffect.BeginTx requestContext none,
        ServiceEffect.GetByID transactionContext "user-123" (.ok exampleUser),
        ServiceEffect.Publish requestContext
          (.deleted (NewUserDeletedEvent "user-123" "event-id" newYear2023)) none,
        ServiceEffect.Delete transactionContext "user-123" none,
        ServiceEffect.Commit none] := by
  refine ⟨?_, ?_, ?_⟩
  · rfl
  · simp [Service.PatchUser, TransactionManager.WithTransaction, Service.patchUserFn,
      Service.validatePatchUserRequest, ValidateUpdate, exampleServiceEnv, firstNameChanged,
      GenerateUserChanges_eq, exampleUser, nothingFails, requestContext, transactionContext,
      NewUserUpdatedEvent]
  · rfl

/-- C13, evaluated: `DeleteUser` publishes the deleted event and then `repo.Delete`
fails; the transaction is rolled back, `DeleteUser` returns the error, and the
publisher has accepted one event. Likewise `CreateUser` publishes the created event
and then the commit fails. -/
theorem service_publishes_before_a_rollback :
    Service.DeleteUser
        (exampleServiceEnv { nothingFails with deleteError := some (GoError.mk "delete failed") })
        requestContext "user-123" 0 =
      (some (GoError.mk "delete failed"),
        [ServiceEffect.BeginTx requestContext none,
          ServiceEffect.GetByID transactionContext "user-123" (.ok exampleUser),
          ServiceEffect.Publish requestContext
            (.deleted (NewUserDeletedEvent "user-123" "event-id" newYear2023)) none,
          ServiceEffect.Delete transactionContext "user-123" (some (GoError.mk "delete failed")),
          ServiceEffect.Rollback none,
          ServiceEffect.LogError "rolled back transaction" none],
        1) ∧
    Service.CreateUser exampleDomain
        (exampleServiceEnv { nothingFails with commitError := some (GoError.mk "commit failed") })
        requestContext "new@example.com" "New" "User" 0 =
      (.error (GoError.mk "commit failed"),
        [ServiceEffect.BeginTx requestContext none,
          ServiceEffect.GetByEmail transactionContext "new@example.com"
            (.error exampleDomain.ErrNotFound),
          ServiceEffect.Create transactionContext
            { Email := "new@example.com", FirstName := "New", LastName := "User" }
            (.ok { exampleUser with Email := "new@example.com", FirstName := "New" }),
          ServiceEffect.Publish requestContext
            (.created (NewUserCreatedEvent "user-123" "new@example.com" "event-id" newYear2023))
            none,
          ServiceEffect.Commit (some (GoError.mk "commit failed"))],
        1) := by
  constructor
  · rfl
  · rfl

end ServiceRuns

section NoOpUpdate

variable {σ : Type}

/-- C16: the idempotent no-op update. For an update that `ValidateUpdate` accepts and
in which every requested (non-nil) field has the value the existing user already has,
`GenerateUserChanges` returns the empty map; and when the transaction begins, the
lookup of the user succeeds and the commit succeeds, `PatchUser` performs exactly
`BeginTx`, the lookup `GetByID` and `Commit`, so it calls neither `repo.Update` nor
the publisher, and returns the existing user with a nil error. -/
theorem patch_user_without_changes_is_a_no_op (dom : DomainErrors) (env : ServiceEnv σ)
    (ctx : Context) (userID : String) (update : UserUpdate) (existing : User) (s s1 s2 s3 : σ)
    (hvalid : ValidateUpdate dom update = none)
    (hemail : ∀ v, update.Email = some v → v = existing.Email)
    (hfirst : ∀ v, update.FirstName = some v → v = existing.FirstName)
    (hlast : ∀ v, update.LastName = some v → v = existing.LastName)
    (hbegin : env.BeginTx ctx s = (none, s1))
    (hget : env.GetByID { ctx with hasTx := true } userID s1 = (.ok existing, s2))
    (hcommit : env.Commit s2 = (none, s3)) :
    GenerateUserChanges update existing = [] ∧
      Service.PatchUser dom env ctx userID update s =
        (.ok (some existing),
          [ServiceEffect.BeginTx ctx none,
            ServiceEffect.GetByID { ctx with hasTx := true } userID (.ok existing),
            ServiceEffect.Commit none],
          s3) := by
  have hchanges : GenerateUserChanges update existing = [] := by
    rw [GenerateUserChanges_eq]
    obtain ⟨email, firstName, lastName⟩ := update
    cases email <;> cases firstName <;> cases lastName <;>
      simp_all
  refine ⟨hchanges, ?_⟩
  have hval : Service.validatePatchUserRequest dom env { ctx with hasTx := true } userID update
      s1 = (.ok existing,
        [ServiceEffect.GetByID { ctx with hasTx := true } userID (.ok existing)], s2) := by
    unfold Service.validatePatchUserRequest
    rw [hvalid]
    simp only [hget]
    cases he : update.Email with
    | none => rfl
    | some v =>
      have := hemail v he
      simp [this]
  simp [Service.PatchUser, TransactionManager.WithTransaction, hbegin, Service.patchUserFn,
    hval, hchanges, hcommit]

/-- Witness for C16: an update of `exampleUser` that asks for the email and first name
it already has -/
theorem patch_user_without_changes_is_a_no_op_witness :
    ValidateUpdate exampleDomain nothingChanged = none ∧
      GenerateUserChanges nothingChanged exampleUser = [] ∧
      Service.PatchUser exampleDomain (exampleServiceEnv nothingFails) requestContext
          "user-123" nothingChanged 0 =
        (.ok (some exampleUser),
          [ServiceEffect.BeginTx requestContext none,
            ServiceEffect.GetByID { requestContext with hasTx := true } "user-123"
              (.ok exampleUser),
            ServiceEffect.Commit none],
          0) :=
  ⟨by decide,
    patch_user_without_changes_is_a_no_op exampleDomain (exampleServiceEnv nothingFails)
      requestContext "user-123" nothingChanged exampleUser 0 0 0 0 (by decide)
      (by simp [nothingChanged, exampleUser]) (by simp [nothingChanged, exampleUser])
      (by simp [nothingChanged]) rfl rfl rfl⟩

end NoOpUpdate

/-! ## Theorems: what the deserializer rejects and what the serializer writes -/

section DecodeErrors

theorem decodeMembers_saved {E : Type}
    (setField : String → Json → E → Except (E × GoError) (E × Option GoError))
    (members : List (String × Json)) :
    ∀ (e : E) (err : GoError), (decodeMembers setField members e (some err)).2 ≠ none := by
  induction members with
  | nil =>
    intro e err
    simp [decodeMembers]
  | cons m rest ih =>
    intro e err
    obtain ⟨key, v⟩ := m
    unfold decodeMembers
    cases h : setField key v e with
    | error p =>
      obtain ⟨e1, err1⟩ := p
      simp
    | ok p =>
      obtain ⟨e1, err1⟩ := p
      simp only [saveError]
      exact ih e1 err

theorem decodeMembers_rejects {E : Type}
    (setField : String → Json → E → Except (E × GoError) (E × Option GoError))
    (key : String) (v : Json)
    (hbad : ∀ e : E, ∀ e1, setField key v e ≠ .ok (e1, none))
    (members : List (String × Json)) :
    (key, v) ∈ members →
      ∀ (e : E) (saved : Option GoError), (decodeMembers setField members e saved).2 ≠ none := by
  induction members with
  | nil =>
    intro h
    simp at h
  | cons m rest ih =>
    intro h e saved
    obtain ⟨k, w⟩ := m
    unfold decodeMembers
    cases hs : setField k w e with
    | error p =>
      obtain ⟨e1, err1⟩ := p
      simp
    | ok p =>
      obtain ⟨e1, err1⟩ := p
      simp only []
      rcases List.mem_cons.mp h with heq | hin
      · injection heq with hk hv
        subst hk hv
        cases err1 with
        | none => exact absurd hs (hbad e e1)
        | some err =>
          cases saved with
          | none => exact decodeMembers_saved setField rest e1 err
          | some err0 => exact decodeMembers_saved setField rest e1 err0
      · exact ih hin e1 _

theorem storeString_mismatch (v : Json) (old : String) (hnull : v ≠ .null)
    (hstr : ∀ s, v ≠ .str s) : (storeString v old).2 ≠ none := by
  cases v with
  | null => exact absurd rfl hnull
  | str s => exact absurd rfl (hstr s)
  | bool b => simp [storeString]
  | number n => simp [storeString]
  | arr a => simp [storeString]
  | obj o => simp [storeString]

theorem storeTime_mismatch (lib : Stdlib) (v : Json) (old : Time) (hnull : v ≠ .null)
    (hstr : ∀ s, v = .str s → ∃ err, lib.parseTime s = .error err) :
    ∀ t, storeTime lib v old ≠ .ok t := by
  intro t
  cases v with
  | null => exact absurd rfl hnull
  | str s =>
    obtain ⟨err, he⟩ := hstr s rfl
    simp [storeTime, he]
  | bool b => simp [storeTime]
  | number n => simp [storeTime]
  | arr a => simp [storeTime]
  | obj o => simp [storeTime]

theorem storeMap_mismatch (lib : Stdlib) (v : Json) (old : Option (List (String × GoValue)))
    (hnull : v ≠ .null) (hobj : ∀ members, v ≠ .obj members) : (storeMap lib v old).2 ≠ none := by
  cases v with
  | null => exact absurd rfl hnull
  | obj o => exact absurd rfl (hobj o)
  | bool b => simp [storeMap]
  | number n => simp [storeMap]
  | arr a => simp [storeMap]
  | str s => simp [storeMap]

theorem EventMetadata.setField_string_mismatch (lib : Stdlib) (name : String) (v : Json)
    (hname : name = "event_id" ∨ name = "event_type") (hnull : v ≠ .null)
    (hstr : ∀ s, v ≠ .str s) (m m1 : EventMetadata) :
    EventMetadata.setField lib name v m ≠ .ok (m1, none) := by
  have h := storeString_mismatch v m.EventID hnull hstr
  have h2 := storeString_mismatch v m.EventType hnull hstr
  rcases hname with rfl | rfl
  · simp only [EventMetadata.setField, if_true]
    intro hc
    injection hc with hc
    injection hc with _ hc
    exact h hc
  · have hne : ¬ ("event_type" = "event_id") := by decide
    simp only [EventMetadata.setField, if_neg hne, if_true]
    intro hc
    injection hc with hc
    injection hc with _ hc
    exact h2 hc

theorem EventMetadata.setField_timestamp_mismatch (lib : Stdlib) (v : Json)
    (hnull : v ≠ .null) (hstr : ∀ s, v = .str s → ∃ err, lib.parseTime s = .error err)
    (m m1 : EventMetadata) (err : Option GoError) :
    EventMetadata.setField lib "timestamp" v m ≠ .ok (m1, err) := by
  have h := storeTime_mismatch lib v m.Timestamp hnull hstr
  have hne1 : ¬ ("timestamp" = "event_id") := by decide
  have hne2 : ¬ ("timestamp" = "event_type") := by decide
  simp only [EventMetadata.setField, if_neg hne1, if_neg hne2, if_true]
  cases hs : storeTime lib v m.Timestamp with
  | ok t => exact absurd hs (h t)
  | error p =>
    obtain ⟨t, e⟩ := p
    simp

theorem UserCreatedEvent.setField_created_mismatch (lib : Stdlib) (key : String) (v : Json)
    (hkey : key ∈ ["event_id", "event_type", "user_id", "email"]) (hnull : v ≠ .null)
    (hstr : ∀ s, v ≠ .str s) (e e1 : UserCreatedEvent) :
    UserCreatedEvent.setField lib key v e ≠ .ok (e1, none) := by
  simp only [List.mem_cons, List.mem_singleton, List.not_mem_nil, or_false] at hkey
  rcases hkey with rfl | rfl | rfl | rfl
  · have f : findField UserCreatedEvent.fields "event_id" = some "event_id" := rfl
    have hm := EventMetadata.setField_string_mismatch lib "event_id" v (Or.inl rfl) hnull hstr
      e.toEventMetadata
    simp only [UserCreatedEvent.setField, f]
    cases hs : EventMetadata.setField lib "event_id" v e.toEventMetadata with
    | error p => simp
    | ok p =>
      obtain ⟨m, err⟩ := p
      cases err with
      | none => exact absurd hs (hm m)
      | some err => simp
  · have f : findField UserCreatedEvent.fields "event_type" = some "event_type" := rfl
    have hm := EventMetadata.setField_string_mismatch lib "event_type" v (Or.inr rfl) hnull hstr
      e.toEventMetadata
    simp only [UserCreatedEvent.setField, f]
    cases hs : EventMetadata.setField lib "event_type" v e.toEventMetadata with
    | error p => simp
    | ok p =>
      obtain ⟨m, err⟩ := p
      cases err with
      | none => exact absurd hs (hm m)
      | some err => simp
  · have f : findField UserCreatedEvent.fields "user_id" = some "user_id" := rfl
    have h := storeString_mismatch v e.UserID hnull hstr
    simp only [UserCreatedEvent.setField, f, if_true]
    intro hc
    injection hc with hc
    injection hc with _ hc
    exact h hc
  · have f : findField UserCreatedEvent.fields "email" = some "email" := rfl
    have h := storeString_mismatch v e.Email hnull hstr
    simp only [UserCreatedEvent.setField, f]
    intro hc
    simp at hc
    exact h hc.2

theorem UserUpdatedEvent.setField_updated_mismatch (lib : Stdlib) (key : String) (v : Json)
    (hkey : key ∈ ["event_id", "event_type", "user_id"]) (hnull : v ≠ .null)
    (hstr : ∀ s, v ≠ .str s) (e e1 : UserUpdatedEvent) :
    UserUpdatedEvent.setField lib key v e ≠ .ok (e1, none) := by
  simp only [List.mem_cons, List.mem_singleton, List.not_mem_nil, or_false] at hkey
  rcases hkey with rfl | rfl | rfl
  · have f : findField UserUpdatedEvent.fields "event_id" = some "event_id" := rfl
    have hm := EventMetadata.setField_string_mismatch lib "event_id" v (Or.inl rfl) hnull hstr
      e.toEventMetadata
    simp only [UserUpdatedEvent.setField, f]
    cases hs : EventMetadata.setField lib "event_id" v e.toEventMetadata with
    | error p => simp
    | ok p =>
      obtain ⟨m, err⟩ := p
      cases err with
      | none => exact absurd hs (hm m)
      | some err => simp
  · have f : findField UserUpdatedEvent.fields "event_type" = some "event_type" := rfl
    have hm := EventMetadata.setField_string_mismatch lib "event_type" v (Or.inr rfl) hnull hstr
      e.toEventMetadata
    simp only [UserUpdatedEvent.setField, f]
    cases hs : EventMetadata.setField lib "event_type" v e.toEventMetadata with
    | error p => simp
    | ok p =>
      obtain ⟨m, err⟩ := p
      cases err with
      | none => exact absurd hs (hm m)
      | some err => simp
  · have f : findField UserUpdatedEvent.fields "user_id" = some "user_id" := rfl
    have h := storeString_mismatch v e.UserID hnull hstr
    simp only [UserUpdatedEvent.setField, f, if_true]
    intro hc
    injection hc with hc
    injection hc with _ hc
    exact h hc

theorem UserDeletedEvent.setField_deleted_mismatch (lib : Stdlib) (key : String) (v : Json)
    (hkey : key ∈ ["event_id", "event_type", "user_id"]) (hnull : v ≠ .null)
    (hstr : ∀ s, v ≠ .str s) (e e1 : UserDeletedEvent) :
    UserDeletedEvent.setField lib key v e ≠ .ok (e1, none) := by
  simp only [List.mem_cons, List.mem_singleton, List.not_mem_nil, or_false] at hkey
  rcases hkey with rfl | rfl | rfl
  · have f : findField UserDeletedEvent.fields "event_id" = some "event_id" := rfl
    have hm := EventMetadata.setField_string_mismatch lib "event_id" v (Or.inl rfl) hnull hstr
      e.toEventMetadata
    simp only [UserDeletedEvent.setField, f]
    cases hs : EventMetadata.setField lib "event_id" v e.toEventMetadata with
    | error p => simp
    | ok p =>
      obtain ⟨m, err⟩ := p
      cases err with
      | none => exact absurd hs (hm m)
      | some err => simp
  · have f : findField UserDeletedEvent.fields "event_type" = some "event_type" := rfl
    have hm := EventMetadata.setField_string_mismatch lib "event_type" v (Or.inr rfl) hnull hstr
      e.toEventMetadata
    simp only [UserDeletedEvent.setField, f]
    cases hs : EventMetadata.setField lib "event_type" v e.toEventMetadata with
    | error p => simp
    | ok p =>
      obtain ⟨m, err⟩ := p
      cases err with
      | none => exact absurd hs (hm m)
      | some err => simp
  · have f : findField UserDeletedEvent.fields "user_id" = some "user_id" := rfl
    have h := storeString_mismatch v e.UserID hnull hstr
    simp only [UserDeletedEvent.setField, f, if_true]
    intro hc
    injection hc with hc
    injection hc with _ hc
    exact h hc

theorem UserCreatedEvent.setField_created_time_mismatch (lib : Stdlib) (v : Json)
    (hnull : v ≠ .null) (hstr : ∀ s, v = .str s → ∃ err, lib.parseTime s = .error err)
    (e e1 : UserCreatedEvent) :
    UserCreatedEvent.setField lib "timestamp" v e ≠ .ok (e1, none) := by
  have f : findField UserCreatedEvent.fields "timestamp" = some "timestamp" := rfl
  have hm := EventMetadata.setField_timestamp_mismatch lib v hnull hstr e.toEventMetadata
  simp only [UserCreatedEvent.setField, f]
  cases hs : EventMetadata.setField lib "timestamp" v e.toEventMetadata with
  | error p => simp
  | ok p =>
    obtain ⟨m, err⟩ := p
    exact absurd hs (hm m err)

theorem UserUpdatedEvent.setField_updated_time_mismatch (lib : Stdlib) (v : Json)
    (hnull : v ≠ .null) (hstr : ∀ s, v = .str s → ∃ err, lib.parseTime s = .error err)
    (e e1 : UserUpdatedEvent) :
    UserUpdatedEvent.setField lib "timestamp" v e ≠ .ok (e1, none) := by
  have f : findField UserUpdatedEvent.fields "timestamp" = some "timestamp" := rfl
  have hm := EventMetadata.setField_timestamp_mismatch lib v hnull hstr e.toEventMetadata
  simp only [UserUpdatedEvent.setField, f]
  cases hs : EventMetadata.setField lib "timestamp" v e.toEventMetadata with
  | error p => simp
  | ok p =>
    obtain ⟨m, err⟩ := p
    exact absurd hs (hm m err)

theorem UserDeletedEvent.setField_deleted_time_mismatch (lib : Stdlib) (v : Json)
    (hnull : v ≠ .null) (hstr : ∀ s, v = .str s → ∃ err, lib.parseTime s = .error err)
    (e e1 : UserDeletedEvent) :
    UserDeletedEvent.setField lib "timestamp" v e ≠ .ok (e1, none) := by
  have f : findField UserDeletedEvent.fields "timestamp" = some "timestamp" := rfl
  have hm := EventMetadata.setField_timestamp_mismatch lib v hnull hstr e.toEventMetadata
  simp only [UserDeletedEvent.setField, f]
  cases hs : EventMetadata.setField lib "timestamp" v e.toEventMetadata with
  | error p => simp
  | ok p =>
    obtain ⟨m, err⟩ := p
    exact absurd hs (hm m err)

theorem UserUpdatedEvent.setField_changes_mismatch (lib : Stdlib) (v : Json)
    (hnull : v ≠ .null) (hobj : ∀ members, v ≠ .obj members) (e e1 : UserUpdatedEvent) :
    UserUpdatedEvent.setField lib "changes" v e ≠ .ok (e1, none) := by
  have f : findField UserUpdatedEvent.fields "changes" = some "changes" := rfl
  have h := storeMap_mismatch lib v e.Changes hnull hobj
  simp only [UserUpdatedEvent.setField, f]
  intro hc
  simp at hc
  exact h hc.2

theorem deserialize_created_eq (lib : Stdlib) (data : Payload) :
    (NewJSONDeserializer UserCreatedEvent).Deserialize lib data =
      match data with
      | .malformed raw => (JSONShape.zero, some (syntaxError raw))
      | .json doc =>
        decodeStruct "events.UserCreatedEvent" (UserCreatedEvent.setField lib) doc JSONShape.zero := by
  cases data <;> rfl

theorem deserialize_updated_eq (lib : Stdlib) (data : Payload) :
    (NewJSONDeserializer UserUpdatedEvent).Deserialize lib data =
      match data with
      | .malformed raw => (JSONShape.zero, some (syntaxError raw))
      | .json doc =>
        decodeStruct "events.UserUpdatedEvent" (UserUpdatedEvent.setField lib) doc JSONShape.zero := by
  cases data <;> rfl

theorem deserialize_deleted_eq (lib : Stdlib) (data : Payload) :
    (NewJSONDeserializer UserDeletedEvent).Deserialize lib data =
      match data with
      | .malformed raw => (JSONShape.zero, some (syntaxError raw))
      | .json doc =>
        decodeStruct "events.UserDeletedEvent" (UserDeletedEvent.setField lib) doc JSONShape.zero := by
  cases data <;> rfl

theorem decodeStruct_not_object {E : Type} (goType : String)
    (setField : String → Json → E → Except (E × GoError) (E × Option GoError))
    (doc : Json) (e : E) (hnull : doc ≠ .null) (hobj : ∀ members, doc ≠ .obj members) :
    (decodeStruct goType setField doc e).2 ≠ none := by
  cases doc with
  | null => exact absurd rfl hnull
  | obj o => exact absurd rfl (hobj o)
  | bool b => simp [decodeStruct]
  | number n => simp [decodeStruct]
  | arr a => simp [decodeStruct]
  | str s => simp [decodeStruct]

/-- C17, as the code has it: `Deserialize` returns a non-nil error for every payload
that is not well-formed JSON, for every well-formed payload that is neither `null`
nor an object, and for every object with a member that is named exactly as a field of
the target shape and holds a value of the wrong kind for it: neither a string nor
`null` for `event_id`, `event_type`, `user_id` and `email`; neither `null` nor a
string `Time.UnmarshalJSON` can parse for `timestamp`; neither `null` nor an object
for `changes`. -/
theorem deserialize_rejects_malformed_and_mistyped_payloads (lib : Stdlib) :
    (∀ raw : String,
      ((NewJSONDeserializer UserCreatedEvent).Deserialize lib (.malformed raw)).2 =
          some (syntaxError raw) ∧
        ((NewJSONDeserializer UserUpdatedEvent).Deserialize lib (.malformed raw)).2 =
          some (syntaxError raw) ∧
        ((NewJSONDeserializer UserDeletedEvent).Deserialize lib (.malformed raw)).2 =
          some (syntaxError raw)) ∧
    (∀ doc : Json, doc ≠ .null → (∀ members, doc ≠ .obj members) →
      ((NewJSONDeserializer UserCreatedEvent).Deserialize lib (.json doc)).2 ≠ none ∧
        ((NewJSONDeserializer UserUpdatedEvent).Deserialize lib (.json doc)).2 ≠ none ∧
        ((NewJSONDeserializer UserDeletedEvent).Deserialize lib (.json doc)).2 ≠ none) ∧
    (∀ (members : List (String × Json)) (key : String) (v : Json),
      (key, v) ∈ members → v ≠ .null → (∀ s, v ≠ .str s) →
      (key ∈ ["event_id", "event_type", "user_id", "email"] →
        ((NewJSONDeserializer UserCreatedEvent).Deserialize lib (.json (.obj members))).2 ≠
          none) ∧
      (key ∈ ["event_id", "event_type", "user_id"] →
        ((NewJSONDeserializer UserUpdatedEvent).Deserialize lib (.json (.obj members))).2 ≠
            none ∧
          ((NewJSONDeserializer UserDeletedEvent).Deserialize lib (.json (.obj members))).2 ≠
            none)) ∧
    (∀ (members : List (String × Json)) (v : Json),
      ("timestamp", v) ∈ members → v ≠ .null →
      (∀ s, v = .str s → ∃ err, lib.parseTime s = .error err) →
      ((NewJSONDeserializer UserCreatedEvent).Deserialize lib (.json (.obj members))).2 ≠
          none ∧
        ((NewJSONDeserializer UserUpdatedEvent).Deserialize lib (.json (.obj members))).2 ≠
          none ∧
        ((NewJSONDeserializer UserDeletedEvent).Deserialize lib (.json (.obj members))).2 ≠
          none) ∧
    (∀ (members : List (String × Json)) (v : Json),
      ("changes", v) ∈ members → v ≠ .null → (∀ ms, v ≠ .obj ms) →
      ((NewJSONDeserializer UserUpdatedEvent).Deserialize lib (.json (.obj members))).2 ≠
        none) := by
  refine ⟨?_, ?_, ?_, ?_, ?_⟩
  · intro raw
    exact ⟨rfl, rfl, rfl⟩
  · intro doc hnull hobj
    rw [deserialize_created_eq, deserialize_updated_eq, deserialize_deleted_eq]
    exact ⟨decodeStruct_not_object _ _ _ _ hnull hobj, decodeStruct_not_object _ _ _ _ hnull hobj,
      decodeStruct_not_object _ _ _ _ hnull hobj⟩
  · intro members key v hmem hnull hstr
    rw [deserialize_created_eq, deserialize_updated_eq, deserialize_deleted_eq]
    constructor
    · intro hkey
      exact decodeMembers_rejects _ key v
        (fun e e1 => UserCreatedEvent.setField_created_mismatch lib key v hkey hnull hstr e e1)
        members hmem _ _
    · intro hkey
      exact ⟨decodeMembers_rejects _ key v
          (fun e e1 => UserUpdatedEvent.setField_updated_mismatch lib key v hkey hnull hstr e e1)
          members hmem _ _,
        decodeMembers_rejects _ key v
          (fun e e1 => UserDeletedEvent.setField_deleted_mismatch lib key v hkey hnull hstr e e1)
          members hmem _ _⟩
  · intro members v hmem hnull hstr
    rw [deserialize_created_eq, deserialize_updated_eq, deserialize_deleted_eq]
    exact ⟨decodeMembers_rejects _ "timestamp" v
        (fun e e1 => UserCreatedEvent.setField_created_time_mismatch lib v hnull hstr e e1)
        members hmem _ _,
      decodeMembers_rejects _ "timestamp" v
        (fun e e1 => UserUpdatedEvent.setField_updated_time_mismatch lib v hnull hstr e e1)
        members hmem _ _,
      decodeMembers_rejects _ "timestamp" v
        (fun e e1 => UserDeletedEvent.setField_deleted_time_mismatch lib v hnull hstr e e1)
        members hmem _ _⟩
  · intro members v hmem hnull hobj
    rw [deserialize_updated_eq]
    exact decodeMembers_rejects _ "changes" v
      (fun e e1 => UserUpdatedEvent.setField_changes_mismatch lib v hnull hobj e e1)
      members hmem _ _

/-- Witness for the amended C17: a payload whose `event_id` is a number -/
theorem deserialize_rejects_malformed_and_mistyped_payloads_witness :
    ("event_id", Json.number "42") ∈ [("event_id", Json.number "42")] ∧
      ((NewJSONDeserializer UserCreatedEvent).Deserialize testStdlib
        (.json (.obj [("event_id", Json.number "42")]))).2 ≠ none :=
  ⟨List.mem_singleton.mpr rfl,
    ((deserialize_rejects_malformed_and_mistyped_payloads testStdlib).2.2.1
      [("event_id", Json.number "42")] "event_id" (Json.number "42")
      (List.mem_singleton.mpr rfl) (by simp) (by simp)).1 (by simp)⟩

/-- C17 as stated fails: the payload `{}`, which lacks every envelope key, and a
`user.updated` payload, which carries the fields of another event type, are both
deserialized into a `UserCreatedEvent` with a nil error; the first leaves the event
at its zero value. -/
theorem deserialize_accepts_missing_and_foreign_keys :
    (NewJSONDeserializer UserCreatedEvent).Deserialize testStdlib (.json (.obj [])) =
        (JSONShape.zero, none) ∧
      ((NewJSONDeserializer UserCreatedEvent).Deserialize testStdlib
        (.json (.obj [("event_id", .str "test-id"), ("event_type", .str "user.updated"),
          ("timestamp", .str "2023-01-01T00:00:00Z"), ("user_id", .str "user-123"),
          ("changes", .obj [("email", .obj [("new", .str "updated@example.com"),
            ("old", .str "test@example.com")])])]))).2 = none := by
  constructor
  · rfl
  · rfl

end DecodeErrors

section WirePayload

/-- C18, as the code has it: for every event built by `NewUserCreatedEvent`,
`NewUserUpdatedEvent` or `NewUserDeletedEvent` whose timestamp `Time.MarshalJSON`
accepts and, for an update event, whose changes JSON can encode, `Serialize` succeeds
and yields a JSON object with the members `event_id`, the string `EventID()`,
`event_type`, the string `Type()`, `timestamp` and `user_id`, in that order,
followed by `email` for `user.created` and by `changes` for `user.updated` (`null`
for a nil map, else an object). -/
theorem serialize_writes_the_wire_payload (lib : Stdlib) (id : String) (now : Time)
    (text : String) (hformat : lib.formatTime now = .ok text) :
    (∀ userID email : String,
      JSONSerializer.Serialize lib (NewUserCreatedEvent userID email id now) =
          .ok (.json (.obj [("event_id", .str id), ("event_type", .str "user.created"),
            ("timestamp", .str text), ("user_id", .str userID), ("email", .str email)])) ∧
        Event.EventID (NewUserCreatedEvent userID email id now) = id ∧
        Event.Type' (NewUserCreatedEvent userID email id now) = "user.created") ∧
    (∀ userID : String,
      JSONSerializer.Serialize lib (NewUserUpdatedEvent userID none id now) =
          .ok (.json (.obj [("event_id", .str id), ("event_type", .str "user.updated"),
            ("timestamp", .str text), ("user_id", .str userID), ("changes", .null)])) ∧
        Event.EventID (NewUserUpdatedEvent userID none id now) = id ∧
        Event.Type' (NewUserUpdatedEvent userID none id now) = "user.updated") ∧
    (∀ (userID : String) (changes : List (String × GoValue)) (members : List (String × Json)),
      marshalEntries lib changes = .ok members →
      JSONSerializer.Serialize lib (NewUserUpdatedEvent userID (some changes) id now) =
          .ok (.json (.obj [("event_id", .str id), ("event_type", .str "user.updated"),
            ("timestamp", .str text), ("user_id", .str userID), ("changes", .obj members)])) ∧
        Event.EventID (NewUserUpdatedEvent userID (some changes) id now) = id ∧
        Event.Type' (NewUserUpdatedEvent userID (some changes) id now) = "user.updated") ∧
    (∀ userID : String,
      JSONSerializer.Serialize lib (NewUserDeletedEvent userID id now) =
          .ok (.json (.obj [("event_id", .str id), ("event_type", .str "user.deleted"),
            ("timestamp", .str text), ("user_id", .str userID)])) ∧
        Event.EventID (NewUserDeletedEvent userID id now) = id ∧
        Event.Type' (NewUserDeletedEvent userID id now) = "user.deleted") := by
  refine ⟨?_, ?_, ?_, ?_⟩
  · intro userID email
    refine ⟨?_, rfl, rfl⟩
    simp [JSONSerializer.Serialize, jsonMarshal, JSONShape.marshal, UserCreatedEvent.marshal,
      marshalTime, NewUserCreatedEvent, NewBaseEvent, hformat, EventTypeUserCreated]
  · intro userID
    refine ⟨?_, rfl, rfl⟩
    simp [JSONSerializer.Serialize, jsonMarshal, JSONShape.marshal, UserUpdatedEvent.marshal,
      marshalTime, NewUserUpdatedEvent, NewBaseEvent, hformat, EventTypeUserUpdated]
  · intro userID changes members hm
    refine ⟨?_, rfl, rfl⟩
    simp [JSONSerializer.Serialize, jsonMarshal, JSONShape.marshal, UserUpdatedEvent.marshal,
      marshalTime, NewUserUpdatedEvent, NewBaseEvent, hformat, EventTypeUserUpdated, hm]
  · intro userID
    refine ⟨?_, rfl, rfl⟩
    simp [JSONSerializer.Serialize, jsonMarshal, JSONShape.marshal, UserDeletedEvent.marshal,
      marshalTime, NewUserDeletedEvent, NewBaseEvent, hformat, EventTypeUserDeleted]

/-- Witness for the amended C18: the created event of the serializer test -/
theorem serialize_writes_the_wire_payload_witness :
    testStdlib.formatTime newYear2023 = .ok "2023-01-01T00:00:00Z" ∧
      JSONSerializer.Serialize testStdlib
          (NewUserCreatedEvent "user-123" "test@example.com" "test-id" newYear2023) =
        .ok (.json (.obj [("event_id", .str "test-id"), ("event_type", .str "user.created"),
          ("timestamp", .str "2023-01-01T00:00:00Z"), ("user_id", .str "user-123"),
          ("email", .str "test@example.com")])) :=
  ⟨by decide,
    ((serialize_writes_the_wire_payload testStdlib "test-id" newYear2023
      "2023-01-01T00:00:00Z" (by decide)).1 "user-123" "test@example.com").1⟩

/-- C18 as stated fails: the update event built by `NewUserUpdatedEvent` with a
channel among its changes does not serialize, whatever the text layer. -/
theorem channel_in_changes_does_not_serialize :
    ¬ ∃ (lib : Stdlib) (payload : Payload),
      JSONSerializer.Serialize lib channelChanged = .ok payload := by
  rintro ⟨lib, payload, hs⟩
  cases hf : lib.formatTime newYear2023 with
  | error err =>
    simp [JSONSerializer.Serialize, jsonMarshal, JSONShape.marshal, UserUpdatedEvent.marshal,
      marshalTime, channelChanged, NewUserUpdatedEvent, NewBaseEvent, hf] at hs
  | ok text =>
    simp [JSONSerializer.Serialize, jsonMarshal, JSONShape.marshal, UserUpdatedEvent.marshal,
      marshalTime, channelChanged, NewUserUpdatedEvent, NewBaseEvent, hf, marshalEntries,
      marshalAny] at hs

end WirePayload

/-! ## Theorems: handling order and the loop -/

section HandlingOrder

variable {σ T : Type}

theorem handledEvents_append (l1 l2 : List (Effect T)) :
    handledEvents (l1 ++ l2) = handledEvents l1 ++ handledEvents l2 := by
  unfold handledEvents
  exact List.filterMap_append _ _ _

theorem deserializations_append (l1 l2 : List (Effect T)) :
    deserializations (l1 ++ l2) = deserializations l1 ++ deserializations l2 := by
  unfold deserializations
  exact List.filterMap_append _ _ _

theorem handledBatches_append (l1 l2 : List (Effect T)) :
    handledBatches (l1 ++ l2) = handledBatches l1 ++ handledBatches l2 := by
  unfold handledBatches
  exact List.filterMap_append _ _ _

theorem handledEvents_processedOk (queueURL : String) (l : List (Message × T)) :
    handledEvents (l.flatMap (processedOk queueURL)) = l.map (fun p => p.2) := by
  induction l with
  | nil => rfl
  | cons p l ih =>
    rw [List.flatMap_cons, handledEvents_append, ih]
    rfl

theorem deserializations_processedOk (queueURL : String) (l : List (Message × T)) :
    deserializations (l.flatMap (processedOk queueURL)) = l.map (fun p => (p.1.Body, p.2)) := by
  induction l with
  | nil => rfl
  | cons p l ih =>
    rw [List.flatMap_cons, deserializations_append, ih]
    rfl

theorem deserializations_deserializedOk (l : List (Message × T)) :
    deserializations (l.map deserializedOk) = l.map (fun p => (p.1.Body, p.2)) := by
  induction l with
  | nil => rfl
  | cons p l ih =>
    rw [List.map_cons, List.map_cons, ← ih]
    rfl

theorem handledBatches_deserializedOk (l : List (Message × T)) :
    handledBatches (l.map deserializedOk) = [] := by
  induction l with
  | nil => rfl
  | cons p l ih =>
    rw [List.map_cons]
    exact ih

theorem handledBatches_deleteCall (queueURL : String) (l : List Message) :
    handledBatches (l.map (fun m => (deleteCall queueURL m none : Effect T))) = [] := by
  induction l with
  | nil => rfl
  | cons p l ih =>
    rw [List.map_cons]
    exact ih

theorem deserializations_deleteCall (queueURL : String) (l : List Message) :
    deserializations (l.map (fun m => (deleteCall queueURL m none : Effect T))) = [] := by
  induction l with
  | nil => rfl
  | cons p l ih =>
    rw [List.map_cons]
    exact ih

theorem handledBatches_handleBatch_cons (events : List T) (err : Option GoError)
    (l : List (Effect T)) :
    handledBatches (Effect.HandleBatch events err :: l) = events :: handledBatches l := rfl

theorem deserializations_handleBatch_cons (events : List T) (err : Option GoError)
    (l : List (Effect T)) :
    deserializations (Effect.HandleBatch events err :: l) = deserializations l := rfl

theorem map_zip_bodies (ms : List Message) (evs : List T) :
    (ms.zip evs).map (fun p => (p.1.Body, p.2)) = (ms.map (fun m => m.Body)).zip evs := by
  induction ms generalizing evs with
  | nil => rfl
  | cons m ms ih =>
    cases evs with
    | nil => rfl
    | cons e evs =>
      simp only [List.zip_cons_cons, List.map_cons]
      rw [ih]

theorem map_snd_zip_of_length (ms : List Message) (evs : List T) (h : evs.length ≤ ms.length) :
    (ms.zip evs).map (fun p => p.2) = evs := by
  have : (ms.zip evs).map (fun p => p.2) = (ms.zip evs).map Prod.snd := rfl
  rw [this, List.map_snd_zip]
  exact h

end HandlingOrder

section HandlingOrderClaim

variable {σ T : Type}

theorem zip_bodies_take (ms : List Message) (evs : List T) (k : Nat) (hlen : evs.length = k) :
    ((ms.take k).map (fun m => m.Body)).zip evs = (ms.map (fun m => m.Body)).zip evs := by
  induction ms generalizing evs k with
  | nil => simp
  | cons a ms ih =>
    cases evs with
    | nil => simp
    | cons e evs =>
      cases k with
      | zero => simp at hlen
      | succ k =>
        simp only [List.take_succ_cons, List.map_cons, List.zip_cons_cons]
        rw [ih evs k (by simpa using hlen)]

theorem zip_bodies_snoc (ms : List Message) (evs : List T) (k : Nat) (m : Message) (event : T)
    (hk : ms[k]? = some m) (hlen : evs.length = k) :
    ((ms.take k).map (fun m => m.Body)).zip evs ++ [(m.Body, event)] =
      (ms.map (fun m => m.Body)).zip (evs ++ [event]) := by
  induction ms generalizing evs k with
  | nil => simp at hk
  | cons a ms ih =>
    cases k with
    | zero =>
      have hnil : evs = [] := List.length_eq_zero.mp hlen
      subst hnil
      simp only [List.getElem?_cons_zero, Option.some.injEq] at hk
      subst hk
      simp
    | succ k =>
      cases evs with
      | nil => simp at hlen
      | cons e evs =>
        simp only [List.getElem?_cons_succ] at hk
        simp only [List.take_succ_cons, List.map_cons, List.zip_cons_cons, List.cons_append]
        rw [ih evs k hk (by simpa using hlen)]

/-- C19, amended: handling order. Single-item mode, for every polled list: the
successful `Deserialize` calls of the cycle are, in call order, those on the bodies
of the first polled messages paired with the events the `Handle` calls of the cycle
received, so the i-th `Handle` call receives the event `Deserialize` returned for the
i-th polled message. Batch mode, for a polled list of `n ≥ 1` messages none of which
fails to deserialize: `HandleBatch` is called exactly once, with a list of length `n`
whose i-th element is the event `Deserialize` returned for the i-th polled message. -/
theorem handlers_receive_events_in_polled_order (c : SQSConsumer) (env : ConsumerEnv σ T)
    (s : σ) (messages : List Message)
    (hpoll : (env.ReceiveMessage c.receiveInput s).1 = .ok messages) :
    ((handledEvents (c.processBatchOfSingleMessages env s).1).length ≤ messages.length ∧
      deserializations (c.processBatchOfSingleMessages env s).1 =
        (messages.map (fun m => m.Body)).zip
          (handledEvents (c.processBatchOfSingleMessages env s).1)) ∧
    (messages ≠ [] →
      (∀ data err, Effect.Deserialize data (.error err) ∉ (c.processBatchOfMessages env s).1) →
      ∃ evs : List T, evs.length = messages.length ∧
        handledBatches (c.processBatchOfMessages env s).1 = [evs] ∧
        deserializations (c.processBatchOfMessages env s).1 =
          (messages.map (fun m => m.Body)).zip evs) := by
  constructor
  · have sh := c.processBatchOfSingleMessages_shape env s
    have hh := c.single_poll_head env s
    rw [hpoll] at hh
    revert hh
    generalize (c.processBatchOfSingleMessages env s).1 = tr at sh ⊢
    intro hh
    cases sh with
    | pollError e => simp [pollCall] at hh
    | allProcessed ms evs hlen =>
      simp only [List.head?_cons, Option.some.injEq, pollCall, Effect.ReceiveMessage.injEq,
        Except.ok.injEq, true_and] at hh
      subst hh
      have h1 : handledEvents (pollCall c (.ok ms) ::
          (ms.zip evs).flatMap (processedOk c.queueURL)) = evs := by
        show handledEvents ((ms.zip evs).flatMap (processedOk c.queueURL)) = evs
        rw [handledEvents_processedOk, map_snd_zip_of_length _ _ (le_of_eq hlen)]
      have h2 : deserializations (pollCall c (.ok ms) ::
          (ms.zip evs).flatMap (processedOk c.queueURL)) =
          (ms.map (fun m => m.Body)).zip evs := by
        show deserializations ((ms.zip evs).flatMap (processedOk c.queueURL)) = _
        rw [deserializations_processedOk, map_zip_bodies]
      rw [h1, h2]
      exact ⟨le_of_eq hlen, rfl⟩
    | stopped ms k m evs tail hk hlen hstop =>
      simp only [List.head?_cons, Option.some.injEq, pollCall, Effect.ReceiveMessage.injEq,
        Except.ok.injEq, true_and] at hh
      subst hh
      obtain ⟨hl, hlt⟩ := length_take_of_getElem? ms k m hk
      have h1 : handledEvents (pollCall c (.ok ms) ::
          (((ms.take k).zip evs).flatMap (processedOk c.queueURL) ++ tail)) =
          evs ++ handledEvents tail := by
        show handledEvents (((ms.take k).zip evs).flatMap (processedOk c.queueURL) ++ tail) = _
        rw [handledEvents_append, handledEvents_processedOk,
          map_snd_zip_of_length _ _ (by rw [hl, hlen])]
      have h2 : deserializations (pollCall c (.ok ms) ::
          (((ms.take k).zip evs).flatMap (processedOk c.queueURL) ++ tail)) =
          ((ms.take k).map (fun m => m.Body)).zip evs ++ deserializations tail := by
        show deserializations
          (((ms.take k).zip evs).flatMap (processedOk c.queueURL) ++ tail) = _
        rw [deserializations_append, deserializations_processedOk, map_zip_bodies]
      rw [h1, h2]
      have hcase : (handledEvents tail = [] ∧ deserializations tail = []) ∨
          ∃ event, handledEvents tail = [event] ∧ deserializations tail = [(m.Body, event)] := by
        rcases hstop with hf | hf
        · cases hf with
          | deserialize err => exact Or.inl ⟨rfl, rfl⟩
          | handle event err => exact Or.inr ⟨event, rfl, rfl⟩
        · cases hf with
          | ack event cause => exact Or.inr ⟨event, rfl, rfl⟩
      rcases hcase with ⟨e1, e2⟩ | ⟨event, e1, e2⟩
      · rw [e1, e2, List.append_nil, List.append_nil, zip_bodies_take _ _ _ hlen]
        exact ⟨by omega, rfl⟩
      · rw [e1, e2, zip_bodies_snoc _ _ _ _ _ hk hlen]
        exact ⟨by simp; omega, rfl⟩
  · intro hne hok
    have sh := c.processBatchOfMessages_shape env s
    have hd := c.batch_poll_head env s
    rw [hpoll] at hd
    revert hok hd
    generalize (c.processBatchOfMessages env s).1 = tr at sh ⊢
    intro hok hd
    cases sh with
    | pollError e => simp [pollCall] at hd
    | empty =>
      simp only [List.head?_cons, Option.some.injEq, pollCall, Effect.ReceiveMessage.injEq,
        Except.ok.injEq, true_and] at hd
      exact absurd hd.symm hne
    | deserializeError ms k m evs e hk hlen =>
      exact absurd (by simp) (hok m.Body e)
    | handlerError ms evs e hne1 hlen =>
      simp only [List.head?_cons, Option.some.injEq, pollCall, Effect.ReceiveMessage.injEq,
        Except.ok.injEq, true_and] at hd
      subst hd
      refine ⟨evs, hlen, ?_, ?_⟩
      · show handledBatches ((ms.zip evs).map deserializedOk ++ _) = _
        rw [handledBatches_append, handledBatches_deserializedOk]
        rfl
      · show deserializations ((ms.zip evs).map deserializedOk ++ _) = _
        rw [deserializations_append, deserializations_deserializedOk, map_zip_bodies]
        exact List.append_nil _
    | allAcked ms evs hne1 hlen =>
      simp only [List.head?_cons, Option.some.injEq, pollCall, Effect.ReceiveMessage.injEq,
        Except.ok.injEq, true_and] at hd
      subst hd
      refine ⟨evs, hlen, ?_, ?_⟩
      · show handledBatches ((ms.zip evs).map deserializedOk ++
          Effect.HandleBatch evs none :: _) = _
        rw [handledBatches_append, handledBatches_deserializedOk,
          handledBatches_handleBatch_cons, handledBatches_deleteCall]
        rfl
      · show deserializations ((ms.zip evs).map deserializedOk ++
          Effect.HandleBatch evs none :: _) = _
        rw [deserializations_append, deserializations_deserializedOk, map_zip_bodies,
          deserializations_handleBatch_cons, deserializations_deleteCall, List.append_nil]
    | ackError ms evs k m cause hlen hk =>
      simp only [List.head?_cons, Option.some.injEq, pollCall, Effect.ReceiveMessage.injEq,
        Except.ok.injEq, true_and] at hd
      subst hd
      refine ⟨evs, hlen, ?_, ?_⟩
      · show handledBatches ((ms.zip evs).map deserializedOk ++
          Effect.HandleBatch evs none :: (_ ++ _)) = _
        rw [handledBatches_append, handledBatches_deserializedOk,
          handledBatches_handleBatch_cons, handledBatches_append, handledBatches_deleteCall]
        rfl
      · show deserializations ((ms.zip evs).map deserializedOk ++
          Effect.HandleBatch evs none :: (_ ++ _)) = _
        rw [deserializations_append, deserializations_deserializedOk, map_zip_bodies,
          deserializations_handleBatch_cons, deserializations_append,
          deserializations_deleteCall]
        exact List.append_nil _

/-- Witness for the amended C19: three polled messages, in single-item mode with the
handler failing on the second event, in batch mode with everything succeeding -/
theorem handlers_receive_events_in_polled_order_witness :
    (secondHandlerFails.ReceiveMessage testConsumer.receiveInput noCalls).1 =
        .ok threeMessages ∧
      handledEvents (testConsumer.processBatchOfSingleMessages secondHandlerFails noCalls).1 =
        ["body-1", "body-2"] ∧
      ((handledEvents
            (testConsumer.processBatchOfSingleMessages secondHandlerFails noCalls).1).length ≤
          threeMessages.length ∧
        deserializations (testConsumer.processBatchOfSingleMessages secondHandlerFails noCalls).1 =
          (threeMessages.map (fun m => m.Body)).zip
            (handledEvents
              (testConsumer.processBatchOfSingleMessages secondHandlerFails noCalls).1)) ∧
      handledBatches (testConsumer.processBatchOfMessages secondHandlerFails noCalls).1 =
        [["body-1", "body-2", "body-3"]] ∧
      ∃ evs : List String, evs.length = threeMessages.length ∧
        handledBatches (testConsumer.processBatchOfMessages secondHandlerFails noCalls).1 =
          [evs] ∧
        deserializations (testConsumer.processBatchOfMessages secondHandlerFails noCalls).1 =
          (threeMessages.map (fun m => m.Body)).zip evs :=
  ⟨by decide, by decide,
    (handlers_receive_events_in_polled_order testConsumer secondHandlerFails noCalls
      threeMessages (by decide)).1,
    by decide,
    (handlers_receive_events_in_polled_order testConsumer secondHandlerFails noCalls
      threeMessages (by decide)).2 (by decide) (by
        intro data err h
        have htr : (testConsumer.processBatchOfMessages secondHandlerFails noCalls).1 =
            [pollCall testConsumer (.ok threeMessages),
              Effect.Deserialize "body-1" (.ok "body-1"),
              Effect.Deserialize "body-2" (.ok "body-2"),
              Effect.Deserialize "body-3" (.ok "body-3"),
              Effect.HandleBatch ["body-1", "body-2", "body-3"] none,
              Effect.DeleteMessage
                { QueueUrl := testConsumer.queueURL, ReceiptHandle := "receipt-handle-1" } none,
              Effect.DeleteMessage
                { QueueUrl := testConsumer.queueURL, ReceiptHandle := "receipt-handle-2" } none,
              Effect.DeleteMessage
                { QueueUrl := testConsumer.queueURL, ReceiptHandle := "receipt-handle-3" }
                none] := by
          decide
        rw [htr] at h
        simp [pollCall] at h)⟩

/-- C19 as stated fails for an empty poll in batch mode: the poll returns zero
messages, so all of them deserialize, and `HandleBatch` is not called at all rather
than once with an empty list. -/
theorem batch_mode_skips_the_handler_on_an_empty_poll :
    ((mockEnv (allSucceed [])).ReceiveMessage testConsumer.receiveInput noCalls).1 = .ok [] ∧
      (∀ data err, Effect.Deserialize data (.error err) ∉
        (testConsumer.processBatchOfMessages (mockEnv (allSucceed [])) noCalls).1) ∧
      handledBatches (testConsumer.processBatchOfMessages (mockEnv (allSucceed [])) noCalls).1 =
        [] ∧
      ¬ ∃ evs : List String, evs.length = 0 ∧
        handledBatches (testConsumer.processBatchOfMessages (mockEnv (allSucceed [])) noCalls).1 =
          [evs] := by
  refine ⟨by decide, ?_, by decide, ?_⟩
  · intro data err h
    simp [SQSConsumer.processBatchOfMessages, mockEnv, allSucceed] at h
  · rintro ⟨evs, _, h⟩
    simp [SQSConsumer.processBatchOfMessages, mockEnv, allSucceed, handledBatches] at h

end HandlingOrderClaim

section LoopClaim

variable {σ T : Type}

theorem SQSConsumer.loop_stopped_iff (cycle : σ → List (Effect T) × σ) (done : σ → Bool)
    (fuel : Nat) (s : σ) :
    (SQSConsumer.loop cycle done fuel s).1 = .stopped ↔
      ∃ k, k < fuel ∧ done ((fun s => (cycle s).2)^[k] s) = true := by
  induction fuel generalizing s with
  | zero => simp [SQSConsumer.loop]
  | succ fuel ih =>
    unfold SQSConsumer.loop
    by_cases hd : done s = true
    · simp only [hd, if_true, true_iff]
      exact ⟨0, Nat.succ_pos _, hd⟩
    · simp only [hd, if_false, Bool.false_eq_true]
      rw [ih]
      constructor
      · rintro ⟨k, hk, h⟩
        exact ⟨k + 1, Nat.succ_lt_succ hk, by rw [Function.iterate_succ_apply]; exact h⟩
      · rintro ⟨k, hk, h⟩
        cases k with
        | zero => exact absurd h hd
        | succ k =>
          exact ⟨k, Nat.lt_of_succ_lt_succ hk, by rw [Function.iterate_succ_apply] at h; exact h⟩

theorem SQSConsumer.loop_stopped_done (cycle : σ → List (Effect T) × σ) (done : σ → Bool)
    (fuel : Nat) (s : σ) (h : (SQSConsumer.loop cycle done fuel s).1 = .stopped) :
    done (SQSConsumer.loop cycle done fuel s).2.2 = true := by
  induction fuel generalizing s with
  | zero => simp [SQSConsumer.loop] at h
  | succ fuel ih =>
    unfold SQSConsumer.loop at h ⊢
    by_cases hd : done s = true
    · simp only [hd, if_true]
    · simp only [hd, if_false, Bool.false_eq_true] at h ⊢
      exact ih _ h

end LoopClaim

/-! ## Theorems: cancellation, the constructor and the ack primitives -/

section PollLemmas

variable {σ T : Type}

theorem pollInputs_append (l1 l2 : List (Effect T)) :
    pollInputs (l1 ++ l2) = pollInputs l1 ++ pollInputs l2 := by
  unfold pollInputs
  exact List.filterMap_append _ _ _

theorem pollCount_eq_length (tr : List (Effect T)) : pollCount tr = (pollInputs tr).length := by
  induction tr with
  | nil => rfl
  | cons e tr ih =>
    cases e <;> simp [pollCount, pollInputs, List.filter_cons, List.filterMap_cons] at ih ⊢ <;>
      exact ih

theorem pollInputs_processedOk (queueURL : String) (l : List (Message × T)) :
    pollInputs (l.flatMap (processedOk queueURL)) = [] := by
  induction l with
  | nil => rfl
  | cons p l ih =>
    rw [List.flatMap_cons, pollInputs_append, ih]
    rfl

theorem pollInputs_deserializedOk (l : List (Message × T)) :
    pollInputs (l.map deserializedOk) = [] := by
  induction l with
  | nil => rfl
  | cons p l ih =>
    rw [List.map_cons]
    exact ih

theorem pollInputs_deleteCall (queueURL : String) (l : List Message) :
    pollInputs (l.map (fun m => (deleteCall queueURL m none : Effect T))) = [] := by
  induction l with
  | nil => rfl
  | cons p l ih =>
    rw [List.map_cons]
    exact ih

theorem pollInputs_pollCall_cons (c : SQSConsumer) (out : Except GoError (List Message))
    (l : List (Effect T)) : pollInputs (pollCall c out :: l) = c.receiveInput :: pollInputs l :=
  rfl

theorem pollInputs_of_singleCycle (c : SQSConsumer) (tr : List (Effect T))
    (h : SingleCycle c tr) : pollInputs tr = [c.receiveInput] := by
  cases h with
  | pollError e => rfl
  | allProcessed ms evs hlen => rw [pollInputs_pollCall_cons, pollInputs_processedOk]
  | stopped ms k m evs tail hk hlen hstop =>
    rw [pollInputs_pollCall_cons, pollInputs_append, pollInputs_processedOk]
    rcases hstop with hf | hf <;> cases hf <;> rfl

theorem pollInputs_of_batchCycle (c : SQSConsumer) (tr : List (Effect T))
    (h : BatchCycle c tr) : pollInputs tr = [c.receiveInput] := by
  cases h with
  | pollError e => rfl
  | empty => rfl
  | deserializeError ms k m evs e hk hlen =>
    rw [pollInputs_pollCall_cons, pollInputs_append, pollInputs_deserializedOk]
    rfl
  | handlerError ms evs e hne hlen =>
    rw [pollInputs_pollCall_cons, pollInputs_append, pollInputs_deserializedOk]
    rfl
  | allAcked ms evs hne hlen =>
    rw [pollInputs_pollCall_cons, pollInputs_append, pollInputs_deserializedOk]
    show c.receiveInput :: pollInputs (List.map (fun m => deleteCall c.queueURL m none) ms) = _
    rw [pollInputs_deleteCall]
  | ackError ms evs k m cause hlen hk =>
    rw [pollInputs_pollCall_cons, pollInputs_append, pollInputs_deserializedOk]
    show c.receiveInput :: pollInputs
      (List.map (fun m => deleteCall c.queueURL m none) (List.take k ms) ++ _) = _
    rw [pollInputs_append, pollInputs_deleteCall]
    rfl

theorem SQSConsumer.single_cycle_polls_once (c : SQSConsumer) (env : ConsumerEnv σ T) (s : σ) :
    pollCount (c.processBatchOfSingleMessages env s).1 = 1 := by
  rw [pollCount_eq_length, pollInputs_of_singleCycle c _ (c.processBatchOfSingleMessages_shape env s)]
  rfl

theorem SQSConsumer.batch_cycle_polls_once (c : SQSConsumer) (env : ConsumerEnv σ T) (s : σ) :
    pollCount (c.processBatchOfMessages env s).1 = 1 := by
  rw [pollCount_eq_length, pollInputs_of_batchCycle c _ (c.processBatchOfMessages_shape env s)]
  rfl

theorem pollCount_append (l1 l2 : List (Effect T)) :
    pollCount (l1 ++ l2) = pollCount l1 + pollCount l2 := by
  rw [pollCount_eq_length, pollCount_eq_length, pollCount_eq_length, pollInputs_append,
    List.length_append]

theorem SQSConsumer.loop_of_done (cycle : σ → List (Effect T) × σ) (done : σ → Bool)
    (fuel : Nat) (s : σ) (h : done s = true) :
    SQSConsumer.loop cycle done (fuel + 1) s =
      (.stopped, [Effect.LogInfo "sqs consumer context canceled, stopping"], s) := by
  simp [SQSConsumer.loop, h]

theorem SQSConsumer.loop_of_not_done (cycle : σ → List (Effect T) × σ) (done : σ → Bool)
    (fuel : Nat) (s : σ) (h : done s = false) :
    SQSConsumer.loop cycle done (fuel + 1) s =
      ((SQSConsumer.loop cycle done fuel (cycle s).2).1,
        (cycle s).1 ++ (SQSConsumer.loop cycle done fuel (cycle s).2).2.1,
        (SQSConsumer.loop cycle done fuel (cycle s).2).2.2) := by
  simp [SQSConsumer.loop, h]

/-- A loop that has stopped ran `k` complete cycles, found the context not cancelled
before each of them and cancelled at the check after the last, polled `k` times and
ends in the state the last cycle left. -/
theorem SQSConsumer.loop_stopped_run (cycle : σ → List (Effect T) × σ) (done : σ → Bool)
    (hcycle : ∀ s, pollCount (cycle s).1 = 1) (fuel : Nat) (s : σ)
    (h : (SQSConsumer.loop cycle done fuel s).1 = .stopped) :
    ∃ k, k < fuel ∧ done ((fun s => (cycle s).2)^[k] s) = true ∧
      (∀ j, j < k → done ((fun s => (cycle s).2)^[j] s) = false) ∧
      pollCount (SQSConsumer.loop cycle done fuel s).2.1 = k ∧
      (SQSConsumer.loop cycle done fuel s).2.2 = (fun s => (cycle s).2)^[k] s := by
  induction fuel generalizing s with
  | zero => simp [SQSConsumer.loop] at h
  | succ fuel ih =>
    by_cases hd : done s = true
    · rw [SQSConsumer.loop_of_done cycle done fuel s hd]
      exact ⟨0, Nat.succ_pos _, hd, fun j hj => absurd hj (Nat.not_lt_zero j), rfl, rfl⟩
    · have hd1 : done s = false := by simpa using hd
      rw [SQSConsumer.loop_of_not_done cycle done fuel s hd1] at h ⊢
      obtain ⟨k, hk, hdone, hbefore, hcount, hstate⟩ := ih (cycle s).2 h
      refine ⟨k + 1, Nat.succ_lt_succ hk, ?_, ?_, ?_, ?_⟩
      · rw [Function.iterate_succ_apply]
        exact hdone
      · intro j hj
        cases j with
        | zero => exact hd1
        | succ j =>
          rw [Function.iterate_succ_apply]
          exact hbefore j (Nat.lt_of_succ_lt_succ hj)
      · show pollCount ((cycle s).1 ++ _) = k + 1
        rw [pollCount_append, hcycle, hcount, Nat.add_comm]
      · rw [Function.iterate_succ_apply]
        exact hstate

end PollLemmas

section Cancellation

variable {σ T : Type}

/-- C21: cancellation. The loop of `Start` (of `StartBatch`) checks the context
before every cycle: a loop that has stopped ran `k` complete cycles, found the
context not cancelled before each of them and cancelled at the next check, made `k`
polls and started no cycle after that check. With the context cancelled at the first
check the loop makes no call at all; with the context cancelled while the first cycle
runs the loop makes the one poll of that cycle and stops at the second check. -/
theorem loop_starts_no_cycle_after_cancellation (c : SQSConsumer) (env : ConsumerEnv σ T)
    (done : σ → Bool) (fuel : Nat) (s : σ) :
    (((c.Start env done fuel s).1 = .stopped →
        ∃ k, k < fuel ∧
          done ((fun s => (c.processBatchOfSingleMessages env s).2)^[k] s) = true ∧
          (∀ j, j < k →
            done ((fun s => (c.processBatchOfSingleMessages env s).2)^[j] s) = false) ∧
          pollCount (c.Start env done fuel s).2.1 = k ∧
          (c.Start env done fuel s).2.2 =
            (fun s => (c.processBatchOfSingleMessages env s).2)^[k] s) ∧
      (done s = true →
        c.Start env done (fuel + 1) s =
          (.stopped, [Effect.LogInfo "starting sqs consumer",
            Effect.LogInfo "sqs consumer context canceled, stopping"], s)) ∧
      (done s = false → done (c.processBatchOfSingleMessages env s).2 = true →
        c.Start env done (fuel + 2) s =
            (.stopped, Effect.LogInfo "starting sqs consumer" ::
              ((c.processBatchOfSingleMessages env s).1 ++
                [Effect.LogInfo "sqs consumer context canceled, stopping"]),
              (c.processBatchOfSingleMessages env s).2) ∧
          pollCount (c.Start env done (fuel + 2) s).2.1 = 1)) ∧
    (((c.StartBatch env done fuel s).1 = .stopped →
        ∃ k, k < fuel ∧
          done ((fun s => (c.processBatchOfMessages env s).2)^[k] s) = true ∧
          (∀ j, j < k → done ((fun s => (c.processBatchOfMessages env s).2)^[j] s) = false) ∧
          pollCount (c.StartBatch env done fuel s).2.1 = k ∧
          (c.StartBatch env done fuel s).2.2 =
            (fun s => (c.processBatchOfMessages env s).2)^[k] s) ∧
      (done s = true →
        c.StartBatch env done (fuel + 1) s =
          (.stopped, [Effect.LogInfo "starting sqs consumer in batch mode",
            Effect.LogInfo "sqs consumer context canceled, stopping"], s)) ∧
      (done s = false → done (c.processBatchOfMessages env s).2 = true →
        c.StartBatch env done (fuel + 2) s =
            (.stopped, Effect.LogInfo "starting sqs consumer in batch mode" ::
              ((c.processBatchOfMessages env s).1 ++
                [Effect.LogInfo "sqs consumer context canceled, stopping"]),
              (c.processBatchOfMessages env s).2) ∧
          pollCount (c.StartBatch env done (fuel + 2) s).2.1 = 1)) := by
  refine ⟨⟨?_, ?_, ?_⟩, ⟨?_, ?_, ?_⟩⟩
  · intro h
    exact SQSConsumer.loop_stopped_run _ done (c.single_cycle_polls_once env) fuel s h
  · intro h
    unfold SQSConsumer.Start
    rw [SQSConsumer.loop_of_done _ done fuel s h]
  · intro h0 h1
    have hrun : c.Start env done (fuel + 2) s =
        (.stopped, Effect.LogInfo "starting sqs consumer" ::
          ((c.processBatchOfSingleMessages env s).1 ++
            [Effect.LogInfo "sqs consumer context canceled, stopping"]),
          (c.processBatchOfSingleMessages env s).2) := by
      unfold SQSConsumer.Start
      rw [SQSConsumer.loop_of_not_done _ done (fuel + 1) s h0,
        SQSConsumer.loop_of_done _ done fuel _ h1]
    refine ⟨hrun, ?_⟩
    rw [hrun]
    show pollCount ((c.processBatchOfSingleMessages env s).1 ++ _) = 1
    rw [pollCount_append, c.single_cycle_polls_once env s]
    rfl
  · intro h
    exact SQSConsumer.loop_stopped_run _ done (c.batch_cycle_polls_once env) fuel s h
  · intro h
    unfold SQSConsumer.StartBatch
    rw [SQSConsumer.loop_of_done _ done fuel s h]
  · intro h0 h1
    have hrun : c.StartBatch env done (fuel + 2) s =
        (.stopped, Effect.LogInfo "starting sqs consumer in batch mode" ::
          ((c.processBatchOfMessages env s).1 ++
            [Effect.LogInfo "sqs consumer context canceled, stopping"]),
          (c.processBatchOfMessages env s).2) := by
      unfold SQSConsumer.StartBatch
      rw [SQSConsumer.loop_of_not_done _ done (fuel + 1) s h0,
        SQSConsumer.loop_of_done _ done fuel _ h1]
    refine ⟨hrun, ?_⟩
    rw [hrun]
    show pollCount ((c.processBatchOfMessages env s).1 ++ _) = 1
    rw [pollCount_append, c.batch_cycle_polls_once env s]
    rfl

/-- Witness for C21: over two polled messages, a context cancelled from the start
(no call is made) and a context cancelled while the first poll is in flight (one
poll, whose two messages are still processed, and no second cycle) -/
theorem loop_starts_no_cycle_after_cancellation_witness :
    cancelledFromTheStart noCalls = true ∧
      SQSConsumer.Start testConsumer (mockEnv (allSucceed twoMessages)) cancelledFromTheStart
          (3 + 1) noCalls =
        (.stopped, [Effect.LogInfo "starting sqs consumer",
          Effect.LogInfo "sqs consumer context canceled, stopping"], noCalls) ∧
      cancelledDuringFirstPoll noCalls = false ∧
      cancelledDuringFirstPoll
        (testConsumer.processBatchOfSingleMessages (mockEnv (allSucceed twoMessages))
          noCalls).2 = true ∧
      pollCount (SQSConsumer.Start testConsumer (mockEnv (allSucceed twoMessages))
        cancelledDuringFirstPoll (3 + 2) noCalls).2.1 = 1 ∧
      (SQSConsumer.Start testConsumer (mockEnv (allSucceed twoMessages))
        cancelledDuringFirstPoll (3 + 2) noCalls).2.2.handlerCallCount = 2 :=
  ⟨by decide,
    (loop_starts_no_cycle_after_cancellation testConsumer (mockEnv (allSucceed twoMessages))
      cancelledFromTheStart 3 noCalls).1.2.1 (by decide),
    by decide, by decide,
    ((loop_starts_no_cycle_after_cancellation testConsumer (mockEnv (allSucceed twoMessages))
      cancelledDuringFirstPoll 3 noCalls).1.2.2 (by decide) (by decide)).2,
    by decide⟩

end Cancellation

section ConstructorAndAcks

variable {σ T : Type}

/-- C22: the defaults of `NewSQSConsumer`. The consumer built from the options holds
the queue URL of the options and, for each of the three numbers, the default (10, 30,
20) when the option is nil and the supplied value when it is set, each decided by its
own option alone. A cycle of either mode makes exactly one poll request, and it
carries these four values. -/
theorem new_consumer_takes_options_or_defaults (options : SQSConsumerOptions)
    (env : ConsumerEnv σ T) (s : σ) :
    (NewSQSConsumer options).queueURL = options.QueueURL ∧
    (NewSQSConsumer options).maxNumberOfMessages =
      (match options.MaxNumberOfMessages with
        | none => 10
        | some value => value) ∧
    (NewSQSConsumer options).visibilityTimeout =
      (match options.VisibilityTimeout with
        | none => 30
        | some value => value) ∧
    (NewSQSConsumer options).waitTimeSeconds =
      (match options.WaitTimeSeconds with
        | none => 20
        | some value => value) ∧
    pollInputs ((NewSQSConsumer options).processBatchOfSingleMessages env s).1 =
      [{ QueueUrl := options.QueueURL
         MaxNumberOfMessages := (NewSQSConsumer options).maxNumberOfMessages
         VisibilityTimeout := (NewSQSConsumer options).visibilityTimeout
         WaitTimeSeconds := (NewSQSConsumer options).waitTimeSeconds }] ∧
    pollInputs ((NewSQSConsumer options).processBatchOfMessages env s).1 =
      [{ QueueUrl := options.QueueURL
         MaxNumberOfMessages := (NewSQSConsumer options).maxNumberOfMessages
         VisibilityTimeout := (NewSQSConsumer options).visibilityTimeout
         WaitTimeSeconds := (NewSQSConsumer options).waitTimeSeconds }] := by
  refine ⟨rfl, ?_, ?_, ?_, ?_, ?_⟩
  · cases h : options.MaxNumberOfMessages <;>
      simp [NewSQSConsumer, h, defaultMaxNumberOfMessages]
  · cases h : options.VisibilityTimeout <;>
      simp [NewSQSConsumer, h, defaultVisibilityTimeout]
  · cases h : options.WaitTimeSeconds <;>
      simp [NewSQSConsumer, h, defaultWaitTimeSeconds]
  · rw [pollInputs_of_singleCycle _ _ (SQSConsumer.processBatchOfSingleMessages_shape _ env s)]
    rfl
  · rw [pollInputs_of_batchCycle _ _ (SQSConsumer.processBatchOfMessages_shape _ env s)]
    rfl

/-- C23: `BatchAck`. For every list of tokens, the empty one included, the run is
exactly one `DeleteMessageBatch` call, to the queue of the consumer, with one entry
per token in input order whose `Id` and `ReceiptHandle` are both the token. The result
is nil when the call returns nil and the wrapped error of the call otherwise. -/
theorem batch_ack_sends_one_request (c : SQSConsumer) (env : ConsumerEnv σ T)
    (tokens : List String) (s : σ) :
    ∃ input : DeleteMessageBatchInput,
      input.QueueUrl = c.queueURL ∧
      input.Entries.length = tokens.length ∧
      (∀ i : Nat, input.Entries[i]? =
        (tokens[i]?).map (fun token => { Id := token, ReceiptHandle := token })) ∧
      (c.BatchAck env tokens s).2.1 =
        [Effect.DeleteMessageBatch input (env.DeleteMessageBatch input s).1] ∧
      (c.BatchAck env tokens s).2.2 = (env.DeleteMessageBatch input s).2 ∧
      (c.BatchAck env tokens s).1 =
        ((env.DeleteMessageBatch input s).1).map
          (fun cause => GoError.wrap ("failed to delete sqs messages: " ++ cause.Error) cause) ∧
      ((c.BatchAck env tokens s).1 ≠ none ↔ (env.DeleteMessageBatch input s).1 ≠ none) := by
  refine ⟨{ QueueUrl := c.queueURL
            Entries := tokens.map fun token => { Id := token, ReceiptHandle := token } },
    rfl, by simp, fun i => by simp, ?_⟩
  unfold SQSConsumer.BatchAck
  cases h : (env.DeleteMessageBatch
    { QueueUrl := c.queueURL
      Entries := tokens.map fun token => { Id := token, ReceiptHandle := token } } s).1 <;>
    simp [h, GoError.errorf]

/-- C24: `Ack`. The run is exactly one `DeleteMessage` call, to the queue of the
consumer and for the token given. The result is nil when the call returns nil and
otherwise the error `failed to delete sqs message: ...` that wraps the error of the
call. -/
theorem ack_sends_one_request (c : SQSConsumer) (env : ConsumerEnv σ T) (token : String)
    (s : σ) :
    (c.Ack env token s).2.1 =
      [Effect.DeleteMessage { QueueUrl := c.queueURL, ReceiptHandle := token }
        (env.DeleteMessage { QueueUrl := c.queueURL, ReceiptHandle := token } s).1] ∧
    (c.Ack env token s).2.2 =
      (env.DeleteMessage { QueueUrl := c.queueURL, ReceiptHandle := token } s).2 ∧
    (c.Ack env token s).1 =
      ((env.DeleteMessage { QueueUrl := c.queueURL, ReceiptHandle := token } s).1).map
        (fun cause => GoError.wrap ("failed to delete sqs message: " ++ cause.Error) cause) ∧
    ((c.Ack env token s).1 ≠ none ↔
      (env.DeleteMessage { QueueUrl := c.queueURL, ReceiptHandle := token } s).1 ≠ none) := by
  unfold SQSConsumer.Ack
  cases h : (env.DeleteMessage { QueueUrl := c.queueURL, ReceiptHandle := token } s).1 <;>
    simp [h, GoError.errorf]

end ConstructorAndAcks

section AckFailure

variable {σ T : Type}

theorem deserializedBodies_processedOk (queueURL : String) (l : List (Message × T)) :
    deserializedBodies (l.flatMap (processedOk queueURL)) = l.map (fun p => p.1.Body) := by
  induction l with
  | nil => rfl
  | cons p l ih =>
    rw [List.flatMap_cons, deserializedBodies_append, ih]
    rfl

theorem deleteCalls_processedOk (queueURL : String) (l : List (Message × T)) :
    deleteCalls (l.flatMap (processedOk queueURL)) =
      l.map (fun p => ({ QueueUrl := queueURL, ReceiptHandle := p.1.ReceiptHandle }, none)) := by
  induction l with
  | nil => rfl
  | cons p l ih =>
    rw [List.flatMap_cons, deleteCalls_append, ih]
    rfl

theorem not_failed_delete_mem_processedOk (queueURL : String) (l : List (Message × T))
    (input : DeleteMessageInput) (err : GoError) :
    Effect.DeleteMessage input (some err) ∉ l.flatMap (processedOk queueURL) := by
  intro h
  obtain ⟨p, _, hp⟩ := List.mem_flatMap.mp h
  simp [processedOk, deleteCall] at hp

/-- C28: single-item mode stops at an ack failure. If a `DeleteMessage` call of the
cycle returns an error, it is the call for a polled message `k` whose event was
handled with a nil error just before; the messages before `k` were each deserialized,
handled and deleted, and the failing call and its log line end the cycle. So
`Deserialize` was called on the first `k + 1` bodies only, `Handle` once for each of
them, message `k` included, and `DeleteMessage` for the first `k + 1` handles, the
last of these calls being the one that failed. -/
theorem single_mode_stops_at_ack_failure (c : SQSConsumer) (env : ConsumerEnv σ T) (s : σ)
    (messages : List Message) (input : DeleteMessageInput) (err : GoError)
    (hpoll : (env.ReceiveMessage c.receiveInput s).1 = .ok messages)
    (hfail : Effect.DeleteMessage input (some err) ∈ (c.processBatchOfSingleMessages env s).1) :
    ∃ (k : Nat) (message : Message) (evs : List T) (event : T),
      messages[k]? = some message ∧ evs.length = k ∧
      input = { QueueUrl := c.queueURL, ReceiptHandle := message.ReceiptHandle } ∧
      (c.processBatchOfSingleMessages env s).1 =
        pollCall c (.ok messages) ::
          (((messages.take k).zip evs).flatMap (processedOk c.queueURL) ++
            [Effect.Deserialize message.Body (.ok event), Effect.Handle event none,
              Effect.DeleteMessage input (some err),
              Effect.LogError "failed to ack sqs message"
                (GoError.errorf "failed to delete sqs message" err)]) ∧
      deserializedBodies (c.processBatchOfSingleMessages env s).1 =
        (messages.take (k + 1)).map (fun m => m.Body) ∧
      handledEvents (c.processBatchOfSingleMessages env s).1 = evs ++ [event] ∧
      deleteCalls (c.processBatchOfSingleMessages env s).1 =
        (messages.take k).map (fun m =>
          ({ QueueUrl := c.queueURL, ReceiptHandle := m.ReceiptHandle }, none)) ++
          [(input, some err)] := by
  have sh := c.processBatchOfSingleMessages_shape env s
  have hh := c.single_poll_head env s
  rw [hpoll] at hh
  revert hfail hh
  generalize (c.processBatchOfSingleMessages env s).1 = tr at sh ⊢
  intro hfail hh
  cases sh with
  | pollError e => simp [pollCall] at hh
  | allProcessed ms evs hlen =>
    exfalso
    rcases List.mem_cons.mp hfail with h | h
    · simp [pollCall] at h
    · exact not_failed_delete_mem_processedOk _ _ _ _ h
  | stopped ms k m evs tail hk hlen hstop =>
    simp only [List.head?_cons, Option.some.injEq, pollCall, Effect.ReceiveMessage.injEq,
      Except.ok.injEq, true_and] at hh
    subst hh
    obtain ⟨hl, hlt⟩ := length_take_of_getElem? ms k m hk
    have htail : Effect.DeleteMessage input (some err) ∈ tail := by
      rcases List.mem_cons.mp hfail with h | h
      · simp [pollCall] at h
      · rcases List.mem_append.mp h with h | h
        · exact absurd h (not_failed_delete_mem_processedOk _ _ _ _)
        · exact h
    rcases hstop with hf | hf
    · exfalso
      cases hf <;> simp at htail
    · cases hf with
      | ack event cause =>
        simp only [deleteCall, List.mem_cons, Effect.DeleteMessage.injEq, Option.some.injEq,
          List.mem_singleton, reduceCtorEq, false_or, or_false, List.not_mem_nil] at htail
        obtain ⟨hin, herr⟩ := htail
        subst hin
        subst herr
        refine ⟨k, m, evs, event, hk, hlen, rfl, rfl, ?_, ?_, ?_⟩
        · show deserializedBodies (((ms.take k).zip evs).flatMap (processedOk c.queueURL) ++ _) = _
          rw [deserializedBodies_append, deserializedBodies_processedOk,
            map_body_zip _ _ (by rw [hl, hlen]), take_succ_map_body ms k m hk]
          rfl
        · show handledEvents (((ms.take k).zip evs).flatMap (processedOk c.queueURL) ++ _) = _
          rw [handledEvents_append, handledEvents_processedOk,
            map_snd_zip_of_length _ _ (by rw [hl, hlen])]
          rfl
        · show deleteCalls (((ms.take k).zip evs).flatMap (processedOk c.queueURL) ++ _) = _
          rw [deleteCalls_append, deleteCalls_processedOk]
          have hz : ((ms.take k).zip evs).map (fun p =>
              (({ QueueUrl := c.queueURL, ReceiptHandle := p.1.ReceiptHandle } :
                DeleteMessageInput), (none : Option GoError))) =
              (ms.take k).map (fun m =>
                ({ QueueUrl := c.queueURL, ReceiptHandle := m.ReceiptHandle }, none)) := by
            have : ((ms.take k).zip evs).map (fun p =>
                (({ QueueUrl := c.queueURL, ReceiptHandle := p.1.ReceiptHandle } :
                  DeleteMessageInput), (none : Option GoError))) =
                (((ms.take k).zip evs).map Prod.fst).map (fun m =>
                  ({ QueueUrl := c.queueURL, ReceiptHandle := m.ReceiptHandle }, none)) := by
              rw [List.map_map]
              rfl
            rw [this, List.map_fst_zip]
            rw [hl, hlen]
          rw [hz]
          rfl

/-- Witness for C28: the ack-error row of the single-item test table over two
messages; the first delete call fails, so the second message is not touched. -/
theorem single_mode_stops_at_ack_failure_witness :
    ((mockEnv ackFails).ReceiveMessage testConsumer.receiveInput noCalls).1 = .ok twoMessages ∧
      Effect.DeleteMessage
          { QueueUrl := testConsumer.queueURL, ReceiptHandle := "receipt-handle-1" }
          (some (GoError.mk "ack failed")) ∈
        (testConsumer.processBatchOfSingleMessages (mockEnv ackFails) noCalls).1 ∧
      (testConsumer.processBatchOfSingleMessages (mockEnv ackFails) noCalls).2 =
        { noCalls with
          receiveMessageCallCount := 1
          deserializeCallCount := 1
          handlerCallCount := 1
          deleteMessageCallCount := 1 } ∧
      ∃ (k : Nat) (message : Message) (evs : List String) (event : String),
        twoMessages[k]? = some message ∧ evs.length = k ∧
        ({ QueueUrl := testConsumer.queueURL, ReceiptHandle := "receipt-handle-1" } :
          DeleteMessageInput) =
          { QueueUrl := testConsumer.queueURL, ReceiptHandle := message.ReceiptHandle } ∧
        (testConsumer.processBatchOfSingleMessages (mockEnv ackFails) noCalls).1 =
          pollCall testConsumer (.ok twoMessages) ::
            (((twoMessages.take k).zip evs).flatMap (processedOk testConsumer.queueURL) ++
              [Effect.Deserialize message.Body (.ok event), Effect.Handle event none,
                Effect.DeleteMessage
                  { QueueUrl := testConsumer.queueURL, ReceiptHandle := "receipt-handle-1" }
                  (some (GoError.mk "ack failed")),
                Effect.LogError "failed to ack sqs message"
                  (GoError.errorf "failed to delete sqs message" (GoError.mk "ack failed"))]) ∧
        deserializedBodies (testConsumer.processBatchOfSingleMessages (mockEnv ackFails)
          noCalls).1 = (twoMessages.take (k + 1)).map (fun m => m.Body) ∧
        handledEvents (testConsumer.processBatchOfSingleMessages (mockEnv ackFails) noCalls).1 =
          evs ++ [event] ∧
        deleteCalls (testConsumer.processBatchOfSingleMessages (mockEnv ackFails) noCalls).1 =
          (twoMessages.take k).map (fun m =>
            ({ QueueUrl := testConsumer.queueURL, ReceiptHandle := m.ReceiptHandle }, none)) ++
            [({ QueueUrl := testConsumer.queueURL, ReceiptHandle := "receipt-handle-1" },
              some (GoError.mk "ack failed"))] :=
  ⟨by decide, by decide, by decide,
    single_mode_stops_at_ack_failure testConsumer (mockEnv ackFails) noCalls twoMessages
      { QueueUrl := testConsumer.queueURL, ReceiptHandle := "receipt-handle-1" }
      (GoError.mk "ack failed") (by decide) (by decide)⟩

end AckFailure

/-! ## Theorems: single-item mode against the answers of the collaborators -/

section SingleModeRuns

variable {σ T : Type}

theorem Processes.events_length (env : ConsumerEnv σ T) (queueURL : String)
    (messages : List Message) (s s1 : σ) (evs : List T)
    (h : Processes env queueURL messages s evs s1) : evs.length = messages.length := by
  induction h with
  | nil s => rfl
  | cons message rest s s1 s2 s3 s4 event events hd hh ha hrest ih => simp [ih]

theorem SQSConsumer.singleLoop_of_processes (c : SQSConsumer) (env : ConsumerEnv σ T)
    (pre rest : List Message) (s s1 : σ) (evs : List T)
    (h : Processes env c.queueURL pre s evs s1) :
    c.singleLoop env (pre ++ rest) s =
      ((pre.zip evs).flatMap (processedOk c.queueURL) ++ (c.singleLoop env rest s1).1,
        (c.singleLoop env rest s1).2) := by
  induction h with
  | nil s => simp
  | cons message tl s s1 s2 s3 s4 event events hd hh ha hrest ih =>
    rw [List.cons_append, SQSConsumer.singleLoop]
    simp only [hd, hh, SQSConsumer.Ack, ha, ih]
    simp [processedOk, deleteCall]

theorem map_delete_zip (queueURL : String) (ms : List Message) (evs : List T)
    (h : evs.length = ms.length) :
    (ms.zip evs).map (fun p =>
        (({ QueueUrl := queueURL, ReceiptHandle := p.1.ReceiptHandle } : DeleteMessageInput),
          (none : Option GoError))) =
      ms.map (fun m => ({ QueueUrl := queueURL, ReceiptHandle := m.ReceiptHandle }, none)) := by
  have : (ms.zip evs).map (fun p =>
        (({ QueueUrl := queueURL, ReceiptHandle := p.1.ReceiptHandle } : DeleteMessageInput),
          (none : Option GoError))) =
      ((ms.zip evs).map Prod.fst).map
        (fun m => ({ QueueUrl := queueURL, ReceiptHandle := m.ReceiptHandle }, none)) := by
    rw [List.map_map]
    rfl
  rw [this, List.map_fst_zip]
  omega

/-- C2: single-item mode, with what the deserializer, the handler and the backend
answer in the states the cycle calls them in. The poll returns the messages. If the
messages before message `k` each deserialize, are handled with a nil error and are
deleted with a nil error, and message `k` is the first whose `Deserialize` or
`Handle` call returns an error, then the cycle is the poll, the three calls for each
message before `k`, the failing call and its log line; its `DeleteMessage` calls are
exactly those for the receipt handles of the messages before `k`, in polled order,
none for message `k` or a later one, and it ends in the state the failing call left.
If no message fails, the cycle deletes all receipt handles in polled order. -/
theorem single_mode_acks_exactly_the_messages_before_the_first_failure
    (c : SQSConsumer) (env : ConsumerEnv σ T) (s s1 : σ) (messages : List Message)
    (hpoll : env.ReceiveMessage c.receiveInput s = (.ok messages, s1)) :
    (∀ (pre post : List Message) (message : Message) (evs : List T) (s2 : σ),
      messages = pre ++ message :: post →
      Processes env c.queueURL pre s1 evs s2 →
      (∀ err, (env.Deserialize message.Body s2).1 = .error err →
        c.processBatchOfSingleMessages env s =
            (pollCall c (.ok messages) ::
              ((pre.zip evs).flatMap (processedOk c.queueURL) ++
                [Effect.Deserialize message.Body (.error err),
                  Effect.LogError "failed to deserialize event" err]),
              (env.Deserialize message.Body s2).2) ∧
          deleteCalls (c.processBatchOfSingleMessages env s).1 =
            pre.map (fun m =>
              ({ QueueUrl := c.queueURL, ReceiptHandle := m.ReceiptHandle }, none)) ∧
          deletedHandles (c.processBatchOfSingleMessages env s).1 =
            (messages.take pre.length).map (fun m => m.ReceiptHandle)) ∧
      (∀ event err, (env.Deserialize message.Body s2).1 = .ok event →
        (env.Handle event (env.Deserialize message.Body s2).2).1 = some err →
        c.processBatchOfSingleMessages env s =
            (pollCall c (.ok messages) ::
              ((pre.zip evs).flatMap (processedOk c.queueURL) ++
                [Effect.Deserialize message.Body (.ok event), Effect.Handle event (some err),
                  Effect.LogError "failed to handle event" err]),
              (env.Handle event (env.Deserialize message.Body s2).2).2) ∧
          deleteCalls (c.processBatchOfSingleMessages env s).1 =
            pre.map (fun m =>
              ({ QueueUrl := c.queueURL, ReceiptHandle := m.ReceiptHandle }, none)) ∧
          deletedHandles (c.processBatchOfSingleMessages env s).1 =
            (messages.take pre.length).map (fun m => m.ReceiptHandle))) ∧
    (∀ (evs : List T) (s2 : σ), Processes env c.queueURL messages s1 evs s2 →
      c.processBatchOfSingleMessages env s =
          (pollCall c (.ok messages) :: (messages.zip evs).flatMap (processedOk c.queueURL),
            s2) ∧
        deleteCalls (c.processBatchOfSingleMessages env s).1 =
          messages.map (fun m =>
            ({ QueueUrl := c.queueURL, ReceiptHandle := m.ReceiptHandle }, none)) ∧
        deletedHandles (c.processBatchOfSingleMessages env s).1 =
          messages.map (fun m => m.ReceiptHandle)) := by
  have hcycle : ∀ (hne : messages ≠ []), c.processBatchOfSingleMessages env s =
      (pollCall c (.ok messages) :: (c.singleLoop env messages s1).1,
        (c.singleLoop env messages s1).2) := by
    intro hne
    have hlen : ¬ messages.length = 0 := fun h => hne (List.length_eq_zero.mp h)
    unfold SQSConsumer.processBatchOfSingleMessages
    simp only [hpoll, hlen, if_false]
    rfl
  refine ⟨?_, ?_⟩
  · intro pre post message evs s2 hsplit hpre
    have hne : messages ≠ [] := by
      rw [hsplit]
      simp
    have hlen := Processes.events_length env c.queueURL pre s1 s2 evs hpre
    have htake : messages.take pre.length = pre := by
      rw [hsplit]
      simp
    have hrun := c.singleLoop_of_processes env pre (message :: post) s1 s2 evs hpre
    rw [← hsplit] at hrun
    refine ⟨?_, ?_⟩
    · intro err hd
      have hfail : c.singleLoop env (message :: post) s2 =
          ([Effect.Deserialize message.Body (.error err),
            Effect.LogError "failed to deserialize event" err],
            (env.Deserialize message.Body s2).2) := by
        rw [SQSConsumer.singleLoop]
        simp only [hd]
      have heq : c.processBatchOfSingleMessages env s =
          (pollCall c (.ok messages) ::
            ((pre.zip evs).flatMap (processedOk c.queueURL) ++
              [Effect.Deserialize message.Body (.error err),
                Effect.LogError "failed to deserialize event" err]),
            (env.Deserialize message.Body s2).2) := by
        rw [hcycle hne, hrun, hfail]
      refine ⟨heq, ?_, ?_⟩
      · rw [heq]
        show deleteCalls (_ ++ _) = _
        rw [deleteCalls_append, deleteCalls_processedOk, map_delete_zip _ _ _ hlen]
        simp [deleteCalls]
      · rw [heq, htake, deletedHandles_pollCall_cons, deletedHandles_append,
          deletedHandles_processedOk, map_handle_zip _ _ hlen]
        simp [deletedHandles]
    · intro event err hd hh
      have hfail : c.singleLoop env (message :: post) s2 =
          ([Effect.Deserialize message.Body (.ok event), Effect.Handle event (some err),
            Effect.LogError "failed to handle event" err],
            (env.Handle event (env.Deserialize message.Body s2).2).2) := by
        rw [SQSConsumer.singleLoop]
        simp only [hd, hh]
      have heq : c.processBatchOfSingleMessages env s =
          (pollCall c (.ok messages) ::
            ((pre.zip evs).flatMap (processedOk c.queueURL) ++
              [Effect.Deserialize message.Body (.ok event), Effect.Handle event (some err),
                Effect.LogError "failed to handle event" err]),
            (env.Handle event (env.Deserialize message.Body s2).2).2) := by
        rw [hcycle hne, hrun, hfail]
      refine ⟨heq, ?_, ?_⟩
      · rw [heq]
        show deleteCalls (_ ++ _) = _
        rw [deleteCalls_append, deleteCalls_processedOk, map_delete_zip _ _ _ hlen]
        simp [deleteCalls]
      · rw [heq, htake, deletedHandles_pollCall_cons, deletedHandles_append,
          deletedHandles_processedOk, map_handle_zip _ _ hlen]
        simp [deletedHandles]
  · intro evs s2 hall
    have hlen := Processes.events_length env c.queueURL messages s1 s2 evs hall
    have hrun := c.singleLoop_of_processes env messages [] s1 s2 evs hall
    rw [List.append_nil] at hrun
    have heq : c.processBatchOfSingleMessages env s =
        (pollCall c (.ok messages) :: (messages.zip evs).flatMap (processedOk c.queueURL),
          s2) := by
      by_cases hne : messages = []
      · subst hne
        cases hall
        unfold SQSConsumer.processBatchOfSingleMessages
        simp only [hpoll]
        rfl
      · rw [hcycle hne, hrun]
        simp [SQSConsumer.singleLoop]
    refine ⟨heq, ?_, ?_⟩
    · rw [heq]
      show deleteCalls ((messages.zip evs).flatMap (processedOk c.queueURL)) = _
      rw [deleteCalls_processedOk, map_delete_zip _ _ _ hlen]
    · rw [heq, deletedHandles_pollCall_cons, deletedHandles_processedOk,
        map_handle_zip _ _ hlen]

theorem firstOfThree_processes :
    Processes secondHandlerFails testConsumer.queueURL
      [{ Body := "body-1", ReceiptHandle := "receipt-handle-1" }] (afterCalls 1 0 0 0)
      ["body-1"] (afterCalls 1 1 1 1) :=
  Processes.cons _ [] _ (afterCalls 1 1 0 0) (afterCalls 1 1 1 0) (afterCalls 1 1 1 1) _
    "body-1" [] rfl rfl rfl (Processes.nil _)

theorem twoMessages_processes :
    Processes (mockEnv (allSucceed twoMessages)) testConsumer.queueURL twoMessages
      (afterCalls 1 0 0 0) ["body-1", "body-2"] (afterCalls 1 2 2 2) :=
  Processes.cons _ _ _ (afterCalls 1 1 0 0) (afterCalls 1 1 1 0) (afterCalls 1 1 1 1) _
    "body-1" ["body-2"] rfl rfl rfl
    (Processes.cons _ [] _ (afterCalls 1 2 1 1) (afterCalls 1 2 2 1) (afterCalls 1 2 2 2) _
      "body-2" [] rfl rfl rfl (Processes.nil _))

/-- Witness for C2: three polled messages, the handler fails on the second. The first
message is deserialized, handled and deleted, the cycle ends with the failing handler
call, and the only delete call is the one for the first receipt handle. With two
messages and mocks that never fail, both receipt handles are deleted in polled
order. -/
theorem single_mode_acks_exactly_the_messages_before_the_first_failure_witness :
    (secondHandlerFails.ReceiveMessage testConsumer.receiveInput noCalls =
        (.ok threeMessages, afterCalls 1 0 0 0) ∧
      testConsumer.processBatchOfSingleMessages secondHandlerFails noCalls =
          ([pollCall testConsumer (.ok threeMessages),
            Effect.Deserialize "body-1" (.ok "body-1"), Effect.Handle "body-1" none,
            Effect.DeleteMessage
              { QueueUrl := testConsumer.queueURL, ReceiptHandle := "receipt-handle-1" } none,
            Effect.Deserialize "body-2" (.ok "body-2"),
            Effect.Handle "body-2" (some (GoError.mk "handler failed")),
            Effect.LogError "failed to handle event" (GoError.mk "handler failed")],
            afterCalls 1 2 2 1) ∧
        deleteCalls (testConsumer.processBatchOfSingleMessages secondHandlerFails noCalls).1 =
          [({ QueueUrl := testConsumer.queueURL, ReceiptHandle := "receipt-handle-1" },
            none)] ∧
        deletedHandles (testConsumer.processBatchOfSingleMessages secondHandlerFails noCalls).1 =
          ["receipt-handle-1"]) ∧
      ((mockEnv (allSucceed twoMessages)).ReceiveMessage testConsumer.receiveInput noCalls =
        (.ok twoMessages, afterCalls 1 0 0 0) ∧
      testConsumer.processBatchOfSingleMessages (mockEnv (allSucceed twoMessages)) noCalls =
          (pollCall testConsumer (.ok twoMessages) ::
            (twoMessages.zip ["body-1", "body-2"]).flatMap (processedOk testConsumer.queueURL),
            afterCalls 1 2 2 2) ∧
        deleteCalls
            (testConsumer.processBatchOfSingleMessages (mockEnv (allSucceed twoMessages))
              noCalls).1 =
          [({ QueueUrl := testConsumer.queueURL, ReceiptHandle := "receipt-handle-1" }, none),
            ({ QueueUrl := testConsumer.queueURL, ReceiptHandle := "receipt-handle-2" },
              none)] ∧
        deletedHandles
            (testConsumer.processBatchOfSingleMessages (mockEnv (allSucceed twoMessages))
              noCalls).1 =
          ["receipt-handle-1", "receipt-handle-2"]) :=
  ⟨⟨rfl,
    ((single_mode_acks_exactly_the_messages_before_the_first_failure testConsumer
      secondHandlerFails noCalls (afterCalls 1 0 0 0) threeMessages rfl).1
      [{ Body := "body-1", ReceiptHandle := "receipt-handle-1" }]
      [{ Body := "body-3", ReceiptHandle := "receipt-handle-3" }]
      { Body := "body-2", ReceiptHandle := "receipt-handle-2" } ["body-1"]
      (afterCalls 1 1 1 1) rfl firstOfThree_processes).2 "body-2"
      (GoError.mk "handler failed") rfl rfl⟩,
    ⟨rfl,
      (single_mode_acks_exactly_the_messages_before_the_first_failure testConsumer
        (mockEnv (allSucceed twoMessages)) noCalls (afterCalls 1 0 0 0) twoMessages rfl).2
        ["body-1", "body-2"] (afterCalls 1 2 2 2) twoMessages_processes⟩⟩

end SingleModeRuns

/-! ## Theorems: the consumer over the response types of the SDK -/

section RawConsumer

variable {σ T : Type}

theorem viewMessages_raw (messages : List Message) :
    viewMessages (messages.map Message.raw) = some messages := by
  induction messages with
  | nil => rfl
  | cons m rest ih =>
    rw [List.map_cons, viewMessages, ih]
    rfl

theorem wellFormed_rawOutput (messages : List Message) :
    wellFormed (rawOutput messages) = true := by
  simp [wellFormed, rawOutput, viewOutput, viewMessages_raw]

theorem viewMessage_eq_some (raw : Option RawMessage) (m : Message)
    (h : viewMessage raw = some m) : raw = m.raw := by
  match raw, h with
  | some { Body := some body, ReceiptHandle := some handle }, h =>
    simp only [viewMessage, Option.some.injEq] at h
    subst h
    rfl
  | some { Body := none, ReceiptHandle := _ }, h => simp [viewMessage] at h
  | some { Body := some _, ReceiptHandle := none }, h => simp [viewMessage] at h
  | none, h => simp [viewMessage] at h

theorem viewMessages_eq_some (raws : List (Option RawMessage)) (messages : List Message)
    (h : viewMessages raws = some messages) : raws = messages.map Message.raw := by
  induction raws generalizing messages with
  | nil =>
    simp only [viewMessages, Option.some.injEq] at h
    subst h
    rfl
  | cons raw rest ih =>
    rw [viewMessages] at h
    cases hm : viewMessage raw with
    | none => simp [hm] at h
    | some m =>
      cases hr : viewMessages rest with
      | none => simp [hm, hr] at h
      | some ms =>
        simp only [hm, hr, Option.some.injEq] at h
        subst h
        rw [List.map_cons, ← ih ms hr, ← viewMessage_eq_some raw m hm]

theorem viewOutput_eq_some (out : Option ReceiveMessageOutput) (messages : List Message)
    (h : viewOutput out = some messages) : out = rawOutput messages := by
  cases out with
  | none => simp [viewOutput] at h
  | some out =>
    cases out with
    | mk raws =>
      simp only [viewOutput] at h
      rw [viewMessages_eq_some raws messages h]
      rfl

theorem wellFormed_iff (out : Option ReceiveMessageOutput) :
    wellFormed out = true ↔ ∃ messages, out = rawOutput messages := by
  constructor
  · intro h
    unfold wellFormed at h
    obtain ⟨messages, hm⟩ := Option.isSome_iff_exists.mp h
    exact ⟨messages, viewOutput_eq_some out messages hm⟩
  · rintro ⟨messages, rfl⟩
    exact wellFormed_rawOutput messages

theorem viewOutput_rawOutput (messages : List Message) :
    viewOutput (rawOutput messages) = some messages := by
  simp [rawOutput, viewOutput, viewMessages_raw]

theorem ConsumerEnv.raw_wellFormed (env : ConsumerEnv σ T) (input : ReceiveMessageInput)
    (s : σ) (out : Option ReceiveMessageOutput)
    (h : (env.raw.ReceiveMessage input s).1 = .ok out) : wellFormed out = true := by
  simp only [ConsumerEnv.raw] at h
  cases hp : (env.ReceiveMessage input s).1 with
  | error err => simp [hp] at h
  | ok messages =>
    simp only [hp, Except.ok.injEq] at h
    rw [← h]
    exact wellFormed_rawOutput messages

theorem SQSConsumer.ack_map_raw (c : SQSConsumer) (env : ConsumerEnv σ T) (handle : String)
    (s : σ) : (c.Ack env handle s).2.1.map Effect.raw =
      (c.Ack env handle s).2.1.map RawEffect.step := by
  unfold SQSConsumer.Ack
  cases h : (env.DeleteMessage { QueueUrl := c.queueURL, ReceiptHandle := handle } s).1 <;>
    simp [h, Effect.raw]

theorem SQSConsumer.singleLoop_map_raw (c : SQSConsumer) (env : ConsumerEnv σ T)
    (messages : List Message) (s : σ) :
    (c.singleLoop env messages s).1.map Effect.raw =
      (c.singleLoop env messages s).1.map RawEffect.step := by
  induction messages generalizing s with
  | nil => rfl
  | cons m rest ih =>
    rw [SQSConsumer.singleLoop]
    cases hd : (env.Deserialize m.Body s).1 with
    | error err => simp [hd, Effect.raw]
    | ok event =>
      simp only [hd]
      cases hh : (env.Handle event (env.Deserialize m.Body s).2).1 with
      | some err => simp [hh, Effect.raw]
      | none =>
        simp only [hh]
        cases ha : (c.Ack env m.ReceiptHandle
            (env.Handle event (env.Deserialize m.Body s).2).2).1 with
        | some err => simp [ha, Effect.raw, c.ack_map_raw env]
        | none => simp [ha, Effect.raw, c.ack_map_raw env, ih]

theorem SQSConsumer.deserializeLoop_map_raw (env : ConsumerEnv σ T)
    (messages : List Message) (events : List T) (s : σ) :
    (SQSConsumer.deserializeLoop env messages events s).2.1.map Effect.raw =
      (SQSConsumer.deserializeLoop env messages events s).2.1.map RawEffect.step := by
  induction messages generalizing events s with
  | nil => rfl
  | cons m rest ih =>
    rw [SQSConsumer.deserializeLoop]
    cases hd : (env.Deserialize m.Body s).1 with
    | error err => simp [hd, Effect.raw]
    | ok event => simp [hd, Effect.raw, ih]

theorem SQSConsumer.ackLoop_map_raw (c : SQSConsumer) (env : ConsumerEnv σ T)
    (messages : List Message) (s : σ) :
    (c.ackLoop env messages s).1.map Effect.raw =
      (c.ackLoop env messages s).1.map RawEffect.step := by
  induction messages generalizing s with
  | nil => rfl
  | cons m rest ih =>
    rw [SQSConsumer.ackLoop]
    cases ha : (c.Ack env m.ReceiptHandle s).1 with
    | some err => simp [ha, Effect.raw, c.ack_map_raw env]
    | none => simp [ha, c.ack_map_raw env, ih]

theorem SQSConsumer.rawSingleLoop_raw (c : SQSConsumer) (renv : RawConsumerEnv σ T)
    (messages : List Message) (s : σ) :
    c.rawSingleLoop renv (messages.map Message.raw) s =
      (.returned (), c.singleLoop renv.view messages s) := by
  induction messages generalizing s with
  | nil => rfl
  | cons m rest ih =>
    rw [List.map_cons, SQSConsumer.singleLoop]
    simp only [Message.raw, SQSConsumer.rawSingleLoop]
    have hD : renv.view.Deserialize = renv.Deserialize := rfl
    have hH : renv.view.Handle = renv.Handle := rfl
    rw [hD, hH]
    cases hd : (renv.Deserialize m.Body s).1 with
    | error err => simp only [hd]
    | ok event =>
      simp only [hd]
      cases hh : (renv.Handle event (renv.Deserialize m.Body s).2).1 with
      | some err => simp only [hh]
      | none =>
        simp only [hh]
        cases ha : (c.Ack renv.view m.ReceiptHandle
            (renv.Handle event (renv.Deserialize m.Body s).2).2).1 with
        | some err => simp only [ha]
        | none =>
          simp only [ha]
          have := ih (c.Ack renv.view m.ReceiptHandle
            (renv.Handle event (renv.Deserialize m.Body s).2).2).2.2
          simp only [Message.raw] at this
          rw [this]

theorem SQSConsumer.rawDeserializeLoop_raw (renv : RawConsumerEnv σ T)
    (messages : List Message) (events : List T) (s : σ) :
    SQSConsumer.rawDeserializeLoop renv (messages.map Message.raw) events s =
      (.returned (SQSConsumer.deserializeLoop renv.view messages events s).1,
        (SQSConsumer.deserializeLoop renv.view messages events s).2) := by
  induction messages generalizing events s with
  | nil => rfl
  | cons m rest ih =>
    rw [List.map_cons, SQSConsumer.deserializeLoop]
    simp only [Message.raw, SQSConsumer.rawDeserializeLoop]
    have hD : renv.view.Deserialize = renv.Deserialize := rfl
    rw [hD]
    cases hd : (renv.Deserialize m.Body s).1 with
    | error err => simp only [hd]
    | ok event =>
      simp only [hd]
      have := ih (events ++ [event]) (renv.Deserialize m.Body s).2
      simp only [Message.raw] at this
      rw [this]

theorem SQSConsumer.rawAckLoop_raw (c : SQSConsumer) (renv : RawConsumerEnv σ T)
    (messages : List Message) (s : σ) :
    c.rawAckLoop renv (messages.map Message.raw) s =
      (.returned (), c.ackLoop renv.view messages s) := by
  induction messages generalizing s with
  | nil => rfl
  | cons m rest ih =>
    rw [List.map_cons, SQSConsumer.ackLoop]
    simp only [Message.raw, SQSConsumer.rawAckLoop]
    cases ha : (c.Ack renv.view m.ReceiptHandle s).1 with
    | some err => simp only [ha]
    | none =>
      simp only [ha]
      have := ih (c.Ack renv.view m.ReceiptHandle s).2.2
      simp only [Message.raw] at this
      rw [this]

theorem RawConsumerEnv.view_receive_error (renv : RawConsumerEnv σ T)
    (input : ReceiveMessageInput) (s : σ) (err : GoError)
    (h : (renv.ReceiveMessage input s).1 = .error err) :
    renv.view.ReceiveMessage input s = (.error err, (renv.ReceiveMessage input s).2) := by
  simp only [RawConsumerEnv.view, h]

theorem RawConsumerEnv.view_receive_ok (renv : RawConsumerEnv σ T)
    (input : ReceiveMessageInput) (s : σ) (messages : List Message)
    (h : (renv.ReceiveMessage input s).1 = .ok (rawOutput messages)) :
    renv.view.ReceiveMessage input s = (.ok messages, (renv.ReceiveMessage input s).2) := by
  simp only [RawConsumerEnv.view, h, viewOutput_rawOutput, Option.getD_some]

theorem SQSConsumer.rawSingle_refines (c : SQSConsumer) (renv : RawConsumerEnv σ T) (s : σ)
    (hwf : ∀ out, (renv.ReceiveMessage c.receiveInput s).1 = .ok out → wellFormed out = true) :
    c.rawProcessBatchOfSingleMessages renv s =
      (.returned (), (c.processBatchOfSingleMessages renv.view s).1.map Effect.raw,
        (c.processBatchOfSingleMessages renv.view s).2) := by
  unfold SQSConsumer.rawProcessBatchOfSingleMessages SQSConsumer.processBatchOfSingleMessages
  cases hp : (renv.ReceiveMessage c.receiveInput s).1 with
  | error err =>
    simp only [hp, renv.view_receive_error _ s err hp]
    rfl
  | ok out =>
    obtain ⟨messages, rfl⟩ := (wellFormed_iff out).mp (hwf out hp)
    simp only [hp, renv.view_receive_ok _ s messages hp]
    simp only [rawOutput, List.length_map]
    by_cases hlen : messages.length = 0
    · simp only [hlen, if_true]
      rfl
    · simp only [hlen, if_false, c.rawSingleLoop_raw renv messages, List.map_cons,
        ← c.singleLoop_map_raw]
      rfl

theorem SQSConsumer.rawBatch_refines (c : SQSConsumer) (renv : RawConsumerEnv σ T) (s : σ)
    (hwf : ∀ out, (renv.ReceiveMessage c.receiveInput s).1 = .ok out → wellFormed out = true) :
    c.rawProcessBatchOfMessages renv s =
      (.returned (), (c.processBatchOfMessages renv.view s).1.map Effect.raw,
        (c.processBatchOfMessages renv.view s).2) := by
  unfold SQSConsumer.rawProcessBatchOfMessages SQSConsumer.processBatchOfMessages
  cases hp : (renv.ReceiveMessage c.receiveInput s).1 with
  | error err =>
    simp only [hp, renv.view_receive_error _ s err hp]
    rfl
  | ok out =>
    obtain ⟨messages, rfl⟩ := (wellFormed_iff out).mp (hwf out hp)
    simp only [hp, renv.view_receive_ok _ s messages hp]
    simp only [rawOutput, List.length_map]
    by_cases hlen : messages.length = 0
    · simp only [hlen, if_true]
      rfl
    · simp only [hlen, if_false, SQSConsumer.rawDeserializeLoop_raw renv messages]
      have hmapd := SQSConsumer.deserializeLoop_map_raw renv.view messages []
        (renv.ReceiveMessage c.receiveInput s).2
      have hH : renv.view.HandleBatch = renv.HandleBatch := rfl
      cases hd : (SQSConsumer.deserializeLoop renv.view messages []
          (renv.ReceiveMessage c.receiveInput s).2).1 with
      | error err =>
        simp only [List.map_cons, ← hmapd]
        rfl
      | ok events =>
        simp only [hH]
        cases hh : (renv.HandleBatch events (SQSConsumer.deserializeLoop renv.view messages []
            (renv.ReceiveMessage c.receiveInput s).2).2.2).1 with
        | some err =>
          simp only [List.map_cons, List.map_append, ← hmapd]
          rfl
        | none =>
          simp only [List.map_cons, List.map_append, ← hmapd,
            c.rawAckLoop_raw renv messages, ← c.ackLoop_map_raw]
          rfl

theorem SQSConsumer.rawLoop_refines (rc : σ → Outcome Unit × List (RawEffect T) × σ)
    (vc : σ → List (Effect T) × σ) (done : σ → Bool)
    (href : ∀ s, rc s = (.returned (), (vc s).1.map Effect.raw, (vc s).2))
    (fuel : Nat) (s : σ) :
    SQSConsumer.rawLoop rc done fuel s =
      ((SQSConsumer.loop vc done fuel s).1.raw,
        (SQSConsumer.loop vc done fuel s).2.1.map Effect.raw,
        (SQSConsumer.loop vc done fuel s).2.2) := by
  induction fuel generalizing s with
  | zero => rfl
  | succ fuel ih =>
    unfold SQSConsumer.rawLoop SQSConsumer.loop
    by_cases hd : done s = true
    · simp only [hd, if_true]
      rfl
    · simp only [hd, if_false, Bool.false_eq_true, href s, ih, List.map_append]

theorem rawPollCount_map_raw (tr : List (Effect T)) :
    rawPollCount (tr.map Effect.raw) = pollCount tr := by
  induction tr with
  | nil => rfl
  | cons e rest ih =>
    unfold rawPollCount pollCount at ih ⊢
    cases e with
    | ReceiveMessage input out =>
      cases out <;> simp [Effect.raw, List.filter_cons, ih]
    | _ => simp [Effect.raw, List.filter_cons, ih]

/-- A loop that is still running has started a cycle in each of its rounds. -/
theorem SQSConsumer.loop_running_polls (cycle : σ → List (Effect T) × σ) (done : σ → Bool)
    (hcycle : ∀ s, pollCount (cycle s).1 = 1) (fuel : Nat) (s : σ)
    (h : (SQSConsumer.loop cycle done fuel s).1 = .running) :
    pollCount (SQSConsumer.loop cycle done fuel s).2.1 = fuel ∧
      (∀ j, j < fuel → done ((fun s => (cycle s).2)^[j] s) = false) ∧
      (SQSConsumer.loop cycle done fuel s).2.2 = (fun s => (cycle s).2)^[fuel] s := by
  induction fuel generalizing s with
  | zero => exact ⟨rfl, fun j hj => absurd hj (Nat.not_lt_zero j), rfl⟩
  | succ fuel ih =>
    by_cases hd : done s = true
    · rw [SQSConsumer.loop_of_done cycle done fuel s hd] at h
      cases h
    · have hd1 : done s = false := by simpa using hd
      rw [SQSConsumer.loop_of_not_done cycle done fuel s hd1] at h ⊢
      obtain ⟨hcount, hbefore, hstate⟩ := ih (cycle s).2 h
      refine ⟨?_, ?_, ?_⟩
      · show pollCount ((cycle s).1 ++ _) = fuel + 1
        rw [pollCount_append, hcycle, hcount, Nat.add_comm]
      · intro j hj
        cases j with
        | zero => exact hd1
        | succ j =>
          rw [Function.iterate_succ_apply]
          exact hbefore j (Nat.lt_of_succ_lt_succ hj)
      · rw [Function.iterate_succ_apply]
        exact hstate

/-- What a loop over the SDK types does when each of its cycles is a cycle over
messages without nil: it is not ended by a panic, it has stopped exactly when the
context was found cancelled at the check before one of its rounds, the context is
then cancelled in the state it ends in, and while it runs it has started a cycle in
every round. -/
theorem SQSConsumer.rawLoop_facts (rc : σ → Outcome Unit × List (RawEffect T) × σ)
    (vc : σ → List (Effect T) × σ) (done : σ → Bool)
    (href : ∀ s, rc s = (.returned (), (vc s).1.map Effect.raw, (vc s).2))
    (hcycle : ∀ s, pollCount (vc s).1 = 1) (fuel : Nat) (s : σ) :
    (∀ reason, (SQSConsumer.rawLoop rc done fuel s).1 ≠ .panicked reason) ∧
      ((SQSConsumer.rawLoop rc done fuel s).1 = .stopped ↔
        ∃ k, k < fuel ∧ done ((fun s => (rc s).2.2)^[k] s) = true) ∧
      ((SQSConsumer.rawLoop rc done fuel s).1 = .stopped →
        done (SQSConsumer.rawLoop rc done fuel s).2.2 = true) ∧
      ((SQSConsumer.rawLoop rc done fuel s).1 = .running →
        rawPollCount (SQSConsumer.rawLoop rc done fuel s).2.1 = fuel ∧
          (SQSConsumer.rawLoop rc done fuel s).2.2 = (fun s => (rc s).2.2)^[fuel] s) := by
  have hstate : (fun s => (rc s).2.2) = (fun s => (vc s).2) := by
    funext s
    rw [href s]
  rw [SQSConsumer.rawLoop_refines rc vc done href fuel s, hstate]
  refine ⟨?_, ?_, ?_, ?_⟩
  · intro reason h
    cases hs : (SQSConsumer.loop vc done fuel s).1 <;> simp [hs, LoopStatus.raw] at h
  · rw [← SQSConsumer.loop_stopped_iff vc done fuel s]
    cases hs : (SQSConsumer.loop vc done fuel s).1 <;> simp [LoopStatus.raw]
  · intro h
    apply SQSConsumer.loop_stopped_done vc done fuel s
    cases hs : (SQSConsumer.loop vc done fuel s).1 with
    | stopped => rfl
    | running => simp [hs, LoopStatus.raw] at h
  · intro h
    have hrun : (SQSConsumer.loop vc done fuel s).1 = .running := by
      cases hs : (SQSConsumer.loop vc done fuel s).1 with
      | stopped => simp [hs, LoopStatus.raw] at h
      | running => rfl
    obtain ⟨hcount, _, hst⟩ := SQSConsumer.loop_running_polls vc done hcycle fuel s hrun
    exact ⟨by rw [rawPollCount_map_raw]; exact hcount, hst⟩

theorem raw_pollCall_view (c : SQSConsumer) (renv : RawConsumerEnv σ T) (s : σ)
    (hwf : ∀ out, (renv.ReceiveMessage c.receiveInput s).1 = .ok out → wellFormed out = true) :
    (Effect.raw (pollCall c (renv.view.ReceiveMessage c.receiveInput s).1) : RawEffect T) =
      RawEffect.ReceiveMessage c.receiveInput (renv.ReceiveMessage c.receiveInput s).1 := by
  cases hp : (renv.ReceiveMessage c.receiveInput s).1 with
  | error err =>
    rw [renv.view_receive_error _ s err hp]
    rfl
  | ok out =>
    obtain ⟨messages, rfl⟩ := (wellFormed_iff out).mp (hwf out hp)
    rw [renv.view_receive_ok _ s messages hp]
    rfl

theorem rawPollCount_step_cons (effect : Effect T) (tr : List (RawEffect T)) :
    rawPollCount (RawEffect.step effect :: tr) = rawPollCount tr := rfl

/-- C20, as the code has it. The consumer reads the poll result through pointers it
does not check, so the claim holds for poll results that hold no nil (the output, its
messages, and the body and receipt handle of each). For such a poll result, and for a
poll that fails, one cycle of either mode returns without a panic, whatever errors
`ReceiveMessage`, `Deserialize`, the handler and `DeleteMessage` return: it begins
with the poll and is the cycle over the messages read from the response, which has
one of the listed shapes. A loop all of whose poll results are of this kind is never
ended by a panic, has stopped within `fuel` rounds exactly when the context is found
cancelled at the check before one of these rounds, the context being cancelled in the
state the loop ends in, and while it runs it has started a cycle in every round. -/
theorem consumer_loop_stops_only_on_cancellation (c : SQSConsumer)
    (renv : RawConsumerEnv σ T) (done : σ → Bool) (fuel : Nat) (s : σ) :
    ((∀ out, (renv.ReceiveMessage c.receiveInput s).1 = .ok out → wellFormed out = true) →
      (c.rawProcessBatchOfSingleMessages renv s =
          (.returned (), (c.processBatchOfSingleMessages renv.view s).1.map Effect.raw,
            (c.processBatchOfSingleMessages renv.view s).2) ∧
        (c.rawProcessBatchOfSingleMessages renv s).2.1.head? =
          some (RawEffect.ReceiveMessage c.receiveInput
            (renv.ReceiveMessage c.receiveInput s).1) ∧
        SingleCycle c (c.processBatchOfSingleMessages renv.view s).1) ∧
      (c.rawProcessBatchOfMessages renv s =
          (.returned (), (c.processBatchOfMessages renv.view s).1.map Effect.raw,
            (c.processBatchOfMessages renv.view s).2) ∧
        (c.rawProcessBatchOfMessages renv s).2.1.head? =
          some (RawEffect.ReceiveMessage c.receiveInput
            (renv.ReceiveMessage c.receiveInput s).1) ∧
        BatchCycle c (c.processBatchOfMessages renv.view s).1)) ∧
    ((∀ s out, (renv.ReceiveMessage c.receiveInput s).1 = .ok out → wellFormed out = true) →
      ((∀ reason, (c.rawStart renv done fuel s).1 ≠ .panicked reason) ∧
        ((c.rawStart renv done fuel s).1 = .stopped ↔
          ∃ k, k < fuel ∧
            done ((fun s => (c.rawProcessBatchOfSingleMessages renv s).2.2)^[k] s) = true) ∧
        ((c.rawStart renv done fuel s).1 = .stopped →
          done (c.rawStart renv done fuel s).2.2 = true) ∧
        ((c.rawStart renv done fuel s).1 = .running →
          rawPollCount (c.rawStart renv done fuel s).2.1 = fuel ∧
            (c.rawStart renv done fuel s).2.2 =
              (fun s => (c.rawProcessBatchOfSingleMessages renv s).2.2)^[fuel] s)) ∧
      ((∀ reason, (c.rawStartBatch renv done fuel s).1 ≠ .panicked reason) ∧
        ((c.rawStartBatch renv done fuel s).1 = .stopped ↔
          ∃ k, k < fuel ∧
            done ((fun s => (c.rawProcessBatchOfMessages renv s).2.2)^[k] s) = true) ∧
        ((c.rawStartBatch renv done fuel s).1 = .stopped →
          done (c.rawStartBatch renv done fuel s).2.2 = true) ∧
        ((c.rawStartBatch renv done fuel s).1 = .running →
          rawPollCount (c.rawStartBatch renv done fuel s).2.1 = fuel ∧
            (c.rawStartBatch renv done fuel s).2.2 =
              (fun s => (c.rawProcessBatchOfMessages renv s).2.2)^[fuel] s))) := by
  refine ⟨fun hwf => ⟨⟨c.rawSingle_refines renv s hwf, ?_,
      c.processBatchOfSingleMessages_shape renv.view s⟩,
    ⟨c.rawBatch_refines renv s hwf, ?_, c.processBatchOfMessages_shape renv.view s⟩⟩,
    fun hwf => ⟨?_, ?_⟩⟩
  · rw [c.rawSingle_refines renv s hwf]
    show ((c.processBatchOfSingleMessages renv.view s).1.map Effect.raw).head? = _
    rw [List.head?_map, c.single_poll_head renv.view s, Option.map_some',
      raw_pollCall_view c renv s hwf]
  · rw [c.rawBatch_refines renv s hwf]
    show ((c.processBatchOfMessages renv.view s).1.map Effect.raw).head? = _
    rw [List.head?_map, c.batch_poll_head renv.view s, Option.map_some',
      raw_pollCall_view c renv s hwf]
  · exact SQSConsumer.rawLoop_facts (c.rawProcessBatchOfSingleMessages renv)
      (c.processBatchOfSingleMessages renv.view) done
      (fun s => c.rawSingle_refines renv s (hwf s)) (c.single_cycle_polls_once renv.view) fuel s
  · exact SQSConsumer.rawLoop_facts (c.rawProcessBatchOfMessages renv)
      (c.processBatchOfMessages renv.view) done
      (fun s => c.rawBatch_refines renv s (hwf s)) (c.batch_cycle_polls_once renv.view) fuel s

/-- Witness for the amended C20: mocks whose poll results hold no nil. With a poll
that fails every time and a context cancelled once two polls were made, the loop
runs two cycles and stops at the third check, in either mode. With a handler that
fails on every event and a context that is never cancelled, the loop is still running
after five rounds and has polled five times. -/
theorem consumer_loop_stops_only_on_cancellation_witness :
    (∀ s out, (receiveFailsTwice.raw.ReceiveMessage testConsumer.receiveInput s).1 = .ok out →
        wellFormed out = true) ∧
      (testConsumer.rawStart receiveFailsTwice.raw cancelledAfterTwoPolls 3 noCalls).1 =
        .stopped ∧
      rawPollCount
        (testConsumer.rawStart receiveFailsTwice.raw cancelledAfterTwoPolls 3 noCalls).2.1 = 2 ∧
      (testConsumer.rawStartBatch receiveFailsTwice.raw cancelledAfterTwoPolls 3 noCalls).1 =
        .stopped ∧
      (testConsumer.rawStart (mockEnv handlerFails).raw (fun _ => false) 5 noCalls).1 =
        .running ∧
      ((testConsumer.rawStart receiveFailsTwice.raw cancelledAfterTwoPolls 3 noCalls).1 =
          .stopped ↔
        ∃ k, k < 3 ∧ cancelledAfterTwoPolls
          ((fun s => (testConsumer.rawProcessBatchOfSingleMessages receiveFailsTwice.raw
            s).2.2)^[k] noCalls) = true) ∧
      (rawPollCount
          (testConsumer.rawStart (mockEnv handlerFails).raw (fun _ => false) 5 noCalls).2.1 =
            5 ∧
        (testConsumer.rawStart (mockEnv handlerFails).raw (fun _ => false) 5 noCalls).2.2 =
          (fun s => (testConsumer.rawProcessBatchOfSingleMessages (mockEnv handlerFails).raw
            s).2.2)^[5] noCalls) :=
  ⟨fun s out h => receiveFailsTwice.raw_wellFormed testConsumer.receiveInput s out h,
    by decide, by decide, by decide, by decide,
    ((consumer_loop_stops_only_on_cancellation testConsumer receiveFailsTwice.raw
      cancelledAfterTwoPolls 3 noCalls).2
      (fun s out h => receiveFailsTwice.raw_wellFormed testConsumer.receiveInput s out h)).1.2.1,
    ((consumer_loop_stops_only_on_cancellation testConsumer (mockEnv handlerFails).raw
      (fun _ => false) 5 noCalls).2
      (fun s out h =>
        (mockEnv handlerFails).raw_wellFormed testConsumer.receiveInput s out h)).1.2.2.2
      (by decide)⟩

/-- C20 as stated fails: the poll succeeds with one message that has a receipt
handle and no body. The cycle of either mode panics at `*message.Body`, and the loop
of `Start` (of `StartBatch`) is ended by that panic after its first poll although the
context is never cancelled. -/
theorem consumer_panics_on_a_message_without_a_body :
    (messageWithoutBody.ReceiveMessage testConsumer.receiveInput noCalls).1 =
        .ok (some { Messages :=
          [some { Body := none, ReceiptHandle := some "receipt-handle-1" }] }) ∧
      (testConsumer.rawProcessBatchOfSingleMessages messageWithoutBody noCalls).1 =
        .panicked nilDereference ∧
      (testConsumer.rawProcessBatchOfMessages messageWithoutBody noCalls).1 =
        .panicked nilDereference ∧
      (testConsumer.rawStart messageWithoutBody (fun _ => false) 5 noCalls).1 =
        .panicked nilDereference ∧
      rawPollCount (testConsumer.rawStart messageWithoutBody (fun _ => false) 5 noCalls).2.1 =
        1 ∧
      (testConsumer.rawStartBatch messageWithoutBody (fun _ => false) 5 noCalls).1 =
        .panicked nilDereference ∧
      rawPollCount
        (testConsumer.rawStartBatch messageWithoutBody (fun _ => false) 5 noCalls).2.1 = 1 := by
  refine ⟨by rfl, by rfl, by rfl, by rfl, by rfl, by rfl, by rfl⟩

end RawConsumer

/-! ## Theorems: event types that are not pointers -/

section ValueTypes

/-- Whatever the event type, `Deserialize` at a type that is not a pointer hands the
fresh zero value to `json.Unmarshal`, which rejects it for every well-formed
payload and stores nothing. -/
theorem JSONDeserializer.deserialize_non_pointer {E : Type} [JSONShape E]
    (h : JSONShape.isPointer E = false) (lib : Stdlib) (doc : Json) :
    (NewJSONDeserializer E).Deserialize lib (.json doc) =
      (JSONShape.zero,
        some (GoError.mk ("json: Unmarshal(non-pointer " ++ JSONShape.goType E ++ ")"))) := by
  simp [JSONDeserializer.Deserialize, NewJSONDeserializer, jsonUnmarshal, h]

/-- C25, evaluated: `PingEvent` is an event type that is not a pointer. `Serialize`
writes the payload of a ping event, and `Deserialize` of that payload, as of every
well-formed payload, returns the zero `PingEvent` and the error
`json: Unmarshal(non-pointer events.PingEvent)`; the same document stored through a
pointer decodes to the event with a nil error. -/
theorem deserialize_into_a_value_type_fails :
    JSONShape.isPointer PingEvent = false ∧
    JSONSerializer.Serialize testStdlib examplePing = .ok examplePingPayload ∧
    (NewJSONDeserializer PingEvent).Deserialize testStdlib examplePingPayload =
      ({ toEventMetadata := EventMetadata.zero },
        some (GoError.mk "json: Unmarshal(non-pointer events.PingEvent)")) ∧
    (∀ (lib : Stdlib) (doc : Json),
      (NewJSONDeserializer PingEvent).Deserialize lib (.json doc) =
        ({ toEventMetadata := EventMetadata.zero },
          some (GoError.mk "json: Unmarshal(non-pointer events.PingEvent)"))) ∧
    decodeStruct "events.PingEvent" (PingEvent.setField testStdlib)
        (.obj [("event_id", .str "test-id"), ("event_type", .str "ping"),
          ("timestamp", .str "2023-01-01T00:00:00Z")])
        { toEventMetadata := EventMetadata.zero } =
      (examplePing, none) := by
  refine ⟨rfl, by rfl, by rfl, ?_, by rfl⟩
  intro lib doc
  exact JSONDeserializer.deserialize_non_pointer rfl lib doc

end ValueTypes

/-! ## Theorems: status codes and sanitized messages -/

section HTTPErrors

theorem errors.Is_iff_mem_chain (e : GoError) (target : Sentinel) :
    errors.Is (some e) target = true ↔ GoError.sentinel target ∈ e.chain := by
  unfold errors.Is
  induction e with
  | mk msg => simp [GoError.Is, GoError.chain]
  | wrap msg cause ih => simp [GoError.Is, GoError.chain, ih]
  | sentinel var =>
    simp only [GoError.Is, GoError.chain, decide_eq_true_eq, List.mem_singleton,
      GoError.sentinel.injEq]
    exact eq_comm

theorem errors.Is_wrap (msg : String) (cause : GoError) (target : Sentinel) :
    errors.Is (some (GoError.wrap msg cause)) target = errors.Is (some cause) target := rfl

theorem errors.Is_mk (msg : String) (target : Sentinel) :
    errors.Is (some (GoError.mk msg)) target = false := rfl

theorem errors.Is_sentinel (var target : Sentinel) :
    errors.Is (some (GoError.sentinel var)) target = decide (var = target) := rfl

theorem ValidateCreate_wraps (dom : DomainErrors) (u : UserCreate) (e : GoError)
    (h : ValidateCreate dom u = some e) : ∃ text, e = dom.ErrInvalidInput.prefixed text := by
  unfold ValidateCreate at h
  split_ifs at h <;> exact ⟨_, (Option.some.inj h).symm⟩

theorem ValidateUpdate_wraps (dom : DomainErrors) (u : UserUpdate) (e : GoError)
    (h : ValidateUpdate dom u = some e) : ∃ text, e = dom.ErrInvalidInput.prefixed text := by
  unfold ValidateUpdate at h
  split at h
  · split_ifs at h
    exact ⟨_, (Option.some.inj h).symm⟩
  · simp at h

theorem GetHTTPStatus_wrap (dom : DomainErrors) (msg : String) (cause : GoError) :
    GetHTTPStatus dom (some (GoError.wrap msg cause)) = GetHTTPStatus dom (some cause) := rfl

theorem GetHTTPStatus_mk (dom : DomainErrors) (msg : String) :
    GetHTTPStatus dom (some (GoError.mk msg)) = 500 := rfl

theorem GetHTTPStatus_none (dom : DomainErrors) : GetHTTPStatus dom none = 500 := rfl

theorem GetHTTPStatus_invalid_input (dom : DomainErrors) (text : String) :
    GetHTTPStatus dom (some (dom.ErrInvalidInput.prefixed text)) = 400 := by
  simp [GoError.prefixed, GetHTTPStatus, errors.Is, GoError.Is, DomainErrors.ErrInvalidInput,
    DomainErrors.invalidInput, DomainErrors.notFound, DomainErrors.alreadyExists]

theorem status_chain_cases (dom : DomainErrors) (e : GoError) :
    (dom.ErrNotFound ∈ e.chain → GetHTTPStatus dom (some e) = 404) ∧
    (dom.ErrNotFound ∉ e.chain → dom.ErrAlreadyExists ∈ e.chain →
      GetHTTPStatus dom (some e) = 409) ∧
    (dom.ErrNotFound ∉ e.chain → dom.ErrAlreadyExists ∉ e.chain →
      dom.ErrInvalidInput ∈ e.chain → GetHTTPStatus dom (some e) = 400) ∧
    (dom.ErrNotFound ∉ e.chain → dom.ErrAlreadyExists ∉ e.chain →
      dom.ErrInvalidInput ∉ e.chain → GetHTTPStatus dom (some e) = 500) := by
  have i1 := errors.Is_iff_mem_chain e dom.notFound
  have i2 := errors.Is_iff_mem_chain e dom.alreadyExists
  have i3 := errors.Is_iff_mem_chain e dom.invalidInput
  refine ⟨?_, ?_, ?_, ?_⟩
  · intro h1
    simp [GetHTTPStatus, i1.mpr h1]
  · intro h1 h2
    have n1 : errors.Is (some e) dom.notFound = false :=
      Bool.eq_false_iff.mpr (fun h => h1 (i1.mp h))
    simp [GetHTTPStatus, n1, i2.mpr h2]
  · intro h1 h2 h3
    have n1 : errors.Is (some e) dom.notFound = false :=
      Bool.eq_false_iff.mpr (fun h => h1 (i1.mp h))
    have n2 : errors.Is (some e) dom.alreadyExists = false :=
      Bool.eq_false_iff.mpr (fun h => h2 (i2.mp h))
    simp [GetHTTPStatus, n1, n2, i3.mpr h3]
  · intro h1 h2 h3
    have n1 : errors.Is (some e) dom.notFound = false :=
      Bool.eq_false_iff.mpr (fun h => h1 (i1.mp h))
    have n2 : errors.Is (some e) dom.alreadyExists = false :=
      Bool.eq_false_iff.mpr (fun h => h2 (i2.mp h))
    have n3 : errors.Is (some e) dom.invalidInput = false :=
      Bool.eq_false_iff.mpr (fun h => h3 (i3.mp h))
    simp [GetHTTPStatus, n1, n2, n3]

theorem SanitizeError_internal (dom : DomainErrors) (err : Option GoError)
    (h : GetHTTPStatus dom err = 500) :
    SanitizeError dom err =
      ("An internal error occurred",
        [{ msg := "internal server error occurred", err := err }]) := by
  cases err with
  | none => rfl
  | some e =>
    unfold GetHTTPStatus at h
    unfold SanitizeError
    cases h1 : errors.Is (some e) dom.notFound <;>
      cases h2 : errors.Is (some e) dom.alreadyExists <;>
      cases h3 : errors.Is (some e) dom.invalidInput <;>
      simp [h1, h2, h3] at h ⊢

theorem SanitizeError_domain (dom : DomainErrors) (e : GoError)
    (h : GetHTTPStatus dom (some e) ≠ 500) : SanitizeError dom (some e) = (e.Error, []) := by
  unfold GetHTTPStatus at h
  unfold SanitizeError
  cases h1 : errors.Is (some e) dom.notFound <;>
    cases h2 : errors.Is (some e) dom.alreadyExists <;>
    cases h3 : errors.Is (some e) dom.invalidInput <;>
    simp [h1, h2, h3] at h ⊢

/-- The text of an error built by `errors.New` and `%w` holds the text of every error
in its chain. -/
theorem GoError.text_holds_chain (e x : GoError) (hf : e.formatted = true)
    (hx : x ∈ e.chain) : x.Error.data <:+: e.Error.data := by
  induction e with
  | mk msg =>
    simp only [GoError.chain, List.mem_singleton] at hx
    subst hx
    exact List.infix_refl _
  | sentinel var =>
    simp only [GoError.chain, List.mem_singleton] at hx
    subst hx
    exact List.infix_refl _
  | wrap msg cause ih =>
    simp only [GoError.formatted, Bool.and_eq_true, decide_eq_true_eq] at hf
    simp only [GoError.chain, List.mem_cons] at hx
    rcases hx with hx | hx
    · subst hx
      exact List.infix_refl _
    · exact List.IsInfix.trans (ih hf.2 hx) hf.1

theorem GoError.errorf_formatted (pre : String) (e : GoError) (h : e.formatted = true) :
    (GoError.errorf pre e).formatted = true := by
  simp only [GoError.errorf, GoError.formatted, Bool.and_eq_true, decide_eq_true_eq, h, and_true,
    String.data_append]
  exact (List.suffix_append _ _).isInfix

theorem GoError.prefixed_formatted (e : GoError) (text : String) (h : e.formatted = true) :
    (e.prefixed text).formatted = true := by
  simp only [GoError.prefixed, GoError.formatted, Bool.and_eq_true, decide_eq_true_eq, h,
    and_true, String.data_append, List.append_assoc]
  exact (List.prefix_append _ _).isInfix

end HTTPErrors

section StatusClaims

/-- C26: `GetHTTPStatus`. For every non-nil error, with its chain of wrapped errors:
404 when the value of `ErrNotFound` is in the chain, otherwise 409 when that of
`ErrAlreadyExists` is, otherwise 400 when that of `ErrInvalidInput` is, otherwise
500; a nil error gives 500. Wrapping an error once more does not change its status,
every error `ValidateCreate` or `ValidateUpdate` returns maps to 400, and an error
made elsewhere maps to 500 even when its text is that of a sentinel. -/
theorem status_follows_the_domain_error_in_the_chain (dom : DomainErrors) :
    (∀ e : GoError,
      (dom.ErrNotFound ∈ e.chain → GetHTTPStatus dom (some e) = 404) ∧
      (dom.ErrNotFound ∉ e.chain → dom.ErrAlreadyExists ∈ e.chain →
        GetHTTPStatus dom (some e) = 409) ∧
      (dom.ErrNotFound ∉ e.chain → dom.ErrAlreadyExists ∉ e.chain →
        dom.ErrInvalidInput ∈ e.chain → GetHTTPStatus dom (some e) = 400) ∧
      (dom.ErrNotFound ∉ e.chain → dom.ErrAlreadyExists ∉ e.chain →
        dom.ErrInvalidInput ∉ e.chain → GetHTTPStatus dom (some e) = 500)) ∧
    GetHTTPStatus dom none = 500 ∧
    (GetHTTPStatus dom (some dom.ErrNotFound) = 404 ∧
      GetHTTPStatus dom (some dom.ErrAlreadyExists) = 409 ∧
      GetHTTPStatus dom (some dom.ErrInvalidInput) = 400) ∧
    (∀ msg cause, GetHTTPStatus dom (some (GoError.wrap msg cause)) =
      GetHTTPStatus dom (some cause)) ∧
    (∀ u e, ValidateCreate dom u = some e → GetHTTPStatus dom (some e) = 400) ∧
    (∀ u e, ValidateUpdate dom u = some e → GetHTTPStatus dom (some e) = 400) ∧
    (∀ text, GetHTTPStatus dom (some (GoError.mk text)) = 500) := by
  refine ⟨status_chain_cases dom, rfl, ⟨?_, ?_, ?_⟩, fun _ _ => rfl, ?_, ?_, fun _ => rfl⟩
  · simp [GetHTTPStatus, errors.Is, GoError.Is, DomainErrors.ErrNotFound]
  · simp [GetHTTPStatus, errors.Is, GoError.Is, DomainErrors.ErrAlreadyExists,
      DomainErrors.notFound, DomainErrors.alreadyExists]
  · simp [GetHTTPStatus, errors.Is, GoError.Is, DomainErrors.ErrInvalidInput,
      DomainErrors.notFound, DomainErrors.alreadyExists, DomainErrors.invalidInput]
  · intro u e h
    obtain ⟨text, rfl⟩ := ValidateCreate_wraps dom u e h
    exact GetHTTPStatus_invalid_input dom text
  · intro u e h
    obtain ⟨text, rfl⟩ := ValidateUpdate_wraps dom u e h
    exact GetHTTPStatus_invalid_input dom text

/-- Witness for C26: with the example sentinels, a request without an email and an
update with a malformed email are refused by the validators with errors that map to
400, a not-found error wrapped twice maps to 404, and an error made by `errors.New`
with the text `not found` maps to 500. -/
theorem status_follows_the_domain_error_in_the_chain_witness :
    ValidateCreate exampleDomain emailMissing =
        some (exampleDomain.ErrInvalidInput.prefixed "email is required") ∧
      GetHTTPStatus exampleDomain
        (some (exampleDomain.ErrInvalidInput.prefixed "email is required")) = 400 ∧
      ValidateUpdate exampleDomain emailMalformed =
        some (exampleDomain.ErrInvalidInput.prefixed "invalid email format") ∧
      GetHTTPStatus exampleDomain
        (some (exampleDomain.ErrInvalidInput.prefixed "invalid email format")) = 400 ∧
      GetHTTPStatus exampleDomain
        (some (GoError.errorf "get user" (GoError.errorf "query" exampleDomain.ErrNotFound))) =
          404 ∧
      notFoundLookAlike.Error = exampleDomain.ErrNotFound.Error ∧
      GetHTTPStatus exampleDomain (some notFoundLookAlike) = 500 :=
  ⟨by decide,
    (status_follows_the_domain_error_in_the_chain exampleDomain).2.2.2.2.1
      emailMissing _ (by decide),
    by decide,
    (status_follows_the_domain_error_in_the_chain exampleDomain).2.2.2.2.2.1
      emailMalformed _ (by decide),
    ((status_follows_the_domain_error_in_the_chain exampleDomain).1 _).1 (by decide),
    by decide,
    (status_follows_the_domain_error_in_the_chain exampleDomain).2.2.2.2.2.2 "not found"⟩

end StatusClaims

section Sanitizing

/-- C27: `SanitizeError`. An error with none of the three sentinels in its chain gets
the fixed message `An internal error occurred` and one log line that holds the error,
so the message is the same for any two such errors; an error with a sentinel in its
chain gets its own message and no log line. The fixed message is put in place of the
error's own exactly when `GetHTTPStatus` returns 500. For every error built with
`errors.New` and `%w`, whose text holds the texts of the errors it wraps, and
sentinels whose texts do not occur in `An internal error occurred`, the message
returned is the fixed one exactly when the status is 500. `NewHumaError` pairs the
status with this message. -/
theorem internal_errors_are_sanitized (dom : DomainErrors) :
    (∀ e : GoError, dom.ErrNotFound ∉ e.chain → dom.ErrAlreadyExists ∉ e.chain →
      dom.ErrInvalidInput ∉ e.chain →
      SanitizeError dom (some e) =
        ("An internal error occurred",
          [{ msg := "internal server error occurred", err := some e }])) ∧
    (∀ e1 e2 : Option GoError, GetHTTPStatus dom e1 = 500 → GetHTTPStatus dom e2 = 500 →
      (SanitizeError dom e1).1 = (SanitizeError dom e2).1) ∧
    (∀ e : GoError,
      dom.ErrNotFound ∈ e.chain ∨ dom.ErrAlreadyExists ∈ e.chain ∨
        dom.ErrInvalidInput ∈ e.chain →
      SanitizeError dom (some e) = (e.Error, [])) ∧
    (∀ err : Option GoError,
      SanitizeError dom err =
          ("An internal error occurred",
            [{ msg := "internal server error occurred", err := err }]) ↔
        GetHTTPStatus dom err = 500) ∧
    (∀ err : Option GoError,
      (SanitizeError dom err).1 = "An internal error occurred" ↔
        (GetHTTPStatus dom err = 500 ∨
          ∃ e, err = some e ∧ e.Error = "An internal error occurred")) ∧
    (¬ dom.notFoundText.data <:+: "An internal error occurred".data →
      ¬ dom.alreadyExistsText.data <:+: "An internal error occurred".data →
      ¬ dom.invalidInputText.data <:+: "An internal error occurred".data →
      ∀ e : GoError, e.formatted = true →
        ((SanitizeError dom (some e)).1 = "An internal error occurred" ↔
          GetHTTPStatus dom (some e) = 500)) ∧
    (∀ err : Option GoError,
      (NewHumaError dom err).1 =
        { Status := GetHTTPStatus dom err, Detail := (SanitizeError dom err).1 }) := by
  have hchain := status_chain_cases dom
  have hdomain : ∀ e : GoError,
      dom.ErrNotFound ∈ e.chain ∨ dom.ErrAlreadyExists ∈ e.chain ∨
        dom.ErrInvalidInput ∈ e.chain → GetHTTPStatus dom (some e) ≠ 500 := by
    intro e h
    by_cases h1 : dom.ErrNotFound ∈ e.chain
    · rw [(hchain e).1 h1]
      decide
    · by_cases h2 : dom.ErrAlreadyExists ∈ e.chain
      · rw [(hchain e).2.1 h1 h2]
        decide
      · have h3 : dom.ErrInvalidInput ∈ e.chain := by
          rcases h with h | h | h
          · exact absurd h h1
          · exact absurd h h2
          · exact h
        rw [(hchain e).2.2.1 h1 h2 h3]
        decide
  refine ⟨?_, ?_, ?_, ?_, ?_, ?_, fun _ => rfl⟩
  · intro e h1 h2 h3
    exact SanitizeError_internal dom (some e) ((hchain e).2.2.2 h1 h2 h3)
  · intro e1 e2 h1 h2
    rw [SanitizeError_internal dom e1 h1, SanitizeError_internal dom e2 h2]
  · intro e h
    exact SanitizeError_domain dom e (hdomain e h)
  · intro err
    constructor
    · intro h
      by_contra hne
      cases err with
      | none => exact hne (GetHTTPStatus_none dom)
      | some e =>
        rw [SanitizeError_domain dom e hne] at h
        simp at h
    · exact SanitizeError_internal dom err
  · intro err
    by_cases h : GetHTTPStatus dom err = 500
    · simp [SanitizeError_internal dom err h, h]
    · cases err with
      | none => exact absurd (GetHTTPStatus_none dom) h
      | some e => simp [SanitizeError_domain dom e h, h]
  · intro t1 t2 t3 e hf
    constructor
    · intro hmsg
      by_contra hne
      rw [SanitizeError_domain dom e hne] at hmsg
      have hin : dom.ErrNotFound ∈ e.chain ∨ dom.ErrAlreadyExists ∈ e.chain ∨
          dom.ErrInvalidInput ∈ e.chain := by
        by_contra hnone
        push_neg at hnone
        exact hne ((hchain e).2.2.2 hnone.1 hnone.2.1 hnone.2.2)
      simp only at hmsg
      rcases hin with h | h | h
      · have := GoError.text_holds_chain e _ hf h
        rw [hmsg] at this
        exact t1 this
      · have := GoError.text_holds_chain e _ hf h
        rw [hmsg] at this
        exact t2 this
      · have := GoError.text_holds_chain e _ hf h
        rw [hmsg] at this
        exact t3 this
    · intro h
      rw [SanitizeError_internal dom (some e) h]

/-- Witness for C27: two internal errors with different texts get the same message, a
validation error keeps its own, and an error made by `errors.New` with the text of
`ErrNotFound` is sanitized like any other internal error. -/
theorem internal_errors_are_sanitized_witness :
    GetHTTPStatus exampleDomain (some connectionRefused) = 500 ∧
      GetHTTPStatus exampleDomain (some constraintViolated) = 500 ∧
      connectionRefused.Error ≠ constraintViolated.Error ∧
      (SanitizeError exampleDomain (some connectionRefused)).1 =
        (SanitizeError exampleDomain (some constraintViolated)).1 ∧
      SanitizeError exampleDomain (some connectionRefused) =
        ("An internal error occurred",
          [{ msg := "internal server error occurred", err := some connectionRefused }]) ∧
      SanitizeError exampleDomain
          (some (exampleDomain.ErrInvalidInput.prefixed "email is required")) =
        ("invalid input: email is required", []) ∧
      SanitizeError exampleDomain (some notFoundLookAlike) =
        ("An internal error occurred",
          [{ msg := "internal server error occurred", err := some notFoundLookAlike }]) ∧
      ((SanitizeError exampleDomain
            (some (GoError.errorf "get user" exampleDomain.ErrNotFound))).1 =
          "An internal error occurred" ↔
        GetHTTPStatus exampleDomain
          (some (GoError.errorf "get user" exampleDomain.ErrNotFound)) = 500) :=
  ⟨by decide, by decide, by decide,
    (internal_errors_are_sanitized exampleDomain).2.1 (some connectionRefused)
      (some constraintViolated) (by decide) (by decide),
    (internal_errors_are_sanitized exampleDomain).1 connectionRefused
      (by decide) (by decide) (by decide),
    (internal_errors_are_sanitized exampleDomain).2.2.1
      (exampleDomain.ErrInvalidInput.prefixed "email is required")
      (Or.inr (Or.inr (by decide))),
    (internal_errors_are_sanitized exampleDomain).1 notFoundLookAlike
      (by decide) (by decide) (by decide),
    (internal_errors_are_sanitized exampleDomain).2.2.2.2.2.1 (by decide) (by decide)
      (by decide) (GoError.errorf "get user" exampleDomain.ErrNotFound) (by decide)⟩

end Sanitizing

/-! ## Theorems: pagination -/

section Pagination

variable {σ : Type}

theorem wrapInt_of_int (x : Int) (h1 : minInt ≤ x) (h2 : x ≤ maxInt) : wrapInt x = x := by
  unfold wrapInt minInt maxInt at *
  omega

theorem NormalizePagination_limit (page limit : Int) :
    (NormalizePagination page limit).2 =
      if limit < 1 then 10 else if 100 < limit then 100 else limit := by
  show (if (if limit < 1 then DefaultLimit else limit) > MaxLimit then MaxLimit
    else (if limit < 1 then DefaultLimit else limit)) = _
  unfold DefaultLimit MaxLimit
  split_ifs <;> omega

theorem NormalizePagination_limit_bounds (page limit : Int) :
    1 ≤ (NormalizePagination page limit).2 ∧ (NormalizePagination page limit).2 ≤ 100 := by
  rw [NormalizePagination_limit]
  split_ifs <;> omega

theorem NormalizePagination_offset (page limit : Int)
    (h : ((if 1 ≤ page then page else 1) - 1) * (NormalizePagination page limit).2 ≤ maxInt) :
    (NormalizePagination page limit).1 =
      ((if 1 ≤ page then page else 1) - 1) * (NormalizePagination page limit).2 := by
  obtain ⟨hl1, hl2⟩ := NormalizePagination_limit_bounds page limit
  have hp : (if page < 1 then DefaultPage else page) = if 1 ≤ page then page else 1 := by
    unfold DefaultPage
    split_ifs <;> first | rfl | omega
  have hp0 : 0 ≤ (if 1 ≤ page then page else 1) - 1 := by
    split_ifs <;> omega
  have hprod : 0 ≤ ((if 1 ≤ page then page else 1) - 1) * (NormalizePagination page limit).2 :=
    Int.mul_nonneg hp0 (by omega)
  have hle : (if 1 ≤ page then page else 1) - 1 ≤
      ((if 1 ≤ page then page else 1) - 1) * (NormalizePagination page limit).2 :=
    le_mul_of_one_le_right hp0 hl1
  have hmin : minInt ≤ 0 := by decide
  show wrapInt (wrapInt ((if page < 1 then DefaultPage else page) - 1) *
    (NormalizePagination page limit).2) = _
  rw [hp, wrapInt_of_int _ (le_trans hmin hp0) (le_trans hle h),
    wrapInt_of_int _ (le_trans hmin hprod) h]

theorem Service.listUsersFn_list_calls (env : ServiceEnv σ) (limit offset : Int)
    (txCtx : Context) (s : σ) (c : Context) (l o : Int) (out : Except GoError (List User))
    (h : ServiceEffect.List c l o out ∈ (Service.listUsersFn env limit offset txCtx s).2.1) :
    l = limit ∧ o = offset := by
  unfold Service.listUsersFn at h
  cases hu : (env.List txCtx limit offset s).1 with
  | error err =>
    simp [hu] at h
    exact ⟨h.2.1, h.2.2.1⟩
  | ok users =>
    simp only [hu] at h
    cases hc : (env.Count txCtx (env.List txCtx limit offset s).2).1 with
    | error err =>
      simp [hc] at h
      exact ⟨h.2.1, h.2.2.1⟩
    | ok count =>
      simp [hc] at h
      exact ⟨h.2.1, h.2.2.1⟩

theorem TransactionManager.WithTransaction_list_calls {α : Type} (env : ServiceEnv σ)
    (ctx : Context) (captured : α)
    (fn : Context → σ → (Option GoError × α) × List ServiceEffect × σ) (s : σ)
    (c : Context) (l o : Int) (out : Except GoError (List User))
    (h : ServiceEffect.List c l o out ∈
      (TransactionManager.WithTransaction env ctx captured fn s).2.1) :
    ServiceEffect.List c l o out ∈ (fn { ctx with hasTx := true } (env.BeginTx ctx s).2).2.1 := by
  unfold TransactionManager.WithTransaction at h
  cases hb : (env.BeginTx ctx s).1 with
  | some err => simp [hb] at h
  | none =>
    simp only [hb] at h
    cases hr : (fn { ctx with hasTx := true } (env.BeginTx ctx s).2).1.1 with
    | some err =>
      simp only [hr] at h
      cases hrb : (env.Rollback (fn { ctx with hasTx := true } (env.BeginTx ctx s).2).2.2).1 <;>
        simp [hrb] at h <;> exact h
    | none =>
      simp [hr] at h
      exact h

theorem Service.ListUsers_calls_list (env : ServiceEnv σ) (ctx : Context) (limit offset : Int)
    (s : σ) (hbegin : (env.BeginTx ctx s).1 = none) :
    ServiceEffect.List { ctx with hasTx := true } limit offset
        (env.List { ctx with hasTx := true } limit offset (env.BeginTx ctx s).2).1 ∈
      (Service.ListUsers env ctx limit offset s).2.1 := by
  have hfn : ServiceEffect.List { ctx with hasTx := true } limit offset
      (env.List { ctx with hasTx := true } limit offset (env.BeginTx ctx s).2).1 ∈
      (Service.listUsersFn env limit offset { ctx with hasTx := true }
        (env.BeginTx ctx s).2).2.1 := by
    unfold Service.listUsersFn
    cases hu : (env.List { ctx with hasTx := true } limit offset (env.BeginTx ctx s).2).1 with
    | error err => simp [hu]
    | ok users =>
      simp only [hu]
      cases hc : (env.Count { ctx with hasTx := true }
        (env.List { ctx with hasTx := true } limit offset (env.BeginTx ctx s).2).2).1 <;>
        simp [hc]
  unfold Service.ListUsers TransactionManager.WithTransaction
  simp only [hbegin]
  cases hr : (Service.listUsersFn env limit offset { ctx with hasTx := true }
      (env.BeginTx ctx s).2).1.1 with
  | some err =>
    simp only [hr]
    cases hrb : (env.Rollback (Service.listUsersFn env limit offset { ctx with hasTx := true }
        (env.BeginTx ctx s).2).2.2).1 <;>
      simp only [hrb] <;>
      exact List.mem_cons_of_mem _ (List.mem_append_left _ hfn)
  | none =>
    simp only [hr]
    exact List.mem_cons_of_mem _ (List.mem_append_left _ hfn)

theorem Controller.ListUsers_trace (dom : DomainErrors) (env : ServiceEnv σ)
    (layout : Time → String) (ctx : Context) (page limit : Int) (s : σ) :
    ∃ logs : List ErrorLog,
      (Controller.ListUsers dom env layout ctx page limit s).2.1 =
        (Service.ListUsers env ctx (NormalizePagination page limit).2
          (NormalizePagination page limit).1 s).2.1 ++
          logs.map (fun l => ServiceEffect.LogError l.msg l.err) := by
  unfold Controller.ListUsers
  cases he : (Service.ListUsers env ctx (NormalizePagination page limit).2
      (NormalizePagination page limit).1 s).1.2.2 with
  | some err => exact ⟨(NewHumaError dom (some err)).2, by simp [he]⟩
  | none =>
    simp only [he]
    cases CalculateTotalPages
        (Service.ListUsers env ctx (NormalizePagination page limit).2
          (NormalizePagination page limit).1 s).1.2.1 (NormalizePagination page limit).2 <;>
      exact ⟨[], by simp⟩

theorem CalculateTotalPages_returns (total limit : Int) (h : limit ≠ 0) :
    ∃ pages, CalculateTotalPages total limit = some pages := by
  unfold CalculateTotalPages
  split_ifs <;> exact ⟨_, rfl⟩

end Pagination

section PaginationClaims

variable {σ : Type}

/-- C29: `NormalizePagination`. The limit returned lies in [1, 100]: it is the input
when that lies in [1, 100], 10 when the input is below 1 and 100 when it is above
100. With `p` the page when that is at least 1 and 1 otherwise, where the exact
product `(p - 1) * limit` is within the range of `int`, the offset returned is that
product, so it is non-negative and a multiple of the limit returned. `Controller.ListUsers` hands the
limit and offset returned to the one `repo.List` call it makes, and answers with the
page it was given, not a normalized one, and the limit returned. -/
theorem normalized_pagination_is_in_range (dom : DomainErrors) (env : ServiceEnv σ)
    (layout : Time → String) (ctx : Context) (page limit : Int) (s : σ) :
    (1 ≤ (NormalizePagination page limit).2 ∧ (NormalizePagination page limit).2 ≤ 100) ∧
    (1 ≤ limit → limit ≤ 100 → (NormalizePagination page limit).2 = limit) ∧
    (limit < 1 → (NormalizePagination page limit).2 = 10) ∧
    (100 < limit → (NormalizePagination page limit).2 = 100) ∧
    (((if 1 ≤ page then page else 1) - 1) * (NormalizePagination page limit).2 ≤ maxInt →
      (NormalizePagination page limit).1 =
        ((if 1 ≤ page then page else 1) - 1) * (NormalizePagination page limit).2 ∧
      0 ≤ (NormalizePagination page limit).1 ∧
      (NormalizePagination page limit).2 ∣ (NormalizePagination page limit).1) ∧
    (∀ c l o out,
      ServiceEffect.List c l o out ∈ (Controller.ListUsers dom env layout ctx page limit s).2.1 →
      l = (NormalizePagination page limit).2 ∧ o = (NormalizePagination page limit).1) ∧
    ((env.BeginTx ctx s).1 = none →
      ServiceEffect.List { ctx with hasTx := true } (NormalizePagination page limit).2
          (NormalizePagination page limit).1
          (env.List { ctx with hasTx := true } (NormalizePagination page limit).2
            (NormalizePagination page limit).1 (env.BeginTx ctx s).2).1 ∈
        (Controller.ListUsers dom env layout ctx page limit s).2.1) ∧
    (∀ body, (Controller.ListUsers dom env layout ctx page limit s).1 = some (.ok body) →
      body.Pagination.Page = page ∧
      body.Pagination.Limit = (NormalizePagination page limit).2) := by
  have hb := NormalizePagination_limit_bounds page limit
  have hl := NormalizePagination_limit page limit
  refine ⟨hb, ?_, ?_, ?_, ?_, ?_, ?_, ?_⟩
  · intro h1 h2
    rw [hl]
    split_ifs <;> omega
  · intro h1
    rw [hl, if_pos h1]
  · intro h1
    rw [hl]
    split_ifs <;> omega
  · intro hexact
    have ho := NormalizePagination_offset page limit hexact
    refine ⟨ho, ?_, ?_⟩
    · rw [ho]
      exact Int.mul_nonneg (by split_ifs <;> omega) (by omega)
    · rw [ho]
      exact Dvd.intro_left _ rfl
  · intro c l o out h
    obtain ⟨logs, htr⟩ := Controller.ListUsers_trace dom env layout ctx page limit s
    rw [htr] at h
    rcases List.mem_append.mp h with h | h
    · exact Service.listUsersFn_list_calls env _ _ _ _ c l o out
        (TransactionManager.WithTransaction_list_calls env ctx _ _ s c l o out h)
    · simp at h
  · intro hbegin
    obtain ⟨logs, htr⟩ := Controller.ListUsers_trace dom env layout ctx page limit s
    rw [htr]
    apply List.mem_append_left
    exact Service.ListUsers_calls_list env ctx _ _ s hbegin
  · intro body h
    unfold Controller.ListUsers at h
    cases he : (Service.ListUsers env ctx (NormalizePagination page limit).2
        (NormalizePagination page limit).1 s).1.2.2 with
    | some err => simp [he] at h
    | none =>
      simp only [he] at h
      cases hc : CalculateTotalPages
          (Service.ListUsers env ctx (NormalizePagination page limit).2
            (NormalizePagination page limit).1 s).1.2.1 (NormalizePagination page limit).2 with
      | none => simp [hc] at h
      | some pages =>
        simp only [hc, Option.some.injEq, Except.ok.injEq] at h
        subst h
        exact ⟨rfl, rfl⟩

/-- Witness for C29: page 0 and limit 500 against the example repository. The call is
`List(100, 0)` and the answer reports page 0 with limit 100. -/
theorem normalized_pagination_is_in_range_witness :
    NormalizePagination 0 500 = (0, 100) ∧
      ((if (1 : Int) ≤ 0 then 0 else 1) - 1) * (NormalizePagination 0 500).2 ≤ maxInt ∧
      (Controller.ListUsers exampleDomain (exampleServiceEnv nothingFails) exampleLayout
          requestContext 0 500 0).1 =
        some (.ok
          { Data := [toUserResponse exampleLayout exampleUser]
            Pagination := { Page := 0, Limit := 100, Total := 1, TotalPages := 1 } }) ∧
      (NormalizePagination 0 500).2 ∣ (NormalizePagination 0 500).1 ∧
      (∀ body,
        (Controller.ListUsers exampleDomain (exampleServiceEnv nothingFails) exampleLayout
          requestContext 0 500 0).1 = some (.ok body) →
        body.Pagination.Page = 0 ∧ body.Pagination.Limit = (NormalizePagination 0 500).2) :=
  ⟨by decide, by decide, by decide,
    ((normalized_pagination_is_in_range exampleDomain (exampleServiceEnv nothingFails)
      exampleLayout requestContext 0 500 0).2.2.2.2.1 (by decide)).2.2,
    (normalized_pagination_is_in_range exampleDomain (exampleServiceEnv nothingFails)
      exampleLayout requestContext 0 500 0).2.2.2.2.2.2.2⟩

end PaginationClaims

section TotalPages

variable {σ : Type}

theorem CalculateTotalPages_eq (total limit : Int) (h0 : 0 < total) (hmax : total ≤ maxInt)
    (hl : 1 ≤ limit) :
    CalculateTotalPages total limit =
      some (if total % limit > 0 then total / limit + 1 else total / limit) := by
  have hdiv : total.tdiv limit = total / limit := Int.tdiv_eq_ediv (le_of_lt h0) (by omega)
  have hmod : total.tmod limit = total % limit := Int.tmod_eq_emod (le_of_lt h0) (by omega)
  have hq0 : 0 ≤ total / limit := Int.ediv_nonneg (le_of_lt h0) (by omega)
  have hr0 : 0 ≤ total % limit := Int.emod_nonneg _ (by omega)
  have hsplit : limit * (total / limit) + total % limit = total := Int.ediv_add_emod total limit
  have hqle : total / limit ≤ limit * (total / limit) := le_mul_of_one_le_left hq0 hl
  have hmin : minInt ≤ 0 := by decide
  have hw : wrapInt (total / limit) = total / limit :=
    wrapInt_of_int _ (le_trans hmin hq0) (by omega)
  unfold CalculateTotalPages
  rw [if_neg (by omega), if_neg (by omega)]
  simp only [hdiv, hmod, hw]
  split_ifs with hr
  · rw [wrapInt_of_int _ (by omega) (by omega)]
  · rfl

/-- C30: `CalculateTotalPages`. For a total of at least 0 and a limit of at least 1
it returns, without a division by zero, the least `p` with `p * limit ≥ total`, which
is the ceiling of `total / limit` and is 0 exactly when the total is 0. In
`Controller.ListUsers` the limit passed is the one `NormalizePagination` returns,
which is at least 1, so the call returns for every page, limit and total and the
handler does not end in a division by zero. -/
theorem total_pages_is_the_ceiling (total limit : Int) (h0 : 0 ≤ total)
    (hmax : total ≤ maxInt) (hl : 1 ≤ limit) :
    (∃ p, CalculateTotalPages total limit = some p ∧
      total ≤ p * limit ∧
      (∀ q : Int, total ≤ q * limit → p ≤ q) ∧
      p = Int.ceil ((total : ℚ) / (limit : ℚ)) ∧
      (p = 0 ↔ total = 0)) ∧
    (∀ page requested count : Int,
      ∃ pages, CalculateTotalPages count (NormalizePagination page requested).2 = some pages) ∧
    (∀ (dom : DomainErrors) (env : ServiceEnv σ) (layout : Time → String) (ctx : Context)
      (page requested : Int) (s : σ),
      (Controller.ListUsers dom env layout ctx page requested s).1 ≠ none) := by
  refine ⟨?_, ?_, ?_⟩
  · have hlpos : (0 : Int) < limit := by omega
    have hr0 : 0 ≤ total % limit := Int.emod_nonneg _ (by omega)
    have hrlt : total % limit < limit := Int.emod_lt_of_pos _ hlpos
    have hsplit : limit * (total / limit) + total % limit = total := Int.ediv_add_emod total limit
    have hq0 : 0 ≤ total / limit := Int.ediv_nonneg h0 (by omega)
    have key : ∃ p, CalculateTotalPages total limit = some p ∧ total ≤ p * limit ∧
        (∀ q : Int, total ≤ q * limit → p ≤ q) ∧ (p = 0 ↔ total = 0) := by
      rcases eq_or_lt_of_le h0 with hz | hpos
      · subst hz
        refine ⟨0, by simp [CalculateTotalPages], by simp, ?_, by simp⟩
        intro q hq
        by_contra hneg
        have : q * limit < 0 := Int.mul_neg_of_neg_of_pos (by omega) hlpos
        omega
      · rw [CalculateTotalPages_eq total limit hpos hmax hl]
        by_cases hr : total % limit > 0
        · rw [if_pos hr]
          refine ⟨_, rfl, ?_, ?_, ?_⟩
          · have : (total / limit + 1) * limit = limit * (total / limit) + limit := by ring
            omega
          · intro q hq
            by_contra hneg
            have hqle : q ≤ total / limit := by omega
            have : q * limit ≤ total / limit * limit :=
              Int.mul_le_mul_of_nonneg_right hqle (le_of_lt hlpos)
            have : total / limit * limit = limit * (total / limit) := by ring
            omega
          · constructor <;> intro h <;> omega
        · rw [if_neg hr]
          have hrz : total % limit = 0 := by omega
          refine ⟨_, rfl, ?_, ?_, ?_⟩
          · have : total / limit * limit = limit * (total / limit) := by ring
            omega
          · intro q hq
            by_contra hneg
            have hqle : q + 1 ≤ total / limit := by omega
            have h1 : (q + 1) * limit ≤ total / limit * limit :=
              Int.mul_le_mul_of_nonneg_right hqle (le_of_lt hlpos)
            have h2 : total / limit * limit = limit * (total / limit) := by ring
            have h3 : (q + 1) * limit = q * limit + limit := by ring
            omega
          · constructor
            · intro h
              rw [h] at hsplit
              omega
            · intro h
              omega
    obtain ⟨p, hp, hge, hleast, hzero⟩ := key
    refine ⟨p, hp, hge, hleast, ?_, hzero⟩
    symm
    rw [Int.ceil_eq_iff]
    have hlq : (0 : ℚ) < (limit : ℚ) := by exact_mod_cast hlpos
    constructor
    · rw [lt_div_iff₀ hlq]
      have hlt : (p - 1) * limit < total := by
        by_contra hneg
        have := hleast (p - 1) (by omega)
        omega
      exact_mod_cast hlt
    · rw [div_le_iff₀ hlq]
      exact_mod_cast hge
  · intro page requested count
    exact CalculateTotalPages_returns count _
      (by have := (NormalizePagination_limit_bounds page requested).1; omega)
  · intro dom env layout ctx page requested s
    unfold Controller.ListUsers
    cases he : (Service.ListUsers env ctx (NormalizePagination page requested).2
        (NormalizePagination page requested).1 s).1.2.2 with
    | some err => simp [he]
    | none =>
      simp only [he]
      obtain ⟨pages, hpages⟩ := CalculateTotalPages_returns
        (Service.ListUsers env ctx (NormalizePagination page requested).2
          (NormalizePagination page requested).1 s).1.2.1 (NormalizePagination page requested).2
        (by have := (NormalizePagination_limit_bounds page requested).1; omega)
      simp [hpages]

/-- Witness for C30: 101 users at 10 a page are 11 pages -/
theorem total_pages_is_the_ceiling_witness :
    (0 : Int) ≤ 101 ∧ (101 : Int) ≤ maxInt ∧ (1 : Int) ≤ 10 ∧
      CalculateTotalPages 101 10 = some 11 ∧
      ∃ p, CalculateTotalPages 101 10 = some p ∧
        101 ≤ p * 10 ∧
        (∀ q : Int, 101 ≤ q * 10 → p ≤ q) ∧
        p = Int.ceil (((101 : Int) : ℚ) / ((10 : Int) : ℚ)) ∧
        (p = 0 ↔ (101 : Int) = 0) :=
  ⟨by decide, by decide, by decide, by decide,
    (@total_pages_is_the_ceiling Nat 101 10 (by decide) (by decide) (by decide)).1⟩

end TotalPages
